import Mathlib

/-!
# LCS (LAN Channel Station) device emulation: frame buffer, channel Read and Write

A shallow embedding of `ctc_lcs.c` / `ctcadpt.h`.

* C memory reached through a pointer is a map from byte index to byte value (`Mem`);
  an index past the end of the C array stands for the memory behind it, which the C
  code reads and writes without a check.
* `U16`, `U32` and `size_t` arithmetic is carried out on `Nat` with an explicit
  reduction modulo `2^16`, `2^32` and `2^64` wherever the C expression can wrap.
* Locks are not modelled; every function body below runs under the lock the C
  code holds for it.  `signal_condition( &DevEvent )` is recorded in the counter
  `nDevEventSignals`.
-/

namespace LCS

/-! ## Machine integers and memory -/

/-- Number of values of a `U16`. -/
def U16_MOD : Nat := 65536

/-- Number of values of a `U32`. -/
def U32_MOD : Nat := 4294967296

/-- Number of values of a `size_t` (LP64). -/
def SIZE_T_MOD : Nat := 18446744073709551616

/-- Largest size of a C object (LP64). -/
def PTRDIFF_MAX : Nat := 9223372036854775807

/-- Memory behind a C pointer: the byte stored at each index. -/
abbrev Mem := Nat → Nat

/-- The bytes of a list, seen as memory (indices past the list read 0). -/
def memOfList (l : List Nat) : Mem := fun i => l.getD i 0

/-- The `n` bytes of `m` starting at index `p`. -/
def readBytes (m : Mem) (p n : Nat) : List Nat := (List.range n).map (fun i => m (p + i))

/-- C `memcpy( dst + d, src + s, n )`. -/
def memcpy (dst : Mem) (d : Nat) (src : Mem) (s n : Nat) : Mem :=
  fun i => if d ≤ i ∧ i < d + n then src (s + (i - d)) else dst i

/-- C `memset( dst + d, c, n )`. -/
def memset (dst : Mem) (d c n : Nat) : Mem :=
  fun i => if d ≤ i ∧ i < d + n then c else dst i

/-- Assignment of one byte, `dst[p] = v`. -/
def storeByte (dst : Mem) (p v : Nat) : Mem :=
  fun i => if i = p then v else dst i

/-- Hercules `STORE_HW( m + p, v )`: the `U16` value `v` stored big-endian. -/
def STORE_HW (m : Mem) (p v : Nat) : Mem :=
  fun i => if i = p then (v % U16_MOD) / 256 else if i = p + 1 then v % 256 else m i

/-- Hercules `FETCH_HW( v, m + p )`: the big-endian `U16` at `m + p`. -/
def FETCH_HW (m : Mem) (p : Nat) : Nat := (m p % 256) * 256 + m (p + 1) % 256

/-! ## Constants -/

/-- `SIZEOF_BAFFLE` (ctc_lcs.c). -/
def SIZEOF_BAFFLE : Nat := 8

/-- `sizeof( LCSHDR )`: `hwOffset`, `bType`, `bSlot`. -/
def sizeof_LCSHDR : Nat := 4

/-- `sizeof( LCSETHFRM )`: the `LCSHDR` followed by a flexible array. -/
def sizeof_LCSETHFRM : Nat := 4

/-- `sizeof( hwOffset )`, the size of the frame terminator. -/
def sizeof_hwOffset : Nat := 2

def LCS_FRMTYP_CMD : Nat := 0x00
def LCS_FRMTYP_ENET : Nat := 0x01
def LCS_FRMTYP_SNA : Nat := 0x04

def LCS_CMD_STRTLAN : Nat := 0x01
def LCS_CMD_STOPLAN : Nat := 0x02
def LCS_CMD_LANSTAT : Nat := 0x04
def LCS_CMD_STARTUP : Nat := 0x07
def LCS_CMD_SHUTDOWN : Nat := 0x08
def LCS_CMD_QIPASSIST : Nat := 0xB2
def LCS_CMD_SETIPM : Nat := 0xB4
def LCS_CMD_DELIPM : Nat := 0xB5
def LCS_CMD_STRTLAN_SNA : Nat := 0x41
def LCS_CMD_STOPLAN_SNA : Nat := 0x42
def LCS_CMD_LANSTAT_SNA : Nat := 0x44

def LCS_INITIATOR_TCPIP : Nat := 0x00
def LCS_INITIATOR_LGW : Nat := 0x01
def LCS_INITIATOR_SNA : Nat := 0x80

def LCSDEV_MODE_IP : Nat := 0x01
def LCSDEV_MODE_SNA : Nat := 0x02

def CTC_MIN_FRAME_BUFFER_SIZE : Nat := 0x4000
def CTC_DEF_FRAME_BUFFER_SIZE : Nat := 0x5000

/-- Modelled from the spec: the unit status bit *CE* (channel end).  The channel
framework header that declares `CSW_CE` is not part of the repository; the value
is the bit of the S/370 channel status word. -/
def CSW_CE : Nat := 0x08

/-- Modelled from the spec: the unit status bit *DE* (device end), declared by the
channel framework as `CSW_DE`. -/
def CSW_DE : Nat := 0x04

/-- Modelled from the spec: the unit status bit *UC* (unit check), declared by the
channel framework as `CSW_UC`. -/
def CSW_UC : Nat := 0x02

/-- Modelled from the spec: sense byte 0 value *command-reject* (`SENSE_CR`). -/
def SENSE_CR : Nat := 0x80

/-- Modelled from the spec: sense byte 0 value *intervention-required* (`SENSE_IR`). -/
def SENSE_IR : Nat := 0x40

/-- Modelled from the spec: sense byte 0 value *equipment-check* (`SENSE_EC`). -/
def SENSE_EC : Nat := 0x10

/-- Values the enqueue functions assign to `errno`. -/
inductive Errno where
  | ENOBUFS
  | EMSGSIZE
deriving DecidableEq

/-! ## The LCS device -/

/-- The fields of `struct _LCSDEV` used by the frame buffer and the channel
handlers.  `fPendingBaffle` is used by ctc_lcs.c as a one-bit flag of the device.
`nDevEventSignals` counts the calls of `signal_condition( &DevEvent )`. -/
structure LCSDEV where
  sAddr : Nat := 0
  bMode : Nat := LCSDEV_MODE_IP
  bPort : Nat := 0
  bType : Nat := 0
  lIPAddress : Nat := 0
  fDevCreated : Bool := false
  fDevStarted : Bool := false
  fRouteAdded : Bool := false
  fReplyPending : Bool := false
  fDataPending : Bool := false
  fReadWaiting : Bool := false
  fHaltOrClear : Bool := false
  fPendingBaffle : Bool := false
  iFrameOffset : Nat := 0
  iMaxFrameBufferSize : Nat := CTC_DEF_FRAME_BUFFER_SIZE
  bFrameBuffer : Mem := fun _ => 0
  nDevEventSignals : Nat := 0

/-- What an enqueue function hands back: the `int` it returns, the value it
assigned to `errno` (if any) and the device afterwards. -/
structure EnqResult where
  rc : Int
  errno : Option Errno
  dev : LCSDEV

/-- `LCS_DoEnqueueReplyFrame( pLCSDEV, pReply, iSize, bBafflePres )`. -/
def LCS_DoEnqueueReplyFrame (dev : LCSDEV) (pReply : Mem) (iSize : Nat)
    (bBafflePres : Bool) : EnqResult :=
  if (dev.iFrameOffset + iSize + sizeof_hwOffset) % SIZE_T_MOD > dev.iMaxFrameBufferSize then
    { rc := -1, errno := some Errno.ENOBUFS, dev := dev }
  else
    let dev1 : LCSDEV :=
      if dev.iFrameOffset = 0 ∧ bBafflePres = true then
        { dev with
            bFrameBuffer := memset dev.bFrameBuffer 0 0 SIZEOF_BAFFLE
            iFrameOffset := (dev.iFrameOffset + SIZEOF_BAFFLE) % U16_MOD
            fPendingBaffle := true }
      else dev
    let pReplyCmdFrame := dev1.iFrameOffset
    let buf2 := memcpy dev1.bFrameBuffer pReplyCmdFrame pReply 0 iSize
    let off2 := (dev1.iFrameOffset + iSize % U16_MOD) % U16_MOD
    let buf3 :=
      if dev1.fPendingBaffle = true then
        STORE_HW buf2 pReplyCmdFrame ((off2 + U16_MOD - SIZEOF_BAFFLE) % U16_MOD)
      else
        STORE_HW buf2 pReplyCmdFrame off2
    { rc := 0, errno := none,
      dev := { dev1 with
                bFrameBuffer := buf3
                iFrameOffset := off2
                fReplyPending := true
                nDevEventSignals := dev1.nDevEventSignals + 1 } }

/-- The macro `MAX_LCS_ETH_FRAME_SIZE( pLCSDEV )`, evaluated in `size_t`. -/
def MAX_LCS_ETH_FRAME_SIZE (dev : LCSDEV) : Nat :=
  (((dev.iMaxFrameBufferSize % SIZE_T_MOD + SIZE_T_MOD - sizeof_LCSETHFRM) % SIZE_T_MOD)
      + SIZE_T_MOD - sizeof_hwOffset) % SIZE_T_MOD

/-- `LCS_DoEnqueueEthFrame( pLCSDEV, bPort, pData, iSize )`. -/
def LCS_DoEnqueueEthFrame (dev : LCSDEV) (bPort : Nat) (pData : Mem) (iSize : Nat) :
    EnqResult :=
  if iSize > MAX_LCS_ETH_FRAME_SIZE dev ∨ iSize > 9000 then
    { rc := -1, errno := some Errno.EMSGSIZE, dev := dev }
  else if (dev.iFrameOffset + sizeof_LCSETHFRM + iSize + sizeof_hwOffset) % SIZE_T_MOD
      > dev.iMaxFrameBufferSize then
    { rc := -1, errno := some Errno.ENOBUFS, dev := dev }
  else
    let pLCSEthFrame := dev.iFrameOffset
    let off1 := (dev.iFrameOffset + (sizeof_LCSETHFRM + iSize) % U16_MOD) % U16_MOD
    let buf1 := STORE_HW dev.bFrameBuffer pLCSEthFrame off1
    let buf2 := storeByte buf1 (pLCSEthFrame + 2) LCS_FRMTYP_ENET
    let buf3 := storeByte buf2 (pLCSEthFrame + 3) bPort
    let buf4 := memcpy buf3 (pLCSEthFrame + sizeof_LCSETHFRM) pData 0 iSize
    { rc := 0, errno := none,
      dev := { dev with
                bFrameBuffer := buf4
                iFrameOffset := off1
                fDataPending := true
                nDevEventSignals := dev.nDevEventSignals + 1 } }

/-- `lcs_halt_or_clear( pDEVBLK )`. -/
def lcs_halt_or_clear (dev : LCSDEV) : LCSDEV :=
  if dev.fReadWaiting = true then
    { dev with fHaltOrClear := true, nDevEventSignals := dev.nDevEventSignals + 1 }
  else dev

/-- The caller's `*pUnitStat`, `*pResidual` and `*pMore`. -/
structure CCWStatus where
  unitStat : Nat := 0
  residual : Nat := 0
  more : Nat := 0
deriving DecidableEq

/-- What `LCS_Read` leaves behind: the device, the guest I/O buffer, the status
words, and the length handed to the final `memcpy` (0 when nothing is copied). -/
structure ReadResult where
  dev : LCSDEV
  pIOBuf : Mem
  status : CCWStatus
  copied : Nat

/-- The part of `LCS_Read` after its `for (;;)` loop: terminator, baffle length,
residual, copy to the guest, reset of the frame buffer. -/
def LCS_Read_drain (dev : LCSDEV) (sCount : Nat) (pIOBuf : Mem) (st : CCWStatus) :
    ReadResult :=
  let buf1 := STORE_HW dev.bFrameBuffer dev.iFrameOffset 0x0000
  let iLength := (dev.iFrameOffset + sizeof_hwOffset) % SIZE_T_MOD
  let buf2 :=
    if dev.fPendingBaffle = true then
      let hwBaffleLen := FETCH_HW buf1 0
      let hwBaffleLen :=
        (hwBaffleLen + ((iLength + SIZE_T_MOD - SIZEOF_BAFFLE) % SIZE_T_MOD) % U16_MOD) % U16_MOD
      STORE_HW buf1 0 hwBaffleLen
    else buf1
  let st1 : CCWStatus :=
    if sCount < iLength then { st with more := 1, residual := 0 }
    else { st with more := 0, residual := (st.residual + U32_MOD - iLength % U32_MOD) % U32_MOD }
  let iLength := if sCount < iLength then sCount else iLength
  let st2 : CCWStatus := { st1 with unitStat := CSW_CE ||| CSW_DE }
  { dev := { dev with
              bFrameBuffer := buf2
              iFrameOffset := 0
              fReplyPending := false
              fDataPending := false
              fPendingBaffle := false }
    pIOBuf := memcpy pIOBuf 0 buf2 0 iLength
    status := st2
    copied := iLength }

/-- `LCS_Read( pDEVBLK, sCount, pIOBuf, pUnitStat, pResidual, pMore )`.

`wakes` lists, for each `timed_wait_condition` the Read goes through, what the
other threads did to the device while the Read was blocked (with `fReadWaiting`
set).  `none` means the Read is still blocked when `wakes` is used up. -/
def LCS_Read : List (LCSDEV → LCSDEV) → LCSDEV → Nat → Mem → CCWStatus → Option ReadResult
  | wakes, dev, sCount, pIOBuf, st =>
    if dev.fDataPending = true ∨ dev.fReplyPending = true then
      some (LCS_Read_drain dev sCount pIOBuf st)
    else
      match wakes with
      | [] => none
      | act :: rest =>
        let woke := act { dev with fReadWaiting := true }
        let dev1 : LCSDEV := { woke with fReadWaiting := false }
        if dev1.fHaltOrClear = true then
          some { dev := { dev1 with fHaltOrClear := false }
                 pIOBuf := pIOBuf
                 status := { st with unitStat := 0, residual := sCount }
                 copied := 0 }
        else
          LCS_Read rest dev1 sCount pIOBuf st

/-! ## The channel Write handler -/

/-- The command handlers `LCS_Write` dispatches to, by the name of the C function. -/
inductive LCSHandler where
  | LCS_Startup
  | LCS_Shutdown
  | LCS_StartLan
  | LCS_StopLan
  | LCS_QueryIPAssists
  | LCS_LanStats
  | LCS_AddMulticast
  | LCS_DelMulticast
  | LCS_DefaultCmdProc
  | LCS_StartLan_SNA
  | LCS_StopLan_SNA
  | LCS_LanStats_SNA
  | LCS_DefaultCmd_SNA
  | LCS_Baffle_SNA
deriving DecidableEq

/-- Everything `LCS_Write` reaches outside its own body, over a state `W` that
holds the device, its port, the LCS block and the host side of the TAP.

* `bMode`, `MAC_Address`, `fDoCkSumOffload`: the fields `pLCSDEV->bMode`,
  `pLCSPORT->MAC_Address` and `pLCSPORT->fDoCkSumOffload`.
* `SAME_ADDR`: whether `OPTION_TUNTAP_LCS_SAME_ADDR` is defined.
* `EtherIpv4CkSumOffload buf p n`: the guest buffer after the checksum offload
  of the `n` bytes at `p`.
* `TUNTAP_Write w buf p n`: the state after writing the `n` bytes at `p` to the
  TAP, and the value the call returns.
* `handler h w buf p n b`: the state after the C function `h` has been called
  with `pCmdFrame = buf + p`, `iCmdLen = n` and, for the SNA handlers,
  `bBafflePres = b` (the IP handlers have no such parameter and get `false`;
  all handlers only read the command frame).
* `malloc_LCSATTN`: whether `malloc( sizeof( LCSATTN ) )` succeeds.
* `addAttn`: links a new `LCSATTN` for the device at the head of
  `pLCSBLK->pAttns` and signals `AttnEvent`. -/
structure LCSWriteEnv (W : Type) where
  bMode : W → Nat
  MAC_Address : W → Mem
  fDoCkSumOffload : W → Bool
  SAME_ADDR : Bool
  EtherIpv4CkSumOffload : Mem → Nat → Nat → Mem
  TUNTAP_Write : W → Mem → Nat → Nat → W × Int
  handler : LCSHandler → W → Mem → Nat → Nat → Bool → W
  malloc_LCSATTN : W → Bool
  addAttn : W → W

/-- The `switch (pCmdFrame->bCmdCode)` of the IP-mode branch of `LCS_Write`. -/
def ipHandler (bCmdCode : Nat) : LCSHandler :=
  if bCmdCode = LCS_CMD_STARTUP then LCSHandler.LCS_Startup
  else if bCmdCode = LCS_CMD_SHUTDOWN then LCSHandler.LCS_Shutdown
  else if bCmdCode = LCS_CMD_STRTLAN then LCSHandler.LCS_StartLan
  else if bCmdCode = LCS_CMD_STOPLAN then LCSHandler.LCS_StopLan
  else if bCmdCode = LCS_CMD_QIPASSIST then LCSHandler.LCS_QueryIPAssists
  else if bCmdCode = LCS_CMD_LANSTAT then LCSHandler.LCS_LanStats
  else if bCmdCode = LCS_CMD_SETIPM then LCSHandler.LCS_AddMulticast
  else if bCmdCode = LCS_CMD_DELIPM then LCSHandler.LCS_DelMulticast
  else LCSHandler.LCS_DefaultCmdProc

/-- The `switch (pCmdFrame->bCmdCode)` of the SNA-mode branch of `LCS_Write`. -/
def snaHandler (bCmdCode : Nat) : LCSHandler :=
  if bCmdCode = LCS_CMD_STRTLAN_SNA then LCSHandler.LCS_StartLan_SNA
  else if bCmdCode = LCS_CMD_STOPLAN_SNA then LCSHandler.LCS_StopLan_SNA
  else if bCmdCode = LCS_CMD_LANSTAT_SNA then LCSHandler.LCS_LanStats_SNA
  else LCSHandler.LCS_DefaultCmd_SNA

/-- The source MAC fix-up of an outbound Ethernet frame at `pEthFrame`: a zero
`bSrcMAC` is replaced by the port MAC, with the last octet incremented unless
`OPTION_TUNTAP_LCS_SAME_ADDR` is defined. -/
def fixSrcMAC {W : Type} (env : LCSWriteEnv W) (w : W) (buf : Mem) (pEthFrame : Nat) : Mem :=
  if readBytes buf (pEthFrame + 6) 6 = [0, 0, 0, 0, 0, 0] then
    let buf1 := memcpy buf (pEthFrame + 6) (env.MAC_Address w) 0 6
    if env.SAME_ADDR = true then buf1
    else storeByte buf1 (pEthFrame + 11) ((buf1 (pEthFrame + 11) + 1) % 256)
  else buf

/-- The `case LCS_FRMTYP_ENET` of `LCS_Write`; `ckSum` tells whether the branch
has the checksum offload step (IP mode has it, SNA mode does not).  The Boolean
is false when the TAP write fails and `LCS_Write` returns with unit check. -/
def LCS_Write_eth {W : Type} (env : LCSWriteEnv W) (ckSum : Bool) (w : W) (buf : Mem)
    (pLCSHDR iLength : Nat) : W × Mem × Bool :=
  let pEthFrame := pLCSHDR + sizeof_LCSETHFRM
  let iEthLen := (iLength + U16_MOD - sizeof_LCSETHFRM) % U16_MOD
  let buf1 := fixSrcMAC env w buf pEthFrame
  let buf2 :=
    if ckSum = true ∧ env.fDoCkSumOffload w = true then
      env.EtherIpv4CkSumOffload buf1 pEthFrame iEthLen
    else buf1
  let r := env.TUNTAP_Write w buf2 pEthFrame iEthLen
  if r.2 ≠ (iEthLen : Int) then (r.1, buf2, false) else (r.1, buf2, true)

/-- The `switch (pLCSHDR->bType)` of the IP-mode loop of `LCS_Write` for the
frame at `pLCSHDR` of length `iLength`.  The Boolean is false when `LCS_Write`
returns from inside the switch with equipment check. -/
def LCS_Write_frame_IP {W : Type} (env : LCSWriteEnv W) (w : W) (buf : Mem)
    (pLCSHDR iLength : Nat) : W × Mem × Bool :=
  let bType := buf (pLCSHDR + 2)
  if bType = LCS_FRMTYP_ENET then
    LCS_Write_eth env true w buf pLCSHDR iLength
  else if bType = LCS_FRMTYP_CMD then
    let bInitiator := buf (pLCSHDR + 5)
    let bCmdCode := buf (pLCSHDR + 4)
    if bInitiator = LCS_INITIATOR_LGW then (w, buf, true)
    else (env.handler (ipHandler bCmdCode) w buf pLCSHDR iLength false, buf, true)
  else (w, buf, false)

/-- The `switch (pLCSHDR->bType)` of the SNA-mode loop of `LCS_Write`. -/
def LCS_Write_frame_SNA {W : Type} (env : LCSWriteEnv W) (bBafflePres : Bool) (w : W)
    (buf : Mem) (pLCSHDR iLength : Nat) : W × Mem × Bool :=
  let bType := buf (pLCSHDR + 2)
  if bType = LCS_FRMTYP_ENET then
    LCS_Write_eth env false w buf pLCSHDR iLength
  else if bType = LCS_FRMTYP_SNA then
    (env.handler LCSHandler.LCS_Baffle_SNA w buf pLCSHDR iLength bBafflePres, buf, true)
  else if bType = LCS_FRMTYP_CMD then
    let bCmdCode := buf (pLCSHDR + 4)
    let w1 := env.handler (snaHandler bCmdCode) w buf pLCSHDR iLength bBafflePres
    if env.malloc_LCSATTN w1 = true then (env.addAttn w1, buf, true)
    else (w1, buf, true)
  else (w, buf, false)

/-- How a frame walk ended: the state and guest buffer, whether it ran to the
zero offset (`completed`) or was cut short by the frame switch, and the value of
`iPrevOffset` at that point. -/
structure WalkResult (S : Type) where
  state : S
  pIOBuf : Mem
  completed : Bool
  iPrevOffset : Nat

/-- The `while (1)` loop of `LCS_Write` over the batch that starts at byte
`pIOBufStart`, with the frame switch as `body`.  One unit of `fuel` is used per
iteration; `none` means the loop is still running when the fuel is used up. -/
def LCS_Write_walk {S : Type} (body : S → Mem → Nat → Nat → S × Mem × Bool)
    (pIOBufStart : Nat) : Nat → S → Mem → Nat → Option (WalkResult S)
  | 0, _, _, _ => none
  | fuel + 1, s, buf, iOffset =>
    let pLCSHDR := pIOBufStart + iOffset
    let iPrevOffset := iOffset
    let iOffset := FETCH_HW buf pLCSHDR
    if iOffset = 0 then
      some { state := s, pIOBuf := buf, completed := true, iPrevOffset := iPrevOffset }
    else
      let iLength := (iOffset + U16_MOD - iPrevOffset) % U16_MOD
      let r := body s buf pLCSHDR iLength
      if r.2.2 = true then LCS_Write_walk body pIOBufStart fuel r.1 r.2.1 iOffset
      else some { state := r.1, pIOBuf := r.2.1, completed := false, iPrevOffset := iPrevOffset }

/-- The baffle detection at the head of the SNA-mode branch of `LCS_Write`:
the value given to `bBafflePres` and the index of `pIOBufStart` in `pIOBuf`. -/
def LCS_Write_baffle (sCount : Nat) (pIOBuf : Mem) : Bool × Nat :=
  let hwBaffleLen := FETCH_HW pIOBuf 0
  let iLength := ((sCount + U32_MOD - SIZEOF_BAFFLE) % U32_MOD) % U16_MOD
  if hwBaffleLen = iLength ∧ pIOBuf 2 = 0x00 ∧ readBytes pIOBuf 2 5 = readBytes pIOBuf 3 5 then
    (true, SIZEOF_BAFFLE)
  else
    (false, 0)

/-- What `LCS_Write` leaves behind: the state, the guest buffer, sense byte 0 of
the device and the status words. -/
structure WriteResult (W : Type) where
  world : W
  pIOBuf : Mem
  sense0 : Nat
  status : CCWStatus

/-- The two ways `LCS_Write` returns: from the end of the function after the
walk ran to the zero offset, or from inside the frame switch. -/
def LCS_Write_finish {W : Type} (sense0 : Nat) (st : CCWStatus) (r : WalkResult W) :
    WriteResult W :=
  if r.completed = true then
    { world := r.state, pIOBuf := r.pIOBuf, sense0 := sense0,
      status := { st with residual := 0, unitStat := CSW_CE ||| CSW_DE } }
  else
    { world := r.state, pIOBuf := r.pIOBuf, sense0 := SENSE_EC,
      status := { st with unitStat := CSW_CE ||| CSW_DE ||| CSW_UC } }

/-- `LCS_Write( pDEVBLK, sCount, pIOBuf, pUnitStat, pResidual )`; `sense0` is
`pDEVBLK->sense[0]` on entry. -/
def LCS_Write {W : Type} (env : LCSWriteEnv W) (fuel : Nat) (w : W) (sCount : Nat)
    (pIOBuf : Mem) (sense0 : Nat) (st : CCWStatus) : Option (WriteResult W) :=
  if env.bMode w = LCSDEV_MODE_IP then
    (LCS_Write_walk (LCS_Write_frame_IP env) 0 fuel w pIOBuf 0).map (LCS_Write_finish sense0 st)
  else
    let b := LCS_Write_baffle sCount pIOBuf
    (LCS_Write_walk (LCS_Write_frame_SNA env b.1) b.2 fuel w pIOBuf 0).map
      (LCS_Write_finish sense0 st)

/-! ## Reading a batch back -/

/-- One LCS frame as the guest sees it: type, slot and the bytes after the
4-byte `LCSHDR`. -/
structure LCSFrame where
  bType : Nat
  bSlot : Nat
  bData : List Nat
deriving DecidableEq

/-- A frame switch that only notes down the frame at `pLCSHDR`. -/
def recordFrame (frames : List LCSFrame) (buf : Mem) (pLCSHDR iLength : Nat) :
    List LCSFrame × Mem × Bool :=
  (frames ++ [{ bType := buf (pLCSHDR + 2), bSlot := buf (pLCSHDR + 3),
                bData := readBytes buf (pLCSHDR + sizeof_LCSHDR)
                  ((iLength + U16_MOD - sizeof_LCSHDR) % U16_MOD) }], buf, true)

/-- The frames of a batch, found by the walk of `LCS_Write` from byte 0. -/
def decodeBatch (fuel : Nat) (buf : Mem) : Option (WalkResult (List LCSFrame)) :=
  LCS_Write_walk recordFrame 0 fuel [] buf 0

/-- A run of `LCS_DoEnqueueEthFrame` calls, one per payload, each of which
returns 0; `none` when one of the calls fails. -/
def enqueueEthFrames (bPort : Nat) : LCSDEV → List (List Nat) → Option LCSDEV
  | dev, [] => some dev
  | dev, p :: ps =>
    let r := LCS_DoEnqueueEthFrame dev bPort (memOfList p) p.length
    if r.rc = 0 then enqueueEthFrames bPort r.dev ps else none

/-- Where `LCS_DoEnqueueReplyFrame` puts the reply: at byte 8 when it reserves
the baffle (empty ring and `bBafflePres`), else at `iFrameOffset`. -/
def replyFrameStart (dev : LCSDEV) (bBafflePres : Bool) : Nat :=
  if dev.iFrameOffset = 0 ∧ bBafflePres = true then SIZEOF_BAFFLE else dev.iFrameOffset

/-- An example reply frame: a 24-byte Startup reply (command code 0x07). -/
def exReply : Mem := memOfList [0, 0, 0, 0, 7, 0, 0, 0, 0, 0, 1, 0, 0x50, 0, 0, 0, 0, 0, 0, 0, 0, 0, 0, 0]

/-- An example device: an empty ring of 0x5000 bytes, nothing pending. -/
def exDev : LCSDEV := {}

/-- An example device with a 24-byte reply pending in the ring. -/
def exDevPending : LCSDEV := { iFrameOffset := 24, fReplyPending := true }

/-- The ring bytes from `off` up to `stop` hold, one after the other, the
Ethernet passthru frames of the payloads `ps` for port `bPort`: each frame has
the offset of the next one in its first two bytes, type 0x01, slot `bPort`, and
the payload after the 4-byte header. -/
def EthFramesAt (b : Mem) (bPort : Nat) : Nat → List (List Nat) → Nat → Prop
  | off, [], stop => off = stop
  | off, p :: ps, stop =>
    FETCH_HW b off = off + 4 + p.length ∧ off + 4 + p.length < U16_MOD ∧
    b (off + 2) = LCS_FRMTYP_ENET ∧ b (off + 3) = bPort ∧
    readBytes b (off + 4) p.length = p ∧
    EthFramesAt b bPort (off + 4 + p.length) ps stop

/-- The frame a payload is read back as. -/
def ethFrame (bPort : Nat) (p : List Nat) : LCSFrame :=
  { bType := LCS_FRMTYP_ENET, bSlot := bPort, bData := p }

/-- The frame switch `LCS_Write` runs for the mode of the device: the IP-mode
switch, or the SNA-mode switch with the `bBafflePres` found at the head of the
input. -/
def LCS_Write_body {W : Type} (env : LCSWriteEnv W) (w : W) (sCount : Nat) (pIOBuf : Mem) :
    W → Mem → Nat → Nat → W × Mem × Bool :=
  if env.bMode w = LCSDEV_MODE_IP then LCS_Write_frame_IP env
  else LCS_Write_frame_SNA env (LCS_Write_baffle sCount pIOBuf).1

/-- The index of the first frame of the batch in `pIOBuf`: 0 in IP mode,
`pIOBufStart` in SNA mode. -/
def LCS_Write_start {W : Type} (env : LCSWriteEnv W) (w : W) (sCount : Nat) (pIOBuf : Mem) :
    Nat :=
  if env.bMode w = LCSDEV_MODE_IP then 0 else (LCS_Write_baffle sCount pIOBuf).2

/-- The state of the `while (1)` loop of `LCS_Write` at the top of the iteration
reached after `k` frames have gone through the frame switch: the state, the
guest buffer and `iOffset`.  `none` when the loop has ended before. -/
def LCS_Write_after {S : Type} (body : S → Mem → Nat → Nat → S × Mem × Bool)
    (pIOBufStart : Nat) : Nat → S → Mem → Nat → Option (S × Mem × Nat)
  | 0, s, buf, iOffset => some (s, buf, iOffset)
  | k + 1, s, buf, iOffset =>
    let pLCSHDR := pIOBufStart + iOffset
    let iPrevOffset := iOffset
    let iOffset := FETCH_HW buf pLCSHDR
    if iOffset = 0 then none
    else
      let iLength := (iOffset + U16_MOD - iPrevOffset) % U16_MOD
      let r := body s buf pLCSHDR iLength
      if r.2.2 = true then LCS_Write_after body pIOBufStart k r.1 r.2.1 iOffset
      else none

/-- The two reasons for which the frame switch of `LCS_Write` gives up on the
frame at `pLCSHDR`: its type is not one the mode supports (IP: 0x00, 0x01; SNA:
0x00, 0x01, 0x04), or it is an Ethernet frame and the TAP write does not return
the frame length. -/
def frameRejected {W : Type} (env : LCSWriteEnv W) (ip : Bool) (w : W) (buf : Mem)
    (pLCSHDR iLength : Nat) : Prop :=
  (buf (pLCSHDR + 2) ≠ LCS_FRMTYP_CMD ∧ buf (pLCSHDR + 2) ≠ LCS_FRMTYP_ENET ∧
    (ip = true ∨ buf (pLCSHDR + 2) ≠ LCS_FRMTYP_SNA)) ∨
  (buf (pLCSHDR + 2) = LCS_FRMTYP_ENET ∧
    (env.TUNTAP_Write w
        (if ip = true ∧ env.fDoCkSumOffload w = true then
          env.EtherIpv4CkSumOffload (fixSrcMAC env w buf (pLCSHDR + sizeof_LCSETHFRM))
            (pLCSHDR + sizeof_LCSETHFRM) ((iLength + U16_MOD - sizeof_LCSETHFRM) % U16_MOD)
         else fixSrcMAC env w buf (pLCSHDR + sizeof_LCSETHFRM))
        (pLCSHDR + sizeof_LCSETHFRM) ((iLength + U16_MOD - sizeof_LCSETHFRM) % U16_MOD)).2
      ≠ (((iLength + U16_MOD - sizeof_LCSETHFRM) % U16_MOD : Nat) : Int))

/-- An environment for `LCS_Write` that only lists the handler calls: for each
call the handler, the index of the command frame and `iCmdLen`.  The device is
in IP mode and every TAP write succeeds. -/
def traceEnv : LCSWriteEnv (List (LCSHandler × Nat × Nat)) where
  bMode := fun _ => LCSDEV_MODE_IP
  MAC_Address := fun _ _ => 0
  fDoCkSumOffload := fun _ => false
  SAME_ADDR := false
  EtherIpv4CkSumOffload := fun buf _ _ => buf
  TUNTAP_Write := fun w _ _ n => (w, (n : Int))
  handler := fun h w _ p n _ => w ++ [(h, p, n)]
  malloc_LCSATTN := fun _ => true
  addAttn := fun w => w

/-- A 16-byte IP-mode Write: a command frame at byte 0 with offset field 8, and
a command frame at byte 8 whose offset field, 4, is smaller than its own start;
bytes 4..5, where the walk then lands, are zero. -/
def exBackwardBatch : Mem :=
  memOfList [0x00, 0x08, 0x00, 0x00, 0x00, 0x00, 0x00, 0x00,
             0x00, 0x04, 0x00, 0x00, 0x00, 0x00, 0x00, 0x00]

/-- An 8-byte IP-mode Write: one command frame whose offset field, 0x20, points
past the 8 input bytes (the channel buffer behind them holds zeros). -/
def exOverlongBatch : Mem :=
  memOfList [0x00, 0x20, 0x00, 0x00, 0x00, 0x00, 0x00, 0x00]

/-- An 8-byte IP-mode Write whose only frame has the unsupported type 0x02. -/
def exBadTypeBatch : Mem :=
  memOfList [0x00, 0x08, 0x02, 0x00, 0x00, 0x00, 0x00, 0x00, 0x00, 0x00]

/-- Two example Ethernet payloads. -/
def exPayloads : List (List Nat) := [[1, 2, 3], [4, 5]]

/-- The example device after the two example payloads have been enqueued for port 0. -/
def exDevTwoFrames : LCSDEV :=
  (LCS_DoEnqueueEthFrame (LCS_DoEnqueueEthFrame exDev 0 (memOfList [1, 2, 3]) 3).dev 0
    (memOfList [4, 5]) 2).dev

/-- The 30-byte SNA-mode Write of scenario S4: an 8-byte baffle whose length
field is 0x0016 = 30 - 8, followed by a Start LAN SNA command frame. -/
def exBaffleBatch : Mem :=
  memOfList [0x00, 0x16, 0x00, 0x00, 0x00, 0x00, 0x00, 0x00,
             0x00, 0x16, 0x00, 0x00, 0x41, 0x80, 0x00, 0x00, 0x00, 0x00, 0x01, 0x00,
             0x00, 0x00, 0x00, 0x00, 0x00, 0x00, 0x00, 0x00, 0x00, 0x00]

/-! ## Command frames and their replies -/

/-- `sizeof( LCSCMDHDR )`: header, command code, initiator, sequence number,
return code, LAN type, relative adapter number. -/
def sizeof_LCSCMDHDR : Nat := 12

/-- `sizeof( LCSSTDFRM )`. -/
def sizeof_LCSSTDFRM : Nat := 20

/-- `sizeof( LCSSTRTFRM )`. -/
def sizeof_LCSSTRTFRM : Nat := 24

/-- `sizeof( LCSQIPFRM )`. -/
def sizeof_LCSQIPFRM : Nat := 20

/-- `sizeof( LCSLSTFRM )`. -/
def sizeof_LCSLSTFRM : Nat := 64

/-- `sizeof( LCSLSSFRM )`. -/
def sizeof_LCSLSSFRM : Nat := 26

/-- `sizeof( LCSIPMPAIR )`. -/
def sizeof_LCSIPMPAIR : Nat := 12

/-- `MAX_IP_MAC_PAIRS`. -/
def MAX_IP_MAC_PAIRS : Nat := 32

/-- `sizeof( LCSIPMFRM )`. -/
def sizeof_LCSIPMFRM : Nat := 408

/-- `sizeof( pLCSDEV->bFrameBuffer )`. -/
def sizeof_bFrameBuffer : Nat := CTC_DEF_FRAME_BUFFER_SIZE

/-- The macro `INIT_REPLY_FRAME( pReply, iReplyLen, pCmdFrame, iCmdLen )` for the
command frame at index `pCmdFrame` of `buf`: the reply memory afterwards and the
value the macro leaves in `iReplyLen`.  `pReply` is the reply buffer as the
macro finds it. -/
def INIT_REPLY_FRAME (pReply : Mem) (iReplyLen : Nat) (buf : Mem) (pCmdFrame iCmdLen : Nat) :
    Mem × Nat :=
  let r : Mem × Nat :=
    if iCmdLen ≥ iReplyLen then
      (memcpy pReply 0 buf pCmdFrame iReplyLen, iReplyLen)
    else
      (memcpy (memset pReply 0 0 iReplyLen) 0 buf pCmdFrame iCmdLen, iCmdLen)
  (STORE_HW (STORE_HW r.1 0 0x0000) 8 0x0000, r.2)

/-! ## The port, the host and the LCS block -/

/-- The conditional-compilation symbols the command handlers test. -/
structure BuildOptions where
  OPTION_TUNTAP_LCS_SAME_ADDR : Bool
  OPTION_TUNTAP_SETMACADDR : Bool
  OPTION_TUNTAP_DELADD_ROUTES : Bool
  TUNTAP_IFF_RUNNING_NEEDED : Bool
  SIOCGIFHWADDR : Bool

/-- A call into the host network layer.  Interface names and the MAC address
text are left out; a route is named by its address and mask operands. -/
inductive HostCall where
  | TUNTAP_SetIPAddr (addr : Nat)
  | TUNTAP_SetMTU (mtu : Nat)
  | TUNTAP_SetMACAddr
  | TUNTAP_SetFlags (iffUp iffBroadcast iffRunning : Bool)
  | TUNTAP_AddRoute (pszNetAddr pszNetMask : Nat) (rtfHost : Bool)
  | TUNTAP_DelRoute (pszNetAddr pszNetMask : Nat) (rtfHost : Bool)
  | socket
  | close
  | TUNTAP_IOCtl_SIOCGIFHWADDR
  | TUNTAP_IOCtl_SIOCADDMULTI (mac : List Nat)
  | TUNTAP_IOCtl_SIOCDELMULTI (mac : List Nat)
  | TUNTAP_Write (data : List Nat)
deriving DecidableEq

/-- The fields of `LCSPORT` the code below reads or writes.  `signal_condition(
&PortEvent )` is recorded in `nPortEventSignals`. -/
structure LCSPORT where
  bPort : Nat := 0
  nMCastCount : Nat := 0
  MAC_Address : Mem := fun _ => 0
  MCastTab : Mem := fun _ => 0
  sIPAssistsSupported : Nat := 0
  sIPAssistsEnabled : Nat := 0
  pRoutes : List (Nat × Nat) := []
  fUsed : Bool := false
  fLocalMAC : Bool := false
  fPortCreated : Bool := false
  fPortStarted : Bool := false
  fRouteAdded : Bool := false
  fCloseInProgress : Bool := false
  fPreconfigured : Bool := false
  fDoCkSumOffload : Bool := false
  fDoMCastAssist : Bool := false
  fd : Int := -1
  nPortEventSignals : Nat := 0

/-- What the code calls but does not define: helpers of other modules, host
calls whose result it uses, constants of other headers, and the content of
memory it never initialised.

* `stack`: the bytes a handler finds in its local `Reply` before it writes to it.
* `MACTABMAX`: `_countof( pLCSPORT->MCastTab )`.
* `MACTabAdd tab mac flags`, `MACTabRem tab mac`: the table afterwards and the
  return code; `IsMACTab tab mac`: the return value (negative: not in the table).
* `socket log`: the descriptor, or -1 and `errno`; `log` is the list of host
  calls made so far.
* `TUNTAP_IOCtl_SIOCGIFHWADDR log`: return code, `errno`, `ifr_hwaddr.sa_data`.
* `TUNTAP_IOCtl_MULTI add log mac`: return code and `errno` of the
  `SIOCADDMULTI` (`add`) or `SIOCDELMULTI` request.
* `TUNTAP_Write log data`: the return value.
* `EtherIpv4CkSumOffload buf p n`: the buffer afterwards.
* `malloc_LCSATTN log`: whether `malloc( sizeof( LCSATTN ) )` succeeds.
* `IS_CCW_SENSE`, `IS_CCW_CONTROL`: the macros of that name.
* `sizeof_sense`: `sizeof( pDEVBLK->sense )`. -/
structure Externals where
  stack : Mem
  MACTABMAX : Nat
  MACTabAdd : Mem → List Nat → Nat → Mem × Int
  MACTabRem : Mem → List Nat → Mem × Int
  IsMACTab : Mem → List Nat → Int
  socket : List HostCall → Int × Int
  TUNTAP_IOCtl_SIOCGIFHWADDR : List HostCall → Int × Int × Mem
  TUNTAP_IOCtl_MULTI : Bool → List HostCall → List Nat → Int × Int
  TUNTAP_Write : List HostCall → List Nat → Int
  EtherIpv4CkSumOffload : Mem → Nat → Nat → Mem
  malloc_LCSATTN : List HostCall → Bool
  IS_CCW_SENSE : Nat → Bool
  IS_CCW_CONTROL : Nat → Bool
  sizeof_sense : Nat

/-- One LCS device together with what its command handlers reach: its port
`Port[ pLCSDEV->bPort ]`, its `pszIPAddress` (`none` for `NULL`), the attention
chain `pLCSBLK->pAttns` (head first, each block naming its device by `sAddr`),
the number of `signal_condition( &AttnEvent )` calls, and the host calls made
so far, oldest first. -/
structure LCSWorld where
  dev : LCSDEV := {}
  port : LCSPORT := {}
  pszIPAddress : Option Nat := none
  pAttns : List Nat := []
  nAttnEventSignals : Nat := 0
  hostCalls : List HostCall := []

/-- `LCS_EnqueueReplyFrame( pLCSDEV, pReply, iSize, bBafflePres )`.  The C
function retries `LCS_DoEnqueueReplyFrame` for as long as the port is open and
the frame buffer is full; only another thread (a Read that drains the buffer,
or a close of the port) ends that loop, so on a full buffer the result is
`none`: the call has not returned. -/
def LCS_EnqueueReplyFrame (w : LCSWorld) (pReply : Mem) (iSize : Nat) (bBafflePres : Bool) :
    Option LCSWorld :=
  if w.port.fd ≠ -1 ∧ w.port.fCloseInProgress = false then
    let r := LCS_DoEnqueueReplyFrame w.dev pReply iSize bBafflePres
    if r.rc < 0 then none else some { w with dev := r.dev }
  else some w

/-- `UpdatePortStarted( bStarted, pDEVBLK, pLCSPORT )`. -/
def UpdatePortStarted (bStarted : Bool) (w : LCSWorld) : LCSWorld :=
  { w with port := { w.port with fPortStarted := bStarted
                                 nPortEventSignals := w.port.nPortEventSignals + 1 } }

/-! ## The command handlers -/

/-- `IFHWADDRLEN`, the length of a MAC address. -/
def IFHWADDRLEN : Nat := 6

/-- Hercules `STORE_FW( m + p, v )`: the `U32` value `v` stored big-endian. -/
def STORE_FW (m : Mem) (p v : Nat) : Mem :=
  fun i =>
    if i = p then (v % U32_MOD) / 16777216
    else if i = p + 1 then (v / 65536) % 256
    else if i = p + 2 then (v / 256) % 256
    else if i = p + 3 then v % 256
    else m i

/-- `LCS_Startup( pLCSDEV, pCmdFrame, iCmdLen )` for the command frame at index
`pCmdFrame` of `buf`. -/
def LCS_Startup (opt : BuildOptions) (ext : Externals) (w : LCSWorld) (buf : Mem)
    (pCmdFrame iCmdLen : Nat) : Option LCSWorld :=
  let r := INIT_REPLY_FRAME ext.stack sizeof_LCSSTRTFRM buf pCmdFrame iCmdLen
  let reply := storeByte (storeByte r.1 10 LCS_FRMTYP_ENET) 11 w.dev.bPort
  let iOrigMaxFrameBufferSize := w.dev.iMaxFrameBufferSize
  let iOrigMaxFrameBufferSize :=
    if iOrigMaxFrameBufferSize = 0 then sizeof_bFrameBuffer % U16_MOD
    else iOrigMaxFrameBufferSize
  let iMax := FETCH_HW buf (pCmdFrame + 12)
  let iMax :=
    if iMax > sizeof_bFrameBuffer then iOrigMaxFrameBufferSize
    else if iMax < CTC_MIN_FRAME_BUFFER_SIZE then iOrigMaxFrameBufferSize
    else iMax
  let calls :=
    if w.port.fPreconfigured = false then
      [HostCall.TUNTAP_SetIPAddr 0, HostCall.TUNTAP_SetMTU 1500] ++
        (if opt.OPTION_TUNTAP_SETMACADDR = true ∧ w.port.fLocalMAC = true then
          [HostCall.TUNTAP_SetMACAddr] else [])
    else []
  let w2 : LCSWorld :=
    { w with dev := { w.dev with iMaxFrameBufferSize := iMax }
             hostCalls := w.hostCalls ++ calls }
  (LCS_EnqueueReplyFrame w2 reply r.2 false).map
    (fun w3 => { w3 with dev := { w3.dev with fDevStarted := true } })

/-- `LCS_Shutdown( pLCSDEV, pCmdFrame, iCmdLen )`. -/
def LCS_Shutdown (ext : Externals) (w : LCSWorld) (buf : Mem) (pCmdFrame iCmdLen : Nat) :
    Option LCSWorld :=
  let r := INIT_REPLY_FRAME ext.stack sizeof_LCSSTDFRM buf pCmdFrame iCmdLen
  let reply := storeByte (storeByte r.1 10 LCS_FRMTYP_ENET) 11 w.dev.bPort
  (LCS_EnqueueReplyFrame w reply r.2 false).map
    (fun w1 => { w1 with dev := { w1.dev with fDevStarted := false } })

/-- The test `fUsed && fPortCreated && !fPortStarted` of the Start LAN handlers;
its value is what they leave in `fStartPending`. -/
def fStartPending (w : LCSWorld) : Bool :=
  w.port.fUsed && w.port.fPortCreated && !w.port.fPortStarted

/-- `LCS_StartLan` up to and including `ENQUEUE_REPLY_FRAME`: the host calls
that configure and enable the interface, then the reply in the frame buffer. -/
def LCS_StartLan_reply (opt : BuildOptions) (ext : Externals) (w : LCSWorld) (buf : Mem)
    (pCmdFrame iCmdLen : Nat) : Option LCSWorld :=
  let r := INIT_REPLY_FRAME ext.stack sizeof_LCSSTRTFRM buf pCmdFrame iCmdLen
  let calls1 :=
    if fStartPending w = true then
      (if w.port.fPreconfigured = false then
        [HostCall.TUNTAP_SetFlags true true opt.TUNTAP_IFF_RUNNING_NEEDED] else []) ++
      (if opt.OPTION_TUNTAP_DELADD_ROUTES = true ∧ w.port.fPreconfigured = false then
        w.port.pRoutes.map (fun rt => HostCall.TUNTAP_AddRoute rt.1 rt.2 false) else [])
    else []
  let calls2 :=
    if opt.OPTION_TUNTAP_DELADD_ROUTES = true ∧ w.port.fPreconfigured = false then
      match w.pszIPAddress with
      | some a => [HostCall.TUNTAP_AddRoute a 0xFFFFFFFF true]
      | none => []
    else []
  let w2 : LCSWorld := { w with hostCalls := w.hostCalls ++ (calls1 ++ calls2) }
  LCS_EnqueueReplyFrame w2 r.1 r.2 false

/-- `LCS_StartLan( pLCSDEV, pCmdFrame, iCmdLen )`: the part above, then
`if (fStartPending) UpdatePortStarted( TRUE, ... )`. -/
def LCS_StartLan (opt : BuildOptions) (ext : Externals) (w : LCSWorld) (buf : Mem)
    (pCmdFrame iCmdLen : Nat) : Option LCSWorld :=
  (LCS_StartLan_reply opt ext w buf pCmdFrame iCmdLen).map
    (fun w1 => if fStartPending w = true then UpdatePortStarted true w1 else w1)

/-- `LCS_StopLan( pLCSDEV, pCmdFrame, iCmdLen )`. -/
def LCS_StopLan (opt : BuildOptions) (ext : Externals) (w : LCSWorld) (buf : Mem)
    (pCmdFrame iCmdLen : Nat) : Option LCSWorld :=
  let r := INIT_REPLY_FRAME ext.stack sizeof_LCSSTDFRM buf pCmdFrame iCmdLen
  let calls :=
    if w.port.fPreconfigured = false then
      [HostCall.TUNTAP_SetFlags false false false] ++
        (if opt.OPTION_TUNTAP_DELADD_ROUTES = true then
          (match w.pszIPAddress with
            | some a => [HostCall.TUNTAP_DelRoute a 0xFFFFFFFF true]
            | none => []) ++
          w.port.pRoutes.map (fun rt => HostCall.TUNTAP_DelRoute rt.1 rt.2 false)
         else [])
    else []
  let w1 : LCSWorld := { w with hostCalls := w.hostCalls ++ calls }
  LCS_EnqueueReplyFrame (UpdatePortStarted false w1) r.1 r.2 false

/-- `LCS_QueryIPAssists( pLCSDEV, pCmdFrame, iCmdLen )`. -/
def LCS_QueryIPAssists (ext : Externals) (w : LCSWorld) (buf : Mem)
    (pCmdFrame iCmdLen : Nat) : Option LCSWorld :=
  let r := INIT_REPLY_FRAME ext.stack sizeof_LCSQIPFRM buf pCmdFrame iCmdLen
  let reply := STORE_HW r.1 12 ext.MACTABMAX
  let reply := STORE_HW reply 14 w.port.sIPAssistsSupported
  let reply := STORE_HW reply 16 w.port.sIPAssistsEnabled
  let reply := STORE_HW reply 18 0x0004
  LCS_EnqueueReplyFrame w reply r.2 false

/-- The head of `LCS_LanStats` and `LCS_LanStats_SNA`: the host is asked for the
hardware address of the interface, which becomes the port MAC if it differs.
The result is the state afterwards, the six bytes `pIFaceMAC` points to, and
`rc`. -/
def LCS_LanStats_getMAC (opt : BuildOptions) (ext : Externals) (w : LCSWorld) :
    LCSWorld × Mem × Int :=
  let q : List HostCall × Mem × Int × Bool :=
    if opt.SIOCGIFHWADDR = true then
      let s := ext.socket w.hostCalls
      if s.1 = -1 then ([HostCall.socket], w.port.MAC_Address, s.2, false)
      else
        let io := ext.TUNTAP_IOCtl_SIOCGIFHWADDR (w.hostCalls ++ [HostCall.socket])
        let calls := [HostCall.socket, HostCall.TUNTAP_IOCtl_SIOCGIFHWADDR, HostCall.close]
        if io.1 ≠ 0 then (calls, w.port.MAC_Address, io.2.1, false)
        else (calls, io.2.2, 0, true)
    else ([], w.port.MAC_Address, 0, true)
  let mac : Mem :=
    if q.2.2.2 = true ∧
        readBytes w.port.MAC_Address 0 IFHWADDRLEN ≠ readBytes q.2.1 0 IFHWADDRLEN then
      memcpy w.port.MAC_Address 0 q.2.1 0 IFHWADDRLEN
    else w.port.MAC_Address
  ({ w with port := { w.port with MAC_Address := mac }
            hostCalls := w.hostCalls ++ q.1 }, q.2.1, q.2.2.1)

/-- `LCS_LanStats( pLCSDEV, pCmdFrame, iCmdLen )`. -/
def LCS_LanStats (opt : BuildOptions) (ext : Externals) (w : LCSWorld) (buf : Mem)
    (pCmdFrame iCmdLen : Nat) : Option LCSWorld :=
  let q := LCS_LanStats_getMAC opt ext w
  let r := INIT_REPLY_FRAME ext.stack sizeof_LCSLSTFRM buf pCmdFrame iCmdLen
  let reply := STORE_HW r.1 8 (q.2.2 % (U16_MOD : Int)).toNat
  let reply := memcpy reply 22 q.2.1 0 IFHWADDRLEN
  let reply :=
    if opt.OPTION_TUNTAP_LCS_SAME_ADDR = true then reply
    else storeByte reply 27 ((reply 27 + 1) % 256)
  LCS_EnqueueReplyFrame q.1 reply sizeof_LCSLSTFRM false

/-- The loop of `LCS_DoMulticast` over the MAC addresses of the request when the
port keeps the multicast table itself (`fDoMCastAssist`): the port afterwards
and `badrc`. -/
def LCS_DoMulticast_table (ext : Externals) (add : Bool) (port : LCSPORT)
    (macs : List (List Nat)) : LCSPORT × Int :=
  macs.foldl
    (fun (s : LCSPORT × Int) (mac : List Nat) =>
      if add = true then
        let t := ext.MACTabAdd s.1.MCastTab mac 0
        if t.2 = 0 then
          ({ s.1 with MCastTab := t.1, nMCastCount := (s.1.nMCastCount + 1) % 256 }, s.2)
        else ({ s.1 with MCastTab := t.1 }, -t.2)
      else
        let t := ext.MACTabRem s.1.MCastTab mac
        if t.2 = 0 then
          ({ s.1 with MCastTab := t.1, nMCastCount := (s.1.nMCastCount + 255) % 256 }, s.2)
        else ({ s.1 with MCastTab := t.1 }, -t.2))
    (port, 0)

/-- The loop of `LCS_DoMulticast` when the host keeps the multicast addresses:
one `SIOCADDMULTI` or `SIOCDELMULTI` request per MAC address.  The result is the
list of host calls afterwards and `badrc`. -/
def LCS_DoMulticast_ioctl (ext : Externals) (add : Bool) (hostCalls : List HostCall)
    (macs : List (List Nat)) : List HostCall × Int :=
  macs.foldl
    (fun (s : List HostCall × Int) (mac : List Nat) =>
      let io := ext.TUNTAP_IOCtl_MULTI add s.1 mac
      let calls := s.1 ++
        [if add = true then HostCall.TUNTAP_IOCtl_SIOCADDMULTI mac
         else HostCall.TUNTAP_IOCtl_SIOCDELMULTI mac]
      if io.1 = 0 then (calls, s.2) else (calls, io.1))
    (hostCalls, 0)

/-- `LCS_DoMulticast( ioctlcode, pLCSDEV, pCmdFrame, iCmdLen )`; `add` tells
whether `ioctlcode` is `SIOCADDMULTI` (otherwise it is `SIOCDELMULTI`). -/
def LCS_DoMulticast (opt : BuildOptions) (ext : Externals) (add : Bool) (w : LCSWorld)
    (buf : Mem) (pCmdFrame iCmdLen : Nat) : Option LCSWorld :=
  let r := INIT_REPLY_FRAME ext.stack sizeof_LCSIPMFRM buf pCmdFrame iCmdLen
  let numpairs := FETCH_HW buf (pCmdFrame + 12)
  let numpairs := if numpairs > MAX_IP_MAC_PAIRS then MAX_IP_MAC_PAIRS else numpairs
  let macs := (List.range numpairs).map
    (fun i => readBytes buf (pCmdFrame + 20 + sizeof_LCSIPMPAIR * i + 4) IFHWADDRLEN)
  if w.port.fDoMCastAssist = true then
    let s := LCS_DoMulticast_table ext add w.port macs
    let reply := if s.2 ≠ 0 then STORE_HW r.1 8 0xFFFF else r.1
    LCS_EnqueueReplyFrame { w with port := s.1 } reply r.2 false
  else if opt.SIOCGIFHWADDR = true then
    let s := LCS_DoMulticast_ioctl ext add w.hostCalls macs
    let reply := if s.2 ≠ 0 then STORE_HW r.1 8 0xFFFF else r.1
    LCS_EnqueueReplyFrame { w with hostCalls := s.1 } reply r.2 false
  else
    LCS_EnqueueReplyFrame w r.1 r.2 false

/-- `LCS_DefaultCmdProc( pLCSDEV, pCmdFrame, iCmdLen )`. -/
def LCS_DefaultCmdProc (ext : Externals) (w : LCSWorld) (buf : Mem)
    (pCmdFrame iCmdLen : Nat) : Option LCSWorld :=
  let r := INIT_REPLY_FRAME ext.stack sizeof_LCSSTDFRM buf pCmdFrame iCmdLen
  let reply := storeByte (storeByte r.1 10 LCS_FRMTYP_ENET) 11 w.dev.bPort
  LCS_EnqueueReplyFrame w reply r.2 false

/-- The reply frame `LCS_StartLan_SNA` builds in its local `Reply`. -/
def LCS_StartLan_SNA_frame (ext : Externals) (w : LCSWorld) (buf : Mem)
    (pCmdFrame iCmdLen : Nat) : Mem :=
  let r := INIT_REPLY_FRAME ext.stack sizeof_LCSSTRTFRM buf pCmdFrame iCmdLen
  let reply := storeByte r.1 3 w.dev.bPort
  let reply := storeByte reply 5 LCS_INITIATOR_SNA
  let reply := storeByte reply 10 LCS_FRMTYP_ENET
  let reply := storeByte reply 11 w.dev.bPort
  let reply := STORE_HW reply 12 w.dev.iMaxFrameBufferSize
  STORE_FW reply 20 0x00000800

/-- `LCS_StartLan_SNA` up to and including `ENQUEUE_REPLY_FRAME`. -/
def LCS_StartLan_SNA_reply (opt : BuildOptions) (ext : Externals) (w : LCSWorld) (buf : Mem)
    (pCmdFrame iCmdLen : Nat) (bBafflePres : Bool) : Option LCSWorld :=
  let reply := LCS_StartLan_SNA_frame ext w buf pCmdFrame iCmdLen
  let iReplyLen := sizeof_LCSSTRTFRM
  let calls :=
    if fStartPending w = true ∧ w.port.fPreconfigured = false then
      [HostCall.TUNTAP_SetFlags true true opt.TUNTAP_IFF_RUNNING_NEEDED,
        HostCall.TUNTAP_SetMTU 1500] ++
        (if opt.OPTION_TUNTAP_SETMACADDR = true ∧ w.port.fLocalMAC = true then
          [HostCall.TUNTAP_SetMACAddr] else [])
    else []
  let w1 : LCSWorld := { w with hostCalls := w.hostCalls ++ calls }
  LCS_EnqueueReplyFrame w1 reply iReplyLen bBafflePres

/-- `LCS_StartLan_SNA( pLCSDEV, pCmdFrame, iCmdLen, bBafflePres )`. -/
def LCS_StartLan_SNA (opt : BuildOptions) (ext : Externals) (w : LCSWorld) (buf : Mem)
    (pCmdFrame iCmdLen : Nat) (bBafflePres : Bool) : Option LCSWorld :=
  (LCS_StartLan_SNA_reply opt ext w buf pCmdFrame iCmdLen bBafflePres).map
    (fun w1 =>
      let w2 := if fStartPending w = true then UpdatePortStarted true w1 else w1
      { w2 with dev := { w2.dev with fDevStarted := true } })

/-- The reply frame `LCS_StopLan_SNA` and `LCS_DefaultCmd_SNA` build in their
local `Reply`. -/
def LCS_DefaultCmd_SNA_frame (ext : Externals) (w : LCSWorld) (buf : Mem)
    (pCmdFrame iCmdLen : Nat) : Mem :=
  let r := INIT_REPLY_FRAME ext.stack sizeof_LCSSTDFRM buf pCmdFrame iCmdLen
  let reply := storeByte r.1 3 w.dev.bPort
  let reply := storeByte reply 5 LCS_INITIATOR_SNA
  storeByte reply 11 w.dev.bPort

/-- `LCS_StopLan_SNA( pLCSDEV, pCmdFrame, iCmdLen, bBafflePres )`. -/
def LCS_StopLan_SNA (ext : Externals) (w : LCSWorld) (buf : Mem)
    (pCmdFrame iCmdLen : Nat) (bBafflePres : Bool) : Option LCSWorld :=
  let reply := LCS_DefaultCmd_SNA_frame ext w buf pCmdFrame iCmdLen
  let iReplyLen := (INIT_REPLY_FRAME ext.stack sizeof_LCSSTDFRM buf pCmdFrame iCmdLen).2
  let calls :=
    if w.port.fPreconfigured = false then [HostCall.TUNTAP_SetFlags false false false]
    else []
  let w1 : LCSWorld := { w with hostCalls := w.hostCalls ++ calls }
  (LCS_EnqueueReplyFrame (UpdatePortStarted false w1) reply iReplyLen bBafflePres).map
    (fun w2 => { w2 with dev := { w2.dev with fDevStarted := false } })

/-- The reply frame `LCS_LanStats_SNA` builds in its local `Reply`, from the
bytes `pIFaceMAC` points to and `rc`. -/
def LCS_LanStats_SNA_frame (opt : BuildOptions) (ext : Externals) (w : LCSWorld) (buf : Mem)
    (pCmdFrame iCmdLen : Nat) (pIFaceMAC : Mem) (rc : Int) : Mem :=
  let r := INIT_REPLY_FRAME ext.stack sizeof_LCSLSSFRM buf pCmdFrame iCmdLen
  let reply := storeByte r.1 3 w.dev.bPort
  let reply := storeByte reply 5 LCS_INITIATOR_SNA
  let reply := STORE_HW reply 8 (rc % (U16_MOD : Int)).toNat
  let reply := storeByte reply 11 w.dev.bPort
  let reply := storeByte reply 12 0x01
  let reply := storeByte reply 13 0x04
  let reply := storeByte reply 14 0x00
  let reply := storeByte reply 18 0x06
  let reply := memcpy reply 19 pIFaceMAC 0 IFHWADDRLEN
  if opt.OPTION_TUNTAP_LCS_SAME_ADDR = true then reply
  else storeByte reply 24 ((reply 24 + 1) % 256)

/-- `LCS_LanStats_SNA( pLCSDEV, pCmdFrame, iCmdLen, bBafflePres )`. -/
def LCS_LanStats_SNA (opt : BuildOptions) (ext : Externals) (w : LCSWorld) (buf : Mem)
    (pCmdFrame iCmdLen : Nat) (bBafflePres : Bool) : Option LCSWorld :=
  let q := LCS_LanStats_getMAC opt ext w
  let reply := LCS_LanStats_SNA_frame opt ext w buf pCmdFrame iCmdLen q.2.1 q.2.2
  LCS_EnqueueReplyFrame q.1 reply sizeof_LCSLSSFRM bBafflePres

/-- `LCS_DefaultCmd_SNA( pLCSDEV, pCmdFrame, iCmdLen, bBafflePres )`. -/
def LCS_DefaultCmd_SNA (ext : Externals) (w : LCSWorld) (buf : Mem)
    (pCmdFrame iCmdLen : Nat) (bBafflePres : Bool) : Option LCSWorld :=
  let reply := LCS_DefaultCmd_SNA_frame ext w buf pCmdFrame iCmdLen
  let iReplyLen := (INIT_REPLY_FRAME ext.stack sizeof_LCSSTDFRM buf pCmdFrame iCmdLen).2
  LCS_EnqueueReplyFrame w reply iReplyLen bBafflePres

/-- `LCS_Baffle_SNA( pLCSDEV, pCmdFrame, iCmdLen, bBafflePres )`; the local
`Reply` has 128 bytes. -/
def LCS_Baffle_SNA (ext : Externals) (w : LCSWorld) (buf : Mem)
    (pCmdFrame iCmdLen : Nat) (bBafflePres : Bool) : Option LCSWorld :=
  let reply := memcpy (memset ext.stack 0 0 128) 0 buf pCmdFrame iCmdLen
  LCS_EnqueueReplyFrame w reply iCmdLen bBafflePres

/-- The C function behind each handler name. -/
def lcsHandler (opt : BuildOptions) (ext : Externals) :
    LCSHandler → LCSWorld → Mem → Nat → Nat → Bool → Option LCSWorld
  | LCSHandler.LCS_Startup, w, buf, p, n, _ => LCS_Startup opt ext w buf p n
  | LCSHandler.LCS_Shutdown, w, buf, p, n, _ => LCS_Shutdown ext w buf p n
  | LCSHandler.LCS_StartLan, w, buf, p, n, _ => LCS_StartLan opt ext w buf p n
  | LCSHandler.LCS_StopLan, w, buf, p, n, _ => LCS_StopLan opt ext w buf p n
  | LCSHandler.LCS_QueryIPAssists, w, buf, p, n, _ => LCS_QueryIPAssists ext w buf p n
  | LCSHandler.LCS_LanStats, w, buf, p, n, _ => LCS_LanStats opt ext w buf p n
  | LCSHandler.LCS_AddMulticast, w, buf, p, n, _ => LCS_DoMulticast opt ext true w buf p n
  | LCSHandler.LCS_DelMulticast, w, buf, p, n, _ => LCS_DoMulticast opt ext false w buf p n
  | LCSHandler.LCS_DefaultCmdProc, w, buf, p, n, _ => LCS_DefaultCmdProc ext w buf p n
  | LCSHandler.LCS_StartLan_SNA, w, buf, p, n, b => LCS_StartLan_SNA opt ext w buf p n b
  | LCSHandler.LCS_StopLan_SNA, w, buf, p, n, b => LCS_StopLan_SNA ext w buf p n b
  | LCSHandler.LCS_LanStats_SNA, w, buf, p, n, b => LCS_LanStats_SNA opt ext w buf p n b
  | LCSHandler.LCS_DefaultCmd_SNA, w, buf, p, n, b => LCS_DefaultCmd_SNA ext w buf p n b
  | LCSHandler.LCS_Baffle_SNA, w, buf, p, n, b => LCS_Baffle_SNA ext w buf p n b

/-- The environment of `LCS_Write` for one device and its port.  The state is
`none` once a handler is held up in `LCS_EnqueueReplyFrame` on a full frame
buffer: from then on nothing more happens in this run. -/
def lcsEnv (opt : BuildOptions) (ext : Externals) : LCSWriteEnv (Option LCSWorld) where
  bMode := fun w =>
    match w with
    | some x => x.dev.bMode
    | none => 0
  MAC_Address := fun w =>
    match w with
    | some x => x.port.MAC_Address
    | none => fun _ => 0
  fDoCkSumOffload := fun w =>
    match w with
    | some x => x.port.fDoCkSumOffload
    | none => false
  SAME_ADDR := opt.OPTION_TUNTAP_LCS_SAME_ADDR
  EtherIpv4CkSumOffload := ext.EtherIpv4CkSumOffload
  TUNTAP_Write := fun w buf p n =>
    match w with
    | some x =>
      (some { x with hostCalls := x.hostCalls ++ [HostCall.TUNTAP_Write (readBytes buf p n)] },
        ext.TUNTAP_Write x.hostCalls (readBytes buf p n))
    | none => (none, (n : Int))
  handler := fun h w buf p n b =>
    match w with
    | some x => lcsHandler opt ext h x buf p n b
    | none => none
  malloc_LCSATTN := fun w =>
    match w with
    | some x => ext.malloc_LCSATTN x.hostCalls
    | none => false
  addAttn := fun w =>
    w.map (fun x => { x with pAttns := x.dev.sAddr :: x.pAttns
                             nAttnEventSignals := x.nAttnEventSignals + 1 })

/-- `LCS_Write` for one device and its port.  `none` means that the call has
not returned: the frame walk is still running when the fuel is used up, or a
handler is held up on a full frame buffer. -/
def LCS_Write_dev (opt : BuildOptions) (ext : Externals) (fuel : Nat) (w : LCSWorld)
    (sCount : Nat) (pIOBuf : Mem) (sense0 : Nat) (st : CCWStatus) :
    Option (WriteResult LCSWorld) :=
  match LCS_Write (lcsEnv opt ext) fuel (some w) sCount pIOBuf sense0 st with
  | some r =>
    (match r.world with
     | some w1 => some { world := w1, pIOBuf := r.pIOBuf, sense0 := r.sense0, status := r.status }
     | none => none)
  | none => none

/-- An environment that also lists the handler calls: for each call, in order,
the handler, the bytes of the command frame it was given and `iCmdLen`. -/
def withCalls {W : Type} (env : LCSWriteEnv W) :
    LCSWriteEnv (W × List (LCSHandler × List Nat × Nat)) where
  bMode := fun w => env.bMode w.1
  MAC_Address := fun w => env.MAC_Address w.1
  fDoCkSumOffload := fun w => env.fDoCkSumOffload w.1
  SAME_ADDR := env.SAME_ADDR
  EtherIpv4CkSumOffload := env.EtherIpv4CkSumOffload
  TUNTAP_Write := fun w buf p n => (((env.TUNTAP_Write w.1 buf p n).1, w.2),
    (env.TUNTAP_Write w.1 buf p n).2)
  handler := fun h w buf p n b => (env.handler h w.1 buf p n b, w.2 ++ [(h, readBytes buf p n, n)])
  malloc_LCSATTN := fun w => env.malloc_LCSATTN w.1
  addAttn := fun w => (env.addAttn w.1, w.2)

/-! ## Example build, host and inputs -/

/-- A Linux-like build: the reply MAC differs from the TAP MAC, MAC address and
routes can be set, `SIOCGIFHWADDR` exists. -/
def exOpt : BuildOptions where
  OPTION_TUNTAP_LCS_SAME_ADDR := false
  OPTION_TUNTAP_SETMACADDR := true
  OPTION_TUNTAP_DELADD_ROUTES := true
  TUNTAP_IFF_RUNNING_NEEDED := false
  SIOCGIFHWADDR := true

/-- A host on which every call succeeds: the multicast table helpers accept
every request and find no address, the interface has MAC 02:00:5E:10:20:30,
a TAP write takes all the bytes; the stack holds 0xAA bytes. -/
def exExt : Externals where
  stack := fun _ => 0xAA
  MACTABMAX := 32
  MACTabAdd := fun tab _ _ => (tab, 0)
  MACTabRem := fun tab _ => (tab, 0)
  IsMACTab := fun _ _ => -2
  socket := fun _ => (3, 0)
  TUNTAP_IOCtl_SIOCGIFHWADDR := fun _ => (0, 0, memOfList [0x02, 0x00, 0x5E, 0x10, 0x20, 0x30])
  TUNTAP_IOCtl_MULTI := fun _ _ _ => (0, 0)
  TUNTAP_Write := fun _ data => (data.length : Int)
  EtherIpv4CkSumOffload := fun buf _ _ => buf
  malloc_LCSATTN := fun _ => true
  IS_CCW_SENSE := fun c => c &&& 0x0F == 0x04
  IS_CCW_CONTROL := fun c => c &&& 0x03 == 0x03
  sizeof_sense := 32

/-- The 31-byte IP-mode Write of scenario S1: a 29-byte Startup command frame
(command code 0x07, buffer size field 0x0800) and the 2-byte zero terminator. -/
def exS1Batch : Mem :=
  memOfList [0x00, 0x1D, 0x00, 0x00, 0x07, 0x00, 0x00, 0x00, 0x00, 0x00, 0x00, 0x00,
             0x08, 0x00, 0x00, 0x00, 0x00, 0x00, 0x00, 0x00, 0x00, 0x00, 0x00, 0x00,
             0x00, 0x00, 0x00, 0x00, 0x00, 0x00, 0x00]


/-- The 24-byte reply to the Startup command of scenario S1 as it stands in the
ring of a device of port `bPort`: offset field 0x0018, command code 0x07, return
code 0, LAN type 0x01, the port, and the buffer size field 0x0800 of the request. -/
def exS1Reply (bPort : Nat) : List Nat :=
  [0x00, 0x18, 0x00, 0x00, 0x07, 0x00, 0x00, 0x00, 0x00, 0x00, 0x01, bPort,
   0x08, 0x00, 0x00, 0x00, 0x00, 0x00, 0x00, 0x00, 0x00, 0x00, 0x00, 0x00]

/-- An IP device with an empty ring on an open port. -/
def exWorld : LCSWorld :=
  { port := { fd := 3 } }

/-! ## The CCW executor -/

/-- The fields of `DEVBLK` that `LCS_ExecuteCCW` reads or writes. -/
structure DEVBLK where
  fd : Int := -1
  ctcxmode : Nat := 0
  sense : Mem := fun _ => 0
  numsense : Nat := 0
  devid : Mem := fun _ => 0
  numdevid : Nat := 0

/-- The masking of the modifier bits of the CCW code at the head of
`LCS_ExecuteCCW`: the value given to `bOpCode`. -/
def LCS_ExecuteCCW_opcode (bCode ctcxmode : Nat) : Nat :=
  if bCode &&& 0x07 = 0x07 then 0x07
  else if bCode &&& 0x03 = 0x02 then 0x02
  else if bCode &&& 0x0F = 0x0C then 0x0C
  else if bCode &&& 0x03 = 0x01 then (if ctcxmode ≠ 0 then bCode &&& 0x83 else 0x01)
  else if bCode &&& 0x1F = 0x14 then 0x14
  else if bCode &&& 0x47 = 0x03 then 0x03
  else if bCode &&& 0xC7 = 0x43 then 0x43
  else bCode

/-- What `LCS_ExecuteCCW` leaves behind: the device block, the LCS device with
its port, the channel I/O buffer and the status words. -/
structure CCWResult where
  blk : DEVBLK
  world : LCSWorld
  pIOBuf : Mem
  status : CCWStatus

/-- `LCS_ExecuteCCW( pDEVBLK, bCode, ..., sCount, ..., pIOBuf, pMore, pUnitStat,
pResidual )`.  `fuel` and `wakes` are those of the `LCS_Write` and `LCS_Read` it
may call; `none` means that this call has not returned. -/
def LCS_ExecuteCCW (opt : BuildOptions) (ext : Externals) (fuel : Nat)
    (wakes : List (LCSDEV → LCSDEV)) (blk : DEVBLK) (w : LCSWorld) (bCode sCount : Nat)
    (pIOBuf : Mem) (st : CCWStatus) : Option CCWResult :=
  if blk.fd < 0 ∧ ext.IS_CCW_SENSE bCode = false ∧ ext.IS_CCW_CONTROL bCode = false then
    some { blk := { blk with sense := storeByte blk.sense 0 SENSE_IR }, world := w,
           pIOBuf := pIOBuf, status := { st with unitStat := CSW_CE ||| CSW_DE ||| CSW_UC } }
  else
    let bOpCode := LCS_ExecuteCCW_opcode bCode blk.ctcxmode
    let normal : Option CCWResult :=
      some { blk := blk, world := w, pIOBuf := pIOBuf,
             status := { st with unitStat := CSW_CE ||| CSW_DE } }
    let reject : Option CCWResult :=
      some { blk := { blk with sense := storeByte blk.sense 0 SENSE_CR }, world := w,
             pIOBuf := pIOBuf, status := { st with unitStat := CSW_CE ||| CSW_DE ||| CSW_UC } }
    if bOpCode = 0x01 then
      if sCount = 0 then normal
      else
        (LCS_Write_dev opt ext fuel w sCount pIOBuf (blk.sense 0) st).map
          (fun r => { blk := { blk with sense := storeByte blk.sense 0 r.sense0 },
                      world := r.world, pIOBuf := r.pIOBuf, status := r.status })
    else if bOpCode = 0x81 then normal
    else if bOpCode = 0x02 ∨ bOpCode = 0x0C then
      (LCS_Read wakes w.dev sCount pIOBuf st).map
        (fun r => { blk := blk, world := { w with dev := r.dev }, pIOBuf := r.pIOBuf,
                    status := r.status })
    else if bOpCode = 0x07 then normal
    else if bOpCode = 0x03 then normal
    else if bOpCode = 0x43 then
      if blk.ctcxmode = 0 then reject
      else
        some { blk := { blk with ctcxmode := 0 }, world := w, pIOBuf := pIOBuf,
               status := { st with residual := 0, unitStat := CSW_CE ||| CSW_DE } }
    else if bOpCode = 0xC3 then
      some { blk := { blk with ctcxmode := 1 }, world := w, pIOBuf := pIOBuf,
             status := { st with residual := 0, unitStat := CSW_CE ||| CSW_DE } }
    else if bOpCode = 0xE3 then normal
    else if bOpCode = 0x14 then normal
    else if bOpCode = 0x04 then
      if blk.ctcxmode = 0 then reject
      else
        let iNum := if sCount < blk.numsense then sCount else blk.numsense
        some { blk := { blk with sense := memset blk.sense 0 0 ext.sizeof_sense }
               world := w
               pIOBuf := memcpy pIOBuf 0 blk.sense 0 iNum
               status := { residual := sCount - iNum
                           more := if sCount < blk.numsense then 1 else st.more
                           unitStat := CSW_CE ||| CSW_DE } }
    else if bOpCode = 0xE4 then
      let iNum := if sCount < blk.numdevid then sCount else blk.numdevid
      some { blk := blk
             world := w
             pIOBuf := memcpy pIOBuf 0 blk.devid 0 iNum
             status := { residual := sCount - iNum
                         more := if sCount < blk.numdevid then 1 else st.more
                         unitStat := CSW_CE ||| CSW_DE } }
    else reject

/-- A device block of an open device in basic mode. -/
def exBlk : DEVBLK := { fd := 3 }

/-! ## The port reader thread -/

def ETH_TYPE : Nat := 0x0600
def ETH_TYPE_IP : Nat := 0x0800
def ETH_TYPE_ARP : Nat := 0x0806
def ETH_TYPE_RARP : Nat := 0x8035
def ETH_TYPE_SNA : Nat := 0x80D5
def ETH_TYPE_IPV6 : Nat := 0x86dd

def LCSDEV_TYPE_NONE : Nat := 0x00
def LCSDEV_TYPE_PRIMARY : Nat := 0x01
def LCSDEV_TYPE_SECONDARY : Nat := 0x02

/-- The first three bytes of an IPv4 multicast MAC address (`mcast3`). -/
def mcast3 : List Nat := [0x01, 0x00, 0x5e]

/-- A `U32` field kept in network byte order, read the way the C code reads it
(as a `U32`, without a byte swap).  Such a value, like `lIPAddress`, is
represented by the number its four bytes spell big-endian, so two of them are
equal exactly when their bytes are. -/
def netU32 (m : Mem) (p : Nat) : Nat :=
  ((m p % 256 * 256 + m (p + 1) % 256) * 256 + m (p + 2) % 256) * 256 + m (p + 3) % 256

/-- Index in the Ethernet frame of `pIPFrame->lDstIP` (`bData` + 0x10). -/
def ofs_lDstIP : Nat := 30

/-- Index in the Ethernet frame of `pARPFrame->bTargEthAddr` (`bData` + 18, the
structure being packed). -/
def ofs_bTargEthAddr : Nat := 32

/-- Index in the Ethernet frame of `pARPFrame->lTargIPAddr` (`bData` + 24). -/
def ofs_lTargIPAddr : Nat := 38

/-- `LCS_EnqueueEthFrame( pLCSDEV, bPort, pData, iSize )`, `port` being
`Port[ bPort ]`.  A frame that is too long is dropped; on a full frame buffer
the C function retries until another thread drains the buffer or closes the
port, so the result is `none`: the call has not returned. -/
def LCS_EnqueueEthFrame (port : LCSPORT) (dev : LCSDEV) (bPort : Nat) (pData : Mem)
    (iSize : Nat) : Option LCSDEV :=
  if port.fd ≠ -1 ∧ port.fCloseInProgress = false then
    let r := LCS_DoEnqueueEthFrame dev bPort pData iSize
    if r.rc < 0 then
      (match r.errno with
       | some Errno.EMSGSIZE => some dev
       | _ => none)
    else some r.dev
  else some dev

/-- The three device pointers of the scan of `LCS_PortThread`, each the index of
a device in the list `pLCSBLK->pDevices`, or `none` for `NULL`. -/
structure PortScan where
  pPrimaryLCSDEV : Option Nat := none
  pSecondaryLCSDEV : Option Nat := none
  pMatchingLCSDEV : Option Nat := none
deriving DecidableEq

/-- The exact-match test the scan of `LCS_PortThread` applies to a device of the
port, by EtherType: destination IP for IPv4, target IP for ARP, target MAC
against the port MAC for RARP, SNA mode for SNA and for 802.3 frames (type
below 0x0600).  `none` for the other EtherTypes, for which the scan has no
branch. -/
def LCS_PortThread_match (port : LCSPORT) (szBuff : Mem) (hwEthernetType : Nat)
    (dev : LCSDEV) : Option Bool :=
  if hwEthernetType ≥ ETH_TYPE then
    if hwEthernetType = ETH_TYPE_IP then
      some (decide (dev.lIPAddress = netU32 szBuff ofs_lDstIP))
    else if hwEthernetType = ETH_TYPE_ARP then
      some (decide (dev.lIPAddress = netU32 szBuff ofs_lTargIPAddr))
    else if hwEthernetType = ETH_TYPE_RARP then
      some (decide (readBytes szBuff ofs_bTargEthAddr IFHWADDRLEN
        = readBytes port.MAC_Address 0 IFHWADDRLEN))
    else if hwEthernetType = ETH_TYPE_SNA then
      some (decide (dev.bMode = LCSDEV_MODE_SNA))
    else none
  else
    some (decide (dev.bMode = LCSDEV_MODE_SNA))

/-- The loop `for (pLCSDev = pDevices; pLCSDev; pLCSDev = pLCSDev->pNext)` of
`LCS_PortThread` over the rest of the device list, `i` being the index of its
first device: an exact match ends the loop (`break`), any other device of the
port is remembered if it is the primary or the secondary device. -/
def LCS_PortThread_scan (port : LCSPORT) (szBuff : Mem) (hwEthernetType : Nat) :
    List LCSDEV → Nat → PortScan → PortScan
  | [], _, s => s
  | dev :: rest, i, s =>
    if dev.bPort = port.bPort then
      match LCS_PortThread_match port szBuff hwEthernetType dev with
      | some true => { s with pMatchingLCSDEV := some i }
      | some false =>
        if dev.bType = LCSDEV_TYPE_PRIMARY then
          LCS_PortThread_scan port szBuff hwEthernetType rest (i + 1)
            { s with pPrimaryLCSDEV := some i }
        else if dev.bType = LCSDEV_TYPE_SECONDARY then
          LCS_PortThread_scan port szBuff hwEthernetType rest (i + 1)
            { s with pSecondaryLCSDEV := some i }
        else LCS_PortThread_scan port szBuff hwEthernetType rest (i + 1) s
      | none => LCS_PortThread_scan port szBuff hwEthernetType rest (i + 1) s
    else LCS_PortThread_scan port szBuff hwEthernetType rest (i + 1) s

/-- The test `p && p->fDevStarted` for a device pointer of the scan. -/
def devStarted (devices : List LCSDEV) (p : Option Nat) : Bool :=
  match p with
  | some i =>
    (match devices.get? i with
     | some dev => dev.fDevStarted
     | none => false)
  | none => false

/-- The choice of `pMatchingLCSDEV` after the scan: an exact match that is not
started is dropped; without a match the started primary device is taken, else
the started secondary device. -/
def LCS_PortThread_select (devices : List LCSDEV) (s : PortScan) : Option Nat :=
  let pMatchingLCSDEV :=
    if s.pMatchingLCSDEV.isSome = true ∧ devStarted devices s.pMatchingLCSDEV = false then none
    else s.pMatchingLCSDEV
  if pMatchingLCSDEV.isSome = false then
    if devStarted devices s.pPrimaryLCSDEV = true then s.pPrimaryLCSDEV
    else if devStarted devices s.pSecondaryLCSDEV = true then s.pSecondaryLCSDEV
    else none
  else pMatchingLCSDEV

/-- What one pass through the body of the `for (;;)` loop of `LCS_PortThread`
comes to: the thread stays in the wait for the port to be started, it leaves
the loop, it goes to the next pass without a call of `LCS_EnqueueEthFrame`
(`continue`), or it calls `LCS_EnqueueEthFrame` for the device of index `i`. -/
inductive PortStep where
  | waiting
  | exit
  | next
  | enqueue (i : Nat)
deriving DecidableEq

/-- One pass through the body of the `for (;;)` loop of `LCS_PortThread` for the
port `port` and the device list `devices`; `iLength` and `szBuff` are what
`read_tuntap` returns and leaves in the buffer. -/
def LCS_PortThread_step (ext : Externals) (port : LCSPORT) (devices : List LCSDEV)
    (iLength : Int) (szBuff : Mem) : PortStep :=
  if ¬ (port.fd < 0 ∨ port.fCloseInProgress = true ∨ port.fPortStarted = true) then
    PortStep.waiting
  else if port.fd < 0 ∨ port.fCloseInProgress = true then PortStep.exit
  else if iLength = 0 then PortStep.next
  else if iLength < 0 then PortStep.exit
  else
    let hwEthernetType := FETCH_HW szBuff 12
    if port.fDoMCastAssist = true ∧ port.nMCastCount ≠ 0 ∧
        readBytes szBuff 0 3 = mcast3 ∧
        ext.IsMACTab port.MCastTab (readBytes szBuff 0 IFHWADDRLEN) < 0 then
      PortStep.next
    else
      match LCS_PortThread_select devices
          (LCS_PortThread_scan port szBuff hwEthernetType devices 0 {}) with
      | some i => PortStep.enqueue i
      | none => PortStep.next

/-- An inbound IPv4 frame for the multicast MAC 01:00:5E:00:00:01 and the
destination IP 224.0.0.1 (34 bytes: Ethernet header and IP header). -/
def exMcastFrame : Mem :=
  memOfList [0x01, 0x00, 0x5e, 0x00, 0x00, 0x01, 0x02, 0x00, 0x00, 0x00, 0x00, 0x09,
             0x08, 0x00,
             0x45, 0x00, 0x00, 0x14, 0x00, 0x00, 0x00, 0x00, 0x01, 0x02, 0x00, 0x00,
             0x0A, 0x00, 0x00, 0x09, 0xE0, 0x00, 0x00, 0x01]

/-- An inbound IPv4 frame for the MAC 02:00:5E:10:20:31 and the destination IP
10.0.0.1. -/
def exIPFrame : Mem :=
  memOfList [0x02, 0x00, 0x5e, 0x10, 0x20, 0x31, 0x02, 0x00, 0x00, 0x00, 0x00, 0x09,
             0x08, 0x00,
             0x45, 0x00, 0x00, 0x14, 0x00, 0x00, 0x00, 0x00, 0x01, 0x06, 0x00, 0x00,
             0x0A, 0x00, 0x00, 0x09, 0x0A, 0x00, 0x00, 0x01]

/-- A started port that filters multicast frames itself and whose count of
multicast table entries is 0. -/
def exPortNoMCast : LCSPORT :=
  { fd := 3, fUsed := true, fPortCreated := true, fPortStarted := true, fDoMCastAssist := true,
    nMCastCount := 0 }

/-- The same port with one multicast table entry counted. -/
def exPortMCast : LCSPORT :=
  { fd := 3, fUsed := true, fPortCreated := true, fPortStarted := true, fDoMCastAssist := true,
    nMCastCount := 1 }

/-- A started primary device of port 0 with the IP address 10.0.0.1. -/
def exDevPrimary : LCSDEV :=
  { bType := LCSDEV_TYPE_PRIMARY, fDevStarted := true, lIPAddress := 0x0A000001 }

/-- Two devices of port 0 with the same IP address 10.0.0.1: the first is not
started, the second is. -/
def exDevsSameIP : List LCSDEV :=
  [{ sAddr := 0x0E20, lIPAddress := 0x0A000001 },
   { sAddr := 0x0E22, lIPAddress := 0x0A000001, fDevStarted := true }]

/-- An IP device with an empty ring on an open port that is used and created
but not started. -/
def exWorldStopped : LCSWorld :=
  { port := { fd := 3, fUsed := true, fPortCreated := true } }

/-- A 24-byte IP-mode Start LAN command frame (command code 0x01) and the
2-byte zero terminator. -/
def exStartLanBatch : Mem :=
  memOfList [0x00, 0x18, 0x00, 0x00, 0x01, 0x00, 0x00, 0x01, 0x00, 0x00, 0x00, 0x00,
             0x00, 0x00, 0x00, 0x00, 0x00, 0x00, 0x00, 0x00, 0x00, 0x00, 0x00, 0x00,
             0x00, 0x00]

/-! ## Sequences of enqueue calls -/

/-- A call of one of the two enqueue functions, with its arguments. -/
inductive RingOp where
  | reply (pReply : Mem) (iSize : Nat) (bBafflePres : Bool)
  | eth (bPort : Nat) (pData : Mem) (iSize : Nat)

/-- The `iSize` argument of the call. -/
def RingOp.iSize : RingOp → Nat
  | RingOp.reply _ n _ => n
  | RingOp.eth _ _ n => n

/-- The device after the call, whether it succeeded or failed. -/
def RingOp.run (dev : LCSDEV) : RingOp → LCSDEV
  | RingOp.reply pReply n b => (LCS_DoEnqueueReplyFrame dev pReply n b).dev
  | RingOp.eth bPort pData n => (LCS_DoEnqueueEthFrame dev bPort pData n).dev

/-- The device after a sequence of enqueue calls. -/
def enqueueAll (dev : LCSDEV) (ops : List RingOp) : LCSDEV :=
  ops.foldl RingOp.run dev

/-- A ring that starts with a reserved baffle: a baffle is pending, the first
eight bytes are zero, the frames behind them end at a `U16` offset, and a reply
is pending. -/
def BaffleRing (dev : LCSDEV) : Prop :=
  dev.fPendingBaffle = true ∧ dev.fReplyPending = true ∧ 8 ≤ dev.iFrameOffset ∧
  dev.iFrameOffset ≤ dev.iMaxFrameBufferSize + 6 ∧
  dev.iMaxFrameBufferSize ≤ sizeof_bFrameBuffer ∧
  ∀ i, i < 8 → dev.bFrameBuffer i = 0

/-- An SNA device with an empty ring on an open port that is used and created
but not started. -/
def exWorldSNA : LCSWorld :=
  { dev := { bMode := LCSDEV_MODE_SNA }, port := { fd := 3, fUsed := true, fPortCreated := true } }

/-! ## A batch with and without a baffle in front -/

/-- The guest input that holds an 8-byte baffle for a batch of `sCount` bytes
(length field `sCount`, six zero bytes) followed by the batch `B`. -/
def withBaffle (sCount : Nat) (B : Mem) : Mem :=
  fun i =>
    if i = 0 then (sCount % U16_MOD) / 256
    else if i = 1 then sCount % 256
    else if i < 8 then 0
    else B (i - 8)

/-- Every frame the walk of `LCS_Write` reaches in `B` within `fuel` iterations,
starting at offset `iOffset`, has the type 0x00 (command frame). -/
def cmdFramesOnly (B : Mem) : Nat → Nat → Bool
  | 0, _ => true
  | fuel + 1, iOffset =>
    if FETCH_HW B iOffset = 0 then true
    else decide (B (iOffset + 2) = LCS_FRMTYP_CMD) && cmdFramesOnly B fuel (FETCH_HW B iOffset)

/-- The device `d` with a ring that is shifted by a reserved baffle: the frame
buffer is `bf`, the frames end 8 bytes further, a baffle is pending. -/
def shiftDev (d : LCSDEV) (bf : Mem) : LCSDEV :=
  { d with bFrameBuffer := bf, iFrameOffset := d.iFrameOffset + 8, fPendingBaffle := true }

/-- The device `d` after a reply of `iSize` bytes has been appended at
`iFrameOffset`, no baffle being pending. -/
def appendReply (d : LCSDEV) (pReply : Mem) (iSize : Nat) : LCSDEV :=
  { d with
      bFrameBuffer := STORE_HW (memcpy d.bFrameBuffer d.iFrameOffset pReply 0 iSize)
        d.iFrameOffset (d.iFrameOffset + iSize)
      iFrameOffset := d.iFrameOffset + iSize
      fReplyPending := true
      nDevEventSignals := d.nDevEventSignals + 1 }

/-- The state `a2` of a run on a batch with a baffle in front that corresponds to
the state `a` of the run on the batch alone: either nothing has been enqueued
yet and the states are the same, with an empty ring, or the ring of `a2` is
eight zero bytes followed by the ring of `a`, and everything else is the same. -/
def BaffleShift (a a2 : LCSWorld) : Prop :=
  (a2 = a ∧ a.dev.iFrameOffset = 0) ∨
  ∃ bf : Mem, a2 = { a with dev := shiftDev a.dev bf } ∧ (∀ i, i < 8 → bf i = 0) ∧
    ∀ i, i < a.dev.iFrameOffset → bf (8 + i) = a.dev.bFrameBuffer i

/-- The state in which the SNA command handler `h` calls `ENQUEUE_REPLY_FRAME`:
its host calls have been made and the port fields it sets before the enqueue
are set. -/
def snaPre (opt : BuildOptions) (ext : Externals) (h : LCSHandler) (a : LCSWorld) : LCSWorld :=
  match h with
  | LCSHandler.LCS_StartLan_SNA =>
    { a with hostCalls := a.hostCalls ++
        (if fStartPending a = true ∧ a.port.fPreconfigured = false then
          [HostCall.TUNTAP_SetFlags true true opt.TUNTAP_IFF_RUNNING_NEEDED,
            HostCall.TUNTAP_SetMTU 1500] ++
            (if opt.OPTION_TUNTAP_SETMACADDR = true ∧ a.port.fLocalMAC = true then
              [HostCall.TUNTAP_SetMACAddr] else [])
         else []) }
  | LCSHandler.LCS_StopLan_SNA =>
    UpdatePortStarted false
      { a with hostCalls := a.hostCalls ++
          (if a.port.fPreconfigured = false then [HostCall.TUNTAP_SetFlags false false false]
           else []) }
  | LCSHandler.LCS_LanStats_SNA => (LCS_LanStats_getMAC opt ext a).1
  | _ => a

/-- The reply frame the SNA command handler `h` passes to `ENQUEUE_REPLY_FRAME`. -/
def snaFrame (opt : BuildOptions) (ext : Externals) (h : LCSHandler) (a : LCSWorld)
    (buf : Mem) (pCmdFrame iCmdLen : Nat) : Mem :=
  match h with
  | LCSHandler.LCS_StartLan_SNA => LCS_StartLan_SNA_frame ext a buf pCmdFrame iCmdLen
  | LCSHandler.LCS_LanStats_SNA =>
    LCS_LanStats_SNA_frame opt ext a buf pCmdFrame iCmdLen (LCS_LanStats_getMAC opt ext a).2.1
      (LCS_LanStats_getMAC opt ext a).2.2
  | _ => LCS_DefaultCmd_SNA_frame ext a buf pCmdFrame iCmdLen

/-- The reply length the SNA command handler `h` passes to `ENQUEUE_REPLY_FRAME`. -/
def snaLen (ext : Externals) (h : LCSHandler) (buf : Mem) (pCmdFrame iCmdLen : Nat) : Nat :=
  match h with
  | LCSHandler.LCS_StartLan_SNA => sizeof_LCSSTRTFRM
  | LCSHandler.LCS_LanStats_SNA => sizeof_LCSLSSFRM
  | _ => (INIT_REPLY_FRAME ext.stack sizeof_LCSSTDFRM buf pCmdFrame iCmdLen).2

/-- What the SNA command handler `h`, called in the state `a`, does to the state
`x` in which `ENQUEUE_REPLY_FRAME` has returned. -/
def snaPost (h : LCSHandler) (a x : LCSWorld) : LCSWorld :=
  match h with
  | LCSHandler.LCS_StartLan_SNA =>
    { (if fStartPending a = true then UpdatePortStarted true x else x) with
        dev := { (if fStartPending a = true then UpdatePortStarted true x else x).dev with
                  fDevStarted := true } }
  | LCSHandler.LCS_StopLan_SNA => { x with dev := { x.dev with fDevStarted := false } }
  | _ => x

/-- The four handlers of the `switch (pCmdFrame->bCmdCode)` of the SNA branch. -/
def isSnaCmdHandler (h : LCSHandler) : Prop :=
  h = LCSHandler.LCS_StartLan_SNA ∨ h = LCSHandler.LCS_StopLan_SNA ∨
    h = LCSHandler.LCS_LanStats_SNA ∨ h = LCSHandler.LCS_DefaultCmd_SNA

/-- A state of the run on the batch alone in which the reply enqueue works as on
a healthy device: the port is open, no baffle is pending, `iMaxFrameBufferSize`
is at most the size of `bFrameBuffer`, and the frames end within it. -/
def PlainOK (a : LCSWorld) : Prop :=
  a.port.fd ≠ -1 ∧ a.port.fCloseInProgress = false ∧ a.dev.fPendingBaffle = false ∧
    a.dev.iMaxFrameBufferSize ≤ sizeof_bFrameBuffer ∧
    a.dev.iFrameOffset ≤ a.dev.iMaxFrameBufferSize

/-- The end of `case LCS_FRMTYP_CMD` of the SNA branch of `LCS_Write` in the
state `x` the handler left: if `malloc( sizeof( LCSATTN ) )` succeeds, an
`LCSATTN` for the device is linked at the head of `pAttns` and `AttnEvent` is
signalled. -/
def snaAttn (ext : Externals) (x : LCSWorld) : LCSWorld :=
  if ext.malloc_LCSATTN x.hostCalls = true then
    { x with pAttns := x.dev.sAddr :: x.pAttns
             nAttnEventSignals := x.nAttnEventSignals + 1 }
  else x

/-- A batch of `k` Start LAN SNA command frames of 12 bytes each (offset field,
type 0x00, slot 0, command code 0x41, initiator 0x80, LAN type 1), followed by
zero bytes. -/
def exFullBatch (k : Nat) : Mem :=
  fun i =>
    if i < 12 * k then
      (if i % 12 = 0 then (i + 12) / 256
       else if i % 12 = 1 then (i + 11) % 256
       else if i % 12 = 4 then 0x41
       else if i % 12 = 5 then 0x80
       else if i % 12 = 10 then 0x01
       else 0)
    else 0

/-- A 26-byte SNA-mode batch: a 12-byte Start LAN SNA command frame (0x41), a
12-byte Stop LAN SNA command frame (0x42) and the 2-byte zero terminator. -/
def exSNABatch : Mem :=
  memOfList [0x00, 0x0C, 0x00, 0x00, 0x41, 0x80, 0x00, 0x01, 0x00, 0x00, 0x01, 0x00,
             0x00, 0x18, 0x00, 0x00, 0x42, 0x80, 0x00, 0x02, 0x00, 0x00, 0x01, 0x00,
             0x00, 0x00]

/-! ## Frames of the LAN gateway, and the assists of a port -/

/-- A 26-byte IP-mode Write: a 12-byte Startup command frame (command code
0x07) whose initiator byte is 0x01 (LAN gateway), a 12-byte Startup command
frame of the host (initiator 0x00), and the 2-byte zero terminator. -/
def exLGWBatch : Mem :=
  memOfList [0x00, 0x0C, 0x00, 0x00, 0x07, 0x01, 0x00, 0x01, 0x00, 0x00, 0x00, 0x00,
             0x00, 0x18, 0x00, 0x00, 0x07, 0x00, 0x00, 0x02, 0x00, 0x00, 0x00, 0x00,
             0x00, 0x00]

def LCS_ARP_PROCESSING : Nat := 0x0001
def LCS_INBOUND_CHECKSUM_SUPPORT : Nat := 0x0002
def LCS_OUTBOUND_CHECKSUM_SUPPORT : Nat := 0x0004
def LCS_IP_FRAG_REASSEMBLY : Nat := 0x0008
def LCS_IP_FILTERING : Nat := 0x0010
def LCS_IP_V6_SUPPORT : Nat := 0x0020
def LCS_MULTICAST_SUPPORT : Nat := 0x0040

/-- `LCS_Assist( pLCSPORT )`; `hostCalls` is the list of host calls made so far.
The result is the port and the host calls afterwards.  The two `#if 0` blocks
of the function are not compiled. -/
def LCS_Assist (opt : BuildOptions) (ext : Externals) (port : LCSPORT)
    (hostCalls : List HostCall) : LCSPORT × List HostCall :=
  let mac : List Nat := [0x01, 0x00, 0x5e, 0x00, 0x00, 0x01]
  let port1 : LCSPORT :=
    { port with
        sIPAssistsSupported := (port.sIPAssistsSupported ||| LCS_MULTICAST_SUPPORT) % U16_MOD
        sIPAssistsEnabled := (port.sIPAssistsEnabled ||| LCS_MULTICAST_SUPPORT) % U16_MOD }
  let port2 : LCSPORT :=
    { port1 with
        sIPAssistsSupported :=
          (port1.sIPAssistsSupported ||| LCS_INBOUND_CHECKSUM_SUPPORT) % U16_MOD
        sIPAssistsEnabled :=
          (port1.sIPAssistsEnabled ||| LCS_INBOUND_CHECKSUM_SUPPORT) % U16_MOD }
  let port3 : LCSPORT :=
    { port2 with
        sIPAssistsSupported :=
          (port2.sIPAssistsSupported ||| LCS_OUTBOUND_CHECKSUM_SUPPORT) % U16_MOD
        sIPAssistsEnabled :=
          (port2.sIPAssistsEnabled ||| LCS_OUTBOUND_CHECKSUM_SUPPORT) % U16_MOD }
  let q : Bool × List HostCall :=
    if opt.SIOCGIFHWADDR = true then
      if (ext.TUNTAP_IOCtl_MULTI true hostCalls mac).1 = 0 then
        (false, hostCalls ++ [HostCall.TUNTAP_IOCtl_SIOCADDMULTI mac,
                              HostCall.TUNTAP_IOCtl_SIOCDELMULTI mac])
      else (true, hostCalls ++ [HostCall.TUNTAP_IOCtl_SIOCADDMULTI mac])
    else (true, hostCalls)
  ({ port3 with fDoMCastAssist := q.1, fDoCkSumOffload := true }, q.2)

/-- The reply frame `LCS_QueryIPAssists` builds in its local `Reply`. -/
def LCS_QueryIPAssists_frame (ext : Externals) (w : LCSWorld) (buf : Mem)
    (pCmdFrame iCmdLen : Nat) : Mem :=
  STORE_HW (STORE_HW (STORE_HW (STORE_HW
    (INIT_REPLY_FRAME ext.stack sizeof_LCSQIPFRM buf pCmdFrame iCmdLen).1 12 ext.MACTABMAX)
    14 w.port.sIPAssistsSupported) 16 w.port.sIPAssistsEnabled) 18 0x0004

/-- A 22-byte IP-mode Write: a 20-byte Query IP Assists command frame (command
code 0xB2, sequence number 5) and the 2-byte zero terminator. -/
def exQIPBatch : Mem :=
  memOfList [0x00, 0x14, 0x00, 0x00, 0xB2, 0x00, 0x00, 0x05, 0x00, 0x00, 0x00, 0x00,
             0x00, 0x00, 0x00, 0x00, 0x00, 0x00, 0x00, 0x00,
             0x00, 0x00]

/-- An unused port: no interface, assist bitmaps zero. -/
def exPortNew : LCSPORT := { fd := 3 }

/-! ## The attention thread -/

/-- What the retry loop of `LCS_AttnThread` does that other threads or the
guest can observe: a call of `usleep` or a call of `device_attention`. -/
inductive AttnAction where
  | usleep (interval : Nat)
  | device_attention (pDevice : Nat)
deriving DecidableEq

/-- The state in which the retry loop of `LCS_AttnThread` ends: its calls in
order, and the values of `interval`, `dev_attn_rc` and `busy_waits`. -/
structure AttnRetry where
  actions : List AttnAction
  interval : Nat
  dev_attn_rc : Int
  busy_waits : Nat
deriving DecidableEq

/-- The loop `for( ; ; )` of `LCS_AttnThread` that raises the attention for one
`LCSATTN` block, from the top of an iteration.  `pending k` is what the test
`fDataPending || fReplyPending` of the iteration with `busy_waits = k` finds
(the flags belong to the device and are changed by other threads), `rc k` is
what the call of `device_attention` of that iteration returns.  One unit of
`fuel` is used per iteration; `none` means the loop is still running when the
fuel is used up. -/
def LCS_AttnThread_retry (pending : Nat → Bool) (rc : Nat → Int) (pDevice : Nat) :
    Nat → AttnRetry → Option AttnRetry
  | 0, _ => none
  | fuel + 1, s =>
    let actions1 := s.actions ++ [AttnAction.usleep s.interval]
    if pending s.busy_waits = false then
      some { s with actions := actions1 }
    else
      let dev_attn_rc := rc s.busy_waits
      let actions2 := actions1 ++ [AttnAction.device_attention pDevice]
      if dev_attn_rc ≠ 1 then
        some { s with actions := actions2, dev_attn_rc := dev_attn_rc }
      else
        let busy_waits := s.busy_waits + 1
        if busy_waits ≥ 20 then
          some { s with actions := actions2, dev_attn_rc := dev_attn_rc,
                        busy_waits := busy_waits }
        else
          LCS_AttnThread_retry pending rc pDevice fuel
            { actions := actions2, interval := s.interval * 2, dev_attn_rc := dev_attn_rc,
              busy_waits := busy_waits }

/-- The state of the retry loop on entry: `interval = 50`, `dev_attn_rc = 0`,
`busy_waits = 0`. -/
def AttnRetry.init : AttnRetry :=
  { actions := [], interval := 50, dev_attn_rc := 0, busy_waits := 0 }

/-- The calls of a retry loop up to and including its call number `n` of
`device_attention`: before the call number `k + 1` a sleep of `50 * 2 ^ k`
microseconds. -/
def attnCalls (pDevice : Nat) : Nat → List AttnAction
  | 0 => []
  | n + 1 =>
    attnCalls pDevice n ++ [AttnAction.usleep (50 * 2 ^ n), AttnAction.device_attention pDevice]

/-- The calls of a retry loop that makes `n` calls of `device_attention` and, if
it ends on the test of the pending flags, a last sleep before that test. -/
def attnSchedule (pDevice n : Nat) (lastSleep : Bool) : List AttnAction :=
  attnCalls pDevice n ++ (if lastSleep = true then [AttnAction.usleep (50 * 2 ^ n)] else [])

/-- `LCS_Write` adds an `LCSATTN` block for the device `pDevice` to the start of
the chain `pLCSBLK->pAttns`. -/
def LCS_Write_addAttn (pAttns : List Nat) (pDevice : Nat) : List Nat :=
  pDevice :: pAttns

/-- The loop of `LCS_AttnThread` that reverses the chain of `LCSATTN` blocks:
`curr` is the chain from `pLCSATTNcurr` on, `prev` the chain from
`pLCSATTNprev` on; the result is the chain `pLCSATTN` points to afterwards. -/
def LCS_AttnThread_reverse : List Nat → List Nat → List Nat
  | [], prev => prev
  | pDevice :: next, prev => LCS_AttnThread_reverse next (pDevice :: prev)

/-- The loop `while ( pLCSATTN )` of `LCS_AttnThread` over the chain: for each
block in turn the retry loop for its device, then the block is freed.  `obs i`
gives what the retry loop of the block number `i` observes.  The result lists,
for each block processed, its device and the end state of its retry loop. -/
def LCS_AttnThread_process (obs : Nat → (Nat → Bool) × (Nat → Int)) (fuel : Nat) :
    List Nat → Nat → Option (List (Nat × AttnRetry))
  | [], _ => some []
  | pDevice :: next, i =>
    match LCS_AttnThread_retry (obs i).1 (obs i).2 pDevice fuel AttnRetry.init with
    | none => none
    | some r =>
      (LCS_AttnThread_process obs fuel next (i + 1)).map (fun rest => (pDevice, r) :: rest)

/-- What one pass of the outer loop of `LCS_AttnThread` comes to once the wait
for `AttnEvent` is over: the thread leaves the loop (`fCloseInProgress`), or it
has taken the chain off `pLCSBLK->pAttns` and processed it. -/
inductive AttnPass where
  | exit
  | processed (pAttns : List Nat) (done : List (Nat × AttnRetry))
deriving DecidableEq

/-- One pass of the outer loop of `LCS_AttnThread` after the wait: the chain is
removed from `pLCSBLK->pAttns`, reversed, and processed. -/
def LCS_AttnThread_pass (obs : Nat → (Nat → Bool) × (Nat → Int)) (fuel : Nat)
    (fCloseInProgress : Bool) (pAttns : List Nat) : Option AttnPass :=
  if fCloseInProgress = true then some AttnPass.exit
  else
    let pLCSATTN := pAttns
    let pAttns : List Nat := []
    let pLCSATTN := LCS_AttnThread_reverse pLCSATTN []
    (LCS_AttnThread_process obs fuel pLCSATTN 0).map (fun done => AttnPass.processed pAttns done)

/-! ## An exact match that is not started -/

/-- Two devices of port 0: a started primary device with the IP address
10.0.0.2, and behind it a device with the IP address 10.0.0.1 that is not
started. -/
def exDevsFallback : List LCSDEV :=
  [{ sAddr := 0x0E20, bType := LCSDEV_TYPE_PRIMARY, lIPAddress := 0x0A000002,
     fDevStarted := true },
   { sAddr := 0x0E22, lIPAddress := 0x0A000001 }]

/-- The same two devices in the other order. -/
def exDevsNoFallback : List LCSDEV :=
  [{ sAddr := 0x0E22, lIPAddress := 0x0A000001 },
   { sAddr := 0x0E20, bType := LCSDEV_TYPE_PRIMARY, lIPAddress := 0x0A000002,
     fDevStarted := true }]

/-! ## Enqueue calls and Reads in any order -/

/-- Something that happens to the ring of a device: a call of one of the two
enqueue functions, or a call of `LCS_Read`. -/
inductive RingEvent where
  | enqueue (op : RingOp)
  | read (sCount : Nat) (pIOBuf : Mem) (st : CCWStatus)

/-- The device after the event.  A Read that finds a pending flag set drains the
ring; a Read that finds none waits, and has not touched the ring. -/
def RingEvent.run (dev : LCSDEV) : RingEvent → LCSDEV
  | RingEvent.enqueue op => op.run dev
  | RingEvent.read sCount pIOBuf st =>
    match LCS_Read [] dev sCount pIOBuf st with
    | some r => r.dev
    | none => dev

/-- The device after a sequence of events. -/
def runEvents (dev : LCSDEV) (evs : List RingEvent) : LCSDEV :=
  evs.foldl RingEvent.run dev

/-- The event is not the enqueue of a reply of size 0 without the baffle flag. -/
def RingEvent.notEmptyReply : RingEvent → Prop
  | RingEvent.enqueue (RingOp.reply _ n b) => n ≠ 0 ∨ b = true
  | _ => True

/-- The size given to the call is the size of a C object (no size for a Read). -/
def RingEvent.sizeOK : RingEvent → Prop
  | RingEvent.enqueue op => op.iSize ≤ PTRDIFF_MAX
  | _ => True

/-- The pending flags tell whether the ring holds a frame, the frames end at
most 6 bytes behind `iMaxFrameBufferSize`, and that is at most the size of
`bFrameBuffer`. -/
def PendingInv (dev : LCSDEV) : Prop :=
  ((dev.fReplyPending = true ∨ dev.fDataPending = true) ↔ 0 < dev.iFrameOffset) ∧
  dev.iFrameOffset ≤ dev.iMaxFrameBufferSize + 6 ∧
  dev.iMaxFrameBufferSize ≤ sizeof_bFrameBuffer

/-! ## The IP command handlers, part by part -/

/-- The body of the table loop of `LCS_DoMulticast` for one MAC address: the
port and `badrc` afterwards. -/
def LCS_DoMulticast_table_step (ext : Externals) (add : Bool) (s : LCSPORT × Int)
    (mac : List Nat) : LCSPORT × Int :=
  if add = true then
    let t := ext.MACTabAdd s.1.MCastTab mac 0
    if t.2 = 0 then
      ({ s.1 with MCastTab := t.1, nMCastCount := (s.1.nMCastCount + 1) % 256 }, s.2)
    else ({ s.1 with MCastTab := t.1 }, -t.2)
  else
    let t := ext.MACTabRem s.1.MCastTab mac
    if t.2 = 0 then
      ({ s.1 with MCastTab := t.1, nMCastCount := (s.1.nMCastCount + 255) % 256 }, s.2)
    else ({ s.1 with MCastTab := t.1 }, -t.2)

/-- The body of the request loop of `LCS_DoMulticast` for one MAC address: the
host calls and `badrc` afterwards. -/
def LCS_DoMulticast_ioctl_step (ext : Externals) (add : Bool) (s : List HostCall × Int)
    (mac : List Nat) : List HostCall × Int :=
  let io := ext.TUNTAP_IOCtl_MULTI add s.1 mac
  let calls := s.1 ++
    [if add = true then HostCall.TUNTAP_IOCtl_SIOCADDMULTI mac
     else HostCall.TUNTAP_IOCtl_SIOCDELMULTI mac]
  if io.1 = 0 then (calls, s.2) else (calls, io.1)

/-- The MAC addresses of the first `min( hwNumIPPairs, MAX_IP_MAC_PAIRS )`
pairs of the Set or Delete IP Multicast command frame at `pCmdFrame`. -/
def LCS_DoMulticast_macs (buf : Mem) (pCmdFrame : Nat) : List (List Nat) :=
  (List.range (if FETCH_HW buf (pCmdFrame + 12) > MAX_IP_MAC_PAIRS then MAX_IP_MAC_PAIRS
      else FETCH_HW buf (pCmdFrame + 12))).map
    (fun i => readBytes buf (pCmdFrame + 20 + sizeof_LCSIPMPAIR * i + 4) IFHWADDRLEN)

/-- The value `LCS_DoMulticast` has in `badrc` when it tests it; 0 when the
function was compiled without either loop. -/
def LCS_DoMulticast_badrc (opt : BuildOptions) (ext : Externals) (add : Bool) (w : LCSWorld)
    (buf : Mem) (pCmdFrame : Nat) : Int :=
  if w.port.fDoMCastAssist = true then
    (LCS_DoMulticast_table ext add w.port (LCS_DoMulticast_macs buf pCmdFrame)).2
  else if opt.SIOCGIFHWADDR = true then
    (LCS_DoMulticast_ioctl ext add w.hostCalls (LCS_DoMulticast_macs buf pCmdFrame)).2
  else 0

/-- The reply frame `LCS_DoMulticast` builds in its local `Reply`. -/
def LCS_DoMulticast_frame (opt : BuildOptions) (ext : Externals) (add : Bool) (w : LCSWorld)
    (buf : Mem) (pCmdFrame iCmdLen : Nat) : Mem :=
  if LCS_DoMulticast_badrc opt ext add w buf pCmdFrame ≠ 0 then
    STORE_HW (INIT_REPLY_FRAME ext.stack sizeof_LCSIPMFRM buf pCmdFrame iCmdLen).1 8 0xFFFF
  else (INIT_REPLY_FRAME ext.stack sizeof_LCSIPMFRM buf pCmdFrame iCmdLen).1

/-- The state in which `LCS_DoMulticast` calls `ENQUEUE_REPLY_FRAME`. -/
def LCS_DoMulticast_pre (opt : BuildOptions) (ext : Externals) (add : Bool) (w : LCSWorld)
    (buf : Mem) (pCmdFrame : Nat) : LCSWorld :=
  if w.port.fDoMCastAssist = true then
    { w with port :=
        (LCS_DoMulticast_table ext add w.port (LCS_DoMulticast_macs buf pCmdFrame)).1 }
  else if opt.SIOCGIFHWADDR = true then
    { w with hostCalls :=
        (LCS_DoMulticast_ioctl ext add w.hostCalls (LCS_DoMulticast_macs buf pCmdFrame)).1 }
  else w

/-- The return codes of the table calls `LCS_DoMulticast` makes for the MAC
addresses `macs`, one after the other, from the table `tab` on (`MACTabAdd` or
`MACTabRem`, each on the table the call before left). -/
def mcastTableResults (ext : Externals) (add : Bool) : Mem → List (List Nat) → List Int
  | _, [] => []
  | tab, mac :: rest =>
    (if add = true then (ext.MACTabAdd tab mac 0).2 else (ext.MACTabRem tab mac).2) ::
      mcastTableResults ext add
        (if add = true then (ext.MACTabAdd tab mac 0).1 else (ext.MACTabRem tab mac).1) rest

/-- The multicast table after the table calls `LCS_DoMulticast` makes for the
MAC addresses `macs`, one after the other, from the table `tab` on. -/
def mcastTableAfter (ext : Externals) (add : Bool) : Mem → List (List Nat) → Mem
  | tab, [] => tab
  | tab, mac :: rest =>
    mcastTableAfter ext add
      (if add = true then (ext.MACTabAdd tab mac 0).1 else (ext.MACTabRem tab mac).1) rest

/-- The return codes of the `SIOCADDMULTI` or `SIOCDELMULTI` requests
`LCS_DoMulticast` makes for the MAC addresses `macs`, one after the other, the
host calls made so far being `log`. -/
def mcastIoctlResults (ext : Externals) (add : Bool) : List HostCall → List (List Nat) → List Int
  | _, [] => []
  | log, mac :: rest =>
    (ext.TUNTAP_IOCtl_MULTI add log mac).1 ::
      mcastIoctlResults ext add
        (log ++ [if add = true then HostCall.TUNTAP_IOCtl_SIOCADDMULTI mac
                 else HostCall.TUNTAP_IOCtl_SIOCDELMULTI mac]) rest

/-- The return codes of the operations `LCS_DoMulticast` applies for the MAC
addresses `macs`: table calls when the port filters multicast frames itself,
requests to the host otherwise. -/
def mcastResults (ext : Externals) (add : Bool) (w : LCSWorld) (macs : List (List Nat)) :
    List Int :=
  if w.port.fDoMCastAssist = true then mcastTableResults ext add w.port.MCastTab macs
  else mcastIoctlResults ext add w.hostCalls macs

/-- A 46-byte IP-mode Write: a 44-byte Set IP Multicast command frame (command
code 0xB4) with two IP/MAC pairs, 224.0.0.1 with 01:00:5E:00:00:01 and
224.0.0.251 with 01:00:5E:00:00:FB, and the 2-byte zero terminator. -/
def exSetIPMBatch : Mem :=
  memOfList [0x00, 0x2C, 0x00, 0x00, 0xB4, 0x00, 0x00, 0x07, 0x00, 0x00, 0x00, 0x00,
             0x00, 0x02, 0x00, 0x00, 0x00, 0x00, 0x00, 0x04,
             0xE0, 0x00, 0x00, 0x01, 0x01, 0x00, 0x5E, 0x00, 0x00, 0x01, 0x00, 0x00,
             0xE0, 0x00, 0x00, 0xFB, 0x01, 0x00, 0x5E, 0x00, 0x00, 0xFB, 0x00, 0x00,
             0x00, 0x00]

/-- The example host with a multicast table that takes every address but
01:00:5E:00:00:FB, for which `MACTabAdd` returns -ENOSPC (-28). -/
def exExtTableFull : Externals :=
  { exExt with
      MACTabAdd := fun tab mac _ =>
        if mac = [0x01, 0x00, 0x5E, 0x00, 0x00, 0xFB] then (tab, -28) else (tab, 0) }

/-- An IP device with an empty ring on an open port that keeps the multicast
table itself. -/
def exWorldMCast : LCSWorld :=
  { port := { fd := 3, fDoMCastAssist := true } }

/-! ## Example SNA input -/

/-- A 14-byte SNA-mode Write: a 12-byte command frame with the command code
0x99, which has no handler of its own, and the 2-byte zero terminator. -/
def exSNAOtherBatch : Mem :=
  memOfList [0x00, 0x0C, 0x00, 0x00, 0x99, 0x00, 0x00, 0x03, 0x00, 0x00, 0x00, 0x00,
             0x00, 0x00]

/-- An SNA device of port 1 with the address 0x0E40 and an empty ring on an open
port. -/
def exWorldSNA1 : LCSWorld :=
  { dev := { bMode := LCSDEV_MODE_SNA, bPort := 1, sAddr := 0x0E40 }, port := { fd := 3 } }

/-! ## The IP command handlers as reply enqueues -/

/-- The nine handlers of the `switch (pCmdFrame->bCmdCode)` of the IP branch. -/
def isIpCmdHandler (h : LCSHandler) : Prop :=
  h = LCSHandler.LCS_Startup ∨ h = LCSHandler.LCS_Shutdown ∨ h = LCSHandler.LCS_StartLan ∨
  h = LCSHandler.LCS_StopLan ∨ h = LCSHandler.LCS_QueryIPAssists ∨
  h = LCSHandler.LCS_LanStats ∨ h = LCSHandler.LCS_AddMulticast ∨
  h = LCSHandler.LCS_DelMulticast ∨ h = LCSHandler.LCS_DefaultCmdProc

/-- The value `LCS_Startup` assigns to `iMaxFrameBufferSize` before it enqueues
its reply, `iOrig` being the value it finds. -/
def LCS_Startup_newMax (iOrig : Nat) (buf : Mem) (pCmdFrame : Nat) : Nat :=
  if FETCH_HW buf (pCmdFrame + 12) > sizeof_bFrameBuffer then
    (if iOrig = 0 then sizeof_bFrameBuffer % U16_MOD else iOrig)
  else if FETCH_HW buf (pCmdFrame + 12) < CTC_MIN_FRAME_BUFFER_SIZE then
    (if iOrig = 0 then sizeof_bFrameBuffer % U16_MOD else iOrig)
  else FETCH_HW buf (pCmdFrame + 12)

/-- The state in which the IP command handler `h` calls `ENQUEUE_REPLY_FRAME`:
its host calls have been made, and the fields of the device and the port it
sets before the enqueue are set. -/
def ipPre (opt : BuildOptions) (ext : Externals) (h : LCSHandler) (a : LCSWorld) (buf : Mem)
    (pCmdFrame : Nat) : LCSWorld :=
  match h with
  | LCSHandler.LCS_Startup =>
    { a with
        dev := { a.dev with
          iMaxFrameBufferSize := LCS_Startup_newMax a.dev.iMaxFrameBufferSize buf pCmdFrame }
        hostCalls := a.hostCalls ++
          (if a.port.fPreconfigured = false then
            [HostCall.TUNTAP_SetIPAddr 0, HostCall.TUNTAP_SetMTU 1500] ++
              (if opt.OPTION_TUNTAP_SETMACADDR = true ∧ a.port.fLocalMAC = true then
                [HostCall.TUNTAP_SetMACAddr] else [])
           else []) }
  | LCSHandler.LCS_StartLan =>
    { a with hostCalls := a.hostCalls ++
        ((if fStartPending a = true then
            (if a.port.fPreconfigured = false then
              [HostCall.TUNTAP_SetFlags true true opt.TUNTAP_IFF_RUNNING_NEEDED] else []) ++
            (if opt.OPTION_TUNTAP_DELADD_ROUTES = true ∧ a.port.fPreconfigured = false then
              a.port.pRoutes.map (fun rt => HostCall.TUNTAP_AddRoute rt.1 rt.2 false) else [])
          else []) ++
         (if opt.OPTION_TUNTAP_DELADD_ROUTES = true ∧ a.port.fPreconfigured = false then
            match a.pszIPAddress with
            | some ip => [HostCall.TUNTAP_AddRoute ip 0xFFFFFFFF true]
            | none => []
          else [])) }
  | LCSHandler.LCS_StopLan =>
    UpdatePortStarted false
      { a with hostCalls := a.hostCalls ++
          (if a.port.fPreconfigured = false then
            [HostCall.TUNTAP_SetFlags false false false] ++
              (if opt.OPTION_TUNTAP_DELADD_ROUTES = true then
                (match a.pszIPAddress with
                  | some ip => [HostCall.TUNTAP_DelRoute ip 0xFFFFFFFF true]
                  | none => []) ++
                a.port.pRoutes.map (fun rt => HostCall.TUNTAP_DelRoute rt.1 rt.2 false)
               else [])
           else []) }
  | LCSHandler.LCS_LanStats => (LCS_LanStats_getMAC opt ext a).1
  | LCSHandler.LCS_AddMulticast => LCS_DoMulticast_pre opt ext true a buf pCmdFrame
  | LCSHandler.LCS_DelMulticast => LCS_DoMulticast_pre opt ext false a buf pCmdFrame
  | _ => a

/-- The reply frame `LCS_LanStats` builds in its local `Reply`. -/
def LCS_LanStats_frame (opt : BuildOptions) (ext : Externals) (w : LCSWorld) (buf : Mem)
    (pCmdFrame iCmdLen : Nat) : Mem :=
  let q := LCS_LanStats_getMAC opt ext w
  let r := INIT_REPLY_FRAME ext.stack sizeof_LCSLSTFRM buf pCmdFrame iCmdLen
  let reply := STORE_HW r.1 8 (q.2.2 % (U16_MOD : Int)).toNat
  let reply := memcpy reply 22 q.2.1 0 IFHWADDRLEN
  if opt.OPTION_TUNTAP_LCS_SAME_ADDR = true then reply
  else storeByte reply 27 ((reply 27 + 1) % 256)

/-- The reply frame the IP command handler `h` passes to `ENQUEUE_REPLY_FRAME`. -/
def ipFrame (opt : BuildOptions) (ext : Externals) (h : LCSHandler) (a : LCSWorld)
    (buf : Mem) (pCmdFrame iCmdLen : Nat) : Mem :=
  match h with
  | LCSHandler.LCS_Startup =>
    storeByte (storeByte
      (INIT_REPLY_FRAME ext.stack sizeof_LCSSTRTFRM buf pCmdFrame iCmdLen).1 10 LCS_FRMTYP_ENET)
      11 a.dev.bPort
  | LCSHandler.LCS_StartLan =>
    (INIT_REPLY_FRAME ext.stack sizeof_LCSSTRTFRM buf pCmdFrame iCmdLen).1
  | LCSHandler.LCS_StopLan =>
    (INIT_REPLY_FRAME ext.stack sizeof_LCSSTDFRM buf pCmdFrame iCmdLen).1
  | LCSHandler.LCS_QueryIPAssists => LCS_QueryIPAssists_frame ext a buf pCmdFrame iCmdLen
  | LCSHandler.LCS_LanStats => LCS_LanStats_frame opt ext a buf pCmdFrame iCmdLen
  | LCSHandler.LCS_AddMulticast => LCS_DoMulticast_frame opt ext true a buf pCmdFrame iCmdLen
  | LCSHandler.LCS_DelMulticast => LCS_DoMulticast_frame opt ext false a buf pCmdFrame iCmdLen
  | _ =>
    storeByte (storeByte
      (INIT_REPLY_FRAME ext.stack sizeof_LCSSTDFRM buf pCmdFrame iCmdLen).1 10 LCS_FRMTYP_ENET)
      11 a.dev.bPort

/-- The reply length the IP command handler `h` passes to `ENQUEUE_REPLY_FRAME`. -/
def ipLen (ext : Externals) (h : LCSHandler) (buf : Mem) (pCmdFrame iCmdLen : Nat) : Nat :=
  match h with
  | LCSHandler.LCS_Startup =>
    (INIT_REPLY_FRAME ext.stack sizeof_LCSSTRTFRM buf pCmdFrame iCmdLen).2
  | LCSHandler.LCS_StartLan =>
    (INIT_REPLY_FRAME ext.stack sizeof_LCSSTRTFRM buf pCmdFrame iCmdLen).2
  | LCSHandler.LCS_QueryIPAssists =>
    (INIT_REPLY_FRAME ext.stack sizeof_LCSQIPFRM buf pCmdFrame iCmdLen).2
  | LCSHandler.LCS_LanStats => sizeof_LCSLSTFRM
  | LCSHandler.LCS_AddMulticast =>
    (INIT_REPLY_FRAME ext.stack sizeof_LCSIPMFRM buf pCmdFrame iCmdLen).2
  | LCSHandler.LCS_DelMulticast =>
    (INIT_REPLY_FRAME ext.stack sizeof_LCSIPMFRM buf pCmdFrame iCmdLen).2
  | _ => (INIT_REPLY_FRAME ext.stack sizeof_LCSSTDFRM buf pCmdFrame iCmdLen).2

/-- What the IP command handler `h`, called in the state `a`, does to the state
`x` in which `ENQUEUE_REPLY_FRAME` has returned. -/
def ipPost (h : LCSHandler) (a x : LCSWorld) : LCSWorld :=
  match h with
  | LCSHandler.LCS_Startup => { x with dev := { x.dev with fDevStarted := true } }
  | LCSHandler.LCS_Shutdown => { x with dev := { x.dev with fDevStarted := false } }
  | LCSHandler.LCS_StartLan => if fStartPending a = true then UpdatePortStarted true x else x
  | _ => x

/-! ## Batches of command frames and their replies -/

/-- The input `B` holds, from the offset `off` on, the command frames that start
at the offsets `ps`, one after the other, and then the zero offset: each frame
has the type 0x00, an initiator byte other than 0x01, at least 12 bytes, and
the offset of the next frame in its first two bytes. -/
def CmdFramesAt (B : Mem) : Nat → List Nat → Prop
  | off, [] => FETCH_HW B off = 0
  | off, q :: ps =>
    q = off ∧ off + 12 ≤ FETCH_HW B off ∧ B (off + 2) = LCS_FRMTYP_CMD ∧
    B (off + 5) ≠ LCS_INITIATOR_LGW ∧ CmdFramesAt B (FETCH_HW B off) ps

/-- The ring bytes `bf` hold, from `off` up to `stop`, one reply frame for each
of the command frames of `B` that start at the offsets `ps`, in that order: each
reply has the offset of the next one in its first two bytes, at least 12 bytes,
and the command code (byte 4) and the sequence number (bytes 6..7) of its
command frame. -/
def RepliesAt (bf B : Mem) : Nat → List Nat → Nat → Prop
  | off, [], stop => off = stop
  | off, q :: ps, stop =>
    off + 12 ≤ FETCH_HW bf off ∧ bf (off + 4) = B (q + 4) ∧ bf (off + 6) = B (q + 6) ∧
    bf (off + 7) = B (q + 7) ∧ RepliesAt bf B (FETCH_HW bf off) ps stop

/-- A state of an IP-mode Write in which the reply enqueue works as on a healthy
device: the port is open, no baffle is pending, `iMaxFrameBufferSize` is at most
the size of `bFrameBuffer`, and `iFrameOffset` is a `U16`. -/
def IPOK (a : LCSWorld) : Prop :=
  a.port.fd ≠ -1 ∧ a.port.fCloseInProgress = false ∧ a.dev.fPendingBaffle = false ∧
    a.dev.iMaxFrameBufferSize ≤ sizeof_bFrameBuffer ∧ a.dev.iFrameOffset < U16_MOD

/-- A 62-byte IP-mode Write of three command frames and the zero terminator:
Startup (0x07, sequence number 1, 24 bytes), Query IP Assists (0xB2, sequence
number 2, 20 bytes) and a command without a handler of its own (0x55, sequence
number 3, 16 bytes). -/
def exThreeCmdBatch : Mem :=
  memOfList [0x00, 0x18, 0x00, 0x00, 0x07, 0x00, 0x00, 0x01, 0x00, 0x00, 0x00, 0x00,
             0x50, 0x00, 0x00, 0x00, 0x00, 0x00, 0x00, 0x00, 0x00, 0x00, 0x00, 0x00,
             0x00, 0x2C, 0x00, 0x00, 0xB2, 0x00, 0x00, 0x02, 0x00, 0x00, 0x00, 0x00,
             0x00, 0x00, 0x00, 0x00, 0x00, 0x00, 0x00, 0x00,
             0x00, 0x3C, 0x00, 0x00, 0x55, 0x00, 0x00, 0x03, 0x00, 0x00, 0x00, 0x00,
             0x00, 0x00, 0x00, 0x00,
             0x00, 0x00]

/-! ## Example batches that end with equipment check -/

/-- The example host, but every write to the TAP fails (returns -1). -/
def exExtTapFails : Externals :=
  { exExt with TUNTAP_Write := fun _ _ => -1 }

/-- A 52-byte IP-mode Write: a 22-byte Ethernet frame (type 0x01, source MAC
02:00:00:00:00:01, 18 bytes for the TAP) at byte 0, a 24-byte Startup command
frame (type 0x00, command code 0x07) at byte 22, a 4-byte frame of the
unsupported type 0x02 at byte 46, and the zero offset at byte 50. -/
def exTapFailBatch : Mem :=
  memOfList [0x00, 0x16, 0x01, 0x00,
             0xFF, 0xFF, 0xFF, 0xFF, 0xFF, 0xFF, 0x02, 0x00, 0x00, 0x00, 0x00, 0x01,
             0x08, 0x00, 0xDE, 0xAD, 0xBE, 0xEF,
             0x00, 0x2E, 0x00, 0x00, 0x07, 0x00, 0x00, 0x01, 0x00, 0x00, 0x00, 0x00,
             0x50, 0x00, 0x00, 0x00, 0x00, 0x00, 0x00, 0x00, 0x00, 0x00, 0x00, 0x00,
             0x00, 0x32, 0x02, 0x00,
             0x00, 0x00]

/-- A 22-byte IP-mode Write: an 8-byte Ethernet frame (type 0x01, 4 bytes for
the TAP) at byte 0, a 12-byte command frame (type 0x00, command code 0x00,
sequence number 0) at byte 8, and the zero offset at byte 20.  The source MAC
of the Ethernet frame would stand in bytes 10..15, which are bytes 2..7 of the
command frame, all zero. -/
def exShortEthBatch : Mem :=
  memOfList [0x00, 0x08, 0x01, 0x00, 0xFF, 0xFF, 0xFF, 0xFF,
             0x00, 0x14, 0x00, 0x00, 0x00, 0x00, 0x00, 0x00, 0x00, 0x00, 0x00, 0x00,
             0x00, 0x00]

/-- An IP device with an empty ring on an open port whose MAC address is
02:00:5E:10:20:30. -/
def exWorldMAC : LCSWorld :=
  { port := { fd := 3, MAC_Address := memOfList [0x02, 0x00, 0x5E, 0x10, 0x20, 0x30] } }

/-! ## Examples for the reader thread and the frame buffer -/

/-- `ETH_TYPE_IPV6`-typed inbound frame: an IPv6 frame (EtherType 0x86DD) for the
MAC 02:00:5E:10:20:31, 54 bytes (Ethernet header and IPv6 header). -/
def exIPv6Frame : Mem :=
  memOfList [0x02, 0x00, 0x5e, 0x10, 0x20, 0x31, 0x02, 0x00, 0x00, 0x00, 0x00, 0x09,
             0x86, 0xDD,
             0x60, 0x00, 0x00, 0x00, 0x00, 0x00, 0x3B, 0x40,
             0xFE, 0x80, 0x00, 0x00, 0x00, 0x00, 0x00, 0x00,
             0x00, 0x00, 0x00, 0x00, 0x00, 0x00, 0x00, 0x09,
             0xFE, 0x80, 0x00, 0x00, 0x00, 0x00, 0x00, 0x00,
             0x00, 0x00, 0x00, 0x00, 0x00, 0x00, 0x00, 0x01]

/-- A device block in extended mode. -/
def exBlkExtended : DEVBLK := { fd := 3, ctcxmode := 1 }

/-- A 20-byte LAN Statistics command frame (type 0x00, command code 0x04,
sequence number 5) followed by the zero offset. -/
def exLanStatBatch : Mem :=
  memOfList [0x00, 0x14, 0x00, 0x00, 0x04, 0x00, 0x00, 0x05, 0x00, 0x00, 0x01, 0x00,
             0x00, 0x00, 0x00, 0x00, 0x00, 0x00, 0x00, 0x00,
             0x00, 0x00]

/-- An SNA device on an open port whose ring holds 24 bytes of replies that
have not been read yet. -/
def exWorldSNAPending : LCSWorld :=
  { dev := { bMode := LCSDEV_MODE_SNA, iFrameOffset := 24, fReplyPending := true },
    port := { fd := 3 } }

/-- An 18-byte SNA-mode Write: one 16-byte frame of type 0x04 (offset field
0x0010) and the 2-byte zero terminator. -/
def exBaffleFrameBatch : Mem :=
  memOfList [0x00, 0x10, 0x04, 0x00, 0x00, 0x0C, 0x0C, 0x99, 0x00, 0x03, 0xC0, 0x00,
             0x00, 0x00, 0x00, 0x00,
             0x00, 0x00]

/-- The SNA example device after a 24-byte reply has been enqueued on its empty
ring with `bBafflePres` set: eight reserved bytes, the reply at byte 8. -/
def exDevBaffled : LCSDEV :=
  (LCS_DoEnqueueReplyFrame exWorldSNA.dev exReply 24 true).dev

/-- The device `exDevBaffled` after the 34-byte inbound frame `exIPFrame` has
been enqueued behind the reply. -/
def exDevBaffledEth : LCSDEV :=
  (LCS_DoEnqueueEthFrame exDevBaffled 0 exIPFrame 34).dev

/-! ## The OAT file -/

/-- `LCS_MAX_PORTS`, the number of elements of `pLCSBLK->Port`. -/
def LCS_MAX_PORTS : Nat := 4

/-- The bytes of a C string, without the terminating NUL. -/
def cstr (s : String) : List Nat := s.toList.map Char.toNat

/-- One statement of the OAT file as `BuildOAT` takes it apart with `strtok_r`
at blanks and tabs, after `ReadOAT` has returned it and the symbols have been
substituted: the keyword and the tokens behind it, the first of which is the
operand.  `ReadOAT` returns no empty statement, so there is a keyword. -/
structure OATStatement where
  pszKeyword : List Nat
  tokens : List (List Nat) := []

/-- What `BuildOAT` calls but the repository does not define.

* `MAX_ARGS`: the number of elements of `argv`.
* `strcasecmp a b`: the return value, which the code only compares with 0.
* `sscanf_hi s`: the return value of `sscanf( s, "%hi%c", &sPort, &c )` and the
  `U16` it leaves in `sPort`, which was 0 before.
* `sscanf_hx s`: the same for `sscanf( s, "%hx%c", &sDevNum, &c )`.
* `inet_aton s`: the return value and `addr.s_addr`, as the number its four
  bytes spell big-endian (see `netU32`).
* `ParseMAC s mac`: the return value and the six bytes at `pbMACAddr`
  afterwards, `mac` being what they were before. -/
structure OATExternals where
  MAX_ARGS : Nat
  strcasecmp : List Nat → List Nat → Int
  sscanf_hi : List Nat → Int × Nat
  sscanf_hx : List Nat → Int × Nat
  inet_aton : List Nat → Int × Nat
  ParseMAC : List Nat → Mem → Int × Mem

/-- The fields of `LCSPORT` that `BuildOAT` writes; a route is the pair of
strings `pszNetAddr`, `pszNetMask` of an `LCSRTE`. -/
structure OATPort where
  MAC_Address : Mem := fun _ => 0
  szMACAddress : List Nat := []
  fLocalMAC : Bool := false
  pRoutes : List (List Nat × List Nat) := []

/-- A device block as `BuildOAT` leaves it, with the string `pszIPAddress`
(`none` for `NULL`). -/
structure OATDevice where
  dev : LCSDEV
  pszIPAddress : Option (List Nat) := none

/-- The fields of `LCSBLK` that `BuildOAT` reads or writes.  `Port` is indexed by
whatever the code indexes it with; the array has `LCS_MAX_PORTS` elements. -/
structure LCSBLK where
  pDevices : List OATDevice := []
  icDevices : Nat := 0
  Port : Nat → OATPort := fun _ => {}

/-- The state of a run of `BuildOAT` between two statements: the `LCSBLK`, the
local variable `lIPAddr`, and the values of `sPort` with which the run has
indexed `pLCSBLK->Port` so far, in order. -/
structure OATRun where
  blk : LCSBLK
  lIPAddr : Nat := 0
  portIndex : List Nat := []

/-- The loop of `BuildOAT` that fills `argv`: the tokens behind the operand, up
to `MAX_ARGS` of them and up to the first that starts with `#`. -/
def BuildOAT_argv : Nat → List (List Nat) → List (List Nat)
  | 0, _ => []
  | _ + 1, [] => []
  | n + 1, t :: rest => if t.head? = some 0x23 then [] else t :: BuildOAT_argv n rest

/-- The block `malloc` returns for a device after `memset( pLCSDev, 0, sizeof( LCSDEV ) )`. -/
def LCSDEV_zero : LCSDEV := { bMode := 0, iMaxFrameBufferSize := 0 }

/-- The end of the device branch of `BuildOAT`: the new `LCSDEV` is filled in,
added to the end of the chain and counted.  `bPort` is a `BYTE`. -/
def BuildOAT_newDevice (run : OATRun) (sDevNum bMode sPort bType lIPAddr : Nat)
    (pszIPAddress : Option (List Nat)) : OATRun :=
  let pLCSDev : OATDevice :=
    { dev := { LCSDEV_zero with
                sAddr := sDevNum
                bMode := bMode
                bPort := sPort % 256
                bType := bType
                lIPAddress := lIPAddr }
      pszIPAddress := pszIPAddress }
  { run with
      lIPAddr := lIPAddr
      blk := { run.blk with
                pDevices := run.blk.pDevices ++ [pLCSDev]
                icDevices :=
                  if bMode = LCSDEV_MODE_IP then run.blk.icDevices + 2
                  else run.blk.icDevices + 1 } }

/-- The `HWADD` branch of `BuildOAT`. -/
def BuildOAT_HWADD (ext : OATExternals) (run : OATRun) (pszOperand : Option (List Nat))
    (argv : List (List Nat)) : Int × OATRun :=
  match pszOperand with
  | none => (-1, run)
  | some op =>
    if argv.length ≠ 1 ∨ (ext.sscanf_hi op).1 ≠ 1 then (-1, run)
    else
      let sPort := (ext.sscanf_hi op).2
      let pLCSPORT := run.blk.Port sPort
      let pm := ext.ParseMAC (argv.headD []) pLCSPORT.MAC_Address
      let setPort (p : OATPort) : OATRun :=
        { run with
            portIndex := run.portIndex ++ [sPort]
            blk := { run.blk with Port := fun i => if i = sPort then p else run.blk.Port i } }
      if pm.1 ≠ 0 ∨ pm.2 0 &&& 0x02 = 0 ∨ pm.2 0 &&& 0x01 ≠ 0 then
        (-1, setPort { pLCSPORT with MAC_Address := memset pm.2 0 0 6 })
      else
        (0, setPort { pLCSPORT with
                        MAC_Address := pm.2
                        szMACAddress := (argv.headD []).take 31
                        fLocalMAC := true })

/-- The `ROUTE` branch of `BuildOAT`. -/
def BuildOAT_ROUTE (ext : OATExternals) (run : OATRun) (pszOperand : Option (List Nat))
    (argv : List (List Nat)) : Int × OATRun :=
  match pszOperand with
  | none => (-1, run)
  | some op =>
    if argv.length ≠ 2 ∨ (ext.sscanf_hi op).1 ≠ 1 then (-1, run)
    else
      let sPort := (ext.sscanf_hi op).2
      if (ext.inet_aton (argv.headD [])).1 = 0 then (-1, run)
      else if (ext.inet_aton (argv.getD 1 [])).1 = 0 then (-1, run)
      else
        let pLCSPORT := run.blk.Port sPort
        (0, { run with
                portIndex := run.portIndex ++ [sPort]
                blk := { run.blk with
                          Port := fun i =>
                            if i = sPort then
                              { pLCSPORT with
                                  pRoutes := pLCSPORT.pRoutes ++
                                    [(argv.headD [], argv.getD 1 [])] }
                            else run.blk.Port i } })

/-- The branch of `BuildOAT` for a device statement. -/
def BuildOAT_device (ext : OATExternals) (run : OATRun) (pszKeyword : List Nat)
    (pszOperand : Option (List Nat)) (argv : List (List Nat)) : Int × OATRun :=
  match pszOperand with
  | none => (-1, run)
  | some op =>
    if pszKeyword.length > 4 ∨ (ext.sscanf_hx pszKeyword).1 ≠ 1 then (-1, run)
    else
      let sDevNum := (ext.sscanf_hx pszKeyword).2
      if ext.strcasecmp op (cstr "IP") = 0 then
        let bMode := LCSDEV_MODE_IP
        if argv.length < 1 then (-1, run)
        else if (ext.sscanf_hi (argv.headD [])).1 ≠ 1 then (-1, run)
        else
          let sPort := (ext.sscanf_hi (argv.headD [])).2
          if argv.length > 1 then
            let t : Option Nat :=
              if ext.strcasecmp (argv.getD 1 []) (cstr "PRI") = 0 then some LCSDEV_TYPE_PRIMARY
              else if ext.strcasecmp (argv.getD 1 []) (cstr "SEC") = 0 then
                some LCSDEV_TYPE_SECONDARY
              else if ext.strcasecmp (argv.getD 1 []) (cstr "NO") = 0 then some LCSDEV_TYPE_NONE
              else none
            match t with
            | none => (-1, run)
            | some bType =>
              if argv.length > 2 then
                let pszIPAddress := argv.getD 2 []
                if (ext.inet_aton pszIPAddress).1 = 0 then (-1, run)
                else
                  let lIPAddr := (ext.inet_aton pszIPAddress).2
                  (0, BuildOAT_newDevice run sDevNum bMode sPort bType lIPAddr
                        (some pszIPAddress))
              else (0, BuildOAT_newDevice run sDevNum bMode sPort bType run.lIPAddr none)
          else (0, BuildOAT_newDevice run sDevNum bMode sPort 0 run.lIPAddr none)
      else if ext.strcasecmp op (cstr "SNA") = 0 then
        let bMode := LCSDEV_MODE_SNA
        if argv.length < 1 then (-1, run)
        else if (ext.sscanf_hi (argv.headD [])).1 ≠ 1 then (-1, run)
        else
          let sPort := (ext.sscanf_hi (argv.headD [])).2
          if argv.length > 1 then (-1, run)
          else (0, BuildOAT_newDevice run sDevNum bMode sPort 0 run.lIPAddr none)
      else (-1, run)

/-- The body of the `for (;;)` loop of `BuildOAT` for one statement: the value
`BuildOAT` returns if it returns in this statement (-1), else 0, and the state
afterwards. -/
def BuildOAT_statement (ext : OATExternals) (run : OATRun) (stmt : OATStatement) :
    Int × OATRun :=
  let pszOperand := stmt.tokens.head?
  let argv := BuildOAT_argv ext.MAX_ARGS stmt.tokens.tail
  if ext.strcasecmp stmt.pszKeyword (cstr "HWADD") = 0 then
    BuildOAT_HWADD ext run pszOperand argv
  else if ext.strcasecmp stmt.pszKeyword (cstr "ROUTE") = 0 then
    BuildOAT_ROUTE ext run pszOperand argv
  else BuildOAT_device ext run stmt.pszKeyword pszOperand argv

/-- The `for (;;)` loop of `BuildOAT` over the statements `ReadOAT` returns
before it returns `NULL`. -/
def BuildOAT_loop (ext : OATExternals) : List OATStatement → OATRun → Int × OATRun
  | [], run => (0, run)
  | stmt :: rest, run =>
    let r := BuildOAT_statement ext run stmt
    if r.1 ≠ 0 then r else BuildOAT_loop ext rest r.2

/-- `BuildOAT( pszOATName, pLCSBLK )`.  `file` is `none` when the file cannot be
opened, else the statements of the file; the result is the return value and the
state at the return.  `malloc` and `strdup` are taken to succeed. -/
def BuildOAT (ext : OATExternals) (file : Option (List OATStatement)) (blk : LCSBLK) :
    Int × OATRun :=
  match file with
  | none => (-1, { blk := blk })
  | some stmts => BuildOAT_loop ext stmts { blk := blk, lIPAddr := 0 }

/-! ## An example host for the OAT file -/

/-- The value of the digit `c` in the base `base`, if it is one. -/
def exDigit (base c : Nat) : Option Nat :=
  let v : Option Nat :=
    if 48 ≤ c ∧ c ≤ 57 then some (c - 48)
    else if 97 ≤ c ∧ c ≤ 102 then some (c - 87)
    else if 65 ≤ c ∧ c ≤ 70 then some (c - 55)
    else none
  match v with
  | some d => if d < base then some d else none
  | none => none

/-- The number the longest run of digits at the head of a string spells, if
there is a digit, and what follows it. -/
def exDigits (base : Nat) : List Nat → Option Nat → Option Nat × List Nat
  | [], acc => (acc, [])
  | c :: cs, acc =>
    match exDigit base c with
    | some d => exDigits base cs (some (acc.getD 0 * base + d))
    | none => (acc, c :: cs)

/-- The example `sscanf` of an unsigned number and a character: `base` is 16 for
`%hx` and 0 for `%hi`, which reads a number that starts with `0x` as hexadecimal
and another that starts with `0` as octal.  The return value is 1 when the
string is a number and nothing else. -/
def exScan (base : Nat) (s : List Nat) : Int × Nat :=
  let hex : Bool :=
    (s.take 2 = [48, 120] ∨ s.take 2 = [48, 88]) ∧
      ((s.drop 2).head?.bind (exDigit 16)).isSome = true
  let r :=
    if hex = true then exDigits 16 (s.drop 2) none
    else if base = 16 then exDigits 16 s none
    else if s.head? = some 48 then exDigits 8 s none
    else exDigits 10 s none
  match r with
  | (none, _) => (0, 0)
  | (some v, []) => (1, v % U16_MOD)
  | (some v, _ :: _) => (2, v % U16_MOD)

/-- The parts of a string between the separators `sep`. -/
def exSplit (sep : Nat) (s : List Nat) : List (List Nat) :=
  s.foldr
    (fun c acc =>
      if c = sep then [] :: acc
      else
        match acc with
        | h :: t => (c :: h) :: t
        | [] => [[c]])
    [[]]

/-- The number a string of digits spells in the base `base`, if it is one and
the number is at most `max`. -/
def exNumber (base max : Nat) (s : List Nat) : Option Nat :=
  match exDigits base s none with
  | (some v, []) => if v ≤ max then some v else none
  | _ => none

/-- The example `inet_aton`: four decimal numbers up to 255 between dots. -/
def exInetAton (s : List Nat) : Int × Nat :=
  match (exSplit 46 s).map (exNumber 10 255) with
  | [some a, some b, some c, some d] => (1, ((a * 256 + b) * 256 + c) * 256 + d)
  | _ => (0, 0)

/-- The example `ParseMAC`: six pairs of hexadecimal digits between colons. -/
def exParseMAC (s : List Nat) (mac : Mem) : Int × Mem :=
  match (exSplit 58 s).map (fun p => if p.length = 2 then exNumber 16 255 p else none) with
  | [some a, some b, some c, some d, some e, some f] => (0, memOfList [a, b, c, d, e, f])
  | _ => (-1, mac)

/-- The example `strcasecmp`: 0 when the strings are the same but for the case
of the letters, else 1. -/
def exStrcasecmp (a b : List Nat) : Int :=
  if a.map (fun c => if 97 ≤ c ∧ c ≤ 122 then c - 32 else c)
      = b.map (fun c => if 97 ≤ c ∧ c ≤ 122 then c - 32 else c) then 0
  else 1

/-- An example host for `BuildOAT`, with room for 12 arguments. -/
def exOATExt : OATExternals where
  MAX_ARGS := 12
  strcasecmp := exStrcasecmp
  sscanf_hi := exScan 0
  sscanf_hx := exScan 16
  inet_aton := exInetAton
  ParseMAC := exParseMAC

/-- A statement, from its tokens. -/
def oatStatement (keyword : String) (tokens : List String) : OATStatement :=
  { pszKeyword := cstr keyword, tokens := tokens.map cstr }

/-- An OAT file of two statements: an IP device on port 0 with the IP address
10.0.0.1, and an SNA device on port 1.

    0E40  IP   00  NO  10.0.0.1
    0E44  SNA  01
-/
def exOATStale : List OATStatement :=
  [oatStatement "0E40" ["IP", "00", "NO", "10.0.0.1"],
   oatStatement "0E44" ["SNA", "01"]]

/-- An OAT file of three statements that name the ports 7, 5 and 9.

    HWADD  7  02:00:5E:10:20:30
    ROUTE  5  10.1.0.0  255.255.0.0
    0E40   IP  9  NO  10.0.0.1
-/
def exOATPorts : List OATStatement :=
  [oatStatement "HWADD" ["7", "02:00:5E:10:20:30"],
   oatStatement "ROUTE" ["5", "10.1.0.0", "255.255.0.0"],
   oatStatement "0E40" ["IP", "9", "NO", "10.0.0.1"]]

/-- The port 1 of the adapter, open and started. -/
def exPort1 : LCSPORT :=
  { bPort := 1, fd := 3, fUsed := true, fPortCreated := true, fPortStarted := true }

/-- A channel buffer that holds the 30 bytes of scenario S4 and behind them, from
byte 30 on, a second 22-byte Start LAN SNA command frame (offset field 0x002C)
and a zero offset. -/
def exBaffleBatchBehind : Mem :=
  memOfList [0x00, 0x16, 0x00, 0x00, 0x00, 0x00, 0x00, 0x00,
             0x00, 0x16, 0x00, 0x00, 0x41, 0x80, 0x00, 0x00, 0x00, 0x00, 0x01, 0x00,
             0x00, 0x00, 0x00, 0x00, 0x00, 0x00, 0x00, 0x00, 0x00, 0x00,
             0x00, 0x2C, 0x00, 0x00, 0x41, 0x80, 0x00, 0x00, 0x00, 0x00, 0x01, 0x00,
             0x00, 0x00, 0x00, 0x00, 0x00, 0x00, 0x00, 0x00, 0x00, 0x00,
             0x00, 0x00]

/-- A 7-byte SNA-mode Write: a 5-byte command frame (type 0x00) with the command
code 0x42, Stop LAN SNA, and the 2-byte zero terminator. -/
def exShortSNACmdBatch : Mem :=
  memOfList [0x00, 0x05, 0x00, 0x00, 0x42, 0x00, 0x00]

/-! ## Theorems -/

/-- C1 (ring bound), evaluated where the code breaks it: on an empty ring of
0x5000 bytes a reply of 0x4FFE bytes with the baffle flag set passes the
overflow check (0 + 0x4FFE + 2 is not above 0x5000), 8 bytes are then reserved
for the baffle, and the call returns 0 with `iFrameOffset` = 0x5006, above
`iMaxFrameBufferSize`. -/
theorem C1_baffle_reply_exceeds_ring_bound :
    (LCS_DoEnqueueReplyFrame { iFrameOffset := 0, iMaxFrameBufferSize := 0x5000 }
        (fun _ => 0) 0x4FFE true).rc = 0 ∧
    (LCS_DoEnqueueReplyFrame { iFrameOffset := 0, iMaxFrameBufferSize := 0x5000 }
        (fun _ => 0) 0x4FFE true).dev.iFrameOffset = 0x5006 ∧
    ¬ ((LCS_DoEnqueueReplyFrame { iFrameOffset := 0, iMaxFrameBufferSize := 0x5000 }
        (fun _ => 0) 0x4FFE true).dev.iFrameOffset ≤
       (LCS_DoEnqueueReplyFrame { iFrameOffset := 0, iMaxFrameBufferSize := 0x5000 }
        (fun _ => 0) 0x4FFE true).dev.iMaxFrameBufferSize) := by
  decide

/-- C4: for a device whose `iFrameOffset` is a `U16` and a reply whose size is
the size of a C object, `LCS_DoEnqueueReplyFrame` returns -1 with `errno` =
ENOBUFS exactly when `iFrameOffset + iSize + 2 > iMaxFrameBufferSize`, returns 0
otherwise, and when it fails the device (ring bytes, `iFrameOffset`,
`fReplyPending`, `fDataPending`, `fPendingBaffle` and every other field) is the
device it was given. -/
theorem C4_reply_enobufs_iff (dev : LCSDEV) (pReply : Mem) (iSize : Nat) (bBafflePres : Bool)
    (hoff : dev.iFrameOffset < U16_MOD) (hsz : iSize ≤ PTRDIFF_MAX) :
    (((LCS_DoEnqueueReplyFrame dev pReply iSize bBafflePres).rc = -1 ∧
        (LCS_DoEnqueueReplyFrame dev pReply iSize bBafflePres).errno = some Errno.ENOBUFS) ↔
      dev.iFrameOffset + iSize + 2 > dev.iMaxFrameBufferSize) ∧
    ((LCS_DoEnqueueReplyFrame dev pReply iSize bBafflePres).rc = 0 ↔
      ¬ (dev.iFrameOffset + iSize + 2 > dev.iMaxFrameBufferSize)) ∧
    (dev.iFrameOffset + iSize + 2 > dev.iMaxFrameBufferSize →
      (LCS_DoEnqueueReplyFrame dev pReply iSize bBafflePres).dev = dev) := by
  have hmod : (dev.iFrameOffset + iSize + sizeof_hwOffset) % SIZE_T_MOD
      = dev.iFrameOffset + iSize + 2 := by
    simp only [U16_MOD, PTRDIFF_MAX, sizeof_hwOffset, SIZE_T_MOD] at *
    omega
  unfold LCS_DoEnqueueReplyFrame
  rw [hmod]
  by_cases h : dev.iFrameOffset + iSize + 2 > dev.iMaxFrameBufferSize
  · simp [h]
  · simp [h]

/-- Witness of C4: a 24-byte reply on an empty ring of 0x5000 bytes. -/
theorem C4_reply_enobufs_iff_witness :
    ({} : LCSDEV).iFrameOffset < U16_MOD ∧ 24 ≤ PTRDIFF_MAX ∧
    (((LCS_DoEnqueueReplyFrame {} (fun _ => 0) 24 false).rc = -1 ∧
        (LCS_DoEnqueueReplyFrame {} (fun _ => 0) 24 false).errno = some Errno.ENOBUFS) ↔
      ({} : LCSDEV).iFrameOffset + 24 + 2 > ({} : LCSDEV).iMaxFrameBufferSize) ∧
    ((LCS_DoEnqueueReplyFrame {} (fun _ => 0) 24 false).rc = 0 ↔
      ¬ (({} : LCSDEV).iFrameOffset + 24 + 2 > ({} : LCSDEV).iMaxFrameBufferSize)) ∧
    (({} : LCSDEV).iFrameOffset + 24 + 2 > ({} : LCSDEV).iMaxFrameBufferSize →
      (LCS_DoEnqueueReplyFrame {} (fun _ => 0) 24 false).dev = {}) :=
  ⟨by decide, by decide, C4_reply_enobufs_iff {} (fun _ => 0) 24 false (by decide) (by decide)⟩

/-! ### Memory lemmas -/

theorem STORE_HW_hi (m : Mem) (p v : Nat) : STORE_HW m p v p = (v % U16_MOD) / 256 := by
  simp [STORE_HW]

theorem STORE_HW_lo (m : Mem) (p v : Nat) : STORE_HW m p v (p + 1) = v % 256 := by
  simp [STORE_HW]

theorem STORE_HW_other (m : Mem) (p v i : Nat) (h1 : i ≠ p) (h2 : i ≠ p + 1) :
    STORE_HW m p v i = m i := by
  simp [STORE_HW, h1, h2]

theorem FETCH_HW_STORE_HW (m : Mem) (p v : Nat) (hv : v < U16_MOD) :
    FETCH_HW (STORE_HW m p v) p = v := by
  simp only [FETCH_HW, STORE_HW_hi, STORE_HW_lo, U16_MOD] at *
  omega

theorem FETCH_HW_lt (m : Mem) (p : Nat) : FETCH_HW m p < U16_MOD := by
  simp only [FETCH_HW, U16_MOD]
  omega

theorem memcpy_inside (dst : Mem) (d : Nat) (src : Mem) (s n i : Nat) (h1 : d ≤ i)
    (h2 : i < d + n) : memcpy dst d src s n i = src (s + (i - d)) := by
  simp [memcpy, h1, h2]

theorem memcpy_outside (dst : Mem) (d : Nat) (src : Mem) (s n i : Nat)
    (h : i < d ∨ d + n ≤ i) : memcpy dst d src s n i = dst i := by
  have : ¬ (d ≤ i ∧ i < d + n) := by omega
  simp [memcpy, this]

theorem memset_inside (dst : Mem) (d c n i : Nat) (h1 : d ≤ i) (h2 : i < d + n) :
    memset dst d c n i = c := by
  simp [memset, h1, h2]

theorem memset_outside (dst : Mem) (d c n i : Nat) (h : i < d ∨ d + n ≤ i) :
    memset dst d c n i = dst i := by
  have : ¬ (d ≤ i ∧ i < d + n) := by omega
  simp [memset, this]

theorem storeByte_same (m : Mem) (p v : Nat) : storeByte m p v p = v := by
  simp [storeByte]

theorem storeByte_other (m : Mem) (p v i : Nat) (h : i ≠ p) : storeByte m p v i = m i := by
  simp [storeByte, h]

/-! ### The reply enqueue, case by case -/

/-- The overflow check of `LCS_DoEnqueueReplyFrame` does not wrap. -/
theorem reply_check_nowrap (dev : LCSDEV) (iSize : Nat) (hoff : dev.iFrameOffset < U16_MOD)
    (hsz : iSize ≤ PTRDIFF_MAX) :
    (dev.iFrameOffset + iSize + sizeof_hwOffset) % SIZE_T_MOD = dev.iFrameOffset + iSize + 2 := by
  simp only [U16_MOD, PTRDIFF_MAX, sizeof_hwOffset, SIZE_T_MOD] at *
  omega

/-- The reply enqueue when the ring is full. -/
theorem reply_full (dev : LCSDEV) (pReply : Mem) (iSize : Nat) (bBafflePres : Bool)
    (hoff : dev.iFrameOffset < U16_MOD) (hsz : iSize ≤ PTRDIFF_MAX)
    (h : dev.iFrameOffset + iSize + 2 > dev.iMaxFrameBufferSize) :
    LCS_DoEnqueueReplyFrame dev pReply iSize bBafflePres
      = { rc := -1, errno := some Errno.ENOBUFS, dev := dev } := by
  unfold LCS_DoEnqueueReplyFrame
  rw [reply_check_nowrap dev iSize hoff hsz]
  simp [h]

/-- The reply enqueue that reserves the baffle. -/
theorem reply_reserve (dev : LCSDEV) (pReply : Mem) (iSize : Nat)
    (h0 : dev.iFrameOffset = 0) (hmax : dev.iMaxFrameBufferSize + 8 < U16_MOD)
    (hsz : iSize ≤ PTRDIFF_MAX)
    (h : ¬ dev.iFrameOffset + iSize + 2 > dev.iMaxFrameBufferSize) :
    LCS_DoEnqueueReplyFrame dev pReply iSize true
      = { rc := 0, errno := none,
          dev := { dev with
            bFrameBuffer := STORE_HW (memcpy (memset dev.bFrameBuffer 0 0 8) 8 pReply 0 iSize)
              8 iSize
            iFrameOffset := 8 + iSize
            fPendingBaffle := true
            fReplyPending := true
            nDevEventSignals := dev.nDevEventSignals + 1 } } := by
  have hoff : dev.iFrameOffset < U16_MOD := by simp [h0, U16_MOD]
  unfold LCS_DoEnqueueReplyFrame
  rw [reply_check_nowrap dev iSize hoff hsz]
  simp only [U16_MOD, SIZEOF_BAFFLE] at *
  have e0 : iSize % 65536 = iSize := by omega
  have e1 : (8 + iSize) % 65536 = 8 + iSize := by omega
  have e2 : (8 + iSize + 65528) % 65536 = iSize := by omega
  have h1 : ¬ dev.iMaxFrameBufferSize < iSize + 2 := by omega
  simp [h0, h1, e0, e1, e2]

/-- The reply enqueue that appends at `iFrameOffset` (no baffle reserved). -/
theorem reply_append (dev : LCSDEV) (pReply : Mem) (iSize : Nat) (bBafflePres : Bool)
    (hnr : ¬ (dev.iFrameOffset = 0 ∧ bBafflePres = true))
    (hoff : dev.iFrameOffset < U16_MOD) (hmax : dev.iMaxFrameBufferSize < U16_MOD)
    (hsz : iSize ≤ PTRDIFF_MAX)
    (h : ¬ dev.iFrameOffset + iSize + 2 > dev.iMaxFrameBufferSize) :
    LCS_DoEnqueueReplyFrame dev pReply iSize bBafflePres
      = { rc := 0, errno := none,
          dev := { dev with
            bFrameBuffer :=
              STORE_HW (memcpy dev.bFrameBuffer dev.iFrameOffset pReply 0 iSize)
                dev.iFrameOffset
                (if dev.fPendingBaffle = true
                  then (dev.iFrameOffset + iSize + U16_MOD - 8) % U16_MOD
                  else dev.iFrameOffset + iSize)
            iFrameOffset := dev.iFrameOffset + iSize
            fReplyPending := true
            nDevEventSignals := dev.nDevEventSignals + 1 } } := by
  unfold LCS_DoEnqueueReplyFrame
  rw [reply_check_nowrap dev iSize hoff hsz]
  simp only [U16_MOD, SIZEOF_BAFFLE] at *
  have e0 : iSize % 65536 = iSize := by omega
  have e1 : (dev.iFrameOffset + iSize) % 65536 = dev.iFrameOffset + iSize := by omega
  by_cases hp : dev.fPendingBaffle = true
  · simp [h, hnr, e0, e1, hp]
  · simp [h, hnr, e0, e1, hp]


/-- C5: a successful `LCS_DoEnqueueReplyFrame` of a reply of at least 2 bytes, on
a device whose `iFrameOffset` is a `U16` and whose `iMaxFrameBufferSize` is at
most the size of `bFrameBuffer`.  If the ring was empty and the baffle flag is
set, ring bytes 0..7 are zero, `fPendingBaffle` is set and the frame starts at
byte 8; otherwise the frame starts at the old `iFrameOffset` and
`fPendingBaffle` keeps its value.  Bytes 2.. of the stored frame are the
caller's; its first two bytes hold, big-endian, the new `iFrameOffset`, or the
new `iFrameOffset` minus 8 (as a `U16`) when `fPendingBaffle` is set; the new
`iFrameOffset` is the frame start plus `iSize`; `fReplyPending` is set. -/
theorem C5_reply_enqueue_effect (dev : LCSDEV) (pReply : Mem) (iSize : Nat)
    (bBafflePres : Bool) (r : EnqResult)
    (hr : r = LCS_DoEnqueueReplyFrame dev pReply iSize bBafflePres)
    (hoff : dev.iFrameOffset < U16_MOD)
    (hmax : dev.iMaxFrameBufferSize ≤ CTC_DEF_FRAME_BUFFER_SIZE)
    (hsz : iSize ≤ PTRDIFF_MAX) (h2 : 2 ≤ iSize) (hok : r.rc = 0) :
    ((dev.iFrameOffset = 0 ∧ bBafflePres = true) →
        (∀ i, i < 8 → r.dev.bFrameBuffer i = 0) ∧ r.dev.fPendingBaffle = true ∧
        replyFrameStart dev bBafflePres = 8) ∧
    (¬ (dev.iFrameOffset = 0 ∧ bBafflePres = true) →
        r.dev.fPendingBaffle = dev.fPendingBaffle ∧
        replyFrameStart dev bBafflePres = dev.iFrameOffset) ∧
    (∀ i, 2 ≤ i → i < iSize →
        r.dev.bFrameBuffer (replyFrameStart dev bBafflePres + i) = pReply i) ∧
    r.dev.iFrameOffset = replyFrameStart dev bBafflePres + iSize ∧
    (r.dev.fPendingBaffle = false →
        r.dev.bFrameBuffer (replyFrameStart dev bBafflePres) = r.dev.iFrameOffset / 256 ∧
        r.dev.bFrameBuffer (replyFrameStart dev bBafflePres + 1) = r.dev.iFrameOffset % 256) ∧
    (r.dev.fPendingBaffle = true →
        r.dev.bFrameBuffer (replyFrameStart dev bBafflePres)
          = ((r.dev.iFrameOffset + U16_MOD - 8) % U16_MOD) / 256 ∧
        r.dev.bFrameBuffer (replyFrameStart dev bBafflePres + 1)
          = ((r.dev.iFrameOffset + U16_MOD - 8) % U16_MOD) % 256 ∧
        (8 ≤ r.dev.iFrameOffset →
          (r.dev.iFrameOffset + U16_MOD - 8) % U16_MOD = r.dev.iFrameOffset - 8)) ∧
    r.dev.fReplyPending = true := by
  have hfull : ¬ dev.iFrameOffset + iSize + 2 > dev.iMaxFrameBufferSize := by
    intro hf
    rw [hr, reply_full dev pReply iSize bBafflePres hoff hsz hf] at hok
    simp at hok
  have hm8 : dev.iMaxFrameBufferSize + 8 < U16_MOD := by
    simp only [CTC_DEF_FRAME_BUFFER_SIZE, U16_MOD] at *
    omega
  have hm : dev.iMaxFrameBufferSize < U16_MOD := by
    simp only [U16_MOD] at *
    omega
  by_cases hres : dev.iFrameOffset = 0 ∧ bBafflePres = true
  · obtain ⟨h0, hb⟩ := hres
    subst hb
    rw [reply_reserve dev pReply iSize h0 hm8 hsz hfull] at hr
    subst hr
    have hst : replyFrameStart dev true = 8 := by simp [replyFrameStart, h0, SIZEOF_BAFFLE]
    rw [hst]
    refine ⟨fun _ => ⟨?_, rfl, rfl⟩, ?_, ?_, rfl, ?_, ?_, rfl⟩
    · intro i hi
      dsimp only
      rw [STORE_HW_other _ _ _ _ (by omega) (by omega), memcpy_outside _ _ _ _ _ _ (by omega),
        memset_inside _ _ _ _ _ (by omega) (by omega)]
    · intro hn
      exact absurd ⟨h0, rfl⟩ hn
    · intro i hi2 hi
      dsimp only
      rw [STORE_HW_other _ _ _ _ (by omega) (by omega),
        memcpy_inside _ _ _ _ _ _ (by omega) (by omega)]
      simp
    · intro hf
      simp at hf
    · intro _
      dsimp only
      simp only [U16_MOD, CTC_DEF_FRAME_BUFFER_SIZE] at *
      have e : (8 + iSize + 65536 - 8) % 65536 = iSize := by omega
      refine ⟨?_, ?_, ?_⟩
      · rw [STORE_HW_hi, e]
        simp only [U16_MOD]
        omega
      · rw [STORE_HW_lo, e]
      · intro _
        omega
  · rw [reply_append dev pReply iSize bBafflePres hres hoff hm hsz hfull] at hr
    subst hr
    have hst : replyFrameStart dev bBafflePres = dev.iFrameOffset := by
      simp [replyFrameStart, hres]
    rw [hst]
    refine ⟨fun h => absurd h hres, fun _ => ⟨rfl, rfl⟩, ?_, rfl, ?_, ?_, rfl⟩
    · intro i hi2 hi
      dsimp only
      rw [STORE_HW_other _ _ _ _ (by omega) (by omega),
        memcpy_inside _ _ _ _ _ _ (by omega) (by omega)]
      simp
    · intro hf
      have hf2 : dev.fPendingBaffle = false := hf
      dsimp only
      simp only [hf2, Bool.false_eq_true, if_false]
      simp only [U16_MOD] at *
      refine ⟨?_, ?_⟩
      · rw [STORE_HW_hi]
        simp only [U16_MOD]
        omega
      · rw [STORE_HW_lo]
    · intro hf
      have hf2 : dev.fPendingBaffle = true := hf
      dsimp only
      simp only [hf2, if_true]
      simp only [U16_MOD] at *
      refine ⟨?_, ?_, ?_⟩
      · rw [STORE_HW_hi]
        simp only [U16_MOD]
        omega
      · rw [STORE_HW_lo]
      · intro _
        omega

/-- Witness of C5: a 24-byte reply with the baffle flag set on an empty ring. -/
theorem C5_reply_enqueue_effect_witness :
    exDev.iFrameOffset < U16_MOD ∧ exDev.iMaxFrameBufferSize ≤ CTC_DEF_FRAME_BUFFER_SIZE ∧
    24 ≤ PTRDIFF_MAX ∧ 2 ≤ 24 ∧ (LCS_DoEnqueueReplyFrame exDev exReply 24 true).rc = 0 ∧
    (∀ i, i < 8 → (LCS_DoEnqueueReplyFrame exDev exReply 24 true).dev.bFrameBuffer i = 0) ∧
    (∀ i, 2 ≤ i → i < 24 →
      (LCS_DoEnqueueReplyFrame exDev exReply 24 true).dev.bFrameBuffer
        (replyFrameStart exDev true + i) = exReply i) ∧
    (LCS_DoEnqueueReplyFrame exDev exReply 24 true).dev.iFrameOffset
      = replyFrameStart exDev true + 24 ∧
    (LCS_DoEnqueueReplyFrame exDev exReply 24 true).dev.fReplyPending = true :=
  have h := C5_reply_enqueue_effect exDev exReply 24 true
    (LCS_DoEnqueueReplyFrame exDev exReply 24 true) rfl (by decide) (by decide) (by decide)
    (by decide) (by decide)
  ⟨by decide, by decide, by decide, by decide, by decide,
    (h.1 ⟨rfl, rfl⟩).1, h.2.2.1, h.2.2.2.1, h.2.2.2.2.2.2⟩

/-! ### The Ethernet enqueue, case by case -/

/-- The macro `MAX_LCS_ETH_FRAME_SIZE` does not wrap once the buffer has room for
a header and a terminator. -/
theorem MAX_LCS_ETH_FRAME_SIZE_eq (dev : LCSDEV) (h6 : 6 ≤ dev.iMaxFrameBufferSize)
    (hmax : dev.iMaxFrameBufferSize < U16_MOD) :
    MAX_LCS_ETH_FRAME_SIZE dev = dev.iMaxFrameBufferSize - 4 - 2 := by
  simp only [MAX_LCS_ETH_FRAME_SIZE, SIZE_T_MOD, sizeof_LCSETHFRM, sizeof_hwOffset,
    U16_MOD] at *
  omega

/-- The Ethernet enqueue of a frame that can never fit. -/
theorem eth_toolong (dev : LCSDEV) (bPort : Nat) (pData : Mem) (iSize : Nat)
    (h6 : 6 ≤ dev.iMaxFrameBufferSize) (hmax : dev.iMaxFrameBufferSize < U16_MOD)
    (h : iSize > min (dev.iMaxFrameBufferSize - 4 - 2) 9000) :
    LCS_DoEnqueueEthFrame dev bPort pData iSize
      = { rc := -1, errno := some Errno.EMSGSIZE, dev := dev } := by
  unfold LCS_DoEnqueueEthFrame
  rw [MAX_LCS_ETH_FRAME_SIZE_eq dev h6 hmax]
  have : iSize > dev.iMaxFrameBufferSize - 4 - 2 ∨ iSize > 9000 := by omega
  simp [this]

/-- The Ethernet enqueue when the ring is full. -/
theorem eth_full (dev : LCSDEV) (bPort : Nat) (pData : Mem) (iSize : Nat)
    (h6 : 6 ≤ dev.iMaxFrameBufferSize) (hmax : dev.iMaxFrameBufferSize < U16_MOD)
    (hoff : dev.iFrameOffset < U16_MOD)
    (h : ¬ iSize > min (dev.iMaxFrameBufferSize - 4 - 2) 9000)
    (hf : dev.iFrameOffset + 4 + iSize + 2 > dev.iMaxFrameBufferSize) :
    LCS_DoEnqueueEthFrame dev bPort pData iSize
      = { rc := -1, errno := some Errno.ENOBUFS, dev := dev } := by
  unfold LCS_DoEnqueueEthFrame
  rw [MAX_LCS_ETH_FRAME_SIZE_eq dev h6 hmax]
  have h1 : ¬ (iSize > dev.iMaxFrameBufferSize - 4 - 2 ∨ iSize > 9000) := by omega
  have h2 : (dev.iFrameOffset + sizeof_LCSETHFRM + iSize + sizeof_hwOffset) % SIZE_T_MOD
      = dev.iFrameOffset + 4 + iSize + 2 := by
    simp only [SIZE_T_MOD, sizeof_LCSETHFRM, sizeof_hwOffset, U16_MOD] at *
    omega
  rw [h2]
  simp [h1, hf]

/-- The Ethernet enqueue that succeeds. -/
theorem eth_ok (dev : LCSDEV) (bPort : Nat) (pData : Mem) (iSize : Nat)
    (h6 : 6 ≤ dev.iMaxFrameBufferSize) (hmax : dev.iMaxFrameBufferSize < U16_MOD)
    (hoff : dev.iFrameOffset < U16_MOD)
    (h : ¬ iSize > min (dev.iMaxFrameBufferSize - 4 - 2) 9000)
    (hf : ¬ dev.iFrameOffset + 4 + iSize + 2 > dev.iMaxFrameBufferSize) :
    LCS_DoEnqueueEthFrame dev bPort pData iSize
      = { rc := 0, errno := none,
          dev := { dev with
            bFrameBuffer :=
              memcpy (storeByte (storeByte
                (STORE_HW dev.bFrameBuffer dev.iFrameOffset (dev.iFrameOffset + 4 + iSize))
                (dev.iFrameOffset + 2) LCS_FRMTYP_ENET) (dev.iFrameOffset + 3) bPort)
                (dev.iFrameOffset + 4) pData 0 iSize
            iFrameOffset := dev.iFrameOffset + 4 + iSize
            fDataPending := true
            nDevEventSignals := dev.nDevEventSignals + 1 } } := by
  unfold LCS_DoEnqueueEthFrame
  rw [MAX_LCS_ETH_FRAME_SIZE_eq dev h6 hmax]
  have h1 : ¬ (iSize > dev.iMaxFrameBufferSize - 4 - 2 ∨ iSize > 9000) := by omega
  have h2 : (dev.iFrameOffset + sizeof_LCSETHFRM + iSize + sizeof_hwOffset) % SIZE_T_MOD
      = dev.iFrameOffset + 4 + iSize + 2 := by
    simp only [SIZE_T_MOD, sizeof_LCSETHFRM, sizeof_hwOffset, U16_MOD] at *
    omega
  have h3 : (dev.iFrameOffset + (sizeof_LCSETHFRM + iSize) % U16_MOD) % U16_MOD
      = dev.iFrameOffset + 4 + iSize := by
    simp only [sizeof_LCSETHFRM, U16_MOD] at *
    omega
  rw [h2, h3]
  simp [h1, hf, sizeof_LCSETHFRM]

/-- C6: for a device whose `iFrameOffset` and `iMaxFrameBufferSize` are `U16`
values with `iMaxFrameBufferSize >= 6`, and every payload length,
`LCS_DoEnqueueEthFrame` returns -1 with EMSGSIZE exactly when the length exceeds
min(`iMaxFrameBufferSize` - 4 - 2, 9000); otherwise it returns -1 with ENOBUFS
exactly when `iFrameOffset` + 4 + length + 2 exceeds `iMaxFrameBufferSize`;
otherwise it returns 0; and whenever it does not return 0 the device (ring
bytes, `iFrameOffset`, every flag) is the device it was given. -/
theorem C6_eth_enqueue_classification (dev : LCSDEV) (bPort : Nat) (pData : Mem) (len : Nat)
    (r : EnqResult) (hr : r = LCS_DoEnqueueEthFrame dev bPort pData len)
    (h6 : 6 ≤ dev.iMaxFrameBufferSize) (hmax : dev.iMaxFrameBufferSize < U16_MOD)
    (hoff : dev.iFrameOffset < U16_MOD) :
    ((r.rc = -1 ∧ r.errno = some Errno.EMSGSIZE) ↔
      len > min (dev.iMaxFrameBufferSize - 4 - 2) 9000) ∧
    (¬ len > min (dev.iMaxFrameBufferSize - 4 - 2) 9000 →
      ((r.rc = -1 ∧ r.errno = some Errno.ENOBUFS) ↔
        dev.iFrameOffset + 4 + len + 2 > dev.iMaxFrameBufferSize)) ∧
    (¬ len > min (dev.iMaxFrameBufferSize - 4 - 2) 9000 →
      ¬ dev.iFrameOffset + 4 + len + 2 > dev.iMaxFrameBufferSize → r.rc = 0) ∧
    (r.rc ≠ 0 → r.dev = dev) := by
  by_cases h : len > min (dev.iMaxFrameBufferSize - 4 - 2) 9000
  · rw [eth_toolong dev bPort pData len h6 hmax h] at hr
    subst hr
    simp [h]
  · by_cases hf : dev.iFrameOffset + 4 + len + 2 > dev.iMaxFrameBufferSize
    · rw [eth_full dev bPort pData len h6 hmax hoff h hf] at hr
      subst hr
      simp [h, hf]
    · rw [eth_ok dev bPort pData len h6 hmax hoff h hf] at hr
      subst hr
      simp [h, hf]

/-- Witness of C6: a 60-byte payload on an empty ring of 0x5000 bytes is accepted. -/
theorem C6_eth_enqueue_classification_witness :
    6 ≤ exDev.iMaxFrameBufferSize ∧ exDev.iMaxFrameBufferSize < U16_MOD ∧
    exDev.iFrameOffset < U16_MOD ∧
    (((LCS_DoEnqueueEthFrame exDev 0 exReply 60).rc = -1 ∧
        (LCS_DoEnqueueEthFrame exDev 0 exReply 60).errno = some Errno.EMSGSIZE) ↔
      60 > min (exDev.iMaxFrameBufferSize - 4 - 2) 9000) ∧
    (¬ 60 > min (exDev.iMaxFrameBufferSize - 4 - 2) 9000 →
      (((LCS_DoEnqueueEthFrame exDev 0 exReply 60).rc = -1 ∧
          (LCS_DoEnqueueEthFrame exDev 0 exReply 60).errno = some Errno.ENOBUFS) ↔
        exDev.iFrameOffset + 4 + 60 + 2 > exDev.iMaxFrameBufferSize)) ∧
    (¬ 60 > min (exDev.iMaxFrameBufferSize - 4 - 2) 9000 →
      ¬ exDev.iFrameOffset + 4 + 60 + 2 > exDev.iMaxFrameBufferSize →
      (LCS_DoEnqueueEthFrame exDev 0 exReply 60).rc = 0) ∧
    ((LCS_DoEnqueueEthFrame exDev 0 exReply 60).rc ≠ 0 →
      (LCS_DoEnqueueEthFrame exDev 0 exReply 60).dev = exDev) :=
  ⟨by decide, by decide, by decide,
    C6_eth_enqueue_classification exDev 0 exReply 60 (LCS_DoEnqueueEthFrame exDev 0 exReply 60)
      rfl (by decide) (by decide) (by decide)⟩

/-! ### The channel Read -/

/-- With something pending `LCS_Read` does not wait: it drains the ring. -/
theorem LCS_Read_pending (wakes : List (LCSDEV → LCSDEV)) (dev : LCSDEV) (sCount : Nat)
    (pIOBuf : Mem) (st : CCWStatus)
    (hpend : dev.fDataPending = true ∨ dev.fReplyPending = true) :
    LCS_Read wakes dev sCount pIOBuf st = some (LCS_Read_drain dev sCount pIOBuf st) := by
  cases wakes <;> simp [LCS_Read, hpend]

/-- The length `LCS_Read` computes for the batch does not wrap. -/
theorem read_length_nowrap (dev : LCSDEV) (hoff : dev.iFrameOffset < U16_MOD) :
    (dev.iFrameOffset + sizeof_hwOffset) % SIZE_T_MOD = dev.iFrameOffset + 2 := by
  simp only [sizeof_hwOffset, SIZE_T_MOD, U16_MOD] at *
  omega

/-- C7: `LCS_Read` on a device (with a `U16` `iFrameOffset`) that has
`fDataPending` or `fReplyPending` set returns without waiting.  It writes a zero
2-byte terminator at `iFrameOffset` and leaves every other ring byte as it was
(bytes 0..1 excepted when a baffle is pending: they then receive the baffle
length); it copies min(`sCount`, `iFrameOffset` + 2) bytes of the ring to the
guest buffer and leaves the rest of the guest buffer alone; `more` is 1 if
`sCount` < `iFrameOffset` + 2 and 0 otherwise; unit status is CE|DE; afterwards
`iFrameOffset` = 0 and `fReplyPending`, `fDataPending`, `fPendingBaffle` are all
clear, truncated or not. -/
theorem C7_read_drains_ring (wakes : List (LCSDEV → LCSDEV)) (dev : LCSDEV) (sCount : Nat)
    (pIOBuf : Mem) (st : CCWStatus) (hoff : dev.iFrameOffset < U16_MOD)
    (hpend : dev.fDataPending = true ∨ dev.fReplyPending = true) :
    ∃ r, LCS_Read wakes dev sCount pIOBuf st = some r ∧
      (∀ i, (dev.fPendingBaffle = false ∨ 2 ≤ i) →
        r.dev.bFrameBuffer i
          = if i = dev.iFrameOffset ∨ i = dev.iFrameOffset + 1 then 0 else dev.bFrameBuffer i) ∧
      r.copied = min sCount (dev.iFrameOffset + 2) ∧
      (∀ i, i < r.copied → r.pIOBuf i = r.dev.bFrameBuffer i) ∧
      (∀ i, r.copied ≤ i → r.pIOBuf i = pIOBuf i) ∧
      r.status.more = (if sCount < dev.iFrameOffset + 2 then 1 else 0) ∧
      r.status.unitStat = CSW_CE ||| CSW_DE ∧
      r.dev.iFrameOffset = 0 ∧ r.dev.fReplyPending = false ∧ r.dev.fDataPending = false ∧
      r.dev.fPendingBaffle = false := by
  refine ⟨_, LCS_Read_pending wakes dev sCount pIOBuf st hpend, ?_⟩
  unfold LCS_Read_drain
  rw [read_length_nowrap dev hoff]
  dsimp only
  refine ⟨?_, ?_, ?_, ?_, ?_, rfl, rfl, rfl, rfl, rfl⟩
  · intro i hi
    have hterm : STORE_HW dev.bFrameBuffer dev.iFrameOffset 0 i
        = if i = dev.iFrameOffset ∨ i = dev.iFrameOffset + 1 then 0 else dev.bFrameBuffer i := by
      by_cases h1 : i = dev.iFrameOffset
      · simp [STORE_HW, h1, U16_MOD]
      · by_cases h2 : i = dev.iFrameOffset + 1
        · simp [STORE_HW, h2]
        · simp [STORE_HW, h1, h2]
    by_cases hb : dev.fPendingBaffle = true
    · have hi2 : 2 ≤ i := by
        rcases hi with h | h
        · rw [hb] at h
          cases h
        · exact h
      simp only [hb, if_true]
      rw [STORE_HW_other _ _ _ _ (by omega) (by omega)]
      exact hterm
    · simp only [hb, if_false]
      exact hterm
  · by_cases hs : sCount < dev.iFrameOffset + 2
    · simp only [hs, if_true]
      omega
    · simp only [hs, if_false]
      omega
  · intro i hi
    rw [memcpy_inside _ _ _ _ _ _ (by omega) (by omega)]
    simp
  · intro i hi
    rw [memcpy_outside _ _ _ _ _ _ (by omega)]
  · by_cases hs : sCount < dev.iFrameOffset + 2
    · simp [hs]
    · simp [hs]

/-- Witness of C7: the Read that follows the enqueue of one 24-byte reply. -/
theorem C7_read_drains_ring_witness :
    (LCS_DoEnqueueReplyFrame exDev exReply 24 false).dev.iFrameOffset < U16_MOD ∧
    ((LCS_DoEnqueueReplyFrame exDev exReply 24 false).dev.fDataPending = true ∨
      (LCS_DoEnqueueReplyFrame exDev exReply 24 false).dev.fReplyPending = true) ∧
    ∃ r, LCS_Read [] (LCS_DoEnqueueReplyFrame exDev exReply 24 false).dev 100 (fun _ => 0xEE) {}
        = some r ∧
      r.copied = min 100 ((LCS_DoEnqueueReplyFrame exDev exReply 24 false).dev.iFrameOffset + 2) ∧
      r.status.unitStat = CSW_CE ||| CSW_DE ∧ r.dev.iFrameOffset = 0 ∧
      r.dev.fReplyPending = false ∧ r.dev.fDataPending = false ∧ r.dev.fPendingBaffle = false :=
  ⟨by decide, Or.inr (by decide),
    match C7_read_drains_ring [] (LCS_DoEnqueueReplyFrame exDev exReply 24 false).dev 100
      (fun _ => 0xEE) {} (by decide) (Or.inr (by decide)) with
    | ⟨r, h⟩ => ⟨r, h.1, h.2.2.1, h.2.2.2.2.2.2.1, h.2.2.2.2.2.2.2⟩⟩

/-- C8 as stated fails: with data pending (`iFrameOffset` = 24, so 26 bytes are
copied), `sCount` = 100 and a residual of 0 on entry, `LCS_Read` leaves the
residual at 2^32 - 26 = 4294967270, not at `sCount` - 26 = 74. -/
theorem C8_residual_follows_entry_value :
    (LCS_Read [] exDevPending 100 (fun _ => 0) { residual := 0 }).map
        (fun r => (r.copied, r.status.residual)) = some (26, 4294967270) ∧
    (4294967270 : Nat) ≠ 100 - 26 := by
  decide

/-- C8 amended: for every `sCount` and every residual on entry (both `U32`),
`LCS_Read` with data pending copies min(`sCount`, `iFrameOffset` + 2) bytes and
leaves residual 0 when the copy is truncated, and (entry residual - copied) mod
2^32 otherwise.  This is `sCount` - copied whenever the residual holds `sCount`
on entry (as well as in every truncated read), and in a read that is not
truncated it is `sCount` - copied only then. -/
theorem C8_read_residual (wakes : List (LCSDEV → LCSDEV)) (dev : LCSDEV) (sCount : Nat)
    (pIOBuf : Mem) (st : CCWStatus) (hoff : dev.iFrameOffset < U16_MOD)
    (hcount : sCount < U32_MOD) (hres : st.residual < U32_MOD)
    (hpend : dev.fDataPending = true ∨ dev.fReplyPending = true) :
    ∃ r, LCS_Read wakes dev sCount pIOBuf st = some r ∧
      r.copied = min sCount (dev.iFrameOffset + 2) ∧
      r.status.residual
        = (if sCount < dev.iFrameOffset + 2 then 0
           else (st.residual + U32_MOD - (dev.iFrameOffset + 2)) % U32_MOD) ∧
      (st.residual = sCount → r.status.residual = sCount - r.copied) ∧
      (sCount < dev.iFrameOffset + 2 → r.status.residual = sCount - r.copied) ∧
      (¬ sCount < dev.iFrameOffset + 2 →
        (r.status.residual = sCount - r.copied ↔ st.residual = sCount)) := by
  refine ⟨_, LCS_Read_pending wakes dev sCount pIOBuf st hpend, ?_⟩
  unfold LCS_Read_drain
  rw [read_length_nowrap dev hoff]
  dsimp only
  simp only [U16_MOD, U32_MOD] at *
  have e : (dev.iFrameOffset + 2) % 4294967296 = dev.iFrameOffset + 2 := by omega
  rw [e]
  by_cases hs : sCount < dev.iFrameOffset + 2
  · simp only [hs, if_true]
    refine ⟨by omega, trivial, ?_, ?_, ?_⟩
    · intro _
      omega
    · intro _
      omega
    · intro h
      exact absurd trivial h
  · simp only [hs, if_false]
    refine ⟨by omega, trivial, ?_, ?_, ?_⟩
    · intro _
      omega
    · intro h
      exact absurd h (by simp)
    · intro _
      omega

/-- Witness of C8 (amended): the same read with the residual holding `sCount` = 100
on entry leaves residual 74. -/
theorem C8_read_residual_witness :
    exDevPending.iFrameOffset < U16_MOD ∧ 100 < U32_MOD ∧
    ({ residual := 100 } : CCWStatus).residual < U32_MOD ∧
    (exDevPending.fDataPending = true ∨ exDevPending.fReplyPending = true) ∧
    ∃ r, LCS_Read [] exDevPending 100 (fun _ => 0) { residual := 100 } = some r ∧
      r.copied = min 100 (exDevPending.iFrameOffset + 2) ∧
      r.status.residual = 100 - r.copied :=
  ⟨by decide, by decide, by decide, Or.inr rfl,
    match C8_read_residual [] exDevPending 100 (fun _ => 0) { residual := 100 } (by decide)
      (by decide) (by decide) (Or.inr rfl) with
    | ⟨r, h⟩ => ⟨r, h.1, h.2.1, h.2.2.2.1 rfl⟩⟩

/-- A blocked `LCS_Read` that wakes up with `fHaltOrClear` set. -/
theorem LCS_Read_halted (dev : LCSDEV) (act : LCSDEV → LCSDEV)
    (rest : List (LCSDEV → LCSDEV)) (sCount : Nat) (pIOBuf : Mem) (st : CCWStatus)
    (hnd : dev.fDataPending = false) (hnr : dev.fReplyPending = false)
    (hhalt : (act { dev with fReadWaiting := true }).fHaltOrClear = true) :
    LCS_Read (act :: rest) dev sCount pIOBuf st
      = some { dev := { act { dev with fReadWaiting := true } with
                          fReadWaiting := false, fHaltOrClear := false }
               pIOBuf := pIOBuf
               status := { st with unitStat := 0, residual := sCount }
               copied := 0 } := by
  have hn : ¬ (dev.fDataPending = true ∨ dev.fReplyPending = true) := by
    simp [hnd, hnr]
  rw [LCS_Read, if_neg hn]
  dsimp only
  rw [if_pos hhalt]

/-- C9: Halt/Clear cancels a blocked Read.  `lcs_halt_or_clear` sets
`fHaltOrClear` and signals the device event when `fReadWaiting` is set, and
otherwise returns the device unchanged.  When `LCS_Read`, with nothing pending,
wakes from its wait and finds `fHaltOrClear` set, it returns unit status 0 and
residual `sCount`, clears `fHaltOrClear`, and leaves the ring bytes,
`iFrameOffset`, the pending flags and the guest buffer as they were at the
wake-up.  In particular a Halt/Clear that arrives during the wait ends the
Read this way with the ring as it was before the Read. -/
theorem C9_halt_cancels_read (dev : LCSDEV) (act : LCSDEV → LCSDEV)
    (rest : List (LCSDEV → LCSDEV)) (sCount : Nat) (pIOBuf : Mem) (st : CCWStatus)
    (hnd : dev.fDataPending = false) (hnr : dev.fReplyPending = false)
    (hhalt : (act { dev with fReadWaiting := true }).fHaltOrClear = true) :
    (dev.fReadWaiting = true →
      lcs_halt_or_clear dev
        = { dev with fHaltOrClear := true, nDevEventSignals := dev.nDevEventSignals + 1 }) ∧
    (dev.fReadWaiting = false → lcs_halt_or_clear dev = dev) ∧
    (∃ r, LCS_Read (act :: rest) dev sCount pIOBuf st = some r ∧
      r.status.unitStat = 0 ∧ r.status.residual = sCount ∧ r.status.more = st.more ∧
      r.dev.fHaltOrClear = false ∧ r.dev.fReadWaiting = false ∧
      r.dev.bFrameBuffer = (act { dev with fReadWaiting := true }).bFrameBuffer ∧
      r.dev.iFrameOffset = (act { dev with fReadWaiting := true }).iFrameOffset ∧
      r.dev.fReplyPending = (act { dev with fReadWaiting := true }).fReplyPending ∧
      r.dev.fDataPending = (act { dev with fReadWaiting := true }).fDataPending ∧
      r.dev.fPendingBaffle = (act { dev with fReadWaiting := true }).fPendingBaffle ∧
      r.pIOBuf = pIOBuf ∧ r.copied = 0) ∧
    (∃ r, LCS_Read (lcs_halt_or_clear :: rest) dev sCount pIOBuf st = some r ∧
      r.status.unitStat = 0 ∧ r.status.residual = sCount ∧
      r.dev.fHaltOrClear = false ∧ r.dev.bFrameBuffer = dev.bFrameBuffer ∧
      r.dev.iFrameOffset = dev.iFrameOffset ∧ r.dev.fReplyPending = dev.fReplyPending ∧
      r.dev.fDataPending = dev.fDataPending ∧ r.dev.fPendingBaffle = dev.fPendingBaffle) := by
  refine ⟨?_, ?_, ?_, ?_⟩
  · intro h
    simp [lcs_halt_or_clear, h]
  · intro h
    simp [lcs_halt_or_clear, h]
  · exact ⟨_, LCS_Read_halted dev act rest sCount pIOBuf st hnd hnr hhalt,
      rfl, rfl, rfl, rfl, rfl, rfl, rfl, rfl, rfl, rfl, rfl, rfl⟩
  · have hh : (lcs_halt_or_clear { dev with fReadWaiting := true }).fHaltOrClear = true := by
      simp [lcs_halt_or_clear]
    refine ⟨_, LCS_Read_halted dev lcs_halt_or_clear rest sCount pIOBuf st hnd hnr hh, ?_⟩
    simp [lcs_halt_or_clear]

/-- Witness of C9: a Halt/Clear during the wait of a Read on an empty ring. -/
theorem C9_halt_cancels_read_witness :
    exDev.fDataPending = false ∧ exDev.fReplyPending = false ∧
    (lcs_halt_or_clear { exDev with fReadWaiting := true }).fHaltOrClear = true ∧
    ∃ r, LCS_Read [lcs_halt_or_clear] exDev 100 (fun _ => 0) { residual := 100 } = some r ∧
      r.status.unitStat = 0 ∧ r.status.residual = 100 ∧ r.dev.fHaltOrClear = false ∧
      r.dev.iFrameOffset = exDev.iFrameOffset :=
  ⟨rfl, rfl, rfl,
    match (C9_halt_cancels_read exDev lcs_halt_or_clear [] 100 (fun _ => 0) { residual := 100 }
      rfl rfl rfl).2.2.1 with
    | ⟨r, h⟩ => ⟨r, h.1, h.2.1, h.2.2.1, h.2.2.2.2.1, h.2.2.2.2.2.2.2.1⟩⟩

/-- C10, evaluated where the code breaks it: a 6-byte SNA Write whose bytes are
FF FE 00 00 00 00, with two zero bytes behind it in the channel buffer.
`sCount - SIZEOF_BAFFLE` wraps to 0xFFFE as a `U16`, which matches bytes 0..1,
so the input is taken as baffle-prefixed and the batch is made to start at
byte 8, past the end of the input, although 0xFFFE is not `sCount` - 8. -/
theorem C10_short_write_taken_as_baffle :
    LCS_Write_baffle 6 (memOfList [0xFF, 0xFE, 0, 0, 0, 0, 0, 0]) = (true, 8) ∧
    FETCH_HW (memOfList [0xFF, 0xFE, 0, 0, 0, 0, 0, 0]) 0 = 0xFFFE ∧
    ((0xFFFE : Int) ≠ 6 - 8) := by
  decide

/-! ### Batch round trip -/

theorem readBytes_length (m : Mem) (p n : Nat) : (readBytes m p n).length = n := by
  simp [readBytes]

/-- Reading back bytes that were copied from a list gives the list. -/
theorem readBytes_eq_of_getD (m : Mem) (o : Nat) (p : List Nat)
    (h : ∀ i, i < p.length → m (o + i) = p.getD i 0) : readBytes m o p.length = p := by
  apply List.ext_getElem
  · simp [readBytes]
  · intro i h1 h2
    have hi : i < p.length := h2
    simp only [readBytes, List.getElem_map, List.getElem_range]
    rw [h i hi]
    simp [List.getD_eq_getElem, hi]

/-- Reading bytes depends only on the bytes read. -/
theorem readBytes_congr (m m2 : Mem) (o n : Nat) (h : ∀ i, i < n → m2 (o + i) = m (o + i)) :
    readBytes m2 o n = readBytes m o n := by
  apply List.ext_getElem
  · simp [readBytes]
  · intro i h1 h2
    have hi : i < n := by simpa [readBytes] using h1
    simp only [readBytes, List.getElem_map, List.getElem_range]
    exact h i hi

theorem FETCH_HW_congr (m m2 : Mem) (p : Nat) (h0 : m2 p = m p) (h1 : m2 (p + 1) = m (p + 1)) :
    FETCH_HW m2 p = FETCH_HW m p := by
  simp [FETCH_HW, h0, h1]

theorem EthFramesAt_le (b : Mem) (bPort : Nat) (ps : List (List Nat)) :
    ∀ off stop, EthFramesAt b bPort off ps stop → off ≤ stop := by
  induction ps with
  | nil =>
    intro off stop h
    simp only [EthFramesAt] at h
    omega
  | cons p ps ih =>
    intro off stop h
    simp only [EthFramesAt] at h
    have := ih _ _ h.2.2.2.2.2
    omega

/-- Frames already in the ring are not disturbed by writes at or after `stop`. -/
theorem EthFramesAt_congr (b b2 : Mem) (bPort : Nat) (ps : List (List Nat)) :
    ∀ off stop, EthFramesAt b bPort off ps stop → (∀ i, i < stop → b2 i = b i) →
      EthFramesAt b2 bPort off ps stop := by
  induction ps with
  | nil =>
    intro off stop h _
    simpa [EthFramesAt] using h
  | cons p ps ih =>
    intro off stop h hb
    simp only [EthFramesAt] at h ⊢
    obtain ⟨h1, h2, h3, h4, h5, h6⟩ := h
    have hle := EthFramesAt_le b bPort ps _ _ h6
    refine ⟨?_, h2, ?_, ?_, ?_, ih _ _ h6 hb⟩
    · rw [FETCH_HW_congr b b2 off (hb _ (by omega)) (hb _ (by omega))]
      exact h1
    · rw [hb _ (by omega)]
      exact h3
    · rw [hb _ (by omega)]
      exact h4
    · rw [readBytes_congr b b2 (off + 4) p.length (fun i hi => hb _ (by omega))]
      exact h5

/-- One more frame at the end of the frames already in the ring. -/
theorem EthFramesAt_snoc (b : Mem) (bPort : Nat) (p : List Nat) (ps : List (List Nat)) :
    ∀ off stop, EthFramesAt b bPort off ps stop →
      EthFramesAt b bPort stop [p] (stop + 4 + p.length) →
      EthFramesAt b bPort off (ps ++ [p]) (stop + 4 + p.length) := by
  induction ps with
  | nil =>
    intro off stop h hp
    simp only [EthFramesAt] at h
    subst h
    simpa using hp
  | cons q ps ih =>
    intro off stop h hp
    simp only [EthFramesAt, List.cons_append] at h ⊢
    exact ⟨h.1, h.2.1, h.2.2.1, h.2.2.2.1, h.2.2.2.2.1, ih _ _ h.2.2.2.2.2 hp⟩

/-- The walk of `LCS_Write` over a run of Ethernet passthru frames that ends in a
zero offset finds the payloads in order and stops at the zero offset. -/
theorem walk_EthFramesAt (b : Mem) (bPort : Nat) (ps : List (List Nat)) :
    ∀ (off stop fuel : Nat) (acc : List LCSFrame), EthFramesAt b bPort off ps stop →
      FETCH_HW b stop = 0 → ps.length < fuel →
      LCS_Write_walk recordFrame 0 fuel acc b off
        = some { state := acc ++ ps.map (ethFrame bPort), pIOBuf := b, completed := true,
                 iPrevOffset := stop } := by
  induction ps with
  | nil =>
    intro off stop fuel acc h hz hf
    simp only [EthFramesAt] at h
    subst h
    obtain ⟨f, rfl⟩ : ∃ f, fuel = f + 1 := ⟨fuel - 1, by simp at hf; omega⟩
    simp [LCS_Write_walk, hz]
  | cons p ps ih =>
    intro off stop fuel acc h hz hf
    simp only [EthFramesAt] at h
    obtain ⟨h1, h2, h3, h4, h5, h6⟩ := h
    obtain ⟨f, rfl⟩ : ∃ f, fuel = f + 1 := ⟨fuel - 1, by simp at hf; omega⟩
    have hf2 : ps.length < f := by simp at hf; omega
    have hlen : (off + 4 + p.length + U16_MOD - off) % U16_MOD = 4 + p.length := by
      simp only [U16_MOD] at *
      omega
    have hdat : (4 + p.length + U16_MOD - 4) % U16_MOD = p.length := by
      simp only [U16_MOD] at *
      omega
    have hne : ¬ off + 4 + p.length = 0 := by omega
    rw [LCS_Write_walk]
    simp only [Nat.zero_add, h1, hne, if_false, hlen, recordFrame, sizeof_LCSHDR, hdat, if_true,
      h3, h4, h5]
    rw [ih _ _ _ _ h6 hz hf2]
    simp [ethFrame]

/-- A device too small for a header and a terminator accepts no Ethernet frame. -/
theorem eth_small_buffer (dev : LCSDEV) (bPort : Nat) (pData : Mem) (iSize : Nat)
    (hoff : dev.iFrameOffset < U16_MOD) (h6 : dev.iMaxFrameBufferSize < 6) :
    (LCS_DoEnqueueEthFrame dev bPort pData iSize).rc = -1 := by
  unfold LCS_DoEnqueueEthFrame
  by_cases h1 : iSize > MAX_LCS_ETH_FRAME_SIZE dev ∨ iSize > 9000
  · simp [h1]
  · have h9 : iSize ≤ 9000 := by omega
    have h2 : (dev.iFrameOffset + sizeof_LCSETHFRM + iSize + sizeof_hwOffset) % SIZE_T_MOD
        > dev.iMaxFrameBufferSize := by
      simp only [SIZE_T_MOD, sizeof_LCSETHFRM, sizeof_hwOffset, U16_MOD] at *
      omega
    simp [h1, h2]

/-- What the frames of the payloads `done` in the ring of `dev` look like
between two calls of `LCS_DoEnqueueEthFrame`. -/
theorem eth_enqueue_step (dev : LCSDEV) (bPort : Nat) (done : List (List Nat)) (p : List Nat)
    (hoff : dev.iFrameOffset < U16_MOD) (hmax : dev.iMaxFrameBufferSize < U16_MOD)
    (hfr : EthFramesAt dev.bFrameBuffer bPort 0 done dev.iFrameOffset)
    (hok : (LCS_DoEnqueueEthFrame dev bPort (memOfList p) p.length).rc = 0) :
    (LCS_DoEnqueueEthFrame dev bPort (memOfList p) p.length).dev.iFrameOffset < U16_MOD ∧
    (LCS_DoEnqueueEthFrame dev bPort (memOfList p) p.length).dev.iMaxFrameBufferSize
      = dev.iMaxFrameBufferSize ∧
    (LCS_DoEnqueueEthFrame dev bPort (memOfList p) p.length).dev.fPendingBaffle
      = dev.fPendingBaffle ∧
    (LCS_DoEnqueueEthFrame dev bPort (memOfList p) p.length).dev.fDataPending = true ∧
    EthFramesAt (LCS_DoEnqueueEthFrame dev bPort (memOfList p) p.length).dev.bFrameBuffer bPort 0
      (done ++ [p]) (LCS_DoEnqueueEthFrame dev bPort (memOfList p) p.length).dev.iFrameOffset := by
  have h6 : 6 ≤ dev.iMaxFrameBufferSize := by
    by_contra hc
    rw [eth_small_buffer dev bPort (memOfList p) p.length hoff (by omega)] at hok
    simp at hok
  have hlong : ¬ p.length > min (dev.iMaxFrameBufferSize - 4 - 2) 9000 := by
    intro hc
    rw [eth_toolong dev bPort (memOfList p) p.length h6 hmax hc] at hok
    simp at hok
  have hfull : ¬ dev.iFrameOffset + 4 + p.length + 2 > dev.iMaxFrameBufferSize := by
    intro hc
    rw [eth_full dev bPort (memOfList p) p.length h6 hmax hoff hlong hc] at hok
    simp at hok
  rw [eth_ok dev bPort (memOfList p) p.length h6 hmax hoff hlong hfull]
  dsimp only
  have hlt : dev.iFrameOffset + 4 + p.length < U16_MOD := by omega
  refine ⟨hlt, rfl, rfl, rfl, ?_⟩
  apply EthFramesAt_snoc
  · apply EthFramesAt_congr _ _ _ _ _ _ hfr
    intro i hi
    rw [memcpy_outside _ _ _ _ _ _ (by omega), storeByte_other _ _ _ _ (by omega),
      storeByte_other _ _ _ _ (by omega), STORE_HW_other _ _ _ _ (by omega) (by omega)]
  · simp only [EthFramesAt]
    refine ⟨?_, hlt, ?_, ?_, ?_, trivial⟩
    · rw [FETCH_HW_congr
        (STORE_HW dev.bFrameBuffer dev.iFrameOffset (dev.iFrameOffset + 4 + p.length)) _
        dev.iFrameOffset]
      · exact FETCH_HW_STORE_HW _ _ _ hlt
      · rw [memcpy_outside _ _ _ _ _ _ (by omega), storeByte_other _ _ _ _ (by omega),
          storeByte_other _ _ _ _ (by omega)]
      · rw [memcpy_outside _ _ _ _ _ _ (by omega), storeByte_other _ _ _ _ (by omega),
          storeByte_other _ _ _ _ (by omega)]
    · rw [memcpy_outside _ _ _ _ _ _ (by omega), storeByte_other _ _ _ _ (by omega),
        storeByte_same]
    · rw [memcpy_outside _ _ _ _ _ _ (by omega), storeByte_same]
    · apply readBytes_eq_of_getD
      intro i hi
      rw [memcpy_inside _ _ _ _ _ _ (by omega) (by omega)]
      simp [memOfList]

/-- The ring after a run of accepted Ethernet enqueues. -/
theorem enqueueEthFrames_frames (bPort : Nat) (ps : List (List Nat)) :
    ∀ (dev dev2 : LCSDEV) (done : List (List Nat)),
      dev.iFrameOffset < U16_MOD → dev.iMaxFrameBufferSize < U16_MOD →
      EthFramesAt dev.bFrameBuffer bPort 0 done dev.iFrameOffset →
      (done ≠ [] → dev.fDataPending = true) →
      enqueueEthFrames bPort dev ps = some dev2 →
      dev2.iFrameOffset < U16_MOD ∧ dev2.fPendingBaffle = dev.fPendingBaffle ∧
      (done ++ ps ≠ [] → dev2.fDataPending = true) ∧
      EthFramesAt dev2.bFrameBuffer bPort 0 (done ++ ps) dev2.iFrameOffset := by
  induction ps with
  | nil =>
    intro dev dev2 done hoff _ hfr hpend henq
    simp only [enqueueEthFrames, Option.some.injEq] at henq
    subst henq
    simpa using ⟨hoff, hpend, hfr⟩
  | cons p ps ih =>
    intro dev dev2 done hoff hmax hfr _ henq
    simp only [enqueueEthFrames] at henq
    by_cases hok : (LCS_DoEnqueueEthFrame dev bPort (memOfList p) p.length).rc = 0
    · rw [if_pos hok] at henq
      obtain ⟨s1, s2, s3, s4, s5⟩ := eth_enqueue_step dev bPort done p hoff hmax hfr hok
      have := ih _ dev2 (done ++ [p]) s1 (by rw [s2]; exact hmax) s5 (fun _ => s4) henq
      rw [s3] at this
      simpa using this
    · rw [if_neg hok] at henq
      cases henq

/-- C2: batch round trip.  Take an empty ring with no pending baffle (and
`iMaxFrameBufferSize` a `U16`) and a non-empty sequence of Ethernet payloads,
each accepted (return 0) by `LCS_DoEnqueueEthFrame`.  The next `LCS_Read` with
`sCount` >= `iFrameOffset` + 2 returns at once, copies `iFrameOffset` + 2 bytes,
and these bytes, walked the way `LCS_Write` walks a batch (from position 0,
following each frame's big-endian offset field, frame length = next offset
minus own offset), give exactly the payloads in enqueue order, each with type
0x01 and slot = port; the walk ends on a zero offset field located at the old
`iFrameOffset`. -/
theorem C2_batch_round_trip (dev dev2 : LCSDEV) (bPort : Nat) (ps : List (List Nat))
    (wakes : List (LCSDEV → LCSDEV)) (sCount : Nat) (pIOBuf : Mem) (st : CCWStatus)
    (hempty : dev.iFrameOffset = 0) (hnb : dev.fPendingBaffle = false)
    (hmax : dev.iMaxFrameBufferSize < U16_MOD) (hne : ps ≠ [])
    (henq : enqueueEthFrames bPort dev ps = some dev2)
    (hcount : dev2.iFrameOffset + 2 ≤ sCount) :
    ∃ r, LCS_Read wakes dev2 sCount pIOBuf st = some r ∧
      r.copied = dev2.iFrameOffset + 2 ∧
      decodeBatch (ps.length + 1) r.pIOBuf
        = some { state := ps.map (fun p => { bType := 0x01, bSlot := bPort, bData := p })
                 pIOBuf := r.pIOBuf
                 completed := true
                 iPrevOffset := dev2.iFrameOffset } ∧
      FETCH_HW r.pIOBuf dev2.iFrameOffset = 0 := by
  have h0 : EthFramesAt dev.bFrameBuffer bPort 0 [] dev.iFrameOffset := by
    simp [EthFramesAt, hempty]
  obtain ⟨i1, i2, i3, i4⟩ := enqueueEthFrames_frames bPort ps dev dev2 [] (by simp [hempty, U16_MOD])
    hmax h0 (fun h => absurd rfl h) henq
  simp only [List.nil_append] at i3 i4
  have hpend : dev2.fDataPending = true ∨ dev2.fReplyPending = true := Or.inl (i3 hne)
  have hb : dev2.fPendingBaffle = false := by rw [i2]; exact hnb
  refine ⟨_, LCS_Read_pending wakes dev2 sCount pIOBuf st hpend, ?_⟩
  unfold LCS_Read_drain
  rw [read_length_nowrap dev2 i1]
  have hs : ¬ sCount < dev2.iFrameOffset + 2 := by omega
  simp only [hb, Bool.false_eq_true, if_false, hs]
  have hz : FETCH_HW (memcpy pIOBuf 0 (STORE_HW dev2.bFrameBuffer dev2.iFrameOffset 0) 0
      (dev2.iFrameOffset + 2)) dev2.iFrameOffset = 0 := by
    rw [FETCH_HW_congr (STORE_HW dev2.bFrameBuffer dev2.iFrameOffset 0) _ dev2.iFrameOffset]
    · exact FETCH_HW_STORE_HW _ _ _ (by simp [U16_MOD])
    · rw [memcpy_inside _ _ _ _ _ _ (by omega) (by omega)]
      simp
    · rw [memcpy_inside _ _ _ _ _ _ (by omega) (by omega)]
      simp
  refine ⟨trivial, ?_, hz⟩
  have hfr : EthFramesAt (memcpy pIOBuf 0 (STORE_HW dev2.bFrameBuffer dev2.iFrameOffset 0) 0
      (dev2.iFrameOffset + 2)) bPort 0 ps dev2.iFrameOffset := by
    apply EthFramesAt_congr _ _ _ _ _ _ i4
    intro i hi
    rw [memcpy_inside _ _ _ _ _ _ (by omega) (by omega),
      STORE_HW_other _ _ _ _ (by omega) (by omega)]
    simp
  have := walk_EthFramesAt _ bPort ps 0 dev2.iFrameOffset (ps.length + 1) [] hfr hz (by omega)
  simpa [decodeBatch, ethFrame, LCS_FRMTYP_ENET] using this

/-- Witness of C2: two payloads on the example device, read with `sCount` = 100. -/
theorem C2_batch_round_trip_witness :
    exDev.iFrameOffset = 0 ∧ exDev.fPendingBaffle = false ∧
    exDev.iMaxFrameBufferSize < U16_MOD ∧ exPayloads ≠ [] ∧
    enqueueEthFrames 0 exDev exPayloads = some exDevTwoFrames ∧
    exDevTwoFrames.iFrameOffset + 2 ≤ 100 ∧
    ∃ r, LCS_Read [] exDevTwoFrames 100 (fun _ => 0xEE) {} = some r ∧
      r.copied = exDevTwoFrames.iFrameOffset + 2 ∧
      decodeBatch (exPayloads.length + 1) r.pIOBuf
        = some { state := exPayloads.map (fun p => { bType := 0x01, bSlot := 0, bData := p })
                 pIOBuf := r.pIOBuf
                 completed := true
                 iPrevOffset := exDevTwoFrames.iFrameOffset } ∧
      FETCH_HW r.pIOBuf exDevTwoFrames.iFrameOffset = 0 :=
  ⟨rfl, rfl, by decide, by decide, rfl, by decide,
    C2_batch_round_trip exDev exDevTwoFrames 0 exPayloads [] 100 (fun _ => 0xEE) {} rfl rfl
      (by decide) (by decide) rfl (by decide)⟩

/-! ### The frame walk of the channel Write -/

/-- `LCS_Write` is the frame walk with the frame switch of the mode, from the
start of the batch, followed by the setting of the status. -/
theorem LCS_Write_eq {W : Type} (env : LCSWriteEnv W) (fuel : Nat) (w : W) (sCount : Nat)
    (pIOBuf : Mem) (sense0 : Nat) (st : CCWStatus) :
    LCS_Write env fuel w sCount pIOBuf sense0 st
      = (LCS_Write_walk (LCS_Write_body env w sCount pIOBuf)
          (LCS_Write_start env w sCount pIOBuf) fuel w pIOBuf 0).map
          (LCS_Write_finish sense0 st) := by
  unfold LCS_Write LCS_Write_body LCS_Write_start
  by_cases h : env.bMode w = LCSDEV_MODE_IP
  · simp [h]
  · simp [h]

/-- From a loop state reached after `k` frames the walk goes on as if started there. -/
theorem walk_after {S : Type} (body : S → Mem → Nat → Nat → S × Mem × Bool) (start : Nat) :
    ∀ (k f : Nat) (s : S) (buf : Mem) (p : Nat) (s2 : S) (buf2 : Mem) (p2 : Nat),
      LCS_Write_after body start k s buf p = some (s2, buf2, p2) →
      LCS_Write_walk body start (k + f) s buf p = LCS_Write_walk body start f s2 buf2 p2 := by
  intro k
  induction k with
  | zero =>
    intro f s buf p s2 buf2 p2 h
    simp only [LCS_Write_after, Option.some.injEq, Prod.mk.injEq] at h
    obtain ⟨rfl, rfl, rfl⟩ := h
    simp
  | succ k ih =>
    intro f s buf p s2 buf2 p2 h
    have e : k + 1 + f = (k + f) + 1 := by omega
    rw [e, LCS_Write_walk]
    rw [LCS_Write_after] at h
    dsimp only at h ⊢
    by_cases hz : FETCH_HW buf (start + p) = 0
    · rw [if_pos hz] at h
      cases h
    · rw [if_neg hz] at h ⊢
      by_cases hv : (body s buf (start + p)
          ((FETCH_HW buf (start + p) + U16_MOD - p) % U16_MOD)).2.2 = true
      · rw [if_pos hv] at h ⊢
        exact ih f _ _ _ _ _ _ h
      · rw [if_neg hv] at h
        cases h

/-- One more frame through the switch, from a loop state reached after `k` frames. -/
theorem after_succ {S : Type} (body : S → Mem → Nat → Nat → S × Mem × Bool) (start : Nat) :
    ∀ (k : Nat) (s : S) (buf : Mem) (p : Nat) (s2 : S) (buf2 : Mem) (p2 : Nat),
      LCS_Write_after body start k s buf p = some (s2, buf2, p2) →
      LCS_Write_after body start (k + 1) s buf p
        = LCS_Write_after body start 1 s2 buf2 p2 := by
  intro k
  induction k with
  | zero =>
    intro s buf p s2 buf2 p2 h
    simp only [LCS_Write_after, Option.some.injEq, Prod.mk.injEq] at h
    obtain ⟨rfl, rfl, rfl⟩ := h
    rfl
  | succ k ih =>
    intro s buf p s2 buf2 p2 h
    rw [LCS_Write_after] at h ⊢
    dsimp only at h ⊢
    by_cases hz : FETCH_HW buf (start + p) = 0
    · rw [if_pos hz] at h
      cases h
    · rw [if_neg hz] at h ⊢
      by_cases hv : (body s buf (start + p)
          ((FETCH_HW buf (start + p) + U16_MOD - p) % U16_MOD)).2.2 = true
      · rw [if_pos hv] at h ⊢
        exact ih _ _ _ _ _ _ h
      · rw [if_neg hv] at h
        cases h

/-- Every result of the walk comes from a loop state at which the offset field
is zero, or at which the frame switch gives up. -/
theorem walk_result {S : Type} (body : S → Mem → Nat → Nat → S × Mem × Bool) (start : Nat) :
    ∀ (fuel : Nat) (s : S) (buf : Mem) (p : Nat) (res : WalkResult S),
      LCS_Write_walk body start fuel s buf p = some res →
      ∃ k s2 buf2 p2, k < fuel ∧ LCS_Write_after body start k s buf p = some (s2, buf2, p2) ∧
        ((FETCH_HW buf2 (start + p2) = 0 ∧ res.completed = true) ∨
         (FETCH_HW buf2 (start + p2) ≠ 0 ∧
          (body s2 buf2 (start + p2)
            ((FETCH_HW buf2 (start + p2) + U16_MOD - p2) % U16_MOD)).2.2 = false ∧
          res.completed = false)) := by
  intro fuel
  induction fuel with
  | zero =>
    intro s buf p res h
    simp [LCS_Write_walk] at h
  | succ f ih =>
    intro s buf p res h
    rw [LCS_Write_walk] at h
    dsimp only at h
    by_cases hz : FETCH_HW buf (start + p) = 0
    · rw [if_pos hz] at h
      simp only [Option.some.injEq] at h
      subst h
      exact ⟨0, s, buf, p, by omega, rfl, Or.inl ⟨hz, rfl⟩⟩
    · rw [if_neg hz] at h
      by_cases hv : (body s buf (start + p)
          ((FETCH_HW buf (start + p) + U16_MOD - p) % U16_MOD)).2.2 = true
      · rw [if_pos hv] at h
        obtain ⟨k, s2, buf2, p2, hk, hreach, hend⟩ := ih _ _ _ _ h
        refine ⟨k + 1, s2, buf2, p2, by omega, ?_, hend⟩
        rw [LCS_Write_after]
        dsimp only
        rw [if_neg hz, if_pos hv]
        exact hreach
      · rw [if_neg hv] at h
        simp only [Option.some.injEq] at h
        subst h
        refine ⟨0, s, buf, p, by omega, rfl, Or.inr ⟨hz, ?_, rfl⟩⟩
        simpa using hv

/-- The Ethernet case gives up exactly when the TAP write does not return the
frame length. -/
theorem eth_rejected {W : Type} (env : LCSWriteEnv W) (ckSum : Bool) (w : W) (buf : Mem)
    (pLCSHDR iLength : Nat) :
    (LCS_Write_eth env ckSum w buf pLCSHDR iLength).2.2 = false ↔
      (env.TUNTAP_Write w
        (if ckSum = true ∧ env.fDoCkSumOffload w = true then
          env.EtherIpv4CkSumOffload (fixSrcMAC env w buf (pLCSHDR + sizeof_LCSETHFRM))
            (pLCSHDR + sizeof_LCSETHFRM) ((iLength + U16_MOD - sizeof_LCSETHFRM) % U16_MOD)
         else fixSrcMAC env w buf (pLCSHDR + sizeof_LCSETHFRM))
        (pLCSHDR + sizeof_LCSETHFRM) ((iLength + U16_MOD - sizeof_LCSETHFRM) % U16_MOD)).2
      ≠ (((iLength + U16_MOD - sizeof_LCSETHFRM) % U16_MOD : Nat) : Int) := by
  unfold LCS_Write_eth
  dsimp only
  split_ifs <;> simp_all

/-- The IP-mode frame switch gives up exactly on a rejected frame. -/
theorem frame_IP_rejected {W : Type} (env : LCSWriteEnv W) (w : W) (buf : Mem)
    (pLCSHDR iLength : Nat) :
    (LCS_Write_frame_IP env w buf pLCSHDR iLength).2.2 = false ↔
      frameRejected env true w buf pLCSHDR iLength := by
  unfold LCS_Write_frame_IP frameRejected
  dsimp only
  by_cases h1 : buf (pLCSHDR + 2) = LCS_FRMTYP_ENET
  · rw [if_pos h1, eth_rejected]
    simp [h1]
  · rw [if_neg h1]
    by_cases h0 : buf (pLCSHDR + 2) = LCS_FRMTYP_CMD
    · rw [if_pos h0]
      by_cases hl : buf (pLCSHDR + 5) = LCS_INITIATOR_LGW
      · simp [hl, h0, LCS_FRMTYP_CMD, LCS_FRMTYP_ENET]
      · simp [hl, h0, LCS_FRMTYP_CMD, LCS_FRMTYP_ENET]
    · rw [if_neg h0]
      simp [h0, h1]

/-- The SNA-mode frame switch gives up exactly on a rejected frame. -/
theorem frame_SNA_rejected {W : Type} (env : LCSWriteEnv W) (bBafflePres : Bool) (w : W)
    (buf : Mem) (pLCSHDR iLength : Nat) :
    (LCS_Write_frame_SNA env bBafflePres w buf pLCSHDR iLength).2.2 = false ↔
      frameRejected env false w buf pLCSHDR iLength := by
  unfold LCS_Write_frame_SNA frameRejected
  dsimp only
  by_cases h1 : buf (pLCSHDR + 2) = LCS_FRMTYP_ENET
  · rw [if_pos h1, eth_rejected]
    simp [h1]
  · rw [if_neg h1]
    by_cases h4 : buf (pLCSHDR + 2) = LCS_FRMTYP_SNA
    · rw [if_pos h4]
      simp [h4, LCS_FRMTYP_SNA, LCS_FRMTYP_CMD, LCS_FRMTYP_ENET]
    · rw [if_neg h4]
      by_cases h0 : buf (pLCSHDR + 2) = LCS_FRMTYP_CMD
      · rw [if_pos h0]
        by_cases hm : env.malloc_LCSATTN
            (env.handler (snaHandler (buf (pLCSHDR + 4))) w buf pLCSHDR iLength bBafflePres)
            = true
        · simp [hm, h0, LCS_FRMTYP_CMD, LCS_FRMTYP_ENET]
        · simp [hm, h0, LCS_FRMTYP_CMD, LCS_FRMTYP_ENET]
      · rw [if_neg h0]
        simp [h0, h1, h4]

/-- The frame switch of the mode gives up exactly on a rejected frame. -/
theorem body_rejected {W : Type} (env : LCSWriteEnv W) (w0 : W) (sCount : Nat) (pIOBuf : Mem)
    (w : W) (buf : Mem) (pLCSHDR iLength : Nat) :
    (LCS_Write_body env w0 sCount pIOBuf w buf pLCSHDR iLength).2.2 = false ↔
      frameRejected env (decide (env.bMode w0 = LCSDEV_MODE_IP)) w buf pLCSHDR iLength := by
  unfold LCS_Write_body
  by_cases h : env.bMode w0 = LCSDEV_MODE_IP
  · rw [if_pos h, frame_IP_rejected]
    simp [h]
  · rw [if_neg h, frame_SNA_rejected]
    simp [h]

/-- C3 as stated fails.  In the 16-byte IP-mode Write `exBackwardBatch` the
frame at byte 8 has the offset field 4, non-zero and not greater than its own
start; `LCS_Write` dispatches it (to `LCS_DefaultCmdProc`, with length
(4 - 8) mod 2^16 = 65532) and ends with CE|DE, sense byte 0 untouched.  In the
8-byte Write `exOverlongBatch` the frame at byte 0 has the offset field 0x20,
past `sCount`; it is dispatched with length 32 and the Write ends with CE|DE. -/
theorem C3_malformed_offsets_are_dispatched :
    FETCH_HW exBackwardBatch 8 = 4 ∧
    (LCS_Write traceEnv 3 [] 16 exBackwardBatch 0 {}).map
        (fun r => (r.world, r.sense0, r.status.unitStat))
      = some ([(LCSHandler.LCS_DefaultCmdProc, 0, 8), (LCSHandler.LCS_DefaultCmdProc, 8, 65532)],
          0, CSW_CE ||| CSW_DE) ∧
    FETCH_HW exOverlongBatch 0 = 32 ∧
    (LCS_Write traceEnv 2 [] 8 exOverlongBatch 0 {}).map
        (fun r => (r.world, r.sense0, r.status.unitStat))
      = some ([(LCSHandler.LCS_DefaultCmdProc, 0, 32)], 0, CSW_CE ||| CSW_DE) ∧
    CSW_CE ||| CSW_DE ≠ CSW_CE ||| CSW_DE ||| CSW_UC ∧ (0 : Nat) ≠ SENSE_EC := by
  decide

/-- C3 amended: `LCS_Write` checks no offset; it gives up on a frame for its
type or for a failed TAP write only.  For every input, in IP and in SNA mode:

1. whenever `LCS_Write` returns, the walk has reached, after some number of
   frames, a frame start at which either the offset field is zero, and then
   unit status is CE|DE, residual 0 and sense byte 0 is untouched; or the offset
   field is non-zero and the frame is rejected (unsupported type, or Ethernet
   frame whose TAP write fails), and then sense byte 0 is equipment-check and
   unit status CE|DE|UC;
2. a frame reached by the walk with a non-zero offset field, whatever its value
   (not greater than the frame's own start, past `sCount`, ...), that is not
   rejected goes through the frame switch with length (offset - own start) mod
   2^16, and the walk goes on at that offset;
3. once the walk reaches a rejected frame with a non-zero offset field, after
   `k` frames, `LCS_Write` returns with equipment-check and CE|DE|UC (any fuel
   above `k`). -/
theorem C3_write_rejects_by_type_only {W : Type} (env : LCSWriteEnv W) (w : W) (sCount : Nat)
    (pIOBuf : Mem) (sense0 : Nat) (st : CCWStatus) :
    (∀ fuel r, LCS_Write env fuel w sCount pIOBuf sense0 st = some r →
      ∃ k w2 buf2 p2, k < fuel ∧
        LCS_Write_after (LCS_Write_body env w sCount pIOBuf)
          (LCS_Write_start env w sCount pIOBuf) k w pIOBuf 0 = some (w2, buf2, p2) ∧
        ((FETCH_HW buf2 (LCS_Write_start env w sCount pIOBuf + p2) = 0 ∧
            r.status.unitStat = CSW_CE ||| CSW_DE ∧ r.status.residual = 0 ∧
            r.sense0 = sense0) ∨
         (FETCH_HW buf2 (LCS_Write_start env w sCount pIOBuf + p2) ≠ 0 ∧
            frameRejected env (decide (env.bMode w = LCSDEV_MODE_IP)) w2 buf2
              (LCS_Write_start env w sCount pIOBuf + p2)
              ((FETCH_HW buf2 (LCS_Write_start env w sCount pIOBuf + p2) + U16_MOD - p2)
                % U16_MOD) ∧
            r.sense0 = SENSE_EC ∧ r.status.unitStat = CSW_CE ||| CSW_DE ||| CSW_UC))) ∧
    (∀ k w2 buf2 p2,
      LCS_Write_after (LCS_Write_body env w sCount pIOBuf)
          (LCS_Write_start env w sCount pIOBuf) k w pIOBuf 0 = some (w2, buf2, p2) →
      FETCH_HW buf2 (LCS_Write_start env w sCount pIOBuf + p2) ≠ 0 →
      ¬ frameRejected env (decide (env.bMode w = LCSDEV_MODE_IP)) w2 buf2
          (LCS_Write_start env w sCount pIOBuf + p2)
          ((FETCH_HW buf2 (LCS_Write_start env w sCount pIOBuf + p2) + U16_MOD - p2)
            % U16_MOD) →
      LCS_Write_after (LCS_Write_body env w sCount pIOBuf)
          (LCS_Write_start env w sCount pIOBuf) (k + 1) w pIOBuf 0
        = some
          ((LCS_Write_body env w sCount pIOBuf w2 buf2
              (LCS_Write_start env w sCount pIOBuf + p2)
              ((FETCH_HW buf2 (LCS_Write_start env w sCount pIOBuf + p2) + U16_MOD - p2)
                % U16_MOD)).1,
           (LCS_Write_body env w sCount pIOBuf w2 buf2
              (LCS_Write_start env w sCount pIOBuf + p2)
              ((FETCH_HW buf2 (LCS_Write_start env w sCount pIOBuf + p2) + U16_MOD - p2)
                % U16_MOD)).2.1,
           FETCH_HW buf2 (LCS_Write_start env w sCount pIOBuf + p2))) ∧
    (∀ k w2 buf2 p2,
      LCS_Write_after (LCS_Write_body env w sCount pIOBuf)
          (LCS_Write_start env w sCount pIOBuf) k w pIOBuf 0 = some (w2, buf2, p2) →
      FETCH_HW buf2 (LCS_Write_start env w sCount pIOBuf + p2) ≠ 0 →
      frameRejected env (decide (env.bMode w = LCSDEV_MODE_IP)) w2 buf2
          (LCS_Write_start env w sCount pIOBuf + p2)
          ((FETCH_HW buf2 (LCS_Write_start env w sCount pIOBuf + p2) + U16_MOD - p2)
            % U16_MOD) →
      ∀ fuel, k < fuel →
        ∃ r, LCS_Write env fuel w sCount pIOBuf sense0 st = some r ∧
          r.sense0 = SENSE_EC ∧ r.status.unitStat = CSW_CE ||| CSW_DE ||| CSW_UC) := by
  refine ⟨?_, ?_, ?_⟩
  · intro fuel r hrun
    rw [LCS_Write_eq] at hrun
    cases hw : LCS_Write_walk (LCS_Write_body env w sCount pIOBuf)
        (LCS_Write_start env w sCount pIOBuf) fuel w pIOBuf 0 with
    | none =>
      rw [hw] at hrun
      simp at hrun
    | some res =>
      rw [hw] at hrun
      simp only [Option.map_some', Option.some.injEq] at hrun
      subst hrun
      obtain ⟨k, w2, buf2, p2, hk, hreach, hend⟩ := walk_result _ _ _ _ _ _ _ hw
      refine ⟨k, w2, buf2, p2, hk, hreach, ?_⟩
      rcases hend with ⟨hz, hc⟩ | ⟨hz, hv, hc⟩
      · left
        simp [LCS_Write_finish, hc, hz]
      · right
        refine ⟨hz, (body_rejected env w sCount pIOBuf w2 buf2 _ _).mp hv, ?_⟩
        simp [LCS_Write_finish, hc]
  · intro k w2 buf2 p2 hreach hz hnr
    rw [after_succ _ _ _ _ _ _ _ _ _ hreach, LCS_Write_after]
    dsimp only
    have hv : (LCS_Write_body env w sCount pIOBuf w2 buf2
        (LCS_Write_start env w sCount pIOBuf + p2)
        ((FETCH_HW buf2 (LCS_Write_start env w sCount pIOBuf + p2) + U16_MOD - p2)
          % U16_MOD)).2.2 = true := by
      by_contra hc
      exact hnr ((body_rejected env w sCount pIOBuf w2 buf2 _ _).mp (by simpa using hc))
    rw [if_neg hz, if_pos hv]
    rfl
  · intro k w2 buf2 p2 hreach hz hrej fuel hk
    obtain ⟨f, rfl⟩ : ∃ f, fuel = k + (f + 1) := ⟨fuel - k - 1, by omega⟩
    have hv := (body_rejected env w sCount pIOBuf w2 buf2 _ _).mpr hrej
    rw [LCS_Write_eq, walk_after _ _ _ _ _ _ _ _ _ _ hreach, LCS_Write_walk]
    dsimp only
    rw [if_neg hz, if_neg (by simp [hv])]
    simp [LCS_Write_finish]

/-- Witness of C3 (amended): the 8-byte Write `exBadTypeBatch`, whose only frame
has type 0x02, ends with equipment-check and CE|DE|UC. -/
theorem C3_write_rejects_by_type_only_witness :
    ∃ r, LCS_Write traceEnv 1 [] 8 exBadTypeBatch 0 {} = some r ∧
      r.sense0 = SENSE_EC ∧ r.status.unitStat = CSW_CE ||| CSW_DE ||| CSW_UC :=
  (C3_write_rejects_by_type_only traceEnv [] 8 exBadTypeBatch 0 {}).2.2 0 [] exBadTypeBatch 0
    rfl (by decide) (Or.inl ⟨by decide, by decide, Or.inl rfl⟩) 1 (by decide)

/-! ### Baffle detection on inputs that hold a whole baffle -/

/-- Bytes 2..6 equal to bytes 3..7, with byte 2 zero, means bytes 2..7 are zero. -/
theorem baffle_zero_bytes (m : Mem) :
    (m 2 = 0 ∧ readBytes m 2 5 = readBytes m 3 5) ↔ ∀ i, 2 ≤ i → i ≤ 7 → m i = 0 := by
  have e : readBytes m 2 5 = [m 2, m 3, m 4, m 5, m 6] := by
    simp [readBytes, List.range_succ]
  have e2 : readBytes m 3 5 = [m 3, m 4, m 5, m 6, m 7] := by
    simp [readBytes, List.range_succ]
  rw [e, e2]
  constructor
  · rintro ⟨h2, h⟩ i hi1 hi2
    simp only [List.cons.injEq, and_true] at h
    obtain ⟨a, b, c, d, e⟩ := h
    have h3 : m 3 = 0 := by rw [← a]; exact h2
    have h4 : m 4 = 0 := by rw [← b]; exact h3
    have h5 : m 5 = 0 := by rw [← c]; exact h4
    have h6 : m 6 = 0 := by rw [← d]; exact h5
    have h7 : m 7 = 0 := by rw [← e]; exact h6
    have : i = 2 ∨ i = 3 ∨ i = 4 ∨ i = 5 ∨ i = 6 ∨ i = 7 := by omega
    rcases this with rfl | rfl | rfl | rfl | rfl | rfl <;> assumption
  · intro h
    have h2 := h 2 (by omega) (by omega)
    have h3 := h 3 (by omega) (by omega)
    have h4 := h 4 (by omega) (by omega)
    have h5 := h 5 (by omega) (by omega)
    have h6 := h 6 (by omega) (by omega)
    have h7 := h 7 (by omega) (by omega)
    simp [h2, h3, h4, h5, h6, h7]

/-- Baffle detection of the SNA-mode `LCS_Write` on an input that can hold a
baffle (`sCount` between 8 and the largest CCW count, 65535): the input is taken
as baffle-prefixed (`bBafflePres` = TRUE, batch starts at byte 8) exactly when
the big-endian value of bytes 0..1 is `sCount` - 8 and bytes 2..7 are all zero;
otherwise `bBafflePres` = FALSE and the batch starts at byte 0. -/
theorem baffle_detection_of_whole_baffle (sCount : Nat) (pIOBuf : Mem) (h8 : 8 ≤ sCount)
    (hc : sCount < U16_MOD) :
    (LCS_Write_baffle sCount pIOBuf = (true, 8) ↔
      (FETCH_HW pIOBuf 0 = sCount - 8 ∧ ∀ i, 2 ≤ i → i ≤ 7 → pIOBuf i = 0)) ∧
    (LCS_Write_baffle sCount pIOBuf ≠ (true, 8) → LCS_Write_baffle sCount pIOBuf = (false, 0)) := by
  have e : ((sCount + U32_MOD - SIZEOF_BAFFLE) % U32_MOD) % U16_MOD = sCount - 8 := by
    simp only [U32_MOD, U16_MOD, SIZEOF_BAFFLE] at *
    omega
  unfold LCS_Write_baffle
  dsimp only
  rw [e, ← baffle_zero_bytes]
  by_cases h : FETCH_HW pIOBuf 0 = sCount - 8 ∧ pIOBuf 2 = 0 ∧
      readBytes pIOBuf 2 5 = readBytes pIOBuf 3 5
  · simp [h, SIZEOF_BAFFLE]
  · rw [if_neg h]
    simp only [Prod.mk.injEq, Bool.false_eq_true, false_and, false_iff, ne_eq, not_false_eq_true,
      forall_const, and_true]
    exact h

/-- The S4 input is taken as baffle-prefixed. -/
theorem baffle_detection_of_whole_baffle_witness :
    8 ≤ 30 ∧ 30 < U16_MOD ∧ LCS_Write_baffle 30 exBaffleBatch = (true, 8) ∧
    FETCH_HW exBaffleBatch 0 = 30 - 8 :=
  ⟨by decide, by decide, by decide,
    (((baffle_detection_of_whole_baffle 30 exBaffleBatch (by decide) (by decide)).1).mp
      (by decide)).1⟩


/-! ### Reply construction -/

/-- The reply `INIT_REPLY_FRAME` builds, byte by byte. -/
theorem INIT_REPLY_FRAME_byte (pReply buf : Mem) (pCmdFrame L R i : Nat) :
    (INIT_REPLY_FRAME pReply R buf pCmdFrame L).1 i =
      if i = 0 ∨ i = 1 ∨ i = 8 ∨ i = 9 then 0
      else if i < min L R then buf (pCmdFrame + i)
      else if i < R then 0
      else pReply i := by
  unfold INIT_REPLY_FRAME
  by_cases h : L ≥ R
  · simp only [h, if_true, STORE_HW, memcpy, U16_MOD]
    by_cases h8 : i = 8
    · simp [h8]
    by_cases h9 : i = 9
    · simp [h9]
    by_cases h0 : i = 0
    · simp [h0]
    by_cases h1 : i = 1
    · simp [h1]
    have hm : min L R = R := Nat.min_eq_right h
    simp only [h8, h9, h0, h1, hm, or_self, if_false, Nat.zero_le, true_and, zero_add,
      Nat.sub_zero]
    split_ifs <;> rfl
  · simp only [h, if_false, STORE_HW, memcpy, memset, U16_MOD]
    by_cases h8 : i = 8
    · simp [h8]
    by_cases h9 : i = 9
    · simp [h9]
    by_cases h0 : i = 0
    · simp [h0]
    by_cases h1 : i = 1
    · simp [h1]
    have hm : min L R = L := Nat.min_eq_left (by omega)
    simp only [h8, h9, h0, h1, hm, or_self, if_false, Nat.zero_le, true_and, zero_add,
      Nat.sub_zero]

/-- The length `INIT_REPLY_FRAME` leaves in `iReplyLen`. -/
theorem INIT_REPLY_FRAME_len (pReply buf : Mem) (pCmdFrame L R : Nat) :
    (INIT_REPLY_FRAME pReply R buf pCmdFrame L).2 = min L R := by
  unfold INIT_REPLY_FRAME
  by_cases h : L ≥ R
  · simp only [h, if_true]
    exact (Nat.min_eq_right h).symm
  · simp only [h, if_false]
    exact (Nat.min_eq_left (by omega)).symm

/-- **C19** (reply construction, `INIT_REPLY_FRAME`).  For a command frame of
length `L ≥ 12` and a reply of size `R ≥ 12`: the reply length is `min L R`;
bytes 0..1 and 8..9 of the reply are zero; every other byte below `min L R`
equals the request byte at the same place, in particular type (2), slot (3),
command code (4), initiator (5), sequence number (6..7), LAN type (10) and
relative adapter number (11); and when `L < R` the reply bytes `L..R-1` are
zero. -/
theorem C19_init_reply_frame (pReply buf : Mem) (pCmdFrame L R : Nat)
    (hL : 12 ≤ L) (hR : 12 ≤ R) :
    (INIT_REPLY_FRAME pReply R buf pCmdFrame L).2 = min L R ∧
    (∀ i, i = 0 ∨ i = 1 ∨ i = 8 ∨ i = 9 →
      (INIT_REPLY_FRAME pReply R buf pCmdFrame L).1 i = 0) ∧
    (∀ i, i < min L R → i ≠ 0 → i ≠ 1 → i ≠ 8 → i ≠ 9 →
      (INIT_REPLY_FRAME pReply R buf pCmdFrame L).1 i = buf (pCmdFrame + i)) ∧
    (∀ i, i = 2 ∨ i = 3 ∨ i = 4 ∨ i = 5 ∨ i = 6 ∨ i = 7 ∨ i = 10 ∨ i = 11 →
      (INIT_REPLY_FRAME pReply R buf pCmdFrame L).1 i = buf (pCmdFrame + i)) ∧
    (L < R → ∀ i, L ≤ i → i < R → (INIT_REPLY_FRAME pReply R buf pCmdFrame L).1 i = 0) := by
  refine ⟨INIT_REPLY_FRAME_len _ _ _ _ _, ?_, ?_, ?_, ?_⟩
  · intro i hi
    rw [INIT_REPLY_FRAME_byte, if_pos hi]
  · intro i hi h0 h1 h8 h9
    rw [INIT_REPLY_FRAME_byte, if_neg (by omega), if_pos hi]
  · intro i hi
    have hlt : i < min L R := by
      have : 12 ≤ min L R := le_min hL hR
      omega
    rw [INIT_REPLY_FRAME_byte, if_neg (by omega), if_pos hlt]
  · intro hLR i h1 h2
    rw [INIT_REPLY_FRAME_byte]
    have hm : min L R = L := Nat.min_eq_left (by omega)
    split_ifs <;> first | rfl | omega

/-- C19 at a 16-byte Startup request answered with a 24-byte reply. -/
theorem C19_init_reply_frame_witness :
    (INIT_REPLY_FRAME (fun _ => 0xAA) 24 exReply 0 16).2 = min 16 24 ∧
    (∀ i, i = 0 ∨ i = 1 ∨ i = 8 ∨ i = 9 →
      (INIT_REPLY_FRAME (fun _ => 0xAA) 24 exReply 0 16).1 i = 0) ∧
    (∀ i, i < min 16 24 → i ≠ 0 → i ≠ 1 → i ≠ 8 → i ≠ 9 →
      (INIT_REPLY_FRAME (fun _ => 0xAA) 24 exReply 0 16).1 i = exReply (0 + i)) ∧
    (∀ i, i = 2 ∨ i = 3 ∨ i = 4 ∨ i = 5 ∨ i = 6 ∨ i = 7 ∨ i = 10 ∨ i = 11 →
      (INIT_REPLY_FRAME (fun _ => 0xAA) 24 exReply 0 16).1 i = exReply (0 + i)) ∧
    ((16 : Nat) < 24 → ∀ i, 16 ≤ i → i < 24 →
      (INIT_REPLY_FRAME (fun _ => 0xAA) 24 exReply 0 16).1 i = 0) :=
  C19_init_reply_frame (fun _ => 0xAA) exReply 0 16 24 (by decide) (by decide)

/-! ### Startup -/

/-- The reply enqueue leaves `iMaxFrameBufferSize` alone. -/
theorem reply_enqueue_iMax (dev : LCSDEV) (pReply : Mem) (iSize : Nat) (bBafflePres : Bool) :
    (LCS_DoEnqueueReplyFrame dev pReply iSize bBafflePres).dev.iMaxFrameBufferSize
      = dev.iMaxFrameBufferSize := by
  unfold LCS_DoEnqueueReplyFrame
  split_ifs <;> rfl

/-- The value `LCS_DoEnqueueReplyFrame` returns. -/
theorem reply_rc (dev : LCSDEV) (pReply : Mem) (iSize : Nat) (bBafflePres : Bool) :
    (LCS_DoEnqueueReplyFrame dev pReply iSize bBafflePres).rc =
      if (dev.iFrameOffset + iSize + sizeof_hwOffset) % SIZE_T_MOD > dev.iMaxFrameBufferSize
      then -1 else 0 := by
  unfold LCS_DoEnqueueReplyFrame
  split_ifs <;> rfl

/-- `LCS_EnqueueReplyFrame` leaves `iMaxFrameBufferSize` alone. -/
theorem LCS_EnqueueReplyFrame_iMax (w w1 : LCSWorld) (pReply : Mem) (iSize : Nat)
    (bBafflePres : Bool) (h : LCS_EnqueueReplyFrame w pReply iSize bBafflePres = some w1) :
    w1.dev.iMaxFrameBufferSize = w.dev.iMaxFrameBufferSize := by
  unfold LCS_EnqueueReplyFrame at h
  by_cases h1 : w.port.fd ≠ -1 ∧ w.port.fCloseInProgress = false
  · rw [if_pos h1] at h
    dsimp only at h
    by_cases h2 : (LCS_DoEnqueueReplyFrame w.dev pReply iSize bBafflePres).rc < 0
    · rw [if_pos h2] at h
      cases h
    · rw [if_neg h2] at h
      cases h
      exact reply_enqueue_iMax _ _ _ _
  · rw [if_neg h1] at h
    cases h
    rfl

/-- On a closed or closing port `LCS_EnqueueReplyFrame` returns at once and
enqueues nothing. -/
theorem LCS_EnqueueReplyFrame_closed (w : LCSWorld) (pReply : Mem) (iSize : Nat)
    (bBafflePres : Bool) (h : w.port.fd = -1 ∨ w.port.fCloseInProgress = true) :
    LCS_EnqueueReplyFrame w pReply iSize bBafflePres = some w := by
  unfold LCS_EnqueueReplyFrame
  rw [if_neg]
  rcases h with h | h
  · simp [h]
  · simp [h]

/-- On an open port `LCS_EnqueueReplyFrame` returns once
`LCS_DoEnqueueReplyFrame` has succeeded. -/
theorem LCS_EnqueueReplyFrame_open (w : LCSWorld) (pReply : Mem) (iSize : Nat)
    (bBafflePres : Bool) (hfd : w.port.fd ≠ -1) (hnc : w.port.fCloseInProgress = false)
    (hrc : (LCS_DoEnqueueReplyFrame w.dev pReply iSize bBafflePres).rc = 0) :
    LCS_EnqueueReplyFrame w pReply iSize bBafflePres
      = some { w with dev := (LCS_DoEnqueueReplyFrame w.dev pReply iSize bBafflePres).dev } := by
  unfold LCS_EnqueueReplyFrame
  rw [if_pos ⟨hfd, hnc⟩]
  simp [hrc]

/-- `LCS_EnqueueReplyFrame` is held up exactly when the port is open and the
reply does not fit. -/
theorem LCS_EnqueueReplyFrame_eq_none_iff (w : LCSWorld) (pReply : Mem) (iSize : Nat)
    (bBafflePres : Bool) :
    LCS_EnqueueReplyFrame w pReply iSize bBafflePres = none ↔
      (w.port.fd ≠ -1 ∧ w.port.fCloseInProgress = false ∧
        (w.dev.iFrameOffset + iSize + sizeof_hwOffset) % SIZE_T_MOD
          > w.dev.iMaxFrameBufferSize) := by
  unfold LCS_EnqueueReplyFrame
  by_cases h1 : w.port.fd ≠ -1 ∧ w.port.fCloseInProgress = false
  · rw [if_pos h1]
    dsimp only
    rw [reply_rc]
    by_cases h2 : (w.dev.iFrameOffset + iSize + sizeof_hwOffset) % SIZE_T_MOD
        > w.dev.iMaxFrameBufferSize
    · simp [h1, h2]
    · simp [h1, h2]
  · rw [if_neg h1]
    constructor
    · intro h
      cases h
    · rintro ⟨h2, h3, -⟩
      exact absurd ⟨h2, h3⟩ h1

/-- The value `LCS_Startup` gives `iMaxFrameBufferSize`, whenever it returns. -/
theorem LCS_Startup_iMax (opt : BuildOptions) (ext : Externals) (w w1 : LCSWorld) (buf : Mem)
    (pCmdFrame iCmdLen : Nat) (h : LCS_Startup opt ext w buf pCmdFrame iCmdLen = some w1) :
    w1.dev.iMaxFrameBufferSize =
      if CTC_MIN_FRAME_BUFFER_SIZE ≤ FETCH_HW buf (pCmdFrame + 12) ∧
          FETCH_HW buf (pCmdFrame + 12) ≤ sizeof_bFrameBuffer
      then FETCH_HW buf (pCmdFrame + 12)
      else if w.dev.iMaxFrameBufferSize = 0 then sizeof_bFrameBuffer
      else w.dev.iMaxFrameBufferSize := by
  unfold LCS_Startup at h
  simp only [Option.map_eq_some'] at h
  obtain ⟨w3, h3, rfl⟩ := h
  have := LCS_EnqueueReplyFrame_iMax _ _ _ _ _ h3
  simp only [this]
  simp only [sizeof_bFrameBuffer, CTC_DEF_FRAME_BUFFER_SIZE, CTC_MIN_FRAME_BUFFER_SIZE, U16_MOD]
  split_ifs <;> first | rfl | omega


/-- On an open port, a reply that fits and does not reserve a baffle is appended
at `iFrameOffset`. -/
theorem LCS_EnqueueReplyFrame_append (w : LCSWorld) (pReply : Mem) (iSize : Nat)
    (bBafflePres : Bool) (hfd : w.port.fd ≠ -1) (hnc : w.port.fCloseInProgress = false)
    (hnr : ¬ (w.dev.iFrameOffset = 0 ∧ bBafflePres = true))
    (hoff : w.dev.iFrameOffset < U16_MOD) (hmax : w.dev.iMaxFrameBufferSize < U16_MOD)
    (hsz : iSize ≤ PTRDIFF_MAX)
    (h : ¬ w.dev.iFrameOffset + iSize + 2 > w.dev.iMaxFrameBufferSize) :
    LCS_EnqueueReplyFrame w pReply iSize bBafflePres
      = some { w with dev := { w.dev with
                bFrameBuffer :=
                  STORE_HW (memcpy w.dev.bFrameBuffer w.dev.iFrameOffset pReply 0 iSize)
                    w.dev.iFrameOffset
                    (if w.dev.fPendingBaffle = true
                      then (w.dev.iFrameOffset + iSize + U16_MOD - 8) % U16_MOD
                      else w.dev.iFrameOffset + iSize)
                iFrameOffset := w.dev.iFrameOffset + iSize
                fReplyPending := true
                nDevEventSignals := w.dev.nDevEventSignals + 1 } } := by
  unfold LCS_EnqueueReplyFrame
  rw [if_pos ⟨hfd, hnc⟩, reply_append w.dev pReply iSize bBafflePres hnr hoff hmax hsz h]
  simp

/-- The frame walk of `LCS_Write` over the batch of scenario S1 calls
`LCS_Startup` once, for the 29 bytes at index 0, and ends on the terminator. -/
theorem write_S1 {W : Type} (env : LCSWriteEnv W) (fuel : Nat) (w : W) (sCount : Nat)
    (sense0 : Nat) (st : CCWStatus) (hmode : env.bMode w = LCSDEV_MODE_IP) (hfuel : 2 ≤ fuel) :
    LCS_Write env fuel w sCount exS1Batch sense0 st
      = some { world := env.handler LCSHandler.LCS_Startup w exS1Batch 0 29 false
               pIOBuf := exS1Batch
               sense0 := sense0
               status := { st with residual := 0, unitStat := CSW_CE ||| CSW_DE } } := by
  obtain ⟨k, rfl⟩ : ∃ k, fuel = k + 2 := ⟨fuel - 2, by omega⟩
  have f0 : FETCH_HW exS1Batch 0 = 29 := by decide
  have f29 : FETCH_HW exS1Batch 29 = 0 := by decide
  have b2 : exS1Batch 2 = 0 := by decide
  have b4 : exS1Batch 4 = 7 := by decide
  have b5 : exS1Batch 5 = 0 := by decide
  simp [LCS_Write, hmode, LCS_Write_walk, f0, f29, LCS_Write_frame_IP, b2, b4, b5,
    LCS_FRMTYP_ENET, LCS_FRMTYP_CMD, LCS_INITIATOR_LGW, ipHandler, LCS_CMD_STARTUP, U16_MOD,
    LCS_Write_finish]

/-- `LCS_Startup` on the command frame of scenario S1, for a device with an empty
ring on an open port: it returns, the device is started and its ring holds the
24-byte reply. -/
theorem startup_S1 (opt : BuildOptions) (ext : Externals) (w : LCSWorld)
    (h0 : w.dev.iFrameOffset = 0) (hnb : w.dev.fPendingBaffle = false)
    (hfd : w.port.fd ≠ -1) (hnc : w.port.fCloseInProgress = false)
    (hp : w.dev.iMaxFrameBufferSize = 0 ∨ 26 ≤ w.dev.iMaxFrameBufferSize)
    (hp16 : w.dev.iMaxFrameBufferSize < U16_MOD) :
    ∃ w1, LCS_Startup opt ext w exS1Batch 0 29 = some w1 ∧
      w1.dev.fDevStarted = true ∧ w1.dev.iFrameOffset = 24 ∧ w1.dev.fReplyPending = true ∧
      w1.dev.fPendingBaffle = false ∧
      (∀ i, i < 24 → w1.dev.bFrameBuffer i = (exS1Reply w.dev.bPort).getD i 0) := by
  have f12 : FETCH_HW exS1Batch (0 + 12) = 0x0800 := by decide
  have hlen : (INIT_REPLY_FRAME ext.stack sizeof_LCSSTRTFRM exS1Batch 0 29).2 = 24 := by
    rw [INIT_REPLY_FRAME_len]
    decide
  unfold LCS_Startup
  dsimp only
  rw [LCS_EnqueueReplyFrame_append]
  · rw [Option.map_some']
    refine ⟨_, rfl, rfl, ?_, rfl, hnb, ?_⟩
    · dsimp only
      rw [h0, hlen]
    · intro i hi
      dsimp only
      rw [h0, hlen, hnb]
      simp only [Bool.false_eq_true, if_false, zero_add]
      interval_cases i <;>
        simp [STORE_HW, memcpy, storeByte, INIT_REPLY_FRAME_byte, exS1Reply, exS1Batch,
          memOfList, sizeof_LCSSTRTFRM, LCS_FRMTYP_ENET, U16_MOD]
  · exact hfd
  · exact hnc
  · dsimp only
    rw [h0]
    simp
  · dsimp only
    rw [h0]
    decide
  · dsimp only
    rw [f12]
    simp only [sizeof_bFrameBuffer, CTC_DEF_FRAME_BUFFER_SIZE, CTC_MIN_FRAME_BUFFER_SIZE,
      U16_MOD] at *
    split_ifs <;> omega
  · rw [hlen]
    decide
  · dsimp only
    rw [h0, hlen, f12]
    simp only [sizeof_bFrameBuffer, CTC_DEF_FRAME_BUFFER_SIZE, CTC_MIN_FRAME_BUFFER_SIZE,
      U16_MOD] at *
    split_ifs <;> omega

/-- **C18** (scenario S1).  `LCS_Write` of the 31-byte batch of scenario S1 on an
IP device with an empty ring (no baffle pending, `iMaxFrameBufferSize` a `U16`
that is 0 or at least 26) on an open port returns with CE|DE and
`fDevStarted = 1`; the next `LCS_Read` with `sCount ≥ 26` returns without
waiting and copies exactly 26 bytes: the 24-byte reply (offset field 0x0018,
command code 0x07 at byte 4, return code 0 at bytes 8..9, LAN type 0x01, the
port number, bytes 12..13 equal to bytes 12..13 of the request) followed by the
2-byte zero terminator; the guest buffer behind them is untouched. -/
theorem C18_scenario_S1 (opt : BuildOptions) (ext : Externals) (w : LCSWorld) (fuel : Nat)
    (sense0 : Nat) (st : CCWStatus) (wakes : List (LCSDEV → LCSDEV)) (sCount : Nat)
    (pIOBuf : Mem) (stR : CCWStatus)
    (hmode : w.dev.bMode = LCSDEV_MODE_IP)
    (h0 : w.dev.iFrameOffset = 0) (hnb : w.dev.fPendingBaffle = false)
    (hfd : w.port.fd ≠ -1) (hnc : w.port.fCloseInProgress = false)
    (hp : w.dev.iMaxFrameBufferSize = 0 ∨ 26 ≤ w.dev.iMaxFrameBufferSize)
    (hp16 : w.dev.iMaxFrameBufferSize < U16_MOD)
    (hfuel : 2 ≤ fuel) (hs : 26 ≤ sCount) :
    ∃ r, LCS_Write_dev opt ext fuel w 31 exS1Batch sense0 st = some r ∧
      r.status.unitStat = CSW_CE ||| CSW_DE ∧
      r.world.dev.fDevStarted = true ∧
      ∃ rr, LCS_Read wakes r.world.dev sCount pIOBuf stR = some rr ∧
        rr.copied = 26 ∧
        readBytes rr.pIOBuf 0 26 = exS1Reply w.dev.bPort ++ [0, 0] ∧
        rr.pIOBuf 4 = 0x07 ∧
        FETCH_HW rr.pIOBuf 8 = 0x0000 ∧
        FETCH_HW rr.pIOBuf 12 = FETCH_HW exS1Batch 12 ∧
        FETCH_HW rr.pIOBuf 24 = 0x0000 ∧
        (∀ i, 26 ≤ i → rr.pIOBuf i = pIOBuf i) := by
  obtain ⟨w1, hw1, hst, hoff, hrp, hpb, hring⟩ :=
    startup_S1 opt ext w h0 hnb hfd hnc hp hp16
  have hmode1 : (lcsEnv opt ext).bMode (some w) = LCSDEV_MODE_IP := hmode
  have hh : (lcsEnv opt ext).handler LCSHandler.LCS_Startup (some w) exS1Batch 0 29 false
      = some w1 := hw1
  have f12 : FETCH_HW exS1Batch 12 = 0x0800 := by decide
  have hbyte : ∀ i, i < 26 →
      (LCS_Read_drain w1.dev sCount pIOBuf stR).pIOBuf i
        = (exS1Reply w.dev.bPort ++ [0, 0]).getD i 0 := by
    intro i hi
    have hlen : ¬ sCount < 26 := by omega
    interval_cases i <;>
      simp [LCS_Read_drain, hoff, hpb, hlen, memcpy, STORE_HW, hring, exS1Reply,
        sizeof_hwOffset, SIZE_T_MOD, U16_MOD]
  unfold LCS_Write_dev
  rw [write_S1 (lcsEnv opt ext) fuel (some w) 31 sense0 st hmode1 hfuel, hh]
  refine ⟨_, rfl, rfl, hst, ?_⟩
  dsimp only
  rw [LCS_Read_pending wakes w1.dev sCount pIOBuf stR (Or.inr hrp)]
  refine ⟨_, rfl, ?_, ?_, ?_, ?_, ?_, ?_, ?_⟩
  · have hlen : ¬ sCount < 26 := by omega
    simp [LCS_Read_drain, hoff, hlen, sizeof_hwOffset, SIZE_T_MOD]
  · exact readBytes_eq_of_getD (LCS_Read_drain w1.dev sCount pIOBuf stR).pIOBuf 0
      (exS1Reply w.dev.bPort ++ [0, 0]) (fun i hi => by rw [Nat.zero_add]; exact hbyte i hi)
  · rw [hbyte 4 (by decide)]
    simp [exS1Reply]
  · unfold FETCH_HW
    rw [hbyte 8 (by decide), hbyte 9 (by decide)]
    simp [exS1Reply]
  · rw [f12]
    unfold FETCH_HW
    rw [hbyte 12 (by decide), hbyte 13 (by decide)]
    simp [exS1Reply]
  · unfold FETCH_HW
    rw [hbyte 24 (by decide), hbyte 25 (by decide)]
    simp [exS1Reply]
  · intro i hi
    have hlen : ¬ sCount < 26 := by omega
    have hi2 : ¬ i < 26 := by omega
    simp [LCS_Read_drain, hoff, hlen, memcpy, sizeof_hwOffset, SIZE_T_MOD, hi2]

/-- C18 on the example host: an IP device with an empty ring on an open port,
read with a 4096-byte buffer. -/
theorem C18_scenario_S1_witness :
    ∃ r, LCS_Write_dev exOpt exExt 2 exWorld 31 exS1Batch 0 {} = some r ∧
      r.status.unitStat = CSW_CE ||| CSW_DE ∧
      r.world.dev.fDevStarted = true ∧
      ∃ rr, LCS_Read [] r.world.dev 4096 (fun _ => 0) {} = some rr ∧
        rr.copied = 26 ∧
        readBytes rr.pIOBuf 0 26 = exS1Reply exWorld.dev.bPort ++ [0, 0] ∧
        rr.pIOBuf 4 = 0x07 ∧
        FETCH_HW rr.pIOBuf 8 = 0x0000 ∧
        FETCH_HW rr.pIOBuf 12 = FETCH_HW exS1Batch 12 ∧
        FETCH_HW rr.pIOBuf 24 = 0x0000 ∧
        (∀ i, 26 ≤ i → rr.pIOBuf i = (fun _ => 0) i) :=
  C18_scenario_S1 exOpt exExt exWorld 2 0 {} [] 4096 (fun _ => 0) {} (by decide) (by decide)
    (by decide) (by decide) (by decide) (by decide) (by decide) (by decide) (by decide)


/-! ### The CCW executor -/

/-- `LCS_Write` ends with CE|DE, or with CE|DE|UC and equipment check. -/
theorem LCS_Write_status {W : Type} (env : LCSWriteEnv W) (fuel : Nat) (w : W) (sCount : Nat)
    (pIOBuf : Mem) (sense0 : Nat) (st : CCWStatus) (r : WriteResult W)
    (h : LCS_Write env fuel w sCount pIOBuf sense0 st = some r) :
    r.status.unitStat = CSW_CE ||| CSW_DE ∨
      (r.status.unitStat = CSW_CE ||| CSW_DE ||| CSW_UC ∧ r.sense0 = SENSE_EC) := by
  rw [LCS_Write_eq, Option.map_eq_some'] at h
  obtain ⟨x, -, rfl⟩ := h
  unfold LCS_Write_finish
  split_ifs
  · exact Or.inl rfl
  · exact Or.inr ⟨rfl, rfl⟩

/-- `LCS_Write_dev` ends with CE|DE, or with CE|DE|UC and equipment check. -/
theorem LCS_Write_dev_status (opt : BuildOptions) (ext : Externals) (fuel : Nat) (w : LCSWorld)
    (sCount : Nat) (pIOBuf : Mem) (sense0 : Nat) (st : CCWStatus) (r : WriteResult LCSWorld)
    (h : LCS_Write_dev opt ext fuel w sCount pIOBuf sense0 st = some r) :
    r.status.unitStat = CSW_CE ||| CSW_DE ∨
      (r.status.unitStat = CSW_CE ||| CSW_DE ||| CSW_UC ∧ r.sense0 = SENSE_EC) := by
  unfold LCS_Write_dev at h
  cases hw : LCS_Write (lcsEnv opt ext) fuel (some w) sCount pIOBuf sense0 st with
  | none => rw [hw] at h; cases h
  | some x =>
    rw [hw] at h
    dsimp only at h
    cases hx : x.world with
    | none => rw [hx] at h; cases h
    | some w1 =>
      rw [hx] at h
      cases h
      exact LCS_Write_status _ _ _ _ _ _ _ x hw

/-- `LCS_Read` ends with CE|DE, or with unit status 0 after a halt. -/
theorem LCS_Read_status (wakes : List (LCSDEV → LCSDEV)) :
    ∀ (dev : LCSDEV) (sCount : Nat) (pIOBuf : Mem) (st : CCWStatus) (r : ReadResult),
      LCS_Read wakes dev sCount pIOBuf st = some r →
      r.status.unitStat = CSW_CE ||| CSW_DE ∨ r.status.unitStat = 0 := by
  induction wakes with
  | nil =>
    intro dev sCount pIOBuf st r h
    unfold LCS_Read at h
    by_cases hp : dev.fDataPending = true ∨ dev.fReplyPending = true
    · rw [if_pos hp] at h
      cases h
      exact Or.inl rfl
    · rw [if_neg hp] at h
      cases h
  | cons act rest ih =>
    intro dev sCount pIOBuf st r h
    unfold LCS_Read at h
    by_cases hp : dev.fDataPending = true ∨ dev.fReplyPending = true
    · rw [if_pos hp] at h
      cases h
      exact Or.inl rfl
    · rw [if_neg hp] at h
      dsimp only at h
      split_ifs at h
      · cases h
        exact Or.inr rfl
      · exact ih _ _ _ _ _ h

/-- **C20** (CCW opcode rejection).  On an open device (`fd ≥ 0`), for every CCW
code `c` and every `ctcxmode`, with `op` the masked opcode computed from `c`:
whenever `LCS_ExecuteCCW` returns, it has left `sense[0]` = command reject and
unit status CE|DE|UC exactly when `op` is none of 0x01, 0x81, 0x02, 0x0C, 0x07,
0x03, 0x43, 0xC3, 0xE3, 0x14, 0x04, 0xE4, or `op` is 0x43 or 0x04 and
`ctcxmode = 0`; and in those cases it does return. -/
theorem C20_ccw_opcode_rejection (opt : BuildOptions) (ext : Externals) (fuel : Nat)
    (wakes : List (LCSDEV → LCSDEV)) (blk : DEVBLK) (w : LCSWorld) (c sCount : Nat)
    (pIOBuf : Mem) (st : CCWStatus) (hopen : 0 ≤ blk.fd) :
    (∀ r, LCS_ExecuteCCW opt ext fuel wakes blk w c sCount pIOBuf st = some r →
      ((r.blk.sense 0 = SENSE_CR ∧ r.status.unitStat = CSW_CE ||| CSW_DE ||| CSW_UC) ↔
        (LCS_ExecuteCCW_opcode c blk.ctcxmode ∉
            [0x01, 0x81, 0x02, 0x0C, 0x07, 0x03, 0x43, 0xC3, 0xE3, 0x14, 0x04, 0xE4] ∨
          ((LCS_ExecuteCCW_opcode c blk.ctcxmode = 0x43 ∨
              LCS_ExecuteCCW_opcode c blk.ctcxmode = 0x04) ∧ blk.ctcxmode = 0)))) ∧
    ((LCS_ExecuteCCW_opcode c blk.ctcxmode ∉
          [0x01, 0x81, 0x02, 0x0C, 0x07, 0x03, 0x43, 0xC3, 0xE3, 0x14, 0x04, 0xE4] ∨
        ((LCS_ExecuteCCW_opcode c blk.ctcxmode = 0x43 ∨
            LCS_ExecuteCCW_opcode c blk.ctcxmode = 0x04) ∧ blk.ctcxmode = 0)) →
      ∃ r, LCS_ExecuteCCW opt ext fuel wakes blk w c sCount pIOBuf st = some r) := by
  have hfd : ¬ (blk.fd < 0 ∧ ext.IS_CCW_SENSE c = false ∧ ext.IS_CCW_CONTROL c = false) := by
    rintro ⟨h, -⟩
    omega
  have hne : ¬ (CSW_CE ||| CSW_DE = CSW_CE ||| CSW_DE ||| CSW_UC) := by decide
  have hne0 : ¬ ((0 : Nat) = CSW_CE ||| CSW_DE ||| CSW_UC) := by decide
  unfold LCS_ExecuteCCW
  rw [if_neg hfd]
  dsimp only
  generalize LCS_ExecuteCCW_opcode c blk.ctcxmode = op
  have key : ∀ (r : CCWResult) (C : Prop), r.status.unitStat = CSW_CE ||| CSW_DE → ¬ C →
      ((r.blk.sense 0 = SENSE_CR ∧ r.status.unitStat = CSW_CE ||| CSW_DE ||| CSW_UC) ↔ C) := by
    intro r C h1 h2
    rw [h1]
    exact ⟨fun h => absurd h.2 hne, fun h => absurd h h2⟩
  have keyR : ∀ (r : CCWResult) (C : Prop), r.blk.sense 0 = SENSE_CR →
      r.status.unitStat = CSW_CE ||| CSW_DE ||| CSW_UC → C →
      ((r.blk.sense 0 = SENSE_CR ∧ r.status.unitStat = CSW_CE ||| CSW_DE ||| CSW_UC) ↔ C) :=
    fun r C h1 h2 h3 => ⟨fun _ => h3, fun _ => ⟨h1, h2⟩⟩
  constructor
  · intro r h
    by_cases h01 : op = 0x01
    · rw [if_pos h01] at h
      by_cases hs : sCount = 0
      · rw [if_pos hs] at h
        cases h
        exact key _ _ rfl (by simp [h01])
      · rw [if_neg hs, Option.map_eq_some'] at h
        obtain ⟨x, hx, rfl⟩ := h
        rcases LCS_Write_dev_status _ _ _ _ _ _ _ _ x hx with h1 | ⟨h1, h2⟩
        · exact key _ _ h1 (by simp [h01])
        · constructor
          · rintro ⟨h3, -⟩
            simp [h2, storeByte, SENSE_EC, SENSE_CR] at h3
          · intro h3
            simp [h01] at h3
    rw [if_neg h01] at h
    by_cases h81 : op = 0x81
    · rw [if_pos h81] at h
      cases h
      exact key _ _ rfl (by simp [h81])
    rw [if_neg h81] at h
    by_cases h02 : op = 0x02 ∨ op = 0x0C
    · rw [if_pos h02, Option.map_eq_some'] at h
      obtain ⟨x, hx, rfl⟩ := h
      have hC : ¬ (op ∉ [0x01, 0x81, 0x02, 0x0C, 0x07, 0x03, 0x43, 0xC3, 0xE3, 0x14, 0x04, 0xE4] ∨
          ((op = 0x43 ∨ op = 0x04) ∧ blk.ctcxmode = 0)) := by
        rcases h02 with e | e <;> simp [e]
      rcases LCS_Read_status _ _ _ _ _ x hx with h1 | h1
      · exact key _ _ h1 hC
      · constructor
        · rintro ⟨-, h3⟩
          rw [h1] at h3
          exact absurd h3 hne0
        · intro h3
          exact absurd h3 hC
    rw [if_neg h02] at h
    obtain ⟨h2, hC0⟩ := not_or.mp h02
    by_cases h07 : op = 0x07
    · rw [if_pos h07] at h
      cases h
      exact key _ _ rfl (by simp [h07])
    rw [if_neg h07] at h
    by_cases h03 : op = 0x03
    · rw [if_pos h03] at h
      cases h
      exact key _ _ rfl (by simp [h03])
    rw [if_neg h03] at h
    by_cases h43 : op = 0x43
    · rw [if_pos h43] at h
      by_cases hx : blk.ctcxmode = 0
      · rw [if_pos hx] at h
        cases h
        exact keyR _ _ (by simp [storeByte]) rfl (Or.inr ⟨Or.inl h43, hx⟩)
      · rw [if_neg hx] at h
        cases h
        exact key _ _ rfl (by simp [h43, hx])
    rw [if_neg h43] at h
    by_cases hC3 : op = 0xC3
    · rw [if_pos hC3] at h
      cases h
      exact key _ _ rfl (by simp [hC3])
    rw [if_neg hC3] at h
    by_cases hE3 : op = 0xE3
    · rw [if_pos hE3] at h
      cases h
      exact key _ _ rfl (by simp [hE3])
    rw [if_neg hE3] at h
    by_cases h14 : op = 0x14
    · rw [if_pos h14] at h
      cases h
      exact key _ _ rfl (by simp [h14])
    rw [if_neg h14] at h
    by_cases h04 : op = 0x04
    · rw [if_pos h04] at h
      by_cases hx : blk.ctcxmode = 0
      · rw [if_pos hx] at h
        cases h
        exact keyR _ _ (by simp [storeByte]) rfl (Or.inr ⟨Or.inr h04, hx⟩)
      · rw [if_neg hx] at h
        cases h
        exact key _ _ rfl (by simp [h04, hx])
    rw [if_neg h04] at h
    by_cases hE4 : op = 0xE4
    · rw [if_pos hE4] at h
      cases h
      exact key _ _ rfl (by simp [hE4])
    rw [if_neg hE4] at h
    cases h
    exact keyR _ _ (by simp [storeByte]) rfl
      (Or.inl (by simp [h01, h81, h2, hC0, h07, h03, h43, hC3, hE3, h14, h04, hE4]))
  · intro hrej
    have h01 : op ≠ 0x01 := by
      rcases hrej with h | ⟨h | h, -⟩
      · intro e
        simp [e] at h
      · omega
      · omega
    have h02 : ¬ (op = 0x02 ∨ op = 0x0C) := by
      rcases hrej with h | ⟨h | h, -⟩
      · intro e
        rcases e with e | e <;> simp [e] at h
      · omega
      · omega
    rw [if_neg h01]
    by_cases h81 : op = 0x81
    · rw [if_pos h81]
      exact ⟨_, rfl⟩
    rw [if_neg h81, if_neg h02]
    by_cases h07 : op = 0x07
    · rw [if_pos h07]
      exact ⟨_, rfl⟩
    rw [if_neg h07]
    by_cases h03 : op = 0x03
    · rw [if_pos h03]
      exact ⟨_, rfl⟩
    rw [if_neg h03]
    by_cases h43 : op = 0x43
    · rw [if_pos h43]
      by_cases hx : blk.ctcxmode = 0
      · rw [if_pos hx]
        exact ⟨_, rfl⟩
      · rw [if_neg hx]
        exact ⟨_, rfl⟩
    rw [if_neg h43]
    by_cases hC3 : op = 0xC3
    · rw [if_pos hC3]
      exact ⟨_, rfl⟩
    rw [if_neg hC3]
    by_cases hE3 : op = 0xE3
    · rw [if_pos hE3]
      exact ⟨_, rfl⟩
    rw [if_neg hE3]
    by_cases h14 : op = 0x14
    · rw [if_pos h14]
      exact ⟨_, rfl⟩
    rw [if_neg h14]
    by_cases h04 : op = 0x04
    · rw [if_pos h04]
      by_cases hx : blk.ctcxmode = 0
      · rw [if_pos hx]
        exact ⟨_, rfl⟩
      · rw [if_neg hx]
        exact ⟨_, rfl⟩
    rw [if_neg h04]
    by_cases hE4 : op = 0xE4
    · rw [if_pos hE4]
      exact ⟨_, rfl⟩
    rw [if_neg hE4]
    exact ⟨_, rfl⟩

/-- C20 at the CCW code 0x43 (Set Basic Mode) on an open device in basic mode. -/
theorem C20_ccw_opcode_rejection_witness :
    (∀ r, LCS_ExecuteCCW exOpt exExt 2 [] exBlk exWorld 0x43 1 (fun _ => 0) {} = some r →
      ((r.blk.sense 0 = SENSE_CR ∧ r.status.unitStat = CSW_CE ||| CSW_DE ||| CSW_UC) ↔
        (LCS_ExecuteCCW_opcode 0x43 exBlk.ctcxmode ∉
            [0x01, 0x81, 0x02, 0x0C, 0x07, 0x03, 0x43, 0xC3, 0xE3, 0x14, 0x04, 0xE4] ∨
          ((LCS_ExecuteCCW_opcode 0x43 exBlk.ctcxmode = 0x43 ∨
              LCS_ExecuteCCW_opcode 0x43 exBlk.ctcxmode = 0x04) ∧ exBlk.ctcxmode = 0)))) ∧
    ((LCS_ExecuteCCW_opcode 0x43 exBlk.ctcxmode ∉
          [0x01, 0x81, 0x02, 0x0C, 0x07, 0x03, 0x43, 0xC3, 0xE3, 0x14, 0x04, 0xE4] ∨
        ((LCS_ExecuteCCW_opcode 0x43 exBlk.ctcxmode = 0x43 ∨
            LCS_ExecuteCCW_opcode 0x43 exBlk.ctcxmode = 0x04) ∧ exBlk.ctcxmode = 0)) →
      ∃ r, LCS_ExecuteCCW exOpt exExt 2 [] exBlk exWorld 0x43 1 (fun _ => 0) {} = some r) :=
  C20_ccw_opcode_rejection exOpt exExt 2 [] exBlk exWorld 0x43 1 (fun _ => 0) {} (by decide)

/-! ### The port reader thread -/

/-- **C13**, the claim as stated fails: on a port that filters multicast frames
itself but whose count of multicast table entries is 0, a frame for the
multicast MAC 01:00:5E:00:00:01, which the table does not hold, is not filtered;
it goes to the started primary device. -/
theorem C13_zero_count_passes_multicast :
    exPortNoMCast.fDoMCastAssist = true ∧
    readBytes exMcastFrame 0 3 = mcast3 ∧
    exExt.IsMACTab exPortNoMCast.MCastTab (readBytes exMcastFrame 0 IFHWADDRLEN) < 0 ∧
    LCS_PortThread_step exExt exPortNoMCast [exDevPrimary] 34 exMcastFrame
      = PortStep.enqueue 0 := by
  decide

/-- **C13** (multicast filter, amended).  For every port with
`fDoMCastAssist = 1` and a nonzero `nMCastCount`, every multicast table content,
every device list and every inbound frame whose destination MAC begins 01:00:5e
and is not in the table (`IsMACTab` negative): the pass of `LCS_PortThread`
calls `LCS_EnqueueEthFrame` for no device. -/
theorem C13_multicast_filter (ext : Externals) (port : LCSPORT) (devices : List LCSDEV)
    (iLength : Int) (szBuff : Mem)
    (hassist : port.fDoMCastAssist = true) (hcount : port.nMCastCount ≠ 0)
    (hmc : readBytes szBuff 0 3 = mcast3)
    (hnot : ext.IsMACTab port.MCastTab (readBytes szBuff 0 IFHWADDRLEN) < 0) :
    ∀ i, LCS_PortThread_step ext port devices iLength szBuff ≠ PortStep.enqueue i := by
  intro i
  unfold LCS_PortThread_step
  split_ifs <;>
    first
    | exact fun hh => by cases hh
    | (rename_i h5; exact absurd ⟨hassist, hcount, hmc, hnot⟩ h5)

/-- C13 on the example port with one table entry counted. -/
theorem C13_multicast_filter_witness :
    exPortMCast.fDoMCastAssist = true ∧ exPortMCast.nMCastCount ≠ 0 ∧
    readBytes exMcastFrame 0 3 = mcast3 ∧
    ¬ ∃ i, LCS_PortThread_step exExt exPortMCast [exDevPrimary] 34 exMcastFrame
      = PortStep.enqueue i :=
  ⟨by decide, by decide, by decide, fun ⟨i, hi⟩ =>
    C13_multicast_filter exExt exPortMCast [exDevPrimary] 34 exMcastFrame (by decide) (by decide)
      (by decide) (by decide) i hi⟩

/-- A device pointer that passes the test `p && p->fDevStarted` is a started
device of the list. -/
theorem devStarted_get (devices : List LCSDEV) (i : Nat)
    (h : devStarted devices (some i) = true) :
    ∃ dev, devices.get? i = some dev ∧ dev.fDevStarted = true := by
  unfold devStarted at h
  dsimp only at h
  cases hd : devices.get? i with
  | none => rw [hd] at h; cases h
  | some dev => rw [hd] at h; exact ⟨dev, rfl, h⟩

/-- The device chosen after the scan is started. -/
theorem select_started (devices : List LCSDEV) (s : PortScan) (i : Nat)
    (h : LCS_PortThread_select devices s = some i) :
    devStarted devices (some i) = true := by
  unfold LCS_PortThread_select at h
  dsimp only at h
  cases hm : s.pMatchingLCSDEV with
  | none =>
    rw [hm] at h
    simp only [Option.isSome_none, Bool.false_eq_true, false_and, if_false, if_true] at h
    split_ifs at h with h1 h2
    · rw [h] at h1
      exact h1
    · rw [h] at h2
      exact h2
  | some j =>
    rw [hm] at h
    by_cases hs : devStarted devices (some j) = true
    · simp [hs] at h
      rw [← h]
      exact hs
    · have hs2 : devStarted devices (some j) = false := by simpa using hs
      simp only [Option.isSome_some, hs2, and_self, if_true, Option.isSome_none,
        Bool.false_eq_true] at h
      split_ifs at h with h1 h2
      · rw [h] at h1
        exact h1
      · rw [h] at h2
        exact h2

/-- **C15** (dev-started gates the inbound demux).  For every port state, device
list and inbound frame of any EtherType: if the pass of `LCS_PortThread` calls
`LCS_EnqueueEthFrame` for the device of index `i`, whether it was found as the
exact match or as the primary or secondary fallback, then that device is in the
list and its `fDevStarted` is 1. -/
theorem C15_only_started_devices (ext : Externals) (port : LCSPORT) (devices : List LCSDEV)
    (iLength : Int) (szBuff : Mem) (i : Nat)
    (h : LCS_PortThread_step ext port devices iLength szBuff = PortStep.enqueue i) :
    ∃ dev, devices.get? i = some dev ∧ dev.fDevStarted = true := by
  unfold LCS_PortThread_step at h
  split_ifs at h with h1 h2 h3 h4 h5
  dsimp only at h
  cases hs : LCS_PortThread_select devices
      (LCS_PortThread_scan port szBuff (FETCH_HW szBuff 12) devices 0 {}) with
  | none => rw [hs] at h; cases h
  | some j =>
    rw [hs] at h
    cases h
    exact devStarted_get devices i (select_started devices _ i hs)

/-- C15 on the example port: the frame for 10.0.0.1 goes to the started primary
device. -/
theorem C15_only_started_devices_witness :
    ∃ dev, [exDevPrimary].get? 0 = some dev ∧ dev.fDevStarted = true :=
  C15_only_started_devices exExt exPortMCast [exDevPrimary] 34 exIPFrame 0 (by decide)

/-- The scan of `LCS_PortThread` for an IPv4 frame stops at the first device of
the port whose `lIPAddress` is the destination IP of the frame. -/
theorem scan_first_match (port : LCSPORT) (szBuff : Mem) :
    ∀ (devices : List LCSDEV) (k : Nat) (s : PortScan) (i : Nat) (D : LCSDEV),
      devices.get? i = some D → D.bPort = port.bPort →
      D.lIPAddress = netU32 szBuff ofs_lDstIP →
      (∀ j dev, j < i → devices.get? j = some dev →
        ¬ (dev.bPort = port.bPort ∧ dev.lIPAddress = netU32 szBuff ofs_lDstIP)) →
      (LCS_PortThread_scan port szBuff ETH_TYPE_IP devices k s).pMatchingLCSDEV
        = some (k + i) := by
  have hm : ∀ dev : LCSDEV, LCS_PortThread_match port szBuff ETH_TYPE_IP dev
      = some (decide (dev.lIPAddress = netU32 szBuff ofs_lDstIP)) := by
    intro dev
    simp [LCS_PortThread_match, ETH_TYPE_IP, ETH_TYPE]
  intro devices
  induction devices with
  | nil =>
    intro k s i D hD
    simp at hD
  | cons d rest ih =>
    intro k s i D hD hport hip hfirst
    cases i with
    | zero =>
      simp only [List.get?_cons_zero, Option.some.injEq] at hD
      subst hD
      unfold LCS_PortThread_scan
      rw [if_pos hport, hm]
      simp [hip]
    | succ i =>
      simp only [List.get?_cons_succ] at hD
      have hd := hfirst 0 d (Nat.succ_pos i) (by simp)
      have hrest : ∀ j dev, j < i → rest.get? j = some dev →
          ¬ (dev.bPort = port.bPort ∧ dev.lIPAddress = netU32 szBuff ofs_lDstIP) := by
        intro j dev hj hdev
        exact hfirst (j + 1) dev (Nat.succ_lt_succ hj) (by simpa using hdev)
      have hk : k + (i + 1) = k + 1 + i := by omega
      unfold LCS_PortThread_scan
      rw [hk]
      by_cases hp : d.bPort = port.bPort
      · have hne : ¬ d.lIPAddress = netU32 szBuff ofs_lDstIP := fun e => hd ⟨hp, e⟩
        rw [if_pos hp, hm]
        simp only [hne, decide_False]
        split_ifs
        · exact ih (k + 1) _ i D hD hport hip hrest
        · exact ih (k + 1) _ i D hD hport hip hrest
        · exact ih (k + 1) _ i D hD hport hip hrest
      · rw [if_neg hp]
        exact ih (k + 1) _ i D hD hport hip hrest

/-- **C14**, the claim as stated fails: of two devices of the port with the IP
address 10.0.0.1, the first not started and the second started, the second is a
started device of the port whose `lIPAddress` is the destination IP of the
frame; the scan stops at the first, which is not started, and the frame is
enqueued to no device. -/
theorem C14_first_match_shadows_started_device :
    exDevsSameIP.get? 1 = some { sAddr := 0x0E22, lIPAddress := 0x0A000001, fDevStarted := true } ∧
    (exDevsSameIP.get? 1).map (fun dev => dev.bPort) = some exPortMCast.bPort ∧
    (exDevsSameIP.get? 1).map (fun dev => dev.fDevStarted) = some true ∧
    (exDevsSameIP.get? 1).map (fun dev => dev.lIPAddress) = some (netU32 exIPFrame ofs_lDstIP) ∧
    FETCH_HW exIPFrame 12 = ETH_TYPE_IP ∧
    readBytes exIPFrame 0 3 ≠ mcast3 ∧
    LCS_PortThread_step exExt exPortMCast exDevsSameIP 34 exIPFrame = PortStep.next ∧
    LCS_PortThread_step exExt exPortMCast exDevsSameIP 34 exIPFrame ≠ PortStep.enqueue 1 := by
  refine ⟨rfl, ?_, ?_, ?_, ?_, ?_, ?_, ?_⟩ <;> decide

/-- **C14** (demux exactness, amended).  The reader of an open, started port has
read an IPv4 frame (EtherType 0x0800) that passes the multicast filter.  If `D`
is the first device in the device list that is on the reader's port and whose
`lIPAddress` equals the destination IP of the frame, and `D` has
`fDevStarted = 1`, then the device `LCS_PortThread` calls `LCS_EnqueueEthFrame`
for is `D`, not a primary or secondary default device. -/
theorem C14_demux_first_exact_match (ext : Externals) (port : LCSPORT)
    (devices : List LCSDEV) (iLength : Int) (szBuff : Mem) (i : Nat) (D : LCSDEV)
    (hfd : 0 ≤ port.fd) (hnc : port.fCloseInProgress = false)
    (hstart : port.fPortStarted = true) (hlen : 0 < iLength)
    (hpass : ¬ (port.fDoMCastAssist = true ∧ port.nMCastCount ≠ 0 ∧
      readBytes szBuff 0 3 = mcast3 ∧
      ext.IsMACTab port.MCastTab (readBytes szBuff 0 IFHWADDRLEN) < 0))
    (htype : FETCH_HW szBuff 12 = ETH_TYPE_IP)
    (hD : devices.get? i = some D) (hport : D.bPort = port.bPort)
    (hst : D.fDevStarted = true) (hip : D.lIPAddress = netU32 szBuff ofs_lDstIP)
    (hfirst : ∀ j dev, j < i → devices.get? j = some dev →
      ¬ (dev.bPort = port.bPort ∧ dev.lIPAddress = netU32 szBuff ofs_lDstIP)) :
    LCS_PortThread_step ext port devices iLength szBuff = PortStep.enqueue i := by
  have hscan := scan_first_match port szBuff devices 0 {} i D hD hport hip hfirst
  rw [Nat.zero_add] at hscan
  have hds : devStarted devices (some i) = true := by
    unfold devStarted
    dsimp only
    rw [hD]
    exact hst
  have hsel : LCS_PortThread_select devices
      (LCS_PortThread_scan port szBuff ETH_TYPE_IP devices 0 {}) = some i := by
    unfold LCS_PortThread_select
    dsimp only
    rw [hscan]
    simp [hds]
  unfold LCS_PortThread_step
  have h1 : ¬ ¬ (port.fd < 0 ∨ port.fCloseInProgress = true ∨ port.fPortStarted = true) :=
    fun h => h (Or.inr (Or.inr hstart))
  have h2 : ¬ (port.fd < 0 ∨ port.fCloseInProgress = true) := by
    rintro (h | h)
    · omega
    · rw [hnc] at h
      cases h
  have h3 : ¬ iLength = 0 := by omega
  have h4 : ¬ iLength < 0 := by omega
  rw [if_neg h1, if_neg h2, if_neg h3, if_neg h4]
  dsimp only
  rw [if_neg hpass, htype, hsel]

/-- C14 on the example port, with the started primary device of address
10.0.0.1 behind a device of another address. -/
theorem C14_demux_first_exact_match_witness :
    LCS_PortThread_step exExt exPortMCast [{ lIPAddress := 0x0A000002 }, exDevPrimary] 34
      exIPFrame = PortStep.enqueue 1 :=
  C14_demux_first_exact_match exExt exPortMCast [{ lIPAddress := 0x0A000002 }, exDevPrimary] 34
    exIPFrame 1 exDevPrimary (by decide) (by decide) (by decide) (by decide) (by decide)
    (by decide) rfl (by decide) (by decide) (by decide)
    (by
      intro j dev hj hdev
      have hj0 : j = 0 := by omega
      subst hj0
      simp only [List.get?_cons_zero, Option.some.injEq] at hdev
      subst hdev
      decide)

/-! ### Start LAN -/

/-- While `fPortStarted` is 0 a pass of `LCS_PortThread` calls
`LCS_EnqueueEthFrame` for no device: the thread waits for the port to be
started, or leaves its loop because the port is closed or closing. -/
theorem step_not_started (ext : Externals) (port : LCSPORT) (devices : List LCSDEV)
    (iLength : Int) (szBuff : Mem) (h : port.fPortStarted = false) :
    LCS_PortThread_step ext port devices iLength szBuff = PortStep.waiting ∨
      LCS_PortThread_step ext port devices iLength szBuff = PortStep.exit := by
  unfold LCS_PortThread_step
  by_cases hc : port.fd < 0 ∨ port.fCloseInProgress = true
  · right
    have h1 : ¬ ¬ (port.fd < 0 ∨ port.fCloseInProgress = true ∨ port.fPortStarted = true) := by
      intro hn
      rcases hc with hc | hc
      · exact hn (Or.inl hc)
      · exact hn (Or.inr (Or.inl hc))
    rw [if_neg h1, if_pos hc]
  · left
    have h1 : ¬ (port.fd < 0 ∨ port.fCloseInProgress = true ∨ port.fPortStarted = true) := by
      rintro (h1 | h1 | h1)
      · exact hc (Or.inl h1)
      · exact hc (Or.inr h1)
      · rw [h] at h1
        cases h1
    rw [if_pos h1]

/-- `LCS_DoEnqueueEthFrame` writes at `iFrameOffset` and behind it only. -/
theorem eth_enqueue_below (dev : LCSDEV) (bPort : Nat) (pData : Mem) (iSize j : Nat)
    (hj : j < dev.iFrameOffset) :
    (LCS_DoEnqueueEthFrame dev bPort pData iSize).dev.bFrameBuffer j = dev.bFrameBuffer j := by
  unfold LCS_DoEnqueueEthFrame
  split_ifs
  · rfl
  · rfl
  · dsimp only
    rw [memcpy_outside _ _ _ _ _ _ (Or.inl (by omega)),
      storeByte_other _ _ _ _ (by omega), storeByte_other _ _ _ _ (by omega),
      STORE_HW_other _ _ _ _ (by omega) (by omega)]

/-- **C16** (Start LAN ordering).  `LCS_StartLan` on a port that is used, created
and not started, the port being open and the ring having room for the reply:
the part of the function up to `ENQUEUE_REPLY_FRAME` returns in a state `w1` in
which the reply stands in the ring at the old `iFrameOffset`, `fReplyPending` is
set and `fPortStarted` is still 0; `LCS_StartLan` is that part followed by
`UpdatePortStarted( TRUE )`, which sets `fPortStarted` and leaves the device
alone.  A pass of `LCS_PortThread` calls `LCS_EnqueueEthFrame` for no device in
the port state before or after the enqueue (`fPortStarted = 0`), and an
`LCS_DoEnqueueEthFrame` on any later state of the ring that still holds the
reply leaves every ring byte up to the end of the reply as it is: no Ethernet
frame precedes the reply in the ring. -/
theorem C16_startlan_ordering (opt : BuildOptions) (ext : Externals) (w : LCSWorld)
    (buf : Mem) (pCmdFrame iCmdLen : Nat)
    (hused : w.port.fUsed = true) (hcreated : w.port.fPortCreated = true)
    (hns : w.port.fPortStarted = false)
    (hfd : w.port.fd ≠ -1) (hnc : w.port.fCloseInProgress = false)
    (hoff : w.dev.iFrameOffset < U16_MOD) (hmax : w.dev.iMaxFrameBufferSize < U16_MOD)
    (hroom : w.dev.iFrameOffset + min iCmdLen sizeof_LCSSTRTFRM + 2
      ≤ w.dev.iMaxFrameBufferSize) :
    ∃ w1,
      LCS_StartLan_reply opt ext w buf pCmdFrame iCmdLen = some w1 ∧
      w1.port.fPortStarted = false ∧
      w1.dev.fReplyPending = true ∧
      w1.dev.iFrameOffset = w.dev.iFrameOffset + min iCmdLen sizeof_LCSSTRTFRM ∧
      (∀ j, 2 ≤ j → j < min iCmdLen sizeof_LCSSTRTFRM →
        w1.dev.bFrameBuffer (w.dev.iFrameOffset + j)
          = (INIT_REPLY_FRAME ext.stack sizeof_LCSSTRTFRM buf pCmdFrame iCmdLen).1 j) ∧
      LCS_StartLan opt ext w buf pCmdFrame iCmdLen = some (UpdatePortStarted true w1) ∧
      (UpdatePortStarted true w1).port.fPortStarted = true ∧
      (UpdatePortStarted true w1).dev = w1.dev ∧
      (∀ devices iLength szBuff i,
        LCS_PortThread_step ext w.port devices iLength szBuff ≠ PortStep.enqueue i ∧
        LCS_PortThread_step ext w1.port devices iLength szBuff ≠ PortStep.enqueue i) ∧
      (∀ (dev2 : LCSDEV) bPort pData iSize j, w1.dev.iFrameOffset ≤ dev2.iFrameOffset →
        j < w1.dev.iFrameOffset →
        (LCS_DoEnqueueEthFrame dev2 bPort pData iSize).dev.bFrameBuffer j
          = dev2.bFrameBuffer j) := by
  have hlen := INIT_REPLY_FRAME_len ext.stack buf pCmdFrame iCmdLen sizeof_LCSSTRTFRM
  have hmin : min iCmdLen sizeof_LCSSTRTFRM ≤ 24 := Nat.min_le_right _ _
  have hsp : fStartPending w = true := by
    simp [fStartPending, hused, hcreated, hns]
  have hgate : ∀ (port : LCSPORT), port.fPortStarted = false →
      ∀ devices iLength szBuff i,
        LCS_PortThread_step ext port devices iLength szBuff ≠ PortStep.enqueue i := by
    intro port hp devices iLength szBuff i
    rcases step_not_started ext port devices iLength szBuff hp with e | e
    · rw [e]
      exact fun hh => by cases hh
    · rw [e]
      exact fun hh => by cases hh
  unfold LCS_StartLan LCS_StartLan_reply
  dsimp only
  rw [LCS_EnqueueReplyFrame_append]
  · rw [Option.map_some', hlen]
    simp only [if_pos hsp]
    refine ⟨_, rfl, hns, rfl, rfl, ?_, rfl, rfl, rfl, ?_, ?_⟩
    · intro j h2 hj
      dsimp only
      rw [STORE_HW_other _ _ _ _ (by omega) (by omega),
        memcpy_inside _ _ _ _ _ _ (by omega) (by omega)]
      have e : 0 + (w.dev.iFrameOffset + j - w.dev.iFrameOffset) = j := by omega
      rw [e]
    · intro devices iLength szBuff i
      exact ⟨hgate w.port hns devices iLength szBuff i, hgate _ hns devices iLength szBuff i⟩
    · intro dev2 bPort pData iSize j hle hj
      exact eth_enqueue_below dev2 bPort pData iSize j (by omega)
  · exact hfd
  · exact hnc
  · simp
  · exact hoff
  · exact hmax
  · rw [hlen]
    simp only [PTRDIFF_MAX]
    omega
  · dsimp only
    rw [hlen]
    omega

/-- C16 on the example device with an empty ring, for a 24-byte Start LAN
command. -/
theorem C16_startlan_ordering_witness :
    ∃ w1,
      LCS_StartLan_reply exOpt exExt exWorldStopped exStartLanBatch 0 24 = some w1 ∧
      w1.port.fPortStarted = false ∧
      w1.dev.fReplyPending = true ∧
      w1.dev.iFrameOffset = exWorldStopped.dev.iFrameOffset + min 24 sizeof_LCSSTRTFRM ∧
      (∀ j, 2 ≤ j → j < min 24 sizeof_LCSSTRTFRM →
        w1.dev.bFrameBuffer (exWorldStopped.dev.iFrameOffset + j)
          = (INIT_REPLY_FRAME exExt.stack sizeof_LCSSTRTFRM exStartLanBatch 0 24).1 j) ∧
      LCS_StartLan exOpt exExt exWorldStopped exStartLanBatch 0 24
        = some (UpdatePortStarted true w1) ∧
      (UpdatePortStarted true w1).port.fPortStarted = true ∧
      (UpdatePortStarted true w1).dev = w1.dev ∧
      (∀ devices iLength szBuff i,
        LCS_PortThread_step exExt exWorldStopped.port devices iLength szBuff
          ≠ PortStep.enqueue i ∧
        LCS_PortThread_step exExt w1.port devices iLength szBuff ≠ PortStep.enqueue i) ∧
      (∀ (dev2 : LCSDEV) bPort pData iSize j, w1.dev.iFrameOffset ≤ dev2.iFrameOffset →
        j < w1.dev.iFrameOffset →
        (LCS_DoEnqueueEthFrame dev2 bPort pData iSize).dev.bFrameBuffer j
          = dev2.bFrameBuffer j) :=
  C16_startlan_ordering exOpt exExt exWorldStopped exStartLanBatch 0 24 (by decide) (by decide)
    (by decide) (by decide) (by decide) (by decide) (by decide) (by decide)


/-! ### The baffle on the read side -/

/-- A successful reply enqueue with the baffle flag on an empty ring leaves a
ring that starts with a reserved baffle. -/
theorem reserve_BaffleRing (dev : LCSDEV) (pReply : Mem) (iSize : Nat)
    (h0 : dev.iFrameOffset = 0) (hmax : dev.iMaxFrameBufferSize ≤ sizeof_bFrameBuffer)
    (hsz : iSize ≤ PTRDIFF_MAX)
    (hrc : (LCS_DoEnqueueReplyFrame dev pReply iSize true).rc = 0) :
    BaffleRing (LCS_DoEnqueueReplyFrame dev pReply iSize true).dev ∧
      (LCS_DoEnqueueReplyFrame dev pReply iSize true).dev.iFrameOffset = 8 + iSize := by
  have hoff : dev.iFrameOffset < U16_MOD := by simp [h0, U16_MOD]
  have hroom : ¬ dev.iFrameOffset + iSize + 2 > dev.iMaxFrameBufferSize := by
    intro hfull
    rw [reply_rc, reply_check_nowrap dev iSize hoff hsz, if_pos hfull] at hrc
    cases hrc
  have hmax2 : dev.iMaxFrameBufferSize + 8 < U16_MOD := by
    simp only [sizeof_bFrameBuffer, CTC_DEF_FRAME_BUFFER_SIZE, U16_MOD] at *
    omega
  rw [reply_reserve dev pReply iSize h0 hmax2 hsz hroom]
  refine ⟨⟨rfl, rfl, ?_, ?_, hmax, ?_⟩, rfl⟩
  · dsimp only
    omega
  · dsimp only
    omega
  · intro i hi
    dsimp only
    rw [STORE_HW_other _ _ _ _ (by omega) (by omega),
      memcpy_outside _ _ _ _ _ _ (Or.inl hi), memset_inside _ _ _ _ _ (Nat.zero_le _) (by omega)]

/-- An enqueue call, successful or not, keeps a ring that starts with a
reserved baffle such a ring. -/
theorem run_BaffleRing (dev : LCSDEV) (op : RingOp) (h : BaffleRing dev)
    (hsz : op.iSize ≤ PTRDIFF_MAX) : BaffleRing (op.run dev) := by
  obtain ⟨hpb, hrp, h8, hle, hmax, hz⟩ := h
  have hoff : dev.iFrameOffset < U16_MOD := by
    simp only [sizeof_bFrameBuffer, CTC_DEF_FRAME_BUFFER_SIZE, U16_MOD] at *
    omega
  have hmax16 : dev.iMaxFrameBufferSize < U16_MOD := by
    simp only [sizeof_bFrameBuffer, CTC_DEF_FRAME_BUFFER_SIZE, U16_MOD] at *
    omega
  cases op with
  | reply pReply n b =>
    simp only [RingOp.iSize] at hsz
    simp only [RingOp.run]
    by_cases hfull : dev.iFrameOffset + n + 2 > dev.iMaxFrameBufferSize
    · rw [reply_full dev pReply n b hoff hsz hfull]
      exact ⟨hpb, hrp, h8, hle, hmax, hz⟩
    · have hnr : ¬ (dev.iFrameOffset = 0 ∧ b = true) := by
        rintro ⟨e, -⟩
        omega
      rw [reply_append dev pReply n b hnr hoff hmax16 hsz hfull]
      refine ⟨hpb, rfl, ?_, ?_, hmax, ?_⟩
      · dsimp only
        omega
      · dsimp only
        omega
      · intro i hi
        dsimp only
        rw [STORE_HW_other _ _ _ _ (by omega) (by omega),
          memcpy_outside _ _ _ _ _ _ (Or.inl (by omega))]
        exact hz i hi
  | eth bPort pData n =>
    simp only [RingOp.iSize] at hsz
    simp only [RingOp.run]
    have hbytes : ∀ i, i < 8 →
        (LCS_DoEnqueueEthFrame dev bPort pData n).dev.bFrameBuffer i = 0 := by
      intro i hi
      rw [eth_enqueue_below dev bPort pData n i (by omega)]
      exact hz i hi
    refine ⟨?_, ?_, ?_, ?_, ?_, hbytes⟩
    all_goals
      unfold LCS_DoEnqueueEthFrame
      simp only [sizeof_bFrameBuffer, CTC_DEF_FRAME_BUFFER_SIZE, U16_MOD, SIZE_T_MOD, PTRDIFF_MAX,
        sizeof_LCSETHFRM, sizeof_hwOffset] at *
      split_ifs <;> first | assumption | (dsimp only; omega)

/-- A sequence of enqueue calls keeps a ring that starts with a reserved baffle
such a ring. -/
theorem enqueueAll_BaffleRing (ops : List RingOp) :
    ∀ dev : LCSDEV, BaffleRing dev → (∀ op, op ∈ ops → op.iSize ≤ PTRDIFF_MAX) →
      BaffleRing (enqueueAll dev ops) := by
  induction ops with
  | nil =>
    intro dev h _
    exact h
  | cons op rest ih =>
    intro dev h hsz
    unfold enqueueAll
    rw [List.foldl_cons]
    exact ih (op.run dev) (run_BaffleRing dev op h (hsz op (List.mem_cons_self _ _)))
      (fun o ho => hsz o (List.mem_cons_of_mem _ ho))

/-- `LCS_Read` on a ring that starts with a reserved baffle: it returns without
waiting, copies `min sCount (iFrameOffset + 2)` bytes, and the first eight bytes
it hands to the guest are the baffle: the length `iFrameOffset + 2 - 8`
big-endian, then six zero bytes. -/
theorem read_BaffleRing (wakes : List (LCSDEV → LCSDEV)) (dev : LCSDEV) (sCount : Nat)
    (pIOBuf : Mem) (st : CCWStatus) (h : BaffleRing dev) (hs : 8 ≤ sCount) :
    ∃ rr, LCS_Read wakes dev sCount pIOBuf st = some rr ∧
      rr.copied = min sCount (dev.iFrameOffset + 2) ∧
      rr.pIOBuf 0 = (dev.iFrameOffset + 2 - 8) / 256 ∧
      rr.pIOBuf 1 = (dev.iFrameOffset + 2 - 8) % 256 ∧
      (∀ i, 2 ≤ i → i < 8 → rr.pIOBuf i = 0) := by
  obtain ⟨hpb, hrp, h8, hle, hmax, hz⟩ := h
  have hoff : dev.iFrameOffset < U16_MOD := by
    simp only [sizeof_bFrameBuffer, CTC_DEF_FRAME_BUFFER_SIZE, U16_MOD] at *
    omega
  have hlen := read_length_nowrap dev hoff
  have hf : FETCH_HW (STORE_HW dev.bFrameBuffer dev.iFrameOffset 0) 0 = 0 := by
    unfold FETCH_HW
    rw [STORE_HW_other _ _ _ _ (by omega) (by omega),
      STORE_HW_other _ _ _ _ (by omega) (by omega), hz 0 (by omega), hz 1 (by omega)]
  have hv : (0 + ((dev.iFrameOffset + 2 + SIZE_T_MOD - SIZEOF_BAFFLE) % SIZE_T_MOD) % U16_MOD)
      % U16_MOD = dev.iFrameOffset + 2 - 8 := by
    simp only [sizeof_bFrameBuffer, CTC_DEF_FRAME_BUFFER_SIZE, U16_MOD, SIZE_T_MOD,
      SIZEOF_BAFFLE] at *
    omega
  have hvlt : dev.iFrameOffset + 2 - 8 < U16_MOD := by
    simp only [U16_MOD] at *
    omega
  rw [LCS_Read_pending wakes dev sCount pIOBuf st (Or.inr hrp)]
  refine ⟨_, rfl, ?_, ?_, ?_, ?_⟩
  · unfold LCS_Read_drain
    dsimp only
    rw [hlen]
    split_ifs with hc
    · exact (Nat.min_eq_left (by omega)).symm
    · exact (Nat.min_eq_right (by omega)).symm
  · unfold LCS_Read_drain
    dsimp only
    rw [hlen, if_pos hpb, hf, hv]
    have hc : (0 : Nat) < (if sCount < dev.iFrameOffset + 2 then sCount
        else dev.iFrameOffset + 2) := by
      split_ifs <;> omega
    rw [memcpy_inside _ _ _ _ _ _ (Nat.le_refl 0) (by omega), STORE_HW_hi,
      Nat.mod_eq_of_lt hvlt]
  · unfold LCS_Read_drain
    dsimp only
    rw [hlen, if_pos hpb, hf, hv]
    have hc : (1 : Nat) < (if sCount < dev.iFrameOffset + 2 then sCount
        else dev.iFrameOffset + 2) := by
      split_ifs <;> omega
    rw [memcpy_inside _ _ _ _ _ _ (Nat.zero_le 1) (by omega)]
    exact STORE_HW_lo _ 0 _
  · intro i h2 hi
    unfold LCS_Read_drain
    dsimp only
    rw [hlen, if_pos hpb, hf, hv]
    have hc : i < (if sCount < dev.iFrameOffset + 2 then sCount
        else dev.iFrameOffset + 2) := by
      split_ifs <;> omega
    rw [memcpy_inside _ _ _ _ _ _ (Nat.zero_le i) (by omega)]
    have e : 0 + (i - 0) = i := by omega
    rw [e, STORE_HW_other _ _ _ _ (by omega) (by omega),
      STORE_HW_other _ _ _ _ (by omega) (by omega)]
    exact hz i hi

/-- On an open port, a reply that fits is enqueued. -/
theorem LCS_EnqueueReplyFrame_ok (w : LCSWorld) (pReply : Mem) (iSize : Nat)
    (bBafflePres : Bool) (hfd : w.port.fd ≠ -1) (hnc : w.port.fCloseInProgress = false)
    (hroom : (w.dev.iFrameOffset + iSize + sizeof_hwOffset) % SIZE_T_MOD
      ≤ w.dev.iMaxFrameBufferSize) :
    LCS_EnqueueReplyFrame w pReply iSize bBafflePres
      = some { w with dev := (LCS_DoEnqueueReplyFrame w.dev pReply iSize bBafflePres).dev } ∧
    (LCS_DoEnqueueReplyFrame w.dev pReply iSize bBafflePres).rc = 0 := by
  have hrc : (LCS_DoEnqueueReplyFrame w.dev pReply iSize bBafflePres).rc = 0 := by
    rw [reply_rc, if_neg (by omega)]
  exact ⟨LCS_EnqueueReplyFrame_open w pReply iSize bBafflePres hfd hnc hrc, hrc⟩


/-- `LCS_StartLan_SNA` on an open port whose ring has room for the 24-byte
reply: it returns, and the device afterwards is the device after the reply
enqueue, started. -/
theorem StartLan_SNA_ok (opt : BuildOptions) (ext : Externals) (w : LCSWorld) (buf : Mem)
    (pCmdFrame iCmdLen : Nat) (bBafflePres : Bool)
    (hfd : w.port.fd ≠ -1) (hnc : w.port.fCloseInProgress = false)
    (hroom : (w.dev.iFrameOffset + sizeof_LCSSTRTFRM + sizeof_hwOffset) % SIZE_T_MOD
      ≤ w.dev.iMaxFrameBufferSize) :
    ∃ w1, LCS_StartLan_SNA opt ext w buf pCmdFrame iCmdLen bBafflePres = some w1 ∧
      (LCS_DoEnqueueReplyFrame w.dev (LCS_StartLan_SNA_frame ext w buf pCmdFrame iCmdLen)
        sizeof_LCSSTRTFRM bBafflePres).rc = 0 ∧
      w1.dev = { (LCS_DoEnqueueReplyFrame w.dev
                    (LCS_StartLan_SNA_frame ext w buf pCmdFrame iCmdLen)
                    sizeof_LCSSTRTFRM bBafflePres).dev with fDevStarted := true } := by
  have key : ∀ (calls : List HostCall) (R : Mem),
      LCS_EnqueueReplyFrame { w with hostCalls := w.hostCalls ++ calls } R sizeof_LCSSTRTFRM
          bBafflePres
        = some { w with
            hostCalls := w.hostCalls ++ calls
            dev := (LCS_DoEnqueueReplyFrame w.dev R sizeof_LCSSTRTFRM bBafflePres).dev } ∧
      (LCS_DoEnqueueReplyFrame w.dev R sizeof_LCSSTRTFRM bBafflePres).rc = 0 :=
    fun calls R =>
      LCS_EnqueueReplyFrame_ok { w with hostCalls := w.hostCalls ++ calls } R sizeof_LCSSTRTFRM
        bBafflePres hfd hnc hroom
  unfold LCS_StartLan_SNA LCS_StartLan_SNA_reply
  dsimp only
  rw [(key _ _).1, Option.map_some']
  refine ⟨_, rfl, (key [] _).2, ?_⟩
  split_ifs <;> rfl


/-! ### Baffle symmetry -/

/-- The reply enqueue without the baffle flag, on an open port and a ring that
has no baffle pending: if it returns, the reply had room and was appended. -/
theorem enqueue_plain (X X2 : LCSWorld) (R : Mem) (N : Nat)
    (hfd : X.port.fd ≠ -1) (hnc : X.port.fCloseInProgress = false)
    (hpb : X.dev.fPendingBaffle = false)
    (hmax : X.dev.iMaxFrameBufferSize ≤ sizeof_bFrameBuffer)
    (hoff : X.dev.iFrameOffset ≤ X.dev.iMaxFrameBufferSize) (hN : N < U16_MOD)
    (h : LCS_EnqueueReplyFrame X R N false = some X2) :
    X2 = { X with dev := appendReply X.dev R N } ∧
      X.dev.iFrameOffset + N + 2 ≤ X.dev.iMaxFrameBufferSize := by
  have hsz : N ≤ PTRDIFF_MAX := by
    simp only [U16_MOD, PTRDIFF_MAX] at *
    omega
  have hoff16 : X.dev.iFrameOffset < U16_MOD := by
    simp only [sizeof_bFrameBuffer, CTC_DEF_FRAME_BUFFER_SIZE, U16_MOD] at *
    omega
  have hmax16 : X.dev.iMaxFrameBufferSize < U16_MOD := by
    simp only [sizeof_bFrameBuffer, CTC_DEF_FRAME_BUFFER_SIZE, U16_MOD] at *
    omega
  have hroom : ¬ X.dev.iFrameOffset + N + 2 > X.dev.iMaxFrameBufferSize := by
    intro hfull
    have hn : LCS_EnqueueReplyFrame X R N false = none := by
      rw [LCS_EnqueueReplyFrame_eq_none_iff, reply_check_nowrap X.dev N hoff16 hsz]
      exact ⟨hfd, hnc, hfull⟩
    rw [hn] at h
    cases h
  have hnr : ¬ (X.dev.iFrameOffset = 0 ∧ false = true) := by
    rintro ⟨-, e⟩
    cases e
  rw [LCS_EnqueueReplyFrame_append X R N false hfd hnc hnr hoff16 hmax16 hsz hroom] at h
  cases h
  refine ⟨?_, by omega⟩
  simp [appendReply, hpb]

/-- The reply enqueue with the baffle flag in the corresponding state of the run
on the batch with a baffle in front: with room for the reply behind the eight
baffle bytes it returns, in the state that corresponds to the one after the
enqueue in the run on the batch alone. -/
theorem enqueue_shift (X X1 : LCSWorld) (R : Mem) (N : Nat)
    (hrel : BaffleShift X X1)
    (hfd : X.port.fd ≠ -1) (hnc : X.port.fCloseInProgress = false)
    (hpb : X.dev.fPendingBaffle = false)
    (hmax : X.dev.iMaxFrameBufferSize ≤ sizeof_bFrameBuffer) (hN : N < U16_MOD)
    (hroom : X.dev.iFrameOffset + N + 10 ≤ X.dev.iMaxFrameBufferSize) :
    ∃ bf : Mem,
      LCS_EnqueueReplyFrame X1 R N true
        = some { X with dev := shiftDev (appendReply X.dev R N) bf } ∧
      (∀ i, i < 8 → bf i = 0) ∧
      ∀ i, i < X.dev.iFrameOffset + N → bf (8 + i) = (appendReply X.dev R N).bFrameBuffer i := by
  have hsz : N ≤ PTRDIFF_MAX := by
    simp only [U16_MOD, PTRDIFF_MAX] at *
    omega
  have hmax16 : X.dev.iMaxFrameBufferSize < U16_MOD := by
    simp only [sizeof_bFrameBuffer, CTC_DEF_FRAME_BUFFER_SIZE, U16_MOD] at *
    omega
  rcases hrel with ⟨rfl, h0⟩ | ⟨bf, rfl, hz, hs⟩
  · -- nothing enqueued yet: the baffle is reserved
    have hmax8 : X1.dev.iMaxFrameBufferSize + 8 < U16_MOD := by
      simp only [sizeof_bFrameBuffer, CTC_DEF_FRAME_BUFFER_SIZE, U16_MOD] at *
      omega
    have hr : ¬ X1.dev.iFrameOffset + N + 2 > X1.dev.iMaxFrameBufferSize := by omega
    have hE := reply_reserve X1.dev R N h0 hmax8 hsz hr
    have hrc : (LCS_DoEnqueueReplyFrame X1.dev R N true).rc = 0 := by rw [hE]
    refine ⟨STORE_HW (memcpy (memset X1.dev.bFrameBuffer 0 0 8) 8 R 0 N) 8 N, ?_, ?_, ?_⟩
    · rw [LCS_EnqueueReplyFrame_open X1 R N true hfd hnc hrc, hE]
      simp [shiftDev, appendReply, h0, Nat.add_comm]
    · intro i hi
      rw [STORE_HW_other _ _ _ _ (by omega) (by omega),
        memcpy_outside _ _ _ _ _ _ (Or.inl hi), memset_inside _ _ _ _ _ (Nat.zero_le _) (by omega)]
    · intro i hi
      simp only [appendReply, h0, Nat.zero_add] at hi ⊢
      simp only [STORE_HW, memcpy, U16_MOD]
      by_cases e0 : i = 0
      · simp [e0]
      by_cases e1 : i = 1
      · simp [e1]
      have e2 : ¬ 8 + i = 8 := by omega
      have e3 : ¬ 8 + i = 8 + 1 := by omega
      have e4 : ¬ i = 0 + 1 := by omega
      have e5 : 8 + i - 8 = i := by omega
      simp [e0, e2, e3, e4, e5, hi]
  · -- the ring already starts with a reserved baffle
    have hnr : ¬ ((shiftDev X.dev bf).iFrameOffset = 0 ∧ true = true) := by
      rintro ⟨e, -⟩
      simp [shiftDev] at e
    have hoff : (shiftDev X.dev bf).iFrameOffset < U16_MOD := by
      simp only [shiftDev, sizeof_bFrameBuffer, CTC_DEF_FRAME_BUFFER_SIZE, U16_MOD] at *
      omega
    have hr : ¬ (shiftDev X.dev bf).iFrameOffset + N + 2
        > (shiftDev X.dev bf).iMaxFrameBufferSize := by
      simp only [shiftDev]
      omega
    have hE := reply_append (shiftDev X.dev bf) R N true hnr hoff hmax16 hsz hr
    have hrc : (LCS_DoEnqueueReplyFrame (shiftDev X.dev bf) R N true).rc = 0 := by rw [hE]
    have e1 : X.dev.iFrameOffset + 8 + N = X.dev.iFrameOffset + N + 8 := by omega
    have e2 : (X.dev.iFrameOffset + 8 + N + U16_MOD - 8) % U16_MOD
        = X.dev.iFrameOffset + N := by
      simp only [sizeof_bFrameBuffer, CTC_DEF_FRAME_BUFFER_SIZE, U16_MOD] at *
      omega
    refine ⟨STORE_HW (memcpy bf (X.dev.iFrameOffset + 8) R 0 N) (X.dev.iFrameOffset + 8)
      (X.dev.iFrameOffset + N), ?_, ?_, ?_⟩
    · rw [LCS_EnqueueReplyFrame_open { X with dev := shiftDev X.dev bf } R N true hfd hnc hrc]
      dsimp only
      rw [hE]
      have e6 : (X.dev.iFrameOffset + N + 8 + U16_MOD - 8) % U16_MOD
          = X.dev.iFrameOffset + N := by
        rw [← e1]
        exact e2
      simp [shiftDev, appendReply, e1, e6]
    · intro i hi
      rw [STORE_HW_other _ _ _ _ (by omega) (by omega),
        memcpy_outside _ _ _ _ _ _ (Or.inl (by omega))]
      exact hz i hi
    · intro i hi
      simp only [appendReply]
      by_cases e0 : i = X.dev.iFrameOffset
      · subst e0
        have e3 : 8 + X.dev.iFrameOffset = X.dev.iFrameOffset + 8 := by omega
        rw [e3, STORE_HW_hi, STORE_HW_hi]
      by_cases e4 : i = X.dev.iFrameOffset + 1
      · subst e4
        have e3 : 8 + (X.dev.iFrameOffset + 1) = X.dev.iFrameOffset + 8 + 1 := by omega
        rw [e3, STORE_HW_lo, STORE_HW_lo]
      rw [STORE_HW_other _ _ _ _ (by omega) (by omega),
        STORE_HW_other _ _ _ _ (by omega) (by omega)]
      by_cases e5 : X.dev.iFrameOffset ≤ i
      · rw [memcpy_inside _ _ _ _ _ _ (by omega) (by omega),
          memcpy_inside _ _ _ _ _ _ e5 (by omega)]
        have e7 : 0 + (8 + i - (X.dev.iFrameOffset + 8)) = 0 + (i - X.dev.iFrameOffset) := by
          omega
        rw [e7]
      · rw [memcpy_outside _ _ _ _ _ _ (Or.inl (by omega)),
          memcpy_outside _ _ _ _ _ _ (Or.inl (by omega))]
        exact hs i (by omega)

/-- Every SNA command handler makes its host calls, builds its reply, hands it
to `ENQUEUE_REPLY_FRAME`, and then at most sets device and port flags. -/
theorem lcsHandler_sna (opt : BuildOptions) (ext : Externals) (h : LCSHandler)
    (hh : isSnaCmdHandler h) (a : LCSWorld) (buf : Mem) (p n : Nat) (b : Bool) :
    lcsHandler opt ext h a buf p n b
      = (LCS_EnqueueReplyFrame (snaPre opt ext h a) (snaFrame opt ext h a buf p n)
          (snaLen ext h buf p n) b).map (snaPost h a) := by
  rcases hh with rfl | rfl | rfl | rfl
  · rfl
  · rfl
  · simp only [lcsHandler, LCS_LanStats_SNA, snaPre, snaFrame, snaLen, snaPost]
    exact Option.map_id'.symm
  · simp only [lcsHandler, LCS_DefaultCmd_SNA, snaPre, snaFrame, snaLen, snaPost]
    exact Option.map_id'.symm

/-- The handler the SNA branch picks for a command code is one of the four. -/
theorem snaHandler_isSnaCmdHandler (bCmdCode : Nat) : isSnaCmdHandler (snaHandler bCmdCode) := by
  unfold snaHandler isSnaCmdHandler
  split_ifs <;> simp

/-- Before the enqueue an SNA command handler leaves the device alone. -/
theorem snaPre_dev (opt : BuildOptions) (ext : Externals) (h : LCSHandler) (a : LCSWorld) :
    (snaPre opt ext h a).dev = a.dev := by
  cases h <;> rfl

/-- Before the enqueue an SNA command handler neither opens nor closes the port. -/
theorem snaPre_port (opt : BuildOptions) (ext : Externals) (h : LCSHandler) (a : LCSWorld) :
    (snaPre opt ext h a).port.fd = a.port.fd ∧
      (snaPre opt ext h a).port.fCloseInProgress = a.port.fCloseInProgress := by
  cases h <;> exact ⟨rfl, rfl⟩

/-- What an SNA command handler does before the enqueue does not depend on the
device. -/
theorem snaPre_shift (opt : BuildOptions) (ext : Externals) (h : LCSHandler) (a : LCSWorld)
    (D : LCSDEV) :
    snaPre opt ext h { a with dev := D } = { snaPre opt ext h a with dev := D } := by
  cases h <;> rfl

/-- `INIT_REPLY_FRAME` gives the same reply for the same command frame at a
place 8 bytes further in the guest buffer. -/
theorem INIT_REPLY_FRAME_shift (pReply : Mem) (R : Nat) (buf buf1 : Mem) (p n : Nat)
    (hbuf : ∀ x, buf1 (8 + x) = buf x) :
    INIT_REPLY_FRAME pReply R buf1 (8 + p) n = INIT_REPLY_FRAME pReply R buf p n := by
  have hm : ∀ (dst : Mem) (k : Nat), memcpy dst 0 buf1 (8 + p) k = memcpy dst 0 buf p k := by
    intro dst k
    funext i
    unfold memcpy
    split_ifs
    · rw [Nat.add_assoc, hbuf]
    · rfl
  unfold INIT_REPLY_FRAME
  rw [hm, hm]

/-- The reply an SNA command handler builds is the same in the corresponding
state of the run on the batch with a baffle in front. -/
theorem snaFrame_shift (opt : BuildOptions) (ext : Externals) (h : LCSHandler) (a : LCSWorld)
    (bf : Mem) (buf buf1 : Mem) (p n : Nat) (hbuf : ∀ x, buf1 (8 + x) = buf x) :
    snaFrame opt ext h { a with dev := shiftDev a.dev bf } buf1 (8 + p) n
      = snaFrame opt ext h a buf p n := by
  cases h <;>
    simp only [snaFrame, LCS_StartLan_SNA_frame, LCS_LanStats_SNA_frame,
      LCS_DefaultCmd_SNA_frame, INIT_REPLY_FRAME_shift _ _ buf buf1 p n hbuf] <;> rfl

/-- The reply length of an SNA command handler is the same for the same command
frame at a place 8 bytes further in the guest buffer, and is at most 26. -/
theorem snaLen_shift (ext : Externals) (h : LCSHandler) (buf buf1 : Mem) (p n : Nat)
    (hbuf : ∀ x, buf1 (8 + x) = buf x) :
    snaLen ext h buf1 (8 + p) n = snaLen ext h buf p n ∧ snaLen ext h buf p n ≤ 26 := by
  have hi := INIT_REPLY_FRAME_shift ext.stack sizeof_LCSSTDFRM buf buf1 p n hbuf
  have hl := INIT_REPLY_FRAME_len ext.stack buf p n sizeof_LCSSTDFRM
  have hmin : min n sizeof_LCSSTDFRM ≤ 20 := Nat.min_le_right _ _
  constructor
  · cases h <;> simp only [snaLen, hi]
  · cases h <;> simp only [snaLen, hl, sizeof_LCSSTRTFRM, sizeof_LCSLSSFRM] <;> omega

/-- After the enqueue an SNA command handler leaves the ring and the host calls
alone and neither opens nor closes the port. -/
theorem snaPost_fields (h : LCSHandler) (a x : LCSWorld) :
    (snaPost h a x).dev.iFrameOffset = x.dev.iFrameOffset ∧
    (snaPost h a x).dev.iMaxFrameBufferSize = x.dev.iMaxFrameBufferSize ∧
    (snaPost h a x).dev.fPendingBaffle = x.dev.fPendingBaffle ∧
    (snaPost h a x).dev.bFrameBuffer = x.dev.bFrameBuffer ∧
    (snaPost h a x).port.fd = x.port.fd ∧
    (snaPost h a x).port.fCloseInProgress = x.port.fCloseInProgress := by
  cases h
  case LCS_StartLan_SNA =>
    by_cases hf : fStartPending a = true <;> simp [snaPost, hf, UpdatePortStarted]
  all_goals exact ⟨rfl, rfl, rfl, rfl, rfl, rfl⟩

/-- What an SNA command handler does after the enqueue is the same in the
corresponding state of the run on the batch with a baffle in front. -/
theorem snaPost_shift (h : LCSHandler) (a x : LCSWorld) (bf0 bf : Mem) :
    snaPost h { a with dev := shiftDev a.dev bf0 } { x with dev := shiftDev x.dev bf }
      = { snaPost h a x with dev := shiftDev (snaPost h a x).dev bf } ∧
    snaPost h a { x with dev := shiftDev x.dev bf }
      = { snaPost h a x with dev := shiftDev (snaPost h a x).dev bf } := by
  have hf : fStartPending { a with dev := shiftDev a.dev bf0 } = fStartPending a := rfl
  cases h
  case LCS_StartLan_SNA =>
    by_cases hs : fStartPending a = true
    · simp only [snaPost, hf, hs, if_true]
      exact ⟨rfl, rfl⟩
    · simp only [snaPost, hf, hs, if_false]
      exact ⟨rfl, rfl⟩
  all_goals exact ⟨rfl, rfl⟩

/-- The reply an SNA command handler builds is the same for the same command
frame at a place 8 bytes further in the guest buffer. -/
theorem snaFrame_shift0 (opt : BuildOptions) (ext : Externals) (h : LCSHandler) (a : LCSWorld)
    (buf buf1 : Mem) (p n : Nat) (hbuf : ∀ x, buf1 (8 + x) = buf x) :
    snaFrame opt ext h a buf1 (8 + p) n = snaFrame opt ext h a buf p n := by
  cases h <;>
    simp only [snaFrame, LCS_StartLan_SNA_frame, LCS_LanStats_SNA_frame,
      LCS_DefaultCmd_SNA_frame, INIT_REPLY_FRAME_shift _ _ buf buf1 p n hbuf]

/-- An SNA command handler in the run on the batch alone, in a state in which the
reply enqueue works as on a healthy device: if it returns, the reply had room
and was appended to the ring. -/
theorem sna_handler_plain (opt : BuildOptions) (ext : Externals) (h : LCSHandler)
    (hh : isSnaCmdHandler h) (a a2 : LCSWorld) (buf : Mem) (p n : Nat)
    (hok : PlainOK a) (hrun : lcsHandler opt ext h a buf p n false = some a2) :
    a2 = snaPost h a { snaPre opt ext h a with
          dev := appendReply a.dev (snaFrame opt ext h a buf p n) (snaLen ext h buf p n) } ∧
      a.dev.iFrameOffset + snaLen ext h buf p n + 2 ≤ a.dev.iMaxFrameBufferSize := by
  obtain ⟨hfd, hnc, hpb, hmax, hoff⟩ := hok
  have hlen : snaLen ext h buf p n < U16_MOD := by
    have := (snaLen_shift ext h buf (fun x => buf (x - 8)) p n (by intro x; simp)).2
    simp only [U16_MOD]
    omega
  rw [lcsHandler_sna opt ext h hh, Option.map_eq_some'] at hrun
  obtain ⟨x, hx, rfl⟩ := hrun
  have hp := snaPre_port opt ext h a
  have hd := snaPre_dev opt ext h a
  have hE := enqueue_plain (snaPre opt ext h a) x (snaFrame opt ext h a buf p n)
    (snaLen ext h buf p n) (by rw [hp.1]; exact hfd) (by rw [hp.2]; exact hnc)
    (by rw [hd]; exact hpb) (by rw [hd]; exact hmax) (by rw [hd]; exact hoff) hlen hx
  rw [hd] at hE
  exact ⟨by rw [hE.1], hE.2⟩

/-- The state after an SNA command handler in the run on the batch alone is again
one in which the reply enqueue works as on a healthy device; the frames end
where the reply ends and `iMaxFrameBufferSize` is as before. -/
theorem sna_handler_plain_ok (opt : BuildOptions) (ext : Externals) (h : LCSHandler)
    (hh : isSnaCmdHandler h) (a a2 : LCSWorld) (buf : Mem) (p n : Nat)
    (hok : PlainOK a) (hrun : lcsHandler opt ext h a buf p n false = some a2) :
    PlainOK a2 ∧ a2.dev.iMaxFrameBufferSize = a.dev.iMaxFrameBufferSize ∧
      a2.dev.iFrameOffset = a.dev.iFrameOffset + snaLen ext h buf p n := by
  obtain ⟨hE, hroom⟩ := sna_handler_plain opt ext h hh a a2 buf p n hok hrun
  obtain ⟨hfd, hnc, hpb, hmax, hoff⟩ := hok
  have hp := snaPre_port opt ext h a
  obtain ⟨f1, f2, f3, -, f5, f6⟩ := snaPost_fields h a { snaPre opt ext h a with
    dev := appendReply a.dev (snaFrame opt ext h a buf p n) (snaLen ext h buf p n) }
  rw [← hE] at f1 f2 f3 f5 f6
  simp only [appendReply] at f1 f2 f3 f5 f6
  refine ⟨⟨?_, ?_, ?_, ?_, ?_⟩, f2, f1⟩
  · rw [f5, hp.1]
    exact hfd
  · rw [f6, hp.2]
    exact hnc
  · rw [f3]
    exact hpb
  · rw [f2]
    exact hmax
  · rw [f1, f2]
    omega

/-- An SNA command handler in the corresponding state of the run on the batch
with a baffle in front, given the same command frame 8 bytes further in the
guest buffer and the baffle flag: with room for the reply behind the eight
baffle bytes it returns, in the state that corresponds to the one after the
handler in the run on the batch alone. -/
theorem sna_handler_shift (opt : BuildOptions) (ext : Externals) (h : LCSHandler)
    (hh : isSnaCmdHandler h) (a a1 a2 : LCSWorld) (buf buf1 : Mem) (p n : Nat)
    (hok : PlainOK a) (hrun : lcsHandler opt ext h a buf p n false = some a2)
    (hrel : BaffleShift a a1) (hbuf : ∀ x, buf1 (8 + x) = buf x)
    (hroom : a2.dev.iFrameOffset + 10 ≤ a.dev.iMaxFrameBufferSize) :
    ∃ a3, lcsHandler opt ext h a1 buf1 (8 + p) n true = some a3 ∧
      ∃ bf : Mem, a3 = { a2 with dev := shiftDev a2.dev bf } ∧ (∀ i, i < 8 → bf i = 0) ∧
        ∀ i, i < a2.dev.iFrameOffset → bf (8 + i) = a2.dev.bFrameBuffer i := by
  obtain ⟨hE, -⟩ := sna_handler_plain opt ext h hh a a2 buf p n hok hrun
  obtain ⟨-, -, hoff2⟩ := sna_handler_plain_ok opt ext h hh a a2 buf p n hok hrun
  obtain ⟨hfd, hnc, hpb, hmax, hoff⟩ := hok
  obtain ⟨hl1, hl2⟩ := snaLen_shift ext h buf buf1 p n hbuf
  have hlen : snaLen ext h buf p n < U16_MOD := by
    simp only [U16_MOD]
    omega
  have hp := snaPre_port opt ext h a
  have hd := snaPre_dev opt ext h a
  obtain ⟨g1, g2, g3, g4, -, -⟩ := snaPost_fields h a { snaPre opt ext h a with
    dev := appendReply a.dev (snaFrame opt ext h a buf p n) (snaLen ext h buf p n) }
  rw [← hE] at g1 g4
  have key : ∀ X1 : LCSWorld, BaffleShift (snaPre opt ext h a) X1 →
      ∃ bf : Mem,
        LCS_EnqueueReplyFrame X1 (snaFrame opt ext h a buf p n) (snaLen ext h buf p n) true
          = some { snaPre opt ext h a with
              dev := shiftDev (appendReply a.dev (snaFrame opt ext h a buf p n)
                (snaLen ext h buf p n)) bf } ∧
        (∀ i, i < 8 → bf i = 0) ∧
        ∀ i, i < a2.dev.iFrameOffset → bf (8 + i) = a2.dev.bFrameBuffer i := by
    intro X1 hX
    obtain ⟨bf, e1, e2, e3⟩ := enqueue_shift (snaPre opt ext h a) X1
      (snaFrame opt ext h a buf p n) (snaLen ext h buf p n) hX
      (by rw [hp.1]; exact hfd) (by rw [hp.2]; exact hnc) (by rw [hd]; exact hpb)
      (by rw [hd]; exact hmax) hlen (by rw [hd]; omega)
    rw [hd] at e1 e3
    refine ⟨bf, e1, e2, ?_⟩
    intro i hi
    rw [g4]
    exact e3 i (by omega)
  rw [lcsHandler_sna opt ext h hh]
  rcases hrel with ⟨rfl, h0⟩ | ⟨bf0, rfl, hz, hs⟩
  · obtain ⟨bf, e1, e2, e3⟩ := key (snaPre opt ext h a1) (Or.inl ⟨rfl, by rw [hd]; exact h0⟩)
    rw [snaFrame_shift0 opt ext h a1 buf buf1 p n hbuf, hl1, e1, Option.map_some']
    refine ⟨_, rfl, bf, ?_, e2, e3⟩
    rw [hE]
    exact (snaPost_shift h a1 { snaPre opt ext h a1 with
      dev := appendReply a1.dev (snaFrame opt ext h a1 buf p n) (snaLen ext h buf p n) } bf bf).2
  · obtain ⟨bf, e1, e2, e3⟩ := key { snaPre opt ext h a with dev := shiftDev a.dev bf0 }
      (Or.inr ⟨bf0, by rw [hd], hz, by rw [hd]; exact hs⟩)
    rw [snaFrame_shift opt ext h a bf0 buf buf1 p n hbuf, hl1, snaPre_shift, e1,
      Option.map_some']
    refine ⟨_, rfl, bf, ?_, e2, e3⟩
    rw [hE]
    exact (snaPost_shift h a { snaPre opt ext h a with
      dev := appendReply a.dev (snaFrame opt ext h a buf p n) (snaLen ext h buf p n) } bf0 bf).1

/-- The frame switch of the SNA branch of `LCS_Write` on a command frame: the
handler for the command code is called, then the attention is queued; the
guest buffer is not changed and the walk goes on. -/
theorem frame_SNA_cmd (opt : BuildOptions) (ext : Externals) (b : Bool) (s : Option LCSWorld)
    (tr : List (LCSHandler × List Nat × Nat)) (buf : Mem) (p n : Nat)
    (ht : buf (p + 2) = LCS_FRMTYP_CMD) :
    LCS_Write_frame_SNA (withCalls (lcsEnv opt ext)) b (s, tr) buf p n =
      (((s.bind (fun x => lcsHandler opt ext (snaHandler (buf (p + 4))) x buf p n b)).map
          (snaAttn ext),
        tr ++ [(snaHandler (buf (p + 4)), readBytes buf p n, n)]), buf, true) := by
  have e1 : ¬ (LCS_FRMTYP_CMD = LCS_FRMTYP_ENET) := by decide
  have e2 : ¬ (LCS_FRMTYP_CMD = LCS_FRMTYP_SNA) := by decide
  simp only [LCS_Write_frame_SNA, ht, if_neg e1, if_neg e2, if_true]
  cases s with
  | none => simp [withCalls, lcsEnv]
  | some x =>
    simp only [withCalls, lcsEnv, Option.some_bind]
    cases hh : lcsHandler opt ext (snaHandler (buf (p + 4))) x buf p n b with
    | none => simp
    | some y =>
      by_cases hm : ext.malloc_LCSATTN y.hostCalls = true
      · simp [snaAttn, hm]
      · simp [snaAttn, hm]

/-- A 16-bit field reads the same 8 bytes further in a buffer that holds the
other buffer from byte 8 on. -/
theorem FETCH_HW_shift (buf buf1 : Mem) (hbuf : ∀ x, buf1 (8 + x) = buf x) (p : Nat) :
    FETCH_HW buf1 (8 + p) = FETCH_HW buf p := by
  unfold FETCH_HW
  rw [Nat.add_assoc, hbuf, hbuf]

/-- A block of bytes reads the same 8 bytes further in a buffer that holds the
other buffer from byte 8 on. -/
theorem readBytes_shift (buf buf1 : Mem) (hbuf : ∀ x, buf1 (8 + x) = buf x) (p n : Nat) :
    readBytes buf1 (8 + p) n = readBytes buf p n := by
  unfold readBytes
  apply List.map_congr_left
  intro i _
  rw [Nat.add_assoc, hbuf]

/-- Queueing the attention leaves the device and the port as they are. -/
theorem snaAttn_fields (ext : Externals) (x : LCSWorld) :
    (snaAttn ext x).dev = x.dev ∧ (snaAttn ext x).port = x.port := by
  unfold snaAttn
  by_cases hm : ext.malloc_LCSATTN x.hostCalls = true
  · rw [if_pos hm]
    exact ⟨rfl, rfl⟩
  · rw [if_neg hm]
    exact ⟨rfl, rfl⟩

/-- Queueing the attention does the same whatever the ring of the device. -/
theorem snaAttn_shift (ext : Externals) (x : LCSWorld) (D : LCSDEV)
    (hs : D.sAddr = x.dev.sAddr) :
    snaAttn ext { x with dev := D } = { snaAttn ext x with dev := D } := by
  unfold snaAttn
  by_cases hm : ext.malloc_LCSATTN x.hostCalls = true
  · simp only [if_pos hm, hs]
  · simp only [if_neg hm]

/-- Once a handler is held up on a full ring, a walk over command frames ends
with the handler still held up. -/
theorem walk_none (opt : BuildOptions) (ext : Externals) (B : Mem) :
    ∀ (fuel : Nat) (tr : List (LCSHandler × List Nat × Nat)) (off : Nat)
      (r : WalkResult (Option LCSWorld × List (LCSHandler × List Nat × Nat))),
      cmdFramesOnly B fuel off = true →
      LCS_Write_walk (LCS_Write_frame_SNA (withCalls (lcsEnv opt ext)) false) 0 fuel
        (none, tr) B off = some r →
      r.state.1 = none := by
  intro fuel
  induction fuel with
  | zero =>
    intro tr off r _ h
    simp [LCS_Write_walk] at h
  | succ k ih =>
    intro tr off r hc h
    simp only [LCS_Write_walk, Nat.zero_add] at h
    simp only [cmdFramesOnly] at hc
    by_cases hz : FETCH_HW B off = 0
    · rw [if_pos hz] at h
      cases h
      rfl
    · rw [if_neg hz] at h
      rw [if_neg hz, Bool.and_eq_true, decide_eq_true_eq] at hc
      rw [frame_SNA_cmd opt ext false none tr B off _ hc.1] at h
      simp only [if_true, Option.none_bind, Option.map_none'] at h
      exact ih _ _ r hc.2 h

/-- The walk of `LCS_Write` over command frames of an SNA batch, from a state
in which the reply enqueue works as on a healthy device: if the walk on the
batch alone returns with no handler held up, the ring only grew, and from every
corresponding state the walk on the same frames behind a baffle, with room for
eight more bytes in the ring, returns in a corresponding state, with the same
calls. -/
theorem sna_walk (opt : BuildOptions) (ext : Externals) (B B1 : Mem)
    (hB : ∀ x, B1 (8 + x) = B x) :
    ∀ (fuel : Nat) (a : LCSWorld) (tr : List (LCSHandler × List Nat × Nat)) (off : Nat)
      (r : WalkResult (Option LCSWorld × List (LCSHandler × List Nat × Nat))) (w1 : LCSWorld),
      PlainOK a → cmdFramesOnly B fuel off = true →
      LCS_Write_walk (LCS_Write_frame_SNA (withCalls (lcsEnv opt ext)) false) 0 fuel
        (some a, tr) B off = some r →
      r.state.1 = some w1 →
      a.dev.iFrameOffset ≤ w1.dev.iFrameOffset ∧
      w1.dev.iMaxFrameBufferSize = a.dev.iMaxFrameBufferSize ∧
      ∀ a1, BaffleShift a a1 → w1.dev.iFrameOffset + 10 ≤ a.dev.iMaxFrameBufferSize →
        ∃ r1 w2,
          LCS_Write_walk (LCS_Write_frame_SNA (withCalls (lcsEnv opt ext)) true) 8 fuel
            (some a1, tr) B1 off = some r1 ∧
          r1.state = (some w2, r.state.2) ∧ BaffleShift w1 w2 ∧
          r1.completed = r.completed ∧ r1.iPrevOffset = r.iPrevOffset := by
  intro fuel
  induction fuel with
  | zero =>
    intro a tr off r w1 _ _ h
    simp [LCS_Write_walk] at h
  | succ k ih =>
    intro a tr off r w1 hok hc h hw
    simp only [LCS_Write_walk, Nat.zero_add] at h
    simp only [cmdFramesOnly] at hc
    by_cases hz : FETCH_HW B off = 0
    · rw [if_pos hz] at h
      cases h
      cases hw
      refine ⟨le_refl _, rfl, ?_⟩
      intro a1 hrel _
      refine ⟨⟨(some a1, tr), B1, true, off⟩, a1, ?_, rfl, hrel, rfl, rfl⟩
      simp only [LCS_Write_walk]
      rw [FETCH_HW_shift B B1 hB, if_pos hz]
    · rw [if_neg hz] at h
      rw [if_neg hz, Bool.and_eq_true, decide_eq_true_eq] at hc
      rw [frame_SNA_cmd opt ext false (some a) tr B off _ hc.1] at h
      simp only [if_true, Option.some_bind] at h
      cases hh : lcsHandler opt ext (snaHandler (B (off + 4))) a B off
          ((FETCH_HW B off + U16_MOD - off) % U16_MOD) false with
      | none =>
        rw [hh] at h
        have hn := walk_none opt ext B k _ _ r hc.2 h
        rw [hw] at hn
        cases hn
      | some a2 =>
        rw [hh, Option.map_some'] at h
        have hsna := snaHandler_isSnaCmdHandler (B (off + 4))
        obtain ⟨hok2, hmax2, hoff2⟩ := sna_handler_plain_ok opt ext _ hsna a a2 B off _ hok hh
        obtain ⟨hd, hp⟩ := snaAttn_fields ext a2
        have hok3 : PlainOK (snaAttn ext a2) := by
          unfold PlainOK
          rw [hd, hp]
          exact hok2
        obtain ⟨i1, i2, i3⟩ := ih (snaAttn ext a2) _ _ r w1 hok3 hc.2 h hw
        rw [hd] at i1 i2
        refine ⟨by omega, by rw [i2, hmax2], ?_⟩
        intro a1 hrel hroom
        obtain ⟨a3, e3, bf, rfl, hz8, hsh⟩ := sna_handler_shift opt ext _ hsna a a1 a2 B B1 off _
          hok hh hrel hB (by omega)
        have hrel3 : BaffleShift (snaAttn ext a2)
            (snaAttn ext { a2 with dev := shiftDev a2.dev bf }) := by
          refine Or.inr ⟨bf, ?_, hz8, ?_⟩
          · rw [snaAttn_shift ext a2 (shiftDev a2.dev bf) rfl, hd]
          · rw [hd]
            exact hsh
        obtain ⟨r1, w2, j1, j2, j3, j4, j5⟩ := i3 _ hrel3 (by rw [hd, hmax2]; exact hroom)
        refine ⟨r1, w2, ?_, j2, j3, j4, j5⟩
        simp only [LCS_Write_walk]
        rw [FETCH_HW_shift B B1 hB, if_neg hz]
        have ht : B1 (8 + off + 2) = LCS_FRMTYP_CMD := by
          rw [Nat.add_assoc, hB]
          exact hc.1
        have h4 : B1 (8 + off + 4) = B (off + 4) := by
          rw [Nat.add_assoc, hB]
        rw [frame_SNA_cmd opt ext true (some a1) tr B1 (8 + off) _ ht]
        simp only [if_true, Option.some_bind]
        rw [h4, e3, Option.map_some', readBytes_shift B B1 hB]
        exact j1

/-- Behind the baffle, `withBaffle sCount B` holds `B`. -/
theorem withBaffle_shift (sCount : Nat) (B : Mem) (x : Nat) :
    withBaffle sCount B (8 + x) = B x := by
  unfold withBaffle
  rw [if_neg (by omega), if_neg (by omega), if_neg (by omega)]
  congr 1
  omega

/-- `LCS_Write` detects the baffle of `withBaffle sCount B` when it is given
with the count `sCount + 8`. -/
theorem baffle_withBaffle (sCount : Nat) (B : Mem) :
    LCS_Write_baffle (sCount + 8) (withBaffle sCount B) = (true, SIZEOF_BAFFLE) := by
  have f0 : FETCH_HW (withBaffle sCount B) 0 = sCount % U16_MOD := by
    simp only [FETCH_HW, withBaffle, U16_MOD, if_true, if_false, Nat.zero_add, one_ne_zero]
    omega
  have f1 : ((sCount + 8 + U32_MOD - SIZEOF_BAFFLE) % U32_MOD) % U16_MOD = sCount % U16_MOD := by
    simp only [U32_MOD, U16_MOD, SIZEOF_BAFFLE]
    omega
  have f2 : withBaffle sCount B 2 = 0 := by simp [withBaffle]
  have f3 : readBytes (withBaffle sCount B) 2 5 = readBytes (withBaffle sCount B) 3 5 := by
    simp [readBytes, withBaffle, List.range_succ]
  unfold LCS_Write_baffle
  simp only [f0, f1, f2, f3, and_self, if_true]

/-- **C12** (baffle symmetry, with the precondition that the ring has room).
An SNA-mode device has an empty ring, no baffle pending, `iMaxFrameBufferSize`
at most the size of `bFrameBuffer`, and an open port.  `B` is a batch that
`LCS_Write` does not take as starting with a baffle and in which every frame the
walk reaches is a command frame.  If `LCS_Write` on `B` returns with no handler
held up, and the ring it leaves has room for eight more bytes and the 2-byte
terminator, then `LCS_Write` on the baffle followed by `B` returns as well, with
the same unit status, residual and sense byte, after the same handler calls on
the same frame bytes and lengths in the same order, and in the corresponding
state: everything but the ring is as after the run on `B`, and the ring is
eight zero bytes followed by the ring after the run on `B` with a baffle
pending (or, when `B` has no frame at all, the same empty ring). -/
theorem C12_baffle_symmetry (opt : BuildOptions) (ext : Externals) (w : LCSWorld) (B : Mem)
    (sCount fuel sense0 : Nat) (st : CCWStatus)
    (r : WriteResult (Option LCSWorld × List (LCSHandler × List Nat × Nat))) (w1 : LCSWorld)
    (hmode : w.dev.bMode = LCSDEV_MODE_SNA) (h0 : w.dev.iFrameOffset = 0)
    (hpb : w.dev.fPendingBaffle = false)
    (hmax : w.dev.iMaxFrameBufferSize ≤ sizeof_bFrameBuffer)
    (hfd : w.port.fd ≠ -1) (hnc : w.port.fCloseInProgress = false)
    (hnb : LCS_Write_baffle sCount B = (false, 0))
    (hcmd : cmdFramesOnly B fuel 0 = true)
    (hrun : LCS_Write (withCalls (lcsEnv opt ext)) fuel (some w, []) sCount B sense0 st = some r)
    (hw1 : r.world.1 = some w1)
    (hroom : w1.dev.iFrameOffset + 10 ≤ w.dev.iMaxFrameBufferSize) :
    ∃ r1 w2,
      LCS_Write (withCalls (lcsEnv opt ext)) fuel (some w, []) (sCount + 8)
        (withBaffle sCount B) sense0 st = some r1 ∧
      r1.world = (some w2, r.world.2) ∧ BaffleShift w1 w2 ∧
      r1.status = r.status ∧ r1.sense0 = r.sense0 := by
  have hm : ¬ ((withCalls (lcsEnv opt ext)).bMode (some w, []) = LCSDEV_MODE_IP) := by
    simp only [withCalls, lcsEnv, hmode]
    decide
  have hok : PlainOK w := ⟨hfd, hnc, hpb, hmax, by rw [h0]; exact Nat.zero_le _⟩
  unfold LCS_Write at hrun
  rw [if_neg hm] at hrun
  simp only [hnb] at hrun
  rw [Option.map_eq_some'] at hrun
  obtain ⟨rw0, hwalk, rfl⟩ := hrun
  have hst : rw0.state.1 = some w1 := by
    unfold LCS_Write_finish at hw1
    by_cases hcpl : rw0.completed = true
    · rw [if_pos hcpl] at hw1
      exact hw1
    · rw [if_neg hcpl] at hw1
      exact hw1
  obtain ⟨-, -, hsim⟩ := sna_walk opt ext B (withBaffle sCount B) (withBaffle_shift sCount B)
    fuel w [] 0 rw0 w1 hok hcmd hwalk hst
  obtain ⟨r1, w2, j1, j2, j3, j4, j5⟩ := hsim w (Or.inl ⟨rfl, h0⟩) hroom
  refine ⟨LCS_Write_finish sense0 st r1, w2, ?_, ?_, j3, ?_, ?_⟩
  · unfold LCS_Write
    rw [if_neg hm]
    simp only [baffle_withBaffle, SIZEOF_BAFFLE]
    rw [j1, Option.map_some']
  · unfold LCS_Write_finish
    rw [j4]
    by_cases hcpl : rw0.completed = true
    · simp only [if_pos hcpl]
      exact j2
    · simp only [if_neg hcpl]
      exact j2
  · unfold LCS_Write_finish
    rw [j4]
    by_cases hcpl : rw0.completed = true
    · simp only [if_pos hcpl]
    · simp only [if_neg hcpl]
  · unfold LCS_Write_finish
    rw [j4]
    by_cases hcpl : rw0.completed = true
    · simp only [if_pos hcpl]
    · simp only [if_neg hcpl]

/-- C12 for the two-command batch on the example SNA device: the run on the
batch alone returns with no handler held up, and so does the run on the baffle
followed by the batch, in the corresponding state. -/
theorem C12_baffle_symmetry_witness :
    ∃ r w1,
      LCS_Write (withCalls (lcsEnv exOpt exExt)) 3 (some exWorldSNA, []) 26 exSNABatch 0 {}
        = some r ∧
      r.world.1 = some w1 ∧
      ∃ r1 w2,
        LCS_Write (withCalls (lcsEnv exOpt exExt)) 3 (some exWorldSNA, []) (26 + 8)
          (withBaffle 26 exSNABatch) 0 {} = some r1 ∧
        r1.world = (some w2, r.world.2) ∧ BaffleShift w1 w2 ∧
        r1.status = r.status ∧ r1.sense0 = r.sense0 := by
  obtain ⟨r, hr⟩ := Option.isSome_iff_exists.mp
    (show (LCS_Write (withCalls (lcsEnv exOpt exExt)) 3 (some exWorldSNA, []) 26 exSNABatch
      0 {}).isSome = true by decide)
  have ho : (LCS_Write (withCalls (lcsEnv exOpt exExt)) 3 (some exWorldSNA, []) 26 exSNABatch
      0 {}).map (fun r => r.world.1.map (fun x => x.dev.iFrameOffset)) = some (some 36) := by
    decide
  rw [hr, Option.map_some'] at ho
  obtain ⟨w1, hw1, hoff⟩ := Option.map_eq_some'.mp (Option.some.inj ho)
  exact ⟨r, w1, hr, hw1,
    C12_baffle_symmetry exOpt exExt exWorldSNA exSNABatch 26 3 0 {} r w1 (by decide) (by decide)
      (by decide) (by decide) (by decide) (by decide) (by decide) (by decide) hr hw1
      (by rw [hoff]; decide)⟩

set_option maxRecDepth 1000000 in
set_option maxHeartbeats 4000000 in
/-- **C12**, counterexample: the ring has room for the replies but not for the
baffle as well.  The example SNA device has an empty ring with the compiled
`iMaxFrameBufferSize` of 0x5000 = 20480.  The batch of 853 Start LAN SNA
command frames is not taken as starting with a baffle and holds command frames
only.  On the batch alone `LCS_Write` returns with all 853 replies of 24 bytes
in the ring (20472 bytes, and 20472 + 2 ≤ 20480).  On the baffle followed by the
same batch the last handler is held up in `LCS_EnqueueReplyFrame`: behind the
eight reserved bytes the ring holds 852 replies, and 8 + 20448 + 24 + 2 = 20482
exceeds 20480, so the ring never becomes eight zero bytes followed by the ring
of the other run. -/
theorem C12_full_ring_breaks_symmetry :
    (LCS_Write_baffle 10238 (exFullBatch 853)).1 = false ∧
    cmdFramesOnly (exFullBatch 853) 854 0 = true ∧
    (LCS_Write (lcsEnv exOpt exExt) 854 (some exWorldSNA) 10238 (exFullBatch 853) 0 {}).map
        (fun r => r.world.map (fun x => x.dev.iFrameOffset)) = some (some 20472) ∧
    (LCS_Write (lcsEnv exOpt exExt) 854 (some exWorldSNA) (10238 + 8)
        (withBaffle 10238 (exFullBatch 853)) 0 {}).map
        (fun r => r.world.map (fun x => x.dev.iFrameOffset)) = some none := by
  refine ⟨by decide, by decide, by decide, by decide⟩


/-! ### What a reply enqueue that returns leaves in the ring -/

/-- A call of `LCS_EnqueueReplyFrame` on an open port that returns has put the
reply into the ring: the bytes of the reply from byte 2 on stand at the start
of the new frame, the frames end behind it, and nothing else of the state has
changed but the ring and its flags. -/
theorem enqueue_reply_effect (X X2 : LCSWorld) (R : Mem) (N : Nat) (b : Bool)
    (hfd : X.port.fd ≠ -1) (hnc : X.port.fCloseInProgress = false)
    (hoff : X.dev.iFrameOffset < U16_MOD)
    (hmax : X.dev.iMaxFrameBufferSize ≤ sizeof_bFrameBuffer) (hN : N ≤ PTRDIFF_MAX)
    (h : LCS_EnqueueReplyFrame X R N b = some X2) :
    X2.dev.iFrameOffset = replyFrameStart X.dev b + N ∧
    (∀ i, 2 ≤ i → i < N → X2.dev.bFrameBuffer (replyFrameStart X.dev b + i) = R i) ∧
    (∀ i, i < X.dev.iFrameOffset → X2.dev.bFrameBuffer i = X.dev.bFrameBuffer i) ∧
    X2.dev.fReplyPending = true ∧
    X2.dev.iMaxFrameBufferSize = X.dev.iMaxFrameBufferSize ∧
    X2.dev.bPort = X.dev.bPort ∧ X2.dev.sAddr = X.dev.sAddr ∧
    X2.dev.fDevStarted = X.dev.fDevStarted ∧ X2.dev.bMode = X.dev.bMode ∧
    X2.port = X.port ∧ X2.pAttns = X.pAttns ∧ X2.hostCalls = X.hostCalls ∧
    X2.nAttnEventSignals = X.nAttnEventSignals ∧ X2.pszIPAddress = X.pszIPAddress ∧
    X.dev.iFrameOffset + N + 2 ≤ X.dev.iMaxFrameBufferSize ∧
    (b = false → X2.dev.fPendingBaffle = X.dev.fPendingBaffle) ∧
    (b = false → X.dev.fPendingBaffle = false →
      FETCH_HW X2.dev.bFrameBuffer X.dev.iFrameOffset = X.dev.iFrameOffset + N) := by
  have hmax16 : X.dev.iMaxFrameBufferSize + 8 < U16_MOD := by
    simp only [sizeof_bFrameBuffer, CTC_DEF_FRAME_BUFFER_SIZE, U16_MOD] at *
    omega
  have hroom : ¬ X.dev.iFrameOffset + N + 2 > X.dev.iMaxFrameBufferSize := by
    intro hc
    have hn : LCS_EnqueueReplyFrame X R N b = none := by
      rw [LCS_EnqueueReplyFrame_eq_none_iff]
      refine ⟨hfd, hnc, ?_⟩
      rw [reply_check_nowrap X.dev N hoff hN]
      exact hc
    rw [hn] at h
    cases h
  have hd : LCS_EnqueueReplyFrame X R N b
      = some { X with dev := (LCS_DoEnqueueReplyFrame X.dev R N b).dev } := by
    unfold LCS_EnqueueReplyFrame
    rw [if_pos ⟨hfd, hnc⟩]
    dsimp only
    by_cases hr : X.dev.iFrameOffset = 0 ∧ b = true
    · obtain ⟨h0, hb⟩ := hr
      subst hb
      rw [reply_reserve X.dev R N h0 hmax16 hN hroom]
      simp
    · rw [reply_append X.dev R N b hr hoff (by omega) hN hroom]
      simp
  rw [hd] at h
  cases h
  by_cases hr : X.dev.iFrameOffset = 0 ∧ b = true
  · obtain ⟨h0, hb⟩ := hr
    subst hb
    have hs : replyFrameStart X.dev true = 8 := by
      simp [replyFrameStart, h0, SIZEOF_BAFFLE]
    rw [reply_reserve X.dev R N h0 hmax16 hN hroom, hs]
    refine ⟨rfl, ?_, ?_, rfl, rfl, rfl, rfl, rfl, rfl, rfl, rfl, rfl, rfl, rfl, by omega,
      ?_, ?_⟩
    · intro i h2 hi
      dsimp only
      rw [STORE_HW_other _ _ _ _ (by omega) (by omega),
        memcpy_inside _ _ _ _ _ _ (by omega) (by omega)]
      congr 1
      omega
    · intro i hi
      omega
    · intro hb
      cases hb
    · intro hb
      cases hb
  · have hs : replyFrameStart X.dev b = X.dev.iFrameOffset := by
      unfold replyFrameStart
      rw [if_neg hr]
    rw [reply_append X.dev R N b hr hoff (by omega) hN hroom, hs]
    refine ⟨rfl, ?_, ?_, rfl, rfl, rfl, rfl, rfl, rfl, rfl, rfl, rfl, rfl, rfl, by omega,
      fun _ => rfl, ?_⟩
    · intro i h2 hi
      dsimp only
      rw [STORE_HW_other _ _ _ _ (by omega) (by omega),
        memcpy_inside _ _ _ _ _ _ (by omega) (by omega)]
      congr 1
      omega
    · intro i hi
      dsimp only
      rw [STORE_HW_other _ _ _ _ (by omega) (by omega),
        memcpy_outside _ _ _ _ _ _ (Or.inl hi)]
    · intro _ hpb
      dsimp only
      have hpb2 : ¬ X.dev.fPendingBaffle = true := by simp [hpb]
      rw [if_neg hpb2, FETCH_HW_STORE_HW]
      omega

/-! ### Command frames of the LAN gateway -/

/-- **C24** (LAN gateway frames are ignored in IP mode).  For every state, guest
buffer and frame start at which the offset field is non-zero, the type byte is
0x00 and the initiator byte is 0x01, whatever the command code: the IP-mode
frame switch of `LCS_Write` returns the state and the guest buffer as they are
(the state holds the ring, `fDevStarted`, `iMaxFrameBufferSize`, the port and the
host calls; no handler is called) and does not give up; the walk goes on at the
next frame in that same state; and when the frame is the first of the input of
an IP-mode device, `LCS_Write` is the walk from the second frame on. -/
theorem C24_lgw_frame_ignored {W : Type} (env : LCSWriteEnv W) (w : W) (buf : Mem)
    (iOffset fuel : Nat) (hz : FETCH_HW buf iOffset ≠ 0)
    (ht : buf (iOffset + 2) = LCS_FRMTYP_CMD) (hi : buf (iOffset + 5) = LCS_INITIATOR_LGW) :
    (∀ iLength, LCS_Write_frame_IP env w buf iOffset iLength = (w, buf, true)) ∧
    (∀ calls iLength, LCS_Write_frame_IP (withCalls env) (w, calls) buf iOffset iLength
      = ((w, calls), buf, true)) ∧
    LCS_Write_walk (LCS_Write_frame_IP env) 0 (fuel + 1) w buf iOffset
      = LCS_Write_walk (LCS_Write_frame_IP env) 0 fuel w buf (FETCH_HW buf iOffset) ∧
    (iOffset = 0 → env.bMode w = LCSDEV_MODE_IP → ∀ sCount sense0 st,
      LCS_Write env (fuel + 1) w sCount buf sense0 st
        = (LCS_Write_walk (LCS_Write_frame_IP env) 0 fuel w buf (FETCH_HW buf 0)).map
            (LCS_Write_finish sense0 st)) := by
  have hne : ¬ (LCS_FRMTYP_CMD = LCS_FRMTYP_ENET) := by decide
  have key : ∀ {V : Type} (e : LCSWriteEnv V) (v : V) (iLength : Nat),
      LCS_Write_frame_IP e v buf iOffset iLength = (v, buf, true) := by
    intro V e v iLength
    unfold LCS_Write_frame_IP
    dsimp only
    rw [ht, if_neg hne, if_pos rfl, hi, if_pos rfl]
  have hwalk : LCS_Write_walk (LCS_Write_frame_IP env) 0 (fuel + 1) w buf iOffset
      = LCS_Write_walk (LCS_Write_frame_IP env) 0 fuel w buf (FETCH_HW buf iOffset) := by
    rw [LCS_Write_walk]
    dsimp only
    rw [Nat.zero_add, if_neg hz, key env w]
    simp
  refine ⟨key env w, fun calls => key (withCalls env) (w, calls), hwalk, ?_⟩
  intro h0 hip sCount sense0 st
  subst h0
  unfold LCS_Write
  rw [if_pos hip, hwalk]

/-- C24 on the example IP device: the first frame of `exLGWBatch` is a Startup
command of the LAN gateway. -/
theorem C24_lgw_frame_ignored_witness :
    (∀ iLength, LCS_Write_frame_IP (lcsEnv exOpt exExt) (some exWorld) exLGWBatch 0 iLength
      = (some exWorld, exLGWBatch, true)) ∧
    (∀ calls iLength, LCS_Write_frame_IP (withCalls (lcsEnv exOpt exExt)) (some exWorld, calls)
        exLGWBatch 0 iLength = ((some exWorld, calls), exLGWBatch, true)) ∧
    LCS_Write_walk (LCS_Write_frame_IP (lcsEnv exOpt exExt)) 0 (2 + 1) (some exWorld)
        exLGWBatch 0
      = LCS_Write_walk (LCS_Write_frame_IP (lcsEnv exOpt exExt)) 0 2 (some exWorld) exLGWBatch
          (FETCH_HW exLGWBatch 0) ∧
    (0 = 0 → (lcsEnv exOpt exExt).bMode (some exWorld) = LCSDEV_MODE_IP → ∀ sCount sense0 st,
      LCS_Write (lcsEnv exOpt exExt) (2 + 1) (some exWorld) sCount exLGWBatch sense0 st
        = (LCS_Write_walk (LCS_Write_frame_IP (lcsEnv exOpt exExt)) 0 2 (some exWorld)
            exLGWBatch (FETCH_HW exLGWBatch 0)).map (LCS_Write_finish sense0 st)) :=
  C24_lgw_frame_ignored (lcsEnv exOpt exExt) (some exWorld) exLGWBatch 0 2 (by decide)
    (by decide) (by decide)

/-! ### The assists of a port and the Query IP Assists reply -/

/-- `LCS_QueryIPAssists` enqueues the frame `LCS_QueryIPAssists_frame`. -/
theorem LCS_QueryIPAssists_eq (ext : Externals) (w : LCSWorld) (buf : Mem)
    (pCmdFrame iCmdLen : Nat) :
    LCS_QueryIPAssists ext w buf pCmdFrame iCmdLen
      = LCS_EnqueueReplyFrame w (LCS_QueryIPAssists_frame ext w buf pCmdFrame iCmdLen)
          (INIT_REPLY_FRAME ext.stack sizeof_LCSQIPFRM buf pCmdFrame iCmdLen).2 false := rfl

/-- Bytes 12..19 of the frame `LCS_QueryIPAssists` builds. -/
theorem LCS_QueryIPAssists_frame_bytes (ext : Externals) (w : LCSWorld) (buf : Mem)
    (pCmdFrame iCmdLen : Nat) :
    LCS_QueryIPAssists_frame ext w buf pCmdFrame iCmdLen 12 = (ext.MACTABMAX % U16_MOD) / 256 ∧
    LCS_QueryIPAssists_frame ext w buf pCmdFrame iCmdLen 13 = ext.MACTABMAX % 256 ∧
    LCS_QueryIPAssists_frame ext w buf pCmdFrame iCmdLen 14
      = (w.port.sIPAssistsSupported % U16_MOD) / 256 ∧
    LCS_QueryIPAssists_frame ext w buf pCmdFrame iCmdLen 15 = w.port.sIPAssistsSupported % 256 ∧
    LCS_QueryIPAssists_frame ext w buf pCmdFrame iCmdLen 16
      = (w.port.sIPAssistsEnabled % U16_MOD) / 256 ∧
    LCS_QueryIPAssists_frame ext w buf pCmdFrame iCmdLen 17 = w.port.sIPAssistsEnabled % 256 ∧
    LCS_QueryIPAssists_frame ext w buf pCmdFrame iCmdLen 18 = 0x00 ∧
    LCS_QueryIPAssists_frame ext w buf pCmdFrame iCmdLen 19 = 0x04 := by
  unfold LCS_QueryIPAssists_frame
  refine ⟨?_, ?_, ?_, ?_, ?_, ?_, ?_, ?_⟩
  · rw [STORE_HW_other _ _ _ _ (by omega) (by omega),
      STORE_HW_other _ _ _ _ (by omega) (by omega),
      STORE_HW_other _ _ _ _ (by omega) (by omega), STORE_HW_hi]
  · rw [STORE_HW_other _ _ _ _ (by omega) (by omega),
      STORE_HW_other _ _ _ _ (by omega) (by omega),
      STORE_HW_other _ _ _ _ (by omega) (by omega), STORE_HW_lo]
  · rw [STORE_HW_other _ _ _ _ (by omega) (by omega),
      STORE_HW_other _ _ _ _ (by omega) (by omega), STORE_HW_hi]
  · rw [STORE_HW_other _ _ _ _ (by omega) (by omega),
      STORE_HW_other _ _ _ _ (by omega) (by omega), STORE_HW_lo]
  · rw [STORE_HW_other _ _ _ _ (by omega) (by omega), STORE_HW_hi]
  · rw [STORE_HW_other _ _ _ _ (by omega) (by omega), STORE_HW_lo]
  · rw [STORE_HW_hi]
    decide
  · rw [STORE_HW_lo]

/-- **C30** (advertised assists).  `LCS_Assist` on a port whose two assist
bitmaps are zero leaves 0x0046 in both: multicast (0x0040), inbound checksum
(0x0002) and outbound checksum (0x0004) are set, IP fragment reassembly
(0x0008) and IPv6 (0x0020) are not.  And on a device of such a port, open and
with `iMaxFrameBufferSize` at most the size of `bFrameBuffer`, for every Query IP
Assists command of at least 20 bytes: when `LCS_QueryIPAssists` returns, the
20-byte reply stands at the former end of the ring with the capacity of the
multicast table at bytes 12..13, 0x0046 at bytes 14..15 and 16..17 and 0x0004
at bytes 18..19, all big-endian; and it returns whenever the ring has room for
the 20 bytes and the terminator. -/
theorem C30_advertised_assists (opt : BuildOptions) (ext : Externals) (port : LCSPORT)
    (hostCalls : List HostCall)
    (hs : port.sIPAssistsSupported = 0) (he : port.sIPAssistsEnabled = 0) :
    (LCS_Assist opt ext port hostCalls).1.sIPAssistsSupported = 0x0046 ∧
    (LCS_Assist opt ext port hostCalls).1.sIPAssistsEnabled = 0x0046 ∧
    (0x0046 &&& LCS_MULTICAST_SUPPORT = LCS_MULTICAST_SUPPORT ∧
      0x0046 &&& LCS_INBOUND_CHECKSUM_SUPPORT = LCS_INBOUND_CHECKSUM_SUPPORT ∧
      0x0046 &&& LCS_OUTBOUND_CHECKSUM_SUPPORT = LCS_OUTBOUND_CHECKSUM_SUPPORT ∧
      0x0046 &&& LCS_IP_FRAG_REASSEMBLY = 0 ∧ 0x0046 &&& LCS_IP_V6_SUPPORT = 0) ∧
    (∀ (w : LCSWorld) (buf : Mem) (pCmdFrame iCmdLen : Nat),
      w.port = (LCS_Assist opt ext port hostCalls).1 →
      w.port.fd ≠ -1 → w.port.fCloseInProgress = false →
      w.dev.iFrameOffset < U16_MOD → w.dev.iMaxFrameBufferSize ≤ sizeof_bFrameBuffer →
      20 ≤ iCmdLen →
      (∀ w2, LCS_QueryIPAssists ext w buf pCmdFrame iCmdLen = some w2 →
        w2.dev.iFrameOffset = w.dev.iFrameOffset + 20 ∧
        readBytes w2.dev.bFrameBuffer (w.dev.iFrameOffset + 12) 8
          = [(ext.MACTABMAX % U16_MOD) / 256, ext.MACTABMAX % 256,
             0x00, 0x46, 0x00, 0x46, 0x00, 0x04]) ∧
      (w.dev.iFrameOffset + 20 + 2 ≤ w.dev.iMaxFrameBufferSize →
        ∃ w2, LCS_QueryIPAssists ext w buf pCmdFrame iCmdLen = some w2)) := by
  have hS : (LCS_Assist opt ext port hostCalls).1.sIPAssistsSupported = 0x0046 := by
    simp only [LCS_Assist, hs]
    decide
  have hE : (LCS_Assist opt ext port hostCalls).1.sIPAssistsEnabled = 0x0046 := by
    simp only [LCS_Assist, he]
    decide
  refine ⟨hS, hE, by decide, ?_⟩
  intro w buf pCmdFrame iCmdLen hport hfd hnc hoff hmax hn
  have hlen : (INIT_REPLY_FRAME ext.stack sizeof_LCSQIPFRM buf pCmdFrame iCmdLen).2 = 20 := by
    rw [INIT_REPLY_FRAME_len]
    simp only [sizeof_LCSQIPFRM]
    omega
  constructor
  · intro w2 hrun
    rw [LCS_QueryIPAssists_eq, hlen] at hrun
    obtain ⟨e1, e2, -⟩ := enqueue_reply_effect w w2 _ 20 false hfd hnc hoff hmax
      (by decide) hrun
    have hst : replyFrameStart w.dev false = w.dev.iFrameOffset := by
      simp [replyFrameStart]
    rw [hst] at e1 e2
    obtain ⟨b12, b13, b14, b15, b16, b17, b18, b19⟩ :=
      LCS_QueryIPAssists_frame_bytes ext w buf pCmdFrame iCmdLen
    rw [hport, hS] at b14 b15
    rw [hport, hE] at b16 b17
    refine ⟨e1, ?_⟩
    have r12 := e2 12 (by omega) (by omega)
    have r13 := e2 13 (by omega) (by omega)
    have r14 := e2 14 (by omega) (by omega)
    have r15 := e2 15 (by omega) (by omega)
    have r16 := e2 16 (by omega) (by omega)
    have r17 := e2 17 (by omega) (by omega)
    have r18 := e2 18 (by omega) (by omega)
    have r19 := e2 19 (by omega) (by omega)
    rw [b12] at r12
    rw [b13] at r13
    rw [b14] at r14
    rw [b15] at r15
    rw [b16] at r16
    rw [b17] at r17
    rw [b18] at r18
    rw [b19] at r19
    have a13 : w.dev.iFrameOffset + 12 + 1 = w.dev.iFrameOffset + 13 := by omega
    have a14 : w.dev.iFrameOffset + 12 + 2 = w.dev.iFrameOffset + 14 := by omega
    have a15 : w.dev.iFrameOffset + 12 + 3 = w.dev.iFrameOffset + 15 := by omega
    have a16 : w.dev.iFrameOffset + 12 + 4 = w.dev.iFrameOffset + 16 := by omega
    have a17 : w.dev.iFrameOffset + 12 + 5 = w.dev.iFrameOffset + 17 := by omega
    have a18 : w.dev.iFrameOffset + 12 + 6 = w.dev.iFrameOffset + 18 := by omega
    have a19 : w.dev.iFrameOffset + 12 + 7 = w.dev.iFrameOffset + 19 := by omega
    simp only [readBytes, List.range_succ, List.range_zero, List.nil_append, List.map_append,
      List.map_cons, List.map_nil, List.cons_append, Nat.add_zero, a13, a14, a15, a16, a17,
      a18, a19, r12, r13, r14, r15, r16, r17, r18, r19]
    simp [U16_MOD]
  · intro hroom
    rw [LCS_QueryIPAssists_eq, hlen]
    refine ⟨_, (LCS_EnqueueReplyFrame_ok w _ 20 false hfd hnc ?_).1⟩
    rw [reply_check_nowrap w.dev 20 hoff (by decide)]
    exact hroom

/-- C30 for the example port on the example host. -/
theorem C30_advertised_assists_witness :
    (LCS_Assist exOpt exExt exPortNew []).1.sIPAssistsSupported = 0x0046 ∧
    (LCS_Assist exOpt exExt exPortNew []).1.sIPAssistsEnabled = 0x0046 ∧
    (∃ w2, LCS_QueryIPAssists exExt { port := (LCS_Assist exOpt exExt exPortNew []).1 }
        exQIPBatch 0 20 = some w2 ∧
      w2.dev.iFrameOffset = 20 ∧
      readBytes w2.dev.bFrameBuffer 12 8 = [0x00, 0x20, 0x00, 0x46, 0x00, 0x46, 0x00, 0x04]) :=
  match C30_advertised_assists exOpt exExt exPortNew [] rfl rfl with
  | ⟨h1, h2, _, h4⟩ =>
    match h4 { port := (LCS_Assist exOpt exExt exPortNew []).1 } exQIPBatch 0 20 rfl
        (by decide) (by decide) (by decide) (by decide) (by decide) with
    | ⟨h5, h6⟩ =>
      match h6 (by decide) with
      | ⟨w2, hw2⟩ => ⟨h1, h2, w2, hw2, (h5 w2 hw2).1, (h5 w2 hw2).2⟩

/-! ### The retry loop of the attention thread -/

/-- One iteration of the retry loop, unfolded. -/
theorem retry_succ (pending : Nat → Bool) (rc : Nat → Int) (pDevice fuel : Nat) (s : AttnRetry) :
    LCS_AttnThread_retry pending rc pDevice (fuel + 1) s =
      if pending s.busy_waits = false then
        some { s with actions := s.actions ++ [AttnAction.usleep s.interval] }
      else if rc s.busy_waits ≠ 1 then
        some { s with
          actions := s.actions ++ [AttnAction.usleep s.interval]
            ++ [AttnAction.device_attention pDevice]
          dev_attn_rc := rc s.busy_waits }
      else if s.busy_waits + 1 ≥ 20 then
        some { s with
          actions := s.actions ++ [AttnAction.usleep s.interval]
            ++ [AttnAction.device_attention pDevice]
          dev_attn_rc := rc s.busy_waits
          busy_waits := s.busy_waits + 1 }
      else
        LCS_AttnThread_retry pending rc pDevice fuel
          { actions := s.actions ++ [AttnAction.usleep s.interval]
              ++ [AttnAction.device_attention pDevice]
            interval := s.interval * 2
            dev_attn_rc := rc s.busy_waits
            busy_waits := s.busy_waits + 1 } := by
  rw [LCS_AttnThread_retry]

/-- The retry loop from the top of the iteration in which `busy_waits = b`,
reached after `b` calls that all returned busy: it ends within `20 - b` further
iterations. -/
theorem retry_from (pending : Nat → Bool) (rc : Nat → Int) (pDevice : Nat) :
    ∀ (d b : Nat) (s : AttnRetry), b + d = 20 → 1 ≤ d →
      s.busy_waits = b → s.interval = 50 * 2 ^ b → s.actions = attnCalls pDevice b →
      (∀ k, k < b → pending k = true ∧ rc k = 1) →
      ∃ r n, (∀ fuel, d ≤ fuel → LCS_AttnThread_retry pending rc pDevice fuel s = some r) ∧
        n ≤ 20 ∧
        (∀ k, k < n → pending k = true) ∧ (∀ k, k + 1 < n → rc k = 1) ∧
        r.interval ≤ 50 * 2 ^ 19 ∧
        ((n < 20 ∧ pending n = false ∧ (∀ k, k < n → rc k = 1) ∧
            r.actions = attnSchedule pDevice n true) ∨
         (0 < n ∧ rc (n - 1) ≠ 1 ∧ r.actions = attnSchedule pDevice n false) ∨
         (n = 20 ∧ (∀ k, k < 20 → rc k = 1) ∧ r.actions = attnSchedule pDevice 20 false)) := by
  intro d
  induction d with
  | zero =>
    intro b s _ h1
    omega
  | succ d ih =>
    intro b s hbd _ hb hint hact hprev
    have hb19 : b ≤ 19 := by omega
    have hpow : 50 * 2 ^ b ≤ 50 * 2 ^ 19 :=
      Nat.mul_le_mul_left 50 (Nat.pow_le_pow_right (by decide) hb19)
    by_cases hp : pending b = false
    · refine ⟨{ s with actions := s.actions ++ [AttnAction.usleep s.interval] }, b, ?_, by omega,
        fun k hk => (hprev k hk).1, fun k hk => (hprev k (by omega)).2, ?_,
        Or.inl ⟨by omega, hp, fun k hk => (hprev k hk).2, ?_⟩⟩
      · intro fuel hfuel
        obtain ⟨f, rfl⟩ : ∃ f, fuel = f + 1 := ⟨fuel - 1, by omega⟩
        rw [retry_succ, hb, if_pos hp]
      · dsimp only
        rw [hint]
        exact hpow
      · dsimp only
        rw [hint, hact]
        simp [attnSchedule]
    · have hpt : pending b = true := by simpa using hp
      by_cases hr : rc b ≠ 1
      · refine ⟨{ s with
            actions := s.actions ++ [AttnAction.usleep s.interval]
              ++ [AttnAction.device_attention pDevice]
            dev_attn_rc := rc s.busy_waits }, b + 1, ?_, by omega, ?_, ?_, ?_,
          Or.inr (Or.inl ⟨by omega, ?_, ?_⟩)⟩
        · intro fuel hfuel
          obtain ⟨f, rfl⟩ : ∃ f, fuel = f + 1 := ⟨fuel - 1, by omega⟩
          rw [retry_succ, hb, if_neg hp, if_pos hr]
        · intro k hk
          by_cases hkb : k = b
          · rw [hkb]
            exact hpt
          · exact (hprev k (by omega)).1
        · intro k hk
          exact (hprev k (by omega)).2
        · dsimp only
          rw [hint]
          exact hpow
        · simpa using hr
        · dsimp only
          rw [hint, hact]
          simp [attnSchedule, attnCalls]
      · have hr1 : rc b = 1 := by
          by_contra hc
          exact hr hc
        have hall : ∀ k, k < b + 1 → pending k = true ∧ rc k = 1 := by
          intro k hk
          by_cases hkb : k = b
          · rw [hkb]
            exact ⟨hpt, hr1⟩
          · exact hprev k (by omega)
        by_cases h20 : b + 1 ≥ 20
        · have hb' : b = 19 := by omega
          subst hb'
          refine ⟨{ s with
              actions := s.actions ++ [AttnAction.usleep s.interval]
                ++ [AttnAction.device_attention pDevice]
              dev_attn_rc := rc s.busy_waits
              busy_waits := s.busy_waits + 1 }, 20, ?_, le_refl _, fun k hk => (hall k hk).1,
            fun k hk => (hall k (by omega)).2, ?_,
            Or.inr (Or.inr ⟨rfl, fun k hk => (hall k hk).2, ?_⟩)⟩
          · intro fuel hfuel
            obtain ⟨f, rfl⟩ : ∃ f, fuel = f + 1 := ⟨fuel - 1, by omega⟩
            rw [retry_succ, hb, if_neg hp, if_neg hr, if_pos h20]
          · dsimp only
            rw [hint]
          · dsimp only
            rw [hint, hact]
            simp [attnSchedule, attnCalls]
        · obtain ⟨r, n, g1, g2⟩ := ih (b + 1)
            { actions := s.actions ++ [AttnAction.usleep s.interval]
                ++ [AttnAction.device_attention pDevice]
              interval := s.interval * 2
              dev_attn_rc := rc s.busy_waits
              busy_waits := s.busy_waits + 1 } (by omega) (by omega)
            (by dsimp only; rw [hb]) (by dsimp only; rw [hint, pow_succ]; omega)
            (by dsimp only; rw [hint, hact]; simp [attnCalls]) hall
          refine ⟨r, n, ?_, g2⟩
          intro fuel hfuel
          obtain ⟨f, rfl⟩ : ∃ f, fuel = f + 1 := ⟨fuel - 1, by omega⟩
          rw [retry_succ, hb, if_neg hp, if_neg hr, if_neg h20]
          rw [hb] at g1
          exact g1 f (by omega)

/-- **C28** (attention retry bound).  For every attention request and all
observations of the pending flags and return codes of `device_attention`, the
retry loop of `LCS_AttnThread` ends (20 iterations are enough, and more fuel
gives the same result).  It makes some number `n ≤ 20` of calls of
`device_attention`, with a sleep of `50 * 2 ^ (k - 1)` microseconds before the
call number `k`; at every call the flags were pending, and every call before the
last returned 1 (busy); and it stops in one of three ways: on the first test
that finds both pending flags clear (after one more sleep), on the first return
code other than 1, or after the call number 20.  `interval` never exceeds
`50 * 2 ^ 19`, so the `int` does not overflow. -/
theorem C28_attention_retry_bound (pending : Nat → Bool) (rc : Nat → Int) (pDevice : Nat) :
    ∃ r n, (∀ fuel, 20 ≤ fuel →
        LCS_AttnThread_retry pending rc pDevice fuel AttnRetry.init = some r) ∧
      n ≤ 20 ∧
      (∀ k, k < n → pending k = true) ∧ (∀ k, k + 1 < n → rc k = 1) ∧
      r.interval ≤ 50 * 2 ^ 19 ∧
      ((n < 20 ∧ pending n = false ∧ (∀ k, k < n → rc k = 1) ∧
          r.actions = attnSchedule pDevice n true) ∨
       (0 < n ∧ rc (n - 1) ≠ 1 ∧ r.actions = attnSchedule pDevice n false) ∨
       (n = 20 ∧ (∀ k, k < 20 → rc k = 1) ∧ r.actions = attnSchedule pDevice 20 false)) :=
  retry_from pending rc pDevice 20 0 AttnRetry.init rfl (by decide) rfl rfl rfl
    (fun k hk => absurd hk (Nat.not_lt_zero k))

/-! ### The attention chain -/

/-- The reversal loop of `LCS_AttnThread` reverses the chain. -/
theorem LCS_AttnThread_reverse_eq :
    ∀ (curr prev : List Nat), LCS_AttnThread_reverse curr prev = curr.reverse ++ prev := by
  intro curr
  induction curr with
  | nil => intro prev; rfl
  | cons a l ih =>
    intro prev
    rw [LCS_AttnThread_reverse, ih]
    simp

/-- Blocks added one after the other at the start of the chain stand in it in
the reverse order. -/
theorem addAttn_foldl :
    ∀ (rs c0 : List Nat), rs.foldl LCS_Write_addAttn c0 = rs.reverse ++ c0 := by
  intro rs
  induction rs with
  | nil => intro c0; rfl
  | cons a l ih =>
    intro c0
    rw [List.foldl_cons, ih]
    simp [LCS_Write_addAttn]

/-- The processing loop of `LCS_AttnThread` ends and takes the blocks of the
chain in the order of the chain, each once. -/
theorem LCS_AttnThread_process_order (obs : Nat → (Nat → Bool) × (Nat → Int)) (f : Nat) :
    ∀ (chain : List Nat) (i : Nat),
      ∃ done, LCS_AttnThread_process obs (20 + f) chain i = some done ∧
        done.map Prod.fst = chain := by
  intro chain
  induction chain with
  | nil =>
    intro i
    exact ⟨[], rfl, rfl⟩
  | cons a l ih =>
    intro i
    obtain ⟨r, n, h1, -⟩ := retry_from (obs i).1 (obs i).2 a 20 0 AttnRetry.init rfl
      (by decide) rfl rfl rfl (fun k hk => absurd hk (Nat.not_lt_zero k))
    obtain ⟨rest, h2, h3⟩ := ih (i + 1)
    refine ⟨(a, r) :: rest, ?_, ?_⟩
    · rw [LCS_AttnThread_process, h1 (20 + f) (by omega)]
      dsimp only
      rw [h2]
      rfl
    · rw [List.map_cons, h3]

/-- **C27** (the attention queue is first in, first out).  `LCS_Write` adds each
attention request at the start of the chain (`lcsEnv` does so for the device of
the Write).  For every chain `c0`, every sequence of requests `rs` added to it
one after the other, and whatever the retry loops observe: the pass of
`LCS_AttnThread` that follows ends, leaves `pAttns` empty, reverses the chain it
took (so the requests stand in the order in which they were added, those of
`c0` first), and processes every request once, in that order; on an empty `c0`
the requests processed are `rs` in order. -/
theorem C27_attention_fifo (opt : BuildOptions) (ext : Externals)
    (obs : Nat → (Nat → Bool) × (Nat → Int)) (f : Nat) (c0 rs : List Nat) :
    (∀ x : LCSWorld, (lcsEnv opt ext).addAttn (some x)
      = some { x with pAttns := LCS_Write_addAttn x.pAttns x.dev.sAddr
                      nAttnEventSignals := x.nAttnEventSignals + 1 }) ∧
    LCS_AttnThread_reverse (rs.foldl LCS_Write_addAttn c0) [] = c0.reverse ++ rs ∧
    (∃ done, LCS_AttnThread_pass obs (20 + f) false (rs.foldl LCS_Write_addAttn c0)
        = some (AttnPass.processed [] done) ∧
      done.map Prod.fst = c0.reverse ++ rs ∧ done.length = c0.length + rs.length) ∧
    (∃ done, LCS_AttnThread_pass obs (20 + f) false (rs.foldl LCS_Write_addAttn [])
        = some (AttnPass.processed [] done) ∧
      done.map Prod.fst = rs) := by
  have hrev : ∀ c : List Nat,
      LCS_AttnThread_reverse (rs.foldl LCS_Write_addAttn c) [] = c.reverse ++ rs := by
    intro c
    rw [LCS_AttnThread_reverse_eq, addAttn_foldl]
    simp
  have hpass : ∀ c : List Nat, ∃ done,
      LCS_AttnThread_pass obs (20 + f) false (rs.foldl LCS_Write_addAttn c)
        = some (AttnPass.processed [] done) ∧ done.map Prod.fst = c.reverse ++ rs := by
    intro c
    obtain ⟨done, h1, h2⟩ := LCS_AttnThread_process_order obs f (c.reverse ++ rs) 0
    refine ⟨done, ?_, h2⟩
    unfold LCS_AttnThread_pass
    rw [if_neg (by decide)]
    dsimp only
    rw [hrev c, h1]
    rfl
  refine ⟨fun x => rfl, hrev c0, ?_, ?_⟩
  · obtain ⟨done, h1, h2⟩ := hpass c0
    refine ⟨done, h1, h2, ?_⟩
    have := congrArg List.length h2
    simpa using this
  · obtain ⟨done, h1, h2⟩ := hpass []
    exact ⟨done, h1, by simpa using h2⟩

/-! ### An exact match that is not started -/

/-- The default devices the scan of `LCS_PortThread` has recorded when it stops
at an exact match: each is a device of the port of the recorded type that
stands before the match in the device list, unless it was recorded before the
scan. -/
theorem scan_defaults (port : LCSPORT) (szBuff : Mem) (ty : Nat) :
    ∀ (devices : List LCSDEV) (k : Nat) (s : PortScan) (m : Nat),
      s.pMatchingLCSDEV = none →
      (LCS_PortThread_scan port szBuff ty devices k s).pMatchingLCSDEV = some m →
      k ≤ m ∧
      (∀ i, (LCS_PortThread_scan port szBuff ty devices k s).pPrimaryLCSDEV = some i →
        s.pPrimaryLCSDEV = some i ∨
        (k ≤ i ∧ i < m ∧ ∃ dev, devices.get? (i - k) = some dev ∧ dev.bPort = port.bPort ∧
          dev.bType = LCSDEV_TYPE_PRIMARY)) ∧
      (∀ i, (LCS_PortThread_scan port szBuff ty devices k s).pSecondaryLCSDEV = some i →
        s.pSecondaryLCSDEV = some i ∨
        (k ≤ i ∧ i < m ∧ ∃ dev, devices.get? (i - k) = some dev ∧ dev.bPort = port.bPort ∧
          dev.bType = LCSDEV_TYPE_SECONDARY)) := by
  intro devices
  induction devices with
  | nil =>
    intro k s m hs hm
    rw [LCS_PortThread_scan, hs] at hm
    cases hm
  | cons d rest ih =>
    intro k s m hs hm
    have lift : ∀ (s1 : PortScan), s1.pMatchingLCSDEV = none →
        (LCS_PortThread_scan port szBuff ty rest (k + 1) s1).pMatchingLCSDEV = some m →
        (∀ i, s1.pPrimaryLCSDEV = some i → s.pPrimaryLCSDEV = some i ∨
          (i = k ∧ d.bPort = port.bPort ∧ d.bType = LCSDEV_TYPE_PRIMARY)) →
        (∀ i, s1.pSecondaryLCSDEV = some i → s.pSecondaryLCSDEV = some i ∨
          (i = k ∧ d.bPort = port.bPort ∧ d.bType = LCSDEV_TYPE_SECONDARY)) →
        k ≤ m ∧
        (∀ i, (LCS_PortThread_scan port szBuff ty rest (k + 1) s1).pPrimaryLCSDEV = some i →
          s.pPrimaryLCSDEV = some i ∨
          (k ≤ i ∧ i < m ∧ ∃ dev, (d :: rest).get? (i - k) = some dev ∧
            dev.bPort = port.bPort ∧ dev.bType = LCSDEV_TYPE_PRIMARY)) ∧
        (∀ i, (LCS_PortThread_scan port szBuff ty rest (k + 1) s1).pSecondaryLCSDEV = some i →
          s.pSecondaryLCSDEV = some i ∨
          (k ≤ i ∧ i < m ∧ ∃ dev, (d :: rest).get? (i - k) = some dev ∧
            dev.bPort = port.bPort ∧ dev.bType = LCSDEV_TYPE_SECONDARY)) := by
      intro s1 hs1 hm1 hp1 hq1
      obtain ⟨hkm, hp, hq⟩ := ih (k + 1) s1 m hs1 hm1
      refine ⟨by omega, ?_, ?_⟩
      · intro i hi
        rcases hp i hi with h | ⟨h1, h2, dev, h3, h4, h5⟩
        · rcases hp1 i h with h | ⟨rfl, h4, h5⟩
          · exact Or.inl h
          · exact Or.inr ⟨le_refl _, by omega, d, by simp, h4, h5⟩
        · refine Or.inr ⟨by omega, h2, dev, ?_, h4, h5⟩
          have e : i - k = (i - (k + 1)) + 1 := by omega
          rw [e, List.get?_cons_succ]
          exact h3
      · intro i hi
        rcases hq i hi with h | ⟨h1, h2, dev, h3, h4, h5⟩
        · rcases hq1 i h with h | ⟨rfl, h4, h5⟩
          · exact Or.inl h
          · exact Or.inr ⟨le_refl _, by omega, d, by simp, h4, h5⟩
        · refine Or.inr ⟨by omega, h2, dev, ?_, h4, h5⟩
          have e : i - k = (i - (k + 1)) + 1 := by omega
          rw [e, List.get?_cons_succ]
          exact h3
    rw [LCS_PortThread_scan] at hm ⊢
    by_cases hport : d.bPort = port.bPort
    · rw [if_pos hport] at hm ⊢
      cases hmt : LCS_PortThread_match port szBuff ty d with
      | none =>
        rw [hmt] at hm
        exact lift s hs hm (fun i h => Or.inl h) (fun i h => Or.inl h)
      | some b =>
        cases b with
        | true =>
          rw [hmt] at hm
          dsimp only at hm ⊢
          cases hm
          exact ⟨le_refl _, fun i h => Or.inl h, fun i h => Or.inl h⟩
        | false =>
          rw [hmt] at hm
          dsimp only at hm ⊢
          by_cases hpr : d.bType = LCSDEV_TYPE_PRIMARY
          · rw [if_pos hpr] at hm ⊢
            refine lift _ hs hm ?_ (fun i h => Or.inl h)
            intro i h
            dsimp only at h
            cases h
            exact Or.inr ⟨rfl, hport, hpr⟩
          · rw [if_neg hpr] at hm ⊢
            by_cases hse : d.bType = LCSDEV_TYPE_SECONDARY
            · rw [if_pos hse] at hm ⊢
              refine lift _ hs hm (fun i h => Or.inl h) ?_
              intro i h
              dsimp only at h
              cases h
              exact Or.inr ⟨rfl, hport, hse⟩
            · rw [if_neg hse] at hm ⊢
              exact lift s hs hm (fun i h => Or.inl h) (fun i h => Or.inl h)
    · rw [if_neg hport] at hm ⊢
      exact lift s hs hm (fun i h => Or.inl h) (fun i h => Or.inl h)

/-- **C29**, the claim as stated fails: the frame for 10.0.0.1 finds its exact
match in the second device of the list, which is not started; the scan met the
started primary device of the port before it, and `LCS_PortThread` calls
`LCS_EnqueueEthFrame` for that primary device (index 0) instead of dropping the
frame. -/
theorem C29_unstarted_match_goes_to_primary :
    FETCH_HW exIPFrame 12 = ETH_TYPE_IP ∧
    (exDevsFallback.get? 1).map (fun dev => (dev.bPort, dev.lIPAddress, dev.fDevStarted))
      = some (exPortMCast.bPort, netU32 exIPFrame ofs_lDstIP, false) ∧
    (LCS_PortThread_scan exPortMCast exIPFrame (FETCH_HW exIPFrame 12) exDevsFallback 0
      {}).pMatchingLCSDEV = some 1 ∧
    LCS_PortThread_step exExt exPortMCast exDevsFallback 34 exIPFrame = PortStep.enqueue 0 := by
  decide

/-- **C29** (exact match that is not started, amended).  The reader of an open,
started port has read a frame of any EtherType that passes the multicast
filter, and the scan has stopped at the device of index `m` as the exact match
(destination IP for IPv4, target IP for ARP, target MAC for RARP, SNA mode for
SNA and 802.3 frames), which is not started.  Then the frame goes to the
primary device the scan has recorded, if that is started, else to the secondary
device it has recorded, if that is started, else it is dropped.  A device the
pass calls `LCS_EnqueueEthFrame` for is therefore a started primary or secondary
device of the port that stands before the match in the device list; and the
frame is dropped whenever no such device stands before the match, even when a
started primary or secondary device of the port stands behind it. -/
theorem C29_unstarted_match_falls_back (ext : Externals) (port : LCSPORT)
    (devices : List LCSDEV) (iLength : Int) (szBuff : Mem) (m : Nat)
    (hfd : 0 ≤ port.fd) (hnc : port.fCloseInProgress = false)
    (hstart : port.fPortStarted = true) (hlen : 0 < iLength)
    (hpass : ¬ (port.fDoMCastAssist = true ∧ port.nMCastCount ≠ 0 ∧
      readBytes szBuff 0 3 = mcast3 ∧
      ext.IsMACTab port.MCastTab (readBytes szBuff 0 IFHWADDRLEN) < 0))
    (hm : (LCS_PortThread_scan port szBuff (FETCH_HW szBuff 12) devices 0 {}).pMatchingLCSDEV
      = some m)
    (hns : devStarted devices (some m) = false) :
    LCS_PortThread_step ext port devices iLength szBuff
      = (if devStarted devices
            (LCS_PortThread_scan port szBuff (FETCH_HW szBuff 12) devices 0 {}).pPrimaryLCSDEV
            = true then
          PortStep.enqueue
            ((LCS_PortThread_scan port szBuff (FETCH_HW szBuff 12) devices 0
              {}).pPrimaryLCSDEV.getD 0)
         else if devStarted devices
            (LCS_PortThread_scan port szBuff (FETCH_HW szBuff 12) devices 0
              {}).pSecondaryLCSDEV = true then
          PortStep.enqueue
            ((LCS_PortThread_scan port szBuff (FETCH_HW szBuff 12) devices 0
              {}).pSecondaryLCSDEV.getD 0)
         else PortStep.next) ∧
    (∀ i, LCS_PortThread_step ext port devices iLength szBuff = PortStep.enqueue i →
      i < m ∧ ∃ dev, devices.get? i = some dev ∧ dev.bPort = port.bPort ∧
        dev.fDevStarted = true ∧
        (dev.bType = LCSDEV_TYPE_PRIMARY ∨ dev.bType = LCSDEV_TYPE_SECONDARY)) ∧
    ((∀ i dev, i < m → devices.get? i = some dev → dev.bPort = port.bPort →
        (dev.bType = LCSDEV_TYPE_PRIMARY ∨ dev.bType = LCSDEV_TYPE_SECONDARY) →
        dev.fDevStarted = false) →
      LCS_PortThread_step ext port devices iLength szBuff = PortStep.next) := by
  obtain ⟨-, hP, hS⟩ := scan_defaults port szBuff (FETCH_HW szBuff 12) devices 0 {} m rfl hm
  generalize hsc : LCS_PortThread_scan port szBuff (FETCH_HW szBuff 12) devices 0 {} = s
    at hm hP hS ⊢
  have hsel : LCS_PortThread_select devices s
      = (if devStarted devices s.pPrimaryLCSDEV = true then s.pPrimaryLCSDEV
         else if devStarted devices s.pSecondaryLCSDEV = true then s.pSecondaryLCSDEV
         else none) := by
    unfold LCS_PortThread_select
    dsimp only
    rw [hm]
    simp [hns]
  have hstep : LCS_PortThread_step ext port devices iLength szBuff
      = (match LCS_PortThread_select devices s with
         | some i => PortStep.enqueue i
         | none => PortStep.next) := by
    unfold LCS_PortThread_step
    have h1 : ¬ ¬ (port.fd < 0 ∨ port.fCloseInProgress = true ∨ port.fPortStarted = true) :=
      fun h => h (Or.inr (Or.inr hstart))
    have h2 : ¬ (port.fd < 0 ∨ port.fCloseInProgress = true) := by
      rintro (h | h)
      · omega
      · rw [hnc] at h
        cases h
    have h3 : ¬ iLength = 0 := by omega
    have h4 : ¬ iLength < 0 := by omega
    rw [if_neg h1, if_neg h2, if_neg h3, if_neg h4]
    dsimp only
    rw [if_neg hpass, hsc]
  have hshape : LCS_PortThread_step ext port devices iLength szBuff
      = (if devStarted devices s.pPrimaryLCSDEV = true then
          PortStep.enqueue (s.pPrimaryLCSDEV.getD 0)
         else if devStarted devices s.pSecondaryLCSDEV = true then
          PortStep.enqueue (s.pSecondaryLCSDEV.getD 0)
         else PortStep.next) := by
    rw [hstep, hsel]
    by_cases hp : devStarted devices s.pPrimaryLCSDEV = true
    · rw [if_pos hp, if_pos hp]
      cases hpp : s.pPrimaryLCSDEV with
      | none =>
        rw [hpp] at hp
        cases hp
      | some p => rfl
    · rw [if_neg hp, if_neg hp]
      by_cases hq : devStarted devices s.pSecondaryLCSDEV = true
      · rw [if_pos hq, if_pos hq]
        cases hqq : s.pSecondaryLCSDEV with
        | none =>
          rw [hqq] at hq
          cases hq
        | some q => rfl
      · rw [if_neg hq, if_neg hq]
  have hfrom : ∀ i, LCS_PortThread_step ext port devices iLength szBuff = PortStep.enqueue i →
      i < m ∧ ∃ dev, devices.get? i = some dev ∧ dev.bPort = port.bPort ∧
        dev.fDevStarted = true ∧
        (dev.bType = LCSDEV_TYPE_PRIMARY ∨ dev.bType = LCSDEV_TYPE_SECONDARY) := by
    intro i hi
    rw [hshape] at hi
    by_cases hp : devStarted devices s.pPrimaryLCSDEV = true
    · rw [if_pos hp] at hi
      cases hpp : s.pPrimaryLCSDEV with
      | none =>
        rw [hpp] at hp
        cases hp
      | some p =>
        rw [hpp] at hi hp
        cases hi
        obtain ⟨dev, hd, hst⟩ := devStarted_get devices _ hp
        rcases hP _ hpp with h | ⟨-, h2, dev2, h3, h4, h5⟩
        · cases h
        · rw [Nat.sub_zero, hd] at h3
          cases h3
          exact ⟨h2, dev, hd, h4, hst, Or.inl h5⟩
    · rw [if_neg hp] at hi
      by_cases hq : devStarted devices s.pSecondaryLCSDEV = true
      · rw [if_pos hq] at hi
        cases hqq : s.pSecondaryLCSDEV with
        | none =>
          rw [hqq] at hq
          cases hq
        | some q =>
          rw [hqq] at hi hq
          cases hi
          obtain ⟨dev, hd, hst⟩ := devStarted_get devices _ hq
          rcases hS _ hqq with h | ⟨-, h2, dev2, h3, h4, h5⟩
          · cases h
          · rw [Nat.sub_zero, hd] at h3
            cases h3
            exact ⟨h2, dev, hd, h4, hst, Or.inr h5⟩
      · rw [if_neg hq] at hi
        cases hi
  refine ⟨hshape, hfrom, ?_⟩
  intro hnone
  cases hst : LCS_PortThread_step ext port devices iLength szBuff with
  | enqueue i =>
    obtain ⟨h1, dev, h2, h3, h4, h5⟩ := hfrom i hst
    rw [hnone i dev h1 h2 h3 h5] at h4
    cases h4
  | next => rfl
  | waiting =>
    rw [hshape] at hst
    split_ifs at hst
  | exit =>
    rw [hshape] at hst
    split_ifs at hst

/-- C29 (amended) on the example port with the unstarted device for 10.0.0.1 in
front of the started primary device: the frame is dropped. -/
theorem C29_unstarted_match_falls_back_witness :
    LCS_PortThread_step exExt exPortMCast exDevsNoFallback 34 exIPFrame = PortStep.next ∧
    (∀ i, LCS_PortThread_step exExt exPortMCast exDevsNoFallback 34 exIPFrame
        = PortStep.enqueue i →
      i < 0 ∧ ∃ dev, exDevsNoFallback.get? i = some dev ∧ dev.bPort = exPortMCast.bPort ∧
        dev.fDevStarted = true ∧
        (dev.bType = LCSDEV_TYPE_PRIMARY ∨ dev.bType = LCSDEV_TYPE_SECONDARY)) :=
  match C29_unstarted_match_falls_back exExt exPortMCast exDevsNoFallback 34 exIPFrame 0
      (by decide) (by decide) (by decide) (by decide) (by decide) (by decide) (by decide) with
  | ⟨_, h2, h3⟩ => ⟨h3 (fun i _ hi => absurd hi (Nat.not_lt_zero i)), h2⟩

/-! ### The pending flags and the ring -/

/-- An event keeps the pending flags in step with the ring, unless it enqueues
an empty reply without the baffle flag. -/
theorem run_PendingInv (dev : LCSDEV) (ev : RingEvent) (h : PendingInv dev)
    (hne : ev.notEmptyReply) (hsz : ev.sizeOK) : PendingInv (ev.run dev) := by
  obtain ⟨hiff, hle, hmax⟩ := h
  have hoff : dev.iFrameOffset < U16_MOD := by
    simp only [sizeof_bFrameBuffer, CTC_DEF_FRAME_BUFFER_SIZE, U16_MOD] at *
    omega
  have hmax16 : dev.iMaxFrameBufferSize + 8 < U16_MOD := by
    simp only [sizeof_bFrameBuffer, CTC_DEF_FRAME_BUFFER_SIZE, U16_MOD] at *
    omega
  cases ev with
  | read sCount pIOBuf st =>
    simp only [RingEvent.run]
    unfold LCS_Read
    by_cases hp : dev.fDataPending = true ∨ dev.fReplyPending = true
    · rw [if_pos hp]
      dsimp only
      refine ⟨?_, ?_, hmax⟩
      · simp [LCS_Read_drain]
      · simp [LCS_Read_drain]
    · rw [if_neg hp]
      exact ⟨hiff, hle, hmax⟩
  | enqueue op =>
    cases op with
    | reply pReply n b =>
      simp only [RingEvent.sizeOK, RingOp.iSize] at hsz
      simp only [RingEvent.notEmptyReply] at hne
      simp only [RingEvent.run, RingOp.run]
      by_cases hfull : dev.iFrameOffset + n + 2 > dev.iMaxFrameBufferSize
      · rw [reply_full dev pReply n b hoff hsz hfull]
        exact ⟨hiff, hle, hmax⟩
      · by_cases hr : dev.iFrameOffset = 0 ∧ b = true
        · obtain ⟨h0, hb⟩ := hr
          subst hb
          rw [reply_reserve dev pReply n h0 hmax16 hsz hfull]
          refine ⟨?_, ?_, hmax⟩
          · dsimp only
            constructor
            · intro _
              omega
            · intro _
              exact Or.inl rfl
          · dsimp only
            omega
        · rw [reply_append dev pReply n b hr hoff (by omega) hsz hfull]
          refine ⟨?_, ?_, hmax⟩
          · dsimp only
            constructor
            · intro _
              rcases hne with hn | hb
              · omega
              · have : dev.iFrameOffset ≠ 0 := fun e => hr ⟨e, hb⟩
                omega
            · intro _
              exact Or.inl rfl
          · dsimp only
            omega
    | eth bPort pData n =>
      simp only [RingEvent.sizeOK, RingOp.iSize] at hsz
      simp only [RingEvent.run, RingOp.run]
      unfold PendingInv LCS_DoEnqueueEthFrame
      simp only [sizeof_bFrameBuffer, CTC_DEF_FRAME_BUFFER_SIZE, U16_MOD, SIZE_T_MOD, PTRDIFF_MAX,
        sizeof_LCSETHFRM, sizeof_hwOffset] at *
      split_ifs
      · exact ⟨hiff, hle, hmax⟩
      · exact ⟨hiff, hle, hmax⟩
      · dsimp only
        refine ⟨?_, by omega, hmax⟩
        constructor
        · intro _
          omega
        · intro _
          exact Or.inr rfl

/-- **C22**, the claim as stated fails: a reply of size 0 enqueued without the
baffle flag on the empty ring of the example device succeeds, sets
`fReplyPending` and leaves `iFrameOffset` at 0. -/
theorem C22_empty_reply_sets_pending_on_empty_ring :
    exDev.iFrameOffset = 0 ∧ exDev.fReplyPending = false ∧ exDev.fDataPending = false ∧
    (LCS_DoEnqueueReplyFrame exDev exReply 0 false).rc = 0 ∧
    (LCS_DoEnqueueReplyFrame exDev exReply 0 false).dev.fReplyPending = true ∧
    (LCS_DoEnqueueReplyFrame exDev exReply 0 false).dev.iFrameOffset = 0 ∧
    (runEvents exDev [RingEvent.enqueue (RingOp.reply exReply 0 false)]).fReplyPending = true ∧
    (runEvents exDev [RingEvent.enqueue (RingOp.reply exReply 0 false)]).iFrameOffset = 0 := by
  decide

/-- **C22** (pending-flag invariant, amended).  A device has an empty ring
(`iFrameOffset = 0`, both pending flags clear) and an `iMaxFrameBufferSize` of at
most the size of `bFrameBuffer`.  After every sequence of calls of
`LCS_DoEnqueueReplyFrame` (successful or failing, any baffle flag, any size
other than a size of 0 without the baffle flag), of `LCS_DoEnqueueEthFrame`
(successful or failing) and of `LCS_Read`, the sizes being sizes of C objects:
`fReplyPending` or `fDataPending` is set if and only if `iFrameOffset > 0`. -/
theorem C22_pending_flag_invariant (dev : LCSDEV) (evs : List RingEvent)
    (h0 : dev.iFrameOffset = 0) (hr : dev.fReplyPending = false)
    (hd : dev.fDataPending = false) (hmax : dev.iMaxFrameBufferSize ≤ sizeof_bFrameBuffer)
    (hne : ∀ ev, ev ∈ evs → ev.notEmptyReply) (hsz : ∀ ev, ev ∈ evs → ev.sizeOK) :
    ((runEvents dev evs).fReplyPending = true ∨ (runEvents dev evs).fDataPending = true) ↔
      0 < (runEvents dev evs).iFrameOffset := by
  have key : ∀ (l : List RingEvent) (d : LCSDEV), PendingInv d →
      (∀ ev, ev ∈ l → ev.notEmptyReply) → (∀ ev, ev ∈ l → ev.sizeOK) →
      PendingInv (runEvents d l) := by
    intro l
    induction l with
    | nil =>
      intro d hd _ _
      exact hd
    | cons ev rest ih =>
      intro d hd h1 h2
      unfold runEvents
      rw [List.foldl_cons]
      exact ih (ev.run d)
        (run_PendingInv d ev hd (h1 ev (List.mem_cons_self _ _)) (h2 ev (List.mem_cons_self _ _)))
        (fun e he => h1 e (List.mem_cons_of_mem _ he))
        (fun e he => h2 e (List.mem_cons_of_mem _ he))
  have hinv : PendingInv dev := by
    refine ⟨?_, by omega, hmax⟩
    rw [hr, hd, h0]
    simp
  exact (key evs dev hinv hne hsz).1

/-- C22 (amended) on the example device: a baffled reply, an Ethernet frame, a
Read, an empty reply with the baffle flag, and a reply that cannot fit. -/
theorem C22_pending_flag_invariant_witness :
    ((runEvents exDev
        [RingEvent.enqueue (RingOp.reply exReply 24 true),
         RingEvent.enqueue (RingOp.eth 0 (memOfList [1, 2, 3]) 3),
         RingEvent.read 4096 (fun _ => 0) {},
         RingEvent.enqueue (RingOp.reply exReply 0 true),
         RingEvent.enqueue (RingOp.reply exReply 0x5000 false)]).fReplyPending = true ∨
      (runEvents exDev
        [RingEvent.enqueue (RingOp.reply exReply 24 true),
         RingEvent.enqueue (RingOp.eth 0 (memOfList [1, 2, 3]) 3),
         RingEvent.read 4096 (fun _ => 0) {},
         RingEvent.enqueue (RingOp.reply exReply 0 true),
         RingEvent.enqueue (RingOp.reply exReply 0x5000 false)]).fDataPending = true) ↔
      0 < (runEvents exDev
        [RingEvent.enqueue (RingOp.reply exReply 24 true),
         RingEvent.enqueue (RingOp.eth 0 (memOfList [1, 2, 3]) 3),
         RingEvent.read 4096 (fun _ => 0) {},
         RingEvent.enqueue (RingOp.reply exReply 0 true),
         RingEvent.enqueue (RingOp.reply exReply 0x5000 false)]).iFrameOffset :=
  C22_pending_flag_invariant exDev _ rfl rfl rfl (by decide)
    (by
      intro ev hev
      simp only [List.mem_cons, List.mem_singleton, List.not_mem_nil, or_false] at hev
      rcases hev with rfl | rfl | rfl | rfl | rfl <;> simp [RingEvent.notEmptyReply])
    (by
      intro ev hev
      simp only [List.mem_cons, List.mem_singleton, List.not_mem_nil, or_false] at hev
      rcases hev with rfl | rfl | rfl | rfl | rfl <;>
        simp [RingEvent.sizeOK, RingOp.iSize, PTRDIFF_MAX])

/-! ### Set and Delete IP Multicast -/

/-- `LCS_DoMulticast` is the enqueue of `LCS_DoMulticast_frame` in the state
`LCS_DoMulticast_pre`. -/
theorem LCS_DoMulticast_eq (opt : BuildOptions) (ext : Externals) (add : Bool) (w : LCSWorld)
    (buf : Mem) (pCmdFrame iCmdLen : Nat) :
    LCS_DoMulticast opt ext add w buf pCmdFrame iCmdLen
      = LCS_EnqueueReplyFrame (LCS_DoMulticast_pre opt ext add w buf pCmdFrame)
          (LCS_DoMulticast_frame opt ext add w buf pCmdFrame iCmdLen)
          (INIT_REPLY_FRAME ext.stack sizeof_LCSIPMFRM buf pCmdFrame iCmdLen).2 false := by
  unfold LCS_DoMulticast LCS_DoMulticast_pre LCS_DoMulticast_frame LCS_DoMulticast_badrc
    LCS_DoMulticast_macs
  dsimp only
  by_cases h1 : w.port.fDoMCastAssist = true
  · simp only [if_pos h1]
  · simp only [if_neg h1]
    by_cases h2 : opt.SIOCGIFHWADDR = true
    · simp only [if_pos h2]
    · simp only [if_neg h2]
      simp

/-- The table loop of `LCS_DoMulticast` is the fold of its body. -/
theorem LCS_DoMulticast_table_eq (ext : Externals) (add : Bool) (port : LCSPORT)
    (macs : List (List Nat)) :
    LCS_DoMulticast_table ext add port macs
      = macs.foldl (LCS_DoMulticast_table_step ext add) (port, 0) := rfl

/-- The request loop of `LCS_DoMulticast` is the fold of its body. -/
theorem LCS_DoMulticast_ioctl_eq (ext : Externals) (add : Bool) (log : List HostCall)
    (macs : List (List Nat)) :
    LCS_DoMulticast_ioctl ext add log macs
      = macs.foldl (LCS_DoMulticast_ioctl_step ext add) (log, 0) := rfl

/-- The table loop of `LCS_DoMulticast` from any state: the table it leaves, the
fields of the port it does not touch, and when `badrc` is non-zero. -/
theorem LCS_DoMulticast_table_spec (ext : Externals) (add : Bool) :
    ∀ (macs : List (List Nat)) (port : LCSPORT) (br : Int),
      (macs.foldl (LCS_DoMulticast_table_step ext add) (port, br)).1.MCastTab
        = mcastTableAfter ext add port.MCastTab macs ∧
      (macs.foldl (LCS_DoMulticast_table_step ext add) (port, br)).1.fd = port.fd ∧
      (macs.foldl (LCS_DoMulticast_table_step ext add) (port, br)).1.fCloseInProgress
        = port.fCloseInProgress ∧
      ((macs.foldl (LCS_DoMulticast_table_step ext add) (port, br)).2 ≠ 0 ↔
        (br ≠ 0 ∨ ∃ rc, rc ∈ mcastTableResults ext add port.MCastTab macs ∧ rc ≠ 0)) := by
  intro macs
  induction macs with
  | nil =>
    intro port br
    simp [mcastTableAfter, mcastTableResults]
  | cons mac rest ih =>
    intro port br
    rw [List.foldl_cons]
    cases add with
    | true =>
      by_cases ht : (ext.MACTabAdd port.MCastTab mac 0).2 = 0
      · have e : LCS_DoMulticast_table_step ext true (port, br) mac
            = ({ port with MCastTab := (ext.MACTabAdd port.MCastTab mac 0).1
                           nMCastCount := (port.nMCastCount + 1) % 256 }, br) := by
          simp [LCS_DoMulticast_table_step, ht]
        rw [e]
        obtain ⟨i1, i2, i3, i4⟩ := ih
          { port with MCastTab := (ext.MACTabAdd port.MCastTab mac 0).1
                      nMCastCount := (port.nMCastCount + 1) % 256 } br
        refine ⟨by rw [i1]; simp [mcastTableAfter], i2, i3, ?_⟩
        rw [i4]
        simp [mcastTableResults, ht]
      · have e : LCS_DoMulticast_table_step ext true (port, br) mac
            = ({ port with MCastTab := (ext.MACTabAdd port.MCastTab mac 0).1 },
                -(ext.MACTabAdd port.MCastTab mac 0).2) := by
          simp [LCS_DoMulticast_table_step, ht]
        rw [e]
        obtain ⟨i1, i2, i3, i4⟩ := ih
          { port with MCastTab := (ext.MACTabAdd port.MCastTab mac 0).1 }
          (-(ext.MACTabAdd port.MCastTab mac 0).2)
        refine ⟨by rw [i1]; simp [mcastTableAfter], i2, i3, ?_⟩
        rw [i4]
        simp [mcastTableResults, ht]
    | false =>
      by_cases ht : (ext.MACTabRem port.MCastTab mac).2 = 0
      · have e : LCS_DoMulticast_table_step ext false (port, br) mac
            = ({ port with MCastTab := (ext.MACTabRem port.MCastTab mac).1
                           nMCastCount := (port.nMCastCount + 255) % 256 }, br) := by
          simp [LCS_DoMulticast_table_step, ht]
        rw [e]
        obtain ⟨i1, i2, i3, i4⟩ := ih
          { port with MCastTab := (ext.MACTabRem port.MCastTab mac).1
                      nMCastCount := (port.nMCastCount + 255) % 256 } br
        refine ⟨by rw [i1]; simp [mcastTableAfter], i2, i3, ?_⟩
        rw [i4]
        simp [mcastTableResults, ht]
      · have e : LCS_DoMulticast_table_step ext false (port, br) mac
            = ({ port with MCastTab := (ext.MACTabRem port.MCastTab mac).1 },
                -(ext.MACTabRem port.MCastTab mac).2) := by
          simp [LCS_DoMulticast_table_step, ht]
        rw [e]
        obtain ⟨i1, i2, i3, i4⟩ := ih
          { port with MCastTab := (ext.MACTabRem port.MCastTab mac).1 }
          (-(ext.MACTabRem port.MCastTab mac).2)
        refine ⟨by rw [i1]; simp [mcastTableAfter], i2, i3, ?_⟩
        rw [i4]
        simp [mcastTableResults, ht]

/-- The request loop of `LCS_DoMulticast` from any state: the host calls it
makes, and when `badrc` is non-zero. -/
theorem LCS_DoMulticast_ioctl_spec (ext : Externals) (add : Bool) :
    ∀ (macs : List (List Nat)) (log : List HostCall) (br : Int),
      (macs.foldl (LCS_DoMulticast_ioctl_step ext add) (log, br)).1
        = log ++ macs.map (fun mac =>
          if add = true then HostCall.TUNTAP_IOCtl_SIOCADDMULTI mac
          else HostCall.TUNTAP_IOCtl_SIOCDELMULTI mac) ∧
      ((macs.foldl (LCS_DoMulticast_ioctl_step ext add) (log, br)).2 ≠ 0 ↔
        (br ≠ 0 ∨ ∃ rc, rc ∈ mcastIoctlResults ext add log macs ∧ rc ≠ 0)) := by
  intro macs
  induction macs with
  | nil =>
    intro log br
    simp [mcastIoctlResults]
  | cons mac rest ih =>
    intro log br
    rw [List.foldl_cons]
    by_cases ht : (ext.TUNTAP_IOCtl_MULTI add log mac).1 = 0
    · have e : LCS_DoMulticast_ioctl_step ext add (log, br) mac
          = (log ++ [if add = true then HostCall.TUNTAP_IOCtl_SIOCADDMULTI mac
                     else HostCall.TUNTAP_IOCtl_SIOCDELMULTI mac], br) := by
        simp [LCS_DoMulticast_ioctl_step, ht]
      rw [e]
      obtain ⟨i1, i2⟩ := ih (log ++
        [if add = true then HostCall.TUNTAP_IOCtl_SIOCADDMULTI mac
         else HostCall.TUNTAP_IOCtl_SIOCDELMULTI mac]) br
      refine ⟨by rw [i1]; simp, ?_⟩
      rw [i2]
      simp [mcastIoctlResults, ht]
    · have e : LCS_DoMulticast_ioctl_step ext add (log, br) mac
          = (log ++ [if add = true then HostCall.TUNTAP_IOCtl_SIOCADDMULTI mac
                     else HostCall.TUNTAP_IOCtl_SIOCDELMULTI mac],
              (ext.TUNTAP_IOCtl_MULTI add log mac).1) := by
        simp [LCS_DoMulticast_ioctl_step, ht]
      rw [e]
      obtain ⟨i1, i2⟩ := ih (log ++
        [if add = true then HostCall.TUNTAP_IOCtl_SIOCADDMULTI mac
         else HostCall.TUNTAP_IOCtl_SIOCDELMULTI mac]) (ext.TUNTAP_IOCtl_MULTI add log mac).1
      refine ⟨by rw [i1]; simp, ?_⟩
      rw [i2]
      simp [mcastIoctlResults, ht]

/-- One return code per table call. -/
theorem mcastTableResults_length (ext : Externals) (add : Bool) :
    ∀ (macs : List (List Nat)) (tab : Mem),
      (mcastTableResults ext add tab macs).length = macs.length := by
  intro macs
  induction macs with
  | nil => intro tab; rfl
  | cons mac rest ih =>
    intro tab
    simp [mcastTableResults, ih]

/-- One return code per request to the host. -/
theorem mcastIoctlResults_length (ext : Externals) (add : Bool) :
    ∀ (macs : List (List Nat)) (log : List HostCall),
      (mcastIoctlResults ext add log macs).length = macs.length := by
  intro macs
  induction macs with
  | nil => intro log; rfl
  | cons mac rest ih =>
    intro log
    simp [mcastIoctlResults, ih]

/-- `badrc` is non-zero exactly when one of the operations failed. -/
theorem LCS_DoMulticast_badrc_iff (opt : BuildOptions) (ext : Externals) (add : Bool)
    (w : LCSWorld) (buf : Mem) (pCmdFrame : Nat)
    (hbuild : w.port.fDoMCastAssist = true ∨ opt.SIOCGIFHWADDR = true) :
    LCS_DoMulticast_badrc opt ext add w buf pCmdFrame ≠ 0 ↔
      ∃ rc, rc ∈ mcastResults ext add w (LCS_DoMulticast_macs buf pCmdFrame) ∧ rc ≠ 0 := by
  unfold LCS_DoMulticast_badrc mcastResults
  by_cases h1 : w.port.fDoMCastAssist = true
  · rw [if_pos h1, if_pos h1, LCS_DoMulticast_table_eq,
      (LCS_DoMulticast_table_spec ext add _ w.port 0).2.2.2]
    simp
  · have h2 : opt.SIOCGIFHWADDR = true := by
      rcases hbuild with h | h
      · exact absurd h h1
      · exact h
    rw [if_neg h1, if_neg h1, if_pos h2, LCS_DoMulticast_ioctl_eq,
      (LCS_DoMulticast_ioctl_spec ext add _ w.hostCalls 0).2]
    simp

/-- **C25** (return code of Set and Delete IP Multicast).  `LCS_DoMulticast` is
compiled with one of its loops for the port (the port keeps the multicast table
itself, or `SIOCGIFHWADDR` is defined).  For every command frame, with `n` its
`hwNumIPPairs`: the function takes the MAC addresses of the first
`min( n, 32 )` pairs and no other; it applies the add or remove to each of
them in turn, as table calls that leave the table `mcastTableAfter`, or as
requests to the host, one per address; the reply it builds has the return code
0xFFFF when at least one of these operations returned non-zero and 0x0000 when
all returned zero; and when the function returns on an open port, the command
being at least 10 bytes long, these two bytes stand at bytes 8..9 of the reply
in the ring. -/
theorem C25_multicast_return_code (opt : BuildOptions) (ext : Externals) (add : Bool)
    (w : LCSWorld) (buf : Mem) (pCmdFrame iCmdLen : Nat)
    (hbuild : w.port.fDoMCastAssist = true ∨ opt.SIOCGIFHWADDR = true) :
    (LCS_DoMulticast_macs buf pCmdFrame).length
      = min (FETCH_HW buf (pCmdFrame + 12)) MAX_IP_MAC_PAIRS ∧
    (∀ i, i < min (FETCH_HW buf (pCmdFrame + 12)) MAX_IP_MAC_PAIRS →
      (LCS_DoMulticast_macs buf pCmdFrame).get? i
        = some (readBytes buf (pCmdFrame + 20 + 12 * i + 4) 6)) ∧
    (mcastResults ext add w (LCS_DoMulticast_macs buf pCmdFrame)).length
      = min (FETCH_HW buf (pCmdFrame + 12)) MAX_IP_MAC_PAIRS ∧
    LCS_DoMulticast opt ext add w buf pCmdFrame iCmdLen
      = LCS_EnqueueReplyFrame (LCS_DoMulticast_pre opt ext add w buf pCmdFrame)
          (LCS_DoMulticast_frame opt ext add w buf pCmdFrame iCmdLen)
          (min iCmdLen sizeof_LCSIPMFRM) false ∧
    (w.port.fDoMCastAssist = true →
      (LCS_DoMulticast_pre opt ext add w buf pCmdFrame).port.MCastTab
        = mcastTableAfter ext add w.port.MCastTab (LCS_DoMulticast_macs buf pCmdFrame) ∧
      (LCS_DoMulticast_pre opt ext add w buf pCmdFrame).hostCalls = w.hostCalls) ∧
    (w.port.fDoMCastAssist = false →
      (LCS_DoMulticast_pre opt ext add w buf pCmdFrame).hostCalls
        = w.hostCalls ++ (LCS_DoMulticast_macs buf pCmdFrame).map (fun mac =>
            if add = true then HostCall.TUNTAP_IOCtl_SIOCADDMULTI mac
            else HostCall.TUNTAP_IOCtl_SIOCDELMULTI mac) ∧
      (LCS_DoMulticast_pre opt ext add w buf pCmdFrame).port = w.port) ∧
    ((∃ rc, rc ∈ mcastResults ext add w (LCS_DoMulticast_macs buf pCmdFrame) ∧ rc ≠ 0) →
      LCS_DoMulticast_frame opt ext add w buf pCmdFrame iCmdLen 8 = 0xFF ∧
      LCS_DoMulticast_frame opt ext add w buf pCmdFrame iCmdLen 9 = 0xFF) ∧
    ((∀ rc, rc ∈ mcastResults ext add w (LCS_DoMulticast_macs buf pCmdFrame) → rc = 0) →
      LCS_DoMulticast_frame opt ext add w buf pCmdFrame iCmdLen 8 = 0x00 ∧
      LCS_DoMulticast_frame opt ext add w buf pCmdFrame iCmdLen 9 = 0x00) ∧
    (∀ w2, w.port.fd ≠ -1 → w.port.fCloseInProgress = false →
      w.dev.iFrameOffset < U16_MOD → w.dev.iMaxFrameBufferSize ≤ sizeof_bFrameBuffer →
      10 ≤ iCmdLen →
      LCS_DoMulticast opt ext add w buf pCmdFrame iCmdLen = some w2 →
      w2.dev.iFrameOffset = w.dev.iFrameOffset + min iCmdLen sizeof_LCSIPMFRM ∧
      w2.dev.bFrameBuffer (w.dev.iFrameOffset + 8)
        = LCS_DoMulticast_frame opt ext add w buf pCmdFrame iCmdLen 8 ∧
      w2.dev.bFrameBuffer (w.dev.iFrameOffset + 9)
        = LCS_DoMulticast_frame opt ext add w buf pCmdFrame iCmdLen 9) := by
  have hlen : (LCS_DoMulticast_macs buf pCmdFrame).length
      = min (FETCH_HW buf (pCmdFrame + 12)) MAX_IP_MAC_PAIRS := by
    unfold LCS_DoMulticast_macs
    rw [List.length_map, List.length_range]
    split_ifs <;> omega
  have heq : LCS_DoMulticast opt ext add w buf pCmdFrame iCmdLen
      = LCS_EnqueueReplyFrame (LCS_DoMulticast_pre opt ext add w buf pCmdFrame)
          (LCS_DoMulticast_frame opt ext add w buf pCmdFrame iCmdLen)
          (min iCmdLen sizeof_LCSIPMFRM) false := by
    rw [LCS_DoMulticast_eq, INIT_REPLY_FRAME_len]
  have hpreT : w.port.fDoMCastAssist = true →
      (LCS_DoMulticast_pre opt ext add w buf pCmdFrame).port.MCastTab
        = mcastTableAfter ext add w.port.MCastTab (LCS_DoMulticast_macs buf pCmdFrame) ∧
      (LCS_DoMulticast_pre opt ext add w buf pCmdFrame).hostCalls = w.hostCalls ∧
      (LCS_DoMulticast_pre opt ext add w buf pCmdFrame).port.fd = w.port.fd ∧
      (LCS_DoMulticast_pre opt ext add w buf pCmdFrame).port.fCloseInProgress
        = w.port.fCloseInProgress := by
    intro h1
    unfold LCS_DoMulticast_pre
    rw [if_pos h1, LCS_DoMulticast_table_eq]
    obtain ⟨i1, i2, i3, -⟩ := LCS_DoMulticast_table_spec ext add
      (LCS_DoMulticast_macs buf pCmdFrame) w.port 0
    exact ⟨i1, rfl, i2, i3⟩
  have hpreF : w.port.fDoMCastAssist = false →
      (LCS_DoMulticast_pre opt ext add w buf pCmdFrame).hostCalls
        = w.hostCalls ++ (LCS_DoMulticast_macs buf pCmdFrame).map (fun mac =>
            if add = true then HostCall.TUNTAP_IOCtl_SIOCADDMULTI mac
            else HostCall.TUNTAP_IOCtl_SIOCDELMULTI mac) ∧
      (LCS_DoMulticast_pre opt ext add w buf pCmdFrame).port = w.port := by
    intro h1
    have h1' : ¬ w.port.fDoMCastAssist = true := by simp [h1]
    have h2 : opt.SIOCGIFHWADDR = true := by
      rcases hbuild with h | h
      · exact absurd h h1'
      · exact h
    unfold LCS_DoMulticast_pre
    rw [if_neg h1', if_pos h2, LCS_DoMulticast_ioctl_eq]
    exact ⟨(LCS_DoMulticast_ioctl_spec ext add _ w.hostCalls 0).1, rfl⟩
  have hdev : (LCS_DoMulticast_pre opt ext add w buf pCmdFrame).dev = w.dev := by
    unfold LCS_DoMulticast_pre
    split_ifs <;> rfl
  have hport : (LCS_DoMulticast_pre opt ext add w buf pCmdFrame).port.fd = w.port.fd ∧
      (LCS_DoMulticast_pre opt ext add w buf pCmdFrame).port.fCloseInProgress
        = w.port.fCloseInProgress := by
    by_cases h1 : w.port.fDoMCastAssist = true
    · exact (hpreT h1).2.2
    · have h1' : w.port.fDoMCastAssist = false := by simpa using h1
      rw [(hpreF h1').2]
      exact ⟨rfl, rfl⟩
  have hbad := LCS_DoMulticast_badrc_iff opt ext add w buf pCmdFrame hbuild
  refine ⟨hlen, ?_, ?_, heq, fun h => ⟨(hpreT h).1, (hpreT h).2.1⟩, hpreF, ?_, ?_, ?_⟩
  · intro i hi
    unfold LCS_DoMulticast_macs
    have hi2 : i < (if FETCH_HW buf (pCmdFrame + 12) > MAX_IP_MAC_PAIRS then MAX_IP_MAC_PAIRS
        else FETCH_HW buf (pCmdFrame + 12)) := by
      split_ifs <;> omega
    rw [List.get?_eq_getElem?, List.getElem?_map, List.getElem?_range hi2]
    simp [sizeof_LCSIPMPAIR, IFHWADDRLEN]
  · unfold mcastResults
    split_ifs
    · rw [mcastTableResults_length, hlen]
    · rw [mcastIoctlResults_length, hlen]
  · intro hfail
    have hb := hbad.mpr hfail
    unfold LCS_DoMulticast_frame
    rw [if_pos hb, STORE_HW_hi]
    have e9 : (9 : Nat) = 8 + 1 := rfl
    rw [e9, STORE_HW_lo]
    exact ⟨by decide, by decide⟩
  · intro hall
    have hb : ¬ LCS_DoMulticast_badrc opt ext add w buf pCmdFrame ≠ 0 := by
      intro hc
      obtain ⟨rc, h1, h2⟩ := hbad.mp hc
      exact h2 (hall rc h1)
    unfold LCS_DoMulticast_frame
    rw [if_neg hb, INIT_REPLY_FRAME_byte, INIT_REPLY_FRAME_byte]
    simp
  · intro w2 hfd hnc hoff hmax hn hrun
    rw [heq] at hrun
    have hN : min iCmdLen sizeof_LCSIPMFRM ≤ PTRDIFF_MAX := by
      have := Nat.min_le_right iCmdLen sizeof_LCSIPMFRM
      simp only [sizeof_LCSIPMFRM, PTRDIFF_MAX] at *
      omega
    have h10 : 10 ≤ min iCmdLen sizeof_LCSIPMFRM := by
      simp only [sizeof_LCSIPMFRM]
      omega
    obtain ⟨e1, e2, -⟩ := enqueue_reply_effect _ w2 _ _ false
      (by rw [hport.1]; exact hfd) (by rw [hport.2]; exact hnc) (by rw [hdev]; exact hoff)
      (by rw [hdev]; exact hmax) hN hrun
    have hst : replyFrameStart (LCS_DoMulticast_pre opt ext add w buf pCmdFrame).dev false
        = w.dev.iFrameOffset := by
      rw [hdev]
      simp [replyFrameStart]
    rw [hst] at e1 e2
    exact ⟨e1, e2 8 (by omega) (by omega), e2 9 (by omega) (by omega)⟩

/-- C25 for a Set IP Multicast command with two pairs on a port that keeps the
table itself, on a host whose table takes the first address and not the
second: the return code of the reply is 0xFFFF. -/
theorem C25_multicast_return_code_witness :
    (LCS_DoMulticast_macs exSetIPMBatch 0).length
      = min (FETCH_HW exSetIPMBatch (0 + 12)) MAX_IP_MAC_PAIRS ∧
    LCS_DoMulticast_macs exSetIPMBatch 0
      = [[0x01, 0x00, 0x5E, 0x00, 0x00, 0x01], [0x01, 0x00, 0x5E, 0x00, 0x00, 0xFB]] ∧
    mcastResults exExtTableFull true exWorldMCast (LCS_DoMulticast_macs exSetIPMBatch 0)
      = [0, -28] ∧
    LCS_DoMulticast_frame exOpt exExtTableFull true exWorldMCast exSetIPMBatch 0 44 8 = 0xFF ∧
    LCS_DoMulticast_frame exOpt exExtTableFull true exWorldMCast exSetIPMBatch 0 44 9 = 0xFF :=
  match C25_multicast_return_code exOpt exExtTableFull true exWorldMCast exSetIPMBatch 0 44
      (Or.inl rfl) with
  | ⟨h1, _, _, _, _, _, h7, _, _⟩ =>
    ⟨h1, by decide, by decide, (h7 ⟨-28, by decide, by decide⟩).1,
      (h7 ⟨-28, by decide, by decide⟩).2⟩

/-! ### Replies and attention requests of SNA command frames -/

/-- The frame switch of the SNA branch of `LCS_Write` on a command frame, for
one device and its port: the handler for the command code, then the attention
request. -/
theorem frame_SNA_cmd_dev (opt : BuildOptions) (ext : Externals) (b : Bool)
    (s : Option LCSWorld) (buf : Mem) (p n : Nat) (ht : buf (p + 2) = LCS_FRMTYP_CMD) :
    LCS_Write_frame_SNA (lcsEnv opt ext) b s buf p n =
      ((s.bind (fun x => lcsHandler opt ext (snaHandler (buf (p + 4))) x buf p n b)).map
          (snaAttn ext), buf, true) := by
  have e1 : ¬ (LCS_FRMTYP_CMD = LCS_FRMTYP_ENET) := by decide
  have e2 : ¬ (LCS_FRMTYP_CMD = LCS_FRMTYP_SNA) := by decide
  simp only [LCS_Write_frame_SNA, ht, if_neg e1, if_neg e2, if_true]
  cases s with
  | none => simp [lcsEnv]
  | some x =>
    simp only [lcsEnv, Option.some_bind]
    cases hh : lcsHandler opt ext (snaHandler (buf (p + 4))) x buf p n b with
    | none => simp
    | some y =>
      by_cases hm : ext.malloc_LCSATTN y.hostCalls = true
      · simp [snaAttn, hm]
      · simp [snaAttn, hm]

/-- A reply enqueue that returns leaves the attention chain alone. -/
theorem enqueue_attns (w w2 : LCSWorld) (R : Mem) (N : Nat) (b : Bool)
    (h : LCS_EnqueueReplyFrame w R N b = some w2) :
    w2.pAttns = w.pAttns ∧ w2.nAttnEventSignals = w.nAttnEventSignals := by
  unfold LCS_EnqueueReplyFrame at h
  by_cases hc : w.port.fd ≠ -1 ∧ w.port.fCloseInProgress = false
  · rw [if_pos hc] at h
    dsimp only at h
    by_cases hr : (LCS_DoEnqueueReplyFrame w.dev R N b).rc < 0
    · rw [if_pos hr] at h
      cases h
    · rw [if_neg hr] at h
      cases h
      exact ⟨rfl, rfl⟩
  · rw [if_neg hc] at h
    cases h
    exact ⟨rfl, rfl⟩

/-- Bytes 3 and 5 of the reply an SNA command handler builds: the port of the
device and 0x80. -/
theorem snaFrame_slot_initiator (opt : BuildOptions) (ext : Externals) (h : LCSHandler)
    (hh : isSnaCmdHandler h) (a : LCSWorld) (buf : Mem) (p n : Nat) :
    snaFrame opt ext h a buf p n 3 = a.dev.bPort ∧
    snaFrame opt ext h a buf p n 5 = LCS_INITIATOR_SNA := by
  rcases hh with rfl | rfl | rfl | rfl
  · simp [snaFrame, LCS_StartLan_SNA_frame, storeByte, STORE_HW, STORE_FW]
  · simp [snaFrame, LCS_DefaultCmd_SNA_frame, storeByte]
  · simp only [snaFrame, LCS_LanStats_SNA_frame]
    split_ifs <;> simp [storeByte, STORE_HW, memcpy, IFHWADDRLEN]
  · simp [snaFrame, LCS_DefaultCmd_SNA_frame, storeByte]

/-- What an SNA command handler does around the enqueue leaves the attention
chain and the address of the device alone. -/
theorem sna_attns (opt : BuildOptions) (ext : Externals) (h : LCSHandler) (a x : LCSWorld) :
    (snaPre opt ext h a).pAttns = a.pAttns ∧
    (snaPre opt ext h a).nAttnEventSignals = a.nAttnEventSignals ∧
    (snaPost h a x).pAttns = x.pAttns ∧
    (snaPost h a x).nAttnEventSignals = x.nAttnEventSignals ∧
    (snaPost h a x).dev.sAddr = x.dev.sAddr := by
  cases h
  case LCS_StartLan_SNA =>
    by_cases hf : fStartPending a = true <;>
      simp [snaPre, snaPost, hf, UpdatePortStarted]
  all_goals exact ⟨rfl, rfl, rfl, rfl, rfl⟩

/-- The reply of an SNA command handler to a command frame of at least 6 bytes
has at least 6 bytes. -/
theorem snaLen_ge (ext : Externals) (h : LCSHandler) (buf : Mem) (p n : Nat) (hn : 6 ≤ n) :
    6 ≤ snaLen ext h buf p n := by
  have hl : (INIT_REPLY_FRAME ext.stack sizeof_LCSSTDFRM buf p n).2 = min n 20 :=
    INIT_REPLY_FRAME_len ext.stack buf p n sizeof_LCSSTDFRM
  cases h <;> simp only [snaLen, hl, sizeof_LCSSTRTFRM, sizeof_LCSLSSFRM] <;> omega


/-! ### The IP command handlers as reply enqueues -/

/-- Every IP command handler makes its host calls, builds its reply, hands it
to `ENQUEUE_REPLY_FRAME`, and then at most sets device and port flags. -/
theorem lcsHandler_ip (opt : BuildOptions) (ext : Externals) (h : LCSHandler)
    (hh : isIpCmdHandler h) (a : LCSWorld) (buf : Mem) (p n : Nat) (b : Bool) :
    lcsHandler opt ext h a buf p n b
      = (LCS_EnqueueReplyFrame (ipPre opt ext h a buf p) (ipFrame opt ext h a buf p n)
          (ipLen ext h buf p n) false).map (ipPost h a) := by
  rcases hh with rfl | rfl | rfl | rfl | rfl | rfl | rfl | rfl | rfl
  · rfl
  · rfl
  · rfl
  · simp only [lcsHandler, LCS_StopLan, ipPre, ipFrame, ipLen, ipPost]
    exact Option.map_id'.symm
  · simp only [lcsHandler, LCS_QueryIPAssists_eq, ipPre, ipFrame, ipLen, ipPost]
    exact Option.map_id'.symm
  · simp only [lcsHandler, LCS_LanStats, LCS_LanStats_frame, ipPre, ipFrame, ipLen, ipPost]
    exact Option.map_id'.symm
  · simp only [lcsHandler, LCS_DoMulticast_eq, ipPre, ipFrame, ipLen, ipPost]
    exact Option.map_id'.symm
  · simp only [lcsHandler, LCS_DoMulticast_eq, ipPre, ipFrame, ipLen, ipPost]
    exact Option.map_id'.symm
  · simp only [lcsHandler, LCS_DefaultCmdProc, ipPre, ipFrame, ipLen, ipPost]
    exact Option.map_id'.symm

/-- The handler the IP branch picks for a command code is one of the nine. -/
theorem ipHandler_isIpCmdHandler (bCmdCode : Nat) : isIpCmdHandler (ipHandler bCmdCode) := by
  unfold ipHandler isIpCmdHandler
  split_ifs <;> simp

/-- The value `LCS_Startup` gives to `iMaxFrameBufferSize` lies between the
smallest and the compiled size of the frame buffer when the value it finds is
zero or at most the compiled size, and is at least the smallest size when the
value it finds is. -/
theorem LCS_Startup_newMax_bounds (iOrig : Nat) (buf : Mem) (pCmdFrame : Nat)
    (hle : iOrig ≤ sizeof_bFrameBuffer) :
    LCS_Startup_newMax iOrig buf pCmdFrame ≤ sizeof_bFrameBuffer ∧
    (CTC_MIN_FRAME_BUFFER_SIZE ≤ iOrig →
      CTC_MIN_FRAME_BUFFER_SIZE ≤ LCS_Startup_newMax iOrig buf pCmdFrame) := by
  unfold LCS_Startup_newMax
  simp only [sizeof_bFrameBuffer, CTC_DEF_FRAME_BUFFER_SIZE, CTC_MIN_FRAME_BUFFER_SIZE,
    U16_MOD] at *
  split_ifs <;> omega

/-- Before its enqueue an IP command handler leaves the ring, the mode and
the open state of the port alone, and `iMaxFrameBufferSize` stays at most the
compiled size of the frame buffer, and at least its smallest size. -/
theorem ipPre_fields (opt : BuildOptions) (ext : Externals) (h : LCSHandler) (a : LCSWorld)
    (buf : Mem) (p : Nat) :
    (ipPre opt ext h a buf p).port.fd = a.port.fd ∧
    (ipPre opt ext h a buf p).port.fCloseInProgress = a.port.fCloseInProgress ∧
    (ipPre opt ext h a buf p).dev.iFrameOffset = a.dev.iFrameOffset ∧
    (ipPre opt ext h a buf p).dev.bFrameBuffer = a.dev.bFrameBuffer ∧
    (ipPre opt ext h a buf p).dev.fPendingBaffle = a.dev.fPendingBaffle ∧
    (ipPre opt ext h a buf p).dev.bMode = a.dev.bMode ∧
    (a.dev.iMaxFrameBufferSize ≤ sizeof_bFrameBuffer →
      (ipPre opt ext h a buf p).dev.iMaxFrameBufferSize ≤ sizeof_bFrameBuffer ∧
      (CTC_MIN_FRAME_BUFFER_SIZE ≤ a.dev.iMaxFrameBufferSize →
        CTC_MIN_FRAME_BUFFER_SIZE ≤ (ipPre opt ext h a buf p).dev.iMaxFrameBufferSize)) := by
  cases h
  case LCS_Startup =>
    exact ⟨rfl, rfl, rfl, rfl, rfl, rfl,
      fun h1 => LCS_Startup_newMax_bounds _ buf p h1⟩
  case LCS_AddMulticast =>
    simp only [ipPre, LCS_DoMulticast_pre]
    split_ifs
    · rw [LCS_DoMulticast_table_eq]
      exact ⟨(LCS_DoMulticast_table_spec ext true _ a.port 0).2.1,
        (LCS_DoMulticast_table_spec ext true _ a.port 0).2.2.1, rfl, rfl, rfl, rfl,
        fun h1 => ⟨h1, fun h2 => h2⟩⟩
    · exact ⟨rfl, rfl, rfl, rfl, rfl, rfl, fun h1 => ⟨h1, fun h2 => h2⟩⟩
    · exact ⟨rfl, rfl, rfl, rfl, rfl, rfl, fun h1 => ⟨h1, fun h2 => h2⟩⟩
  case LCS_DelMulticast =>
    simp only [ipPre, LCS_DoMulticast_pre]
    split_ifs
    · rw [LCS_DoMulticast_table_eq]
      exact ⟨(LCS_DoMulticast_table_spec ext false _ a.port 0).2.1,
        (LCS_DoMulticast_table_spec ext false _ a.port 0).2.2.1, rfl, rfl, rfl, rfl,
        fun h1 => ⟨h1, fun h2 => h2⟩⟩
    · exact ⟨rfl, rfl, rfl, rfl, rfl, rfl, fun h1 => ⟨h1, fun h2 => h2⟩⟩
    · exact ⟨rfl, rfl, rfl, rfl, rfl, rfl, fun h1 => ⟨h1, fun h2 => h2⟩⟩
  all_goals exact ⟨rfl, rfl, rfl, rfl, rfl, rfl, fun h1 => ⟨h1, fun h2 => h2⟩⟩

/-- The reply of an IP command handler to a command frame of at least 12 bytes
has the command code and the sequence number of the command frame. -/
theorem ipFrame_bytes (opt : BuildOptions) (ext : Externals) (h : LCSHandler) (a : LCSWorld)
    (buf : Mem) (p n i : Nat) (hn : 12 ≤ n) (hi : i = 4 ∨ i = 6 ∨ i = 7) :
    ipFrame opt ext h a buf p n i = buf (p + i) := by
  have hbase : ∀ R, 12 ≤ R → (INIT_REPLY_FRAME ext.stack R buf p n).1 i = buf (p + i) := by
    intro R hR
    rw [INIT_REPLY_FRAME_byte]
    have hm : i < min n R := by
      rw [Nat.lt_min]
      omega
    rw [if_neg (by omega), if_pos hm]
  cases h
  case LCS_QueryIPAssists =>
    simp only [ipFrame, LCS_QueryIPAssists_frame]
    rw [STORE_HW_other _ _ _ _ (by omega) (by omega),
      STORE_HW_other _ _ _ _ (by omega) (by omega),
      STORE_HW_other _ _ _ _ (by omega) (by omega),
      STORE_HW_other _ _ _ _ (by omega) (by omega)]
    exact hbase _ (by decide)
  case LCS_LanStats =>
    simp only [ipFrame, LCS_LanStats_frame]
    have e : (memcpy (STORE_HW (INIT_REPLY_FRAME ext.stack sizeof_LCSLSTFRM buf p n).1 8
        ((LCS_LanStats_getMAC opt ext a).2.2 % (U16_MOD : Int)).toNat) 22
        (LCS_LanStats_getMAC opt ext a).2.1 0 IFHWADDRLEN) i = buf (p + i) := by
      rw [memcpy_outside _ _ _ _ _ _ (Or.inl (by omega)),
        STORE_HW_other _ _ _ _ (by omega) (by omega)]
      exact hbase _ (by decide)
    split_ifs
    · exact e
    · rw [storeByte_other _ _ _ _ (by omega)]
      exact e
  case LCS_AddMulticast =>
    simp only [ipFrame, LCS_DoMulticast_frame]
    split_ifs
    · rw [STORE_HW_other _ _ _ _ (by omega) (by omega)]
      exact hbase _ (by decide)
    · exact hbase _ (by decide)
  case LCS_DelMulticast =>
    simp only [ipFrame, LCS_DoMulticast_frame]
    split_ifs
    · rw [STORE_HW_other _ _ _ _ (by omega) (by omega)]
      exact hbase _ (by decide)
    · exact hbase _ (by decide)
  case LCS_StartLan => exact hbase _ (by decide)
  case LCS_StopLan => exact hbase _ (by decide)
  all_goals
    simp only [ipFrame]
    rw [storeByte_other _ _ _ _ (by omega), storeByte_other _ _ _ _ (by omega)]
    exact hbase _ (by decide)

/-- The reply of an IP command handler to a command frame of at least 12 bytes
has between 12 and 408 bytes. -/
theorem ipLen_bounds (ext : Externals) (h : LCSHandler) (buf : Mem) (p n : Nat)
    (hn : 12 ≤ n) : 12 ≤ ipLen ext h buf p n ∧ ipLen ext h buf p n ≤ 408 := by
  cases h <;>
    simp only [ipLen, INIT_REPLY_FRAME_len, sizeof_LCSSTRTFRM, sizeof_LCSSTDFRM,
      sizeof_LCSQIPFRM, sizeof_LCSLSTFRM, sizeof_LCSIPMFRM] <;>
    omega

/-- After the enqueue an IP command handler only sets the started flags of
the device and the port. -/
theorem ipPost_fields (h : LCSHandler) (a x : LCSWorld) :
    (ipPost h a x).port.fd = x.port.fd ∧
    (ipPost h a x).port.fCloseInProgress = x.port.fCloseInProgress ∧
    (ipPost h a x).dev.iFrameOffset = x.dev.iFrameOffset ∧
    (ipPost h a x).dev.bFrameBuffer = x.dev.bFrameBuffer ∧
    (ipPost h a x).dev.fPendingBaffle = x.dev.fPendingBaffle ∧
    (ipPost h a x).dev.bMode = x.dev.bMode ∧
    (ipPost h a x).dev.iMaxFrameBufferSize = x.dev.iMaxFrameBufferSize := by
  cases h
  case LCS_StartLan =>
    simp only [ipPost]
    split_ifs
    · exact ⟨rfl, rfl, rfl, rfl, rfl, rfl, rfl⟩
    · exact ⟨rfl, rfl, rfl, rfl, rfl, rfl, rfl⟩
  all_goals exact ⟨rfl, rfl, rfl, rfl, rfl, rfl, rfl⟩

/-! ### One command frame of an IP batch -/

/-- An IP command handler called on a healthy device for a command frame of at
least 12 bytes: when it returns, the device is healthy, its reply is the last
frame of the ring, with the command code and the sequence number of the command
frame, and the ring before it is as it was; and it returns when the ring has
room for 410 more bytes below the smallest frame buffer size. -/
theorem ip_handler_ok (opt : BuildOptions) (ext : Externals) (h : LCSHandler)
    (hh : isIpCmdHandler h) (a : LCSWorld) (buf : Mem) (p n : Nat) (hok : IPOK a)
    (hn : 12 ≤ n) :
    (∀ a2, lcsHandler opt ext h a buf p n false = some a2 →
      IPOK a2 ∧ a2.dev.bMode = a.dev.bMode ∧
      a.dev.iFrameOffset + 12 ≤ a2.dev.iFrameOffset ∧
      a2.dev.iFrameOffset ≤ a.dev.iFrameOffset + 408 ∧
      FETCH_HW a2.dev.bFrameBuffer a.dev.iFrameOffset = a2.dev.iFrameOffset ∧
      (∀ i, i = 4 ∨ i = 6 ∨ i = 7 →
        a2.dev.bFrameBuffer (a.dev.iFrameOffset + i) = buf (p + i)) ∧
      (∀ i, i < a.dev.iFrameOffset → a2.dev.bFrameBuffer i = a.dev.bFrameBuffer i) ∧
      (CTC_MIN_FRAME_BUFFER_SIZE ≤ a.dev.iMaxFrameBufferSize →
        CTC_MIN_FRAME_BUFFER_SIZE ≤ a2.dev.iMaxFrameBufferSize)) ∧
    (CTC_MIN_FRAME_BUFFER_SIZE ≤ a.dev.iMaxFrameBufferSize →
      a.dev.iFrameOffset + 410 ≤ CTC_MIN_FRAME_BUFFER_SIZE →
      ∃ a2, lcsHandler opt ext h a buf p n false = some a2) := by
  obtain ⟨hfd, hnc, hpb, hmax, hoff⟩ := hok
  obtain ⟨p1, p2, p3, p4, p5, p6, p7⟩ := ipPre_fields opt ext h a buf p
  obtain ⟨p7a, p7b⟩ := p7 hmax
  obtain ⟨l1, l2⟩ := ipLen_bounds ext h buf p n hn
  have hN : ipLen ext h buf p n ≤ PTRDIFF_MAX := by
    simp only [PTRDIFF_MAX]
    omega
  have hs : replyFrameStart (ipPre opt ext h a buf p).dev false = a.dev.iFrameOffset := by
    simp [replyFrameStart, p3]
  rw [lcsHandler_ip opt ext h hh]
  constructor
  · intro a2 h2
    rw [Option.map_eq_some'] at h2
    obtain ⟨x, hx, rfl⟩ := h2
    obtain ⟨e1, e2, e3, -, e5, -, -, -, e9, e10, -, -, -, -, e15, e16, e17⟩ :=
      enqueue_reply_effect _ x _ _ false (by rw [p1]; exact hfd) (by rw [p2]; exact hnc)
        (by rw [p3]; exact hoff) p7a hN hx
    rw [hs] at e1 e2
    rw [p3] at e3 e15 e17
    obtain ⟨q1, q2, q3, q4, q5, q6, q7⟩ := ipPost_fields h a x
    have hsz : sizeof_bFrameBuffer < U16_MOD := by decide
    refine ⟨⟨?_, ?_, ?_, ?_, ?_⟩, ?_, ?_, ?_, ?_, ?_, ?_, ?_⟩
    · rw [q1, e10, p1]
      exact hfd
    · rw [q2, e10, p2]
      exact hnc
    · rw [q5, e16 rfl, p5]
      exact hpb
    · rw [q7, e5]
      exact p7a
    · rw [q3, e1]
      omega
    · rw [q6, e9, p6]
    · rw [q3, e1]
      omega
    · rw [q3, e1]
      omega
    · rw [q4, q3, e1]
      exact e17 rfl (by rw [p5]; exact hpb)
    · intro i hi
      rw [q4, e2 i (by omega) (by omega)]
      exact ipFrame_bytes opt ext h a buf p n i hn hi
    · intro i hi
      rw [q4, e3 i hi, p4]
    · intro hge
      rw [q7, e5]
      exact p7b hge
  · intro hge hroom
    cases hx : LCS_EnqueueReplyFrame (ipPre opt ext h a buf p) (ipFrame opt ext h a buf p n)
        (ipLen ext h buf p n) false with
    | some x => exact ⟨_, rfl⟩
    | none =>
      rw [LCS_EnqueueReplyFrame_eq_none_iff,
        reply_check_nowrap _ _ (by rw [p3]; exact hoff) hN, p3] at hx
      have := p7b hge
      omega

/-- The frame switch of the IP branch on a command frame whose initiator is
not the LAN gateway: the handler for the command code is called; the guest
buffer is not changed and the walk goes on. -/
theorem frame_IP_cmd (opt : BuildOptions) (ext : Externals) (s : Option LCSWorld) (buf : Mem)
    (p n : Nat) (ht : buf (p + 2) = LCS_FRMTYP_CMD) (hi : buf (p + 5) ≠ LCS_INITIATOR_LGW) :
    LCS_Write_frame_IP (lcsEnv opt ext) s buf p n =
      (s.bind (fun x => lcsHandler opt ext (ipHandler (buf (p + 4))) x buf p n false),
        buf, true) := by
  have e1 : ¬ (LCS_FRMTYP_CMD = LCS_FRMTYP_ENET) := by decide
  simp only [LCS_Write_frame_IP, ht, if_neg e1, if_neg hi, if_true]
  cases s with
  | none => rfl
  | some x => rfl

/-- The length the walk computes for a frame whose offset field points at
least 12 bytes further. -/
theorem walk_length (B : Mem) (off : Nat) (h : off + 12 ≤ FETCH_HW B off) :
    (FETCH_HW B off + U16_MOD - off) % U16_MOD = FETCH_HW B off - off := by
  have := FETCH_HW_lt B off
  simp only [U16_MOD] at *
  omega

/-- Once a handler is held up on a full ring, the IP walk over command frames
runs to the zero offset with the handler still held up. -/
theorem ip_walk_none (opt : BuildOptions) (ext : Externals) (B : Mem) :
    ∀ (ps : List Nat) (fuel off : Nat), CmdFramesAt B off ps → ps.length < fuel →
      ∃ r, LCS_Write_walk (LCS_Write_frame_IP (lcsEnv opt ext)) 0 fuel none B off = some r ∧
        r.state = none ∧ r.pIOBuf = B ∧ r.completed = true := by
  intro ps
  induction ps with
  | nil =>
    intro fuel off hc hf
    obtain ⟨k, rfl⟩ : ∃ k, fuel = k + 1 := ⟨fuel - 1, by simp at hf; omega⟩
    simp only [CmdFramesAt] at hc
    refine ⟨⟨none, B, true, off⟩, ?_, rfl, rfl, rfl⟩
    simp only [LCS_Write_walk, Nat.zero_add, hc, if_true]
  | cons q ps ih =>
    intro fuel off hc hf
    obtain ⟨k, rfl⟩ : ∃ k, fuel = k + 1 := ⟨fuel - 1, by simp at hf; omega⟩
    simp only [CmdFramesAt] at hc
    obtain ⟨rfl, hlen, ht, hi, hrest⟩ := hc
    have hz : ¬ FETCH_HW B q = 0 := by omega
    obtain ⟨r, hr, i1, i2, i3⟩ := ih k _ hrest (by simp at hf; omega)
    refine ⟨r, ?_, i1, i2, i3⟩
    simp only [LCS_Write_walk, Nat.zero_add, if_neg hz]
    rw [frame_IP_cmd opt ext none B q _ ht hi]
    simp only [if_true, Option.none_bind]
    exact hr

/-- The IP walk of `LCS_Write` over a batch of command frames, from a healthy
device: it runs to the zero offset and leaves the guest buffer alone; when no
handler was held up, the ring holds, behind what it held, one reply for each
command frame, in the order of the batch; and no handler is held up when the
ring has room for 408 bytes for each frame below the smallest frame buffer
size. -/
theorem ip_walk (opt : BuildOptions) (ext : Externals) (B : Mem) :
    ∀ (ps : List Nat) (fuel : Nat) (a : LCSWorld) (off : Nat),
      IPOK a → CmdFramesAt B off ps → ps.length < fuel →
      ∃ r, LCS_Write_walk (LCS_Write_frame_IP (lcsEnv opt ext)) 0 fuel (some a) B off = some r ∧
        r.pIOBuf = B ∧ r.completed = true ∧
        (∀ w1, r.state = some w1 →
          RepliesAt w1.dev.bFrameBuffer B a.dev.iFrameOffset ps w1.dev.iFrameOffset ∧
          (∀ i, i < a.dev.iFrameOffset → w1.dev.bFrameBuffer i = a.dev.bFrameBuffer i) ∧
          a.dev.iFrameOffset ≤ w1.dev.iFrameOffset ∧ IPOK w1 ∧ w1.dev.bMode = a.dev.bMode) ∧
        (CTC_MIN_FRAME_BUFFER_SIZE ≤ a.dev.iMaxFrameBufferSize →
          a.dev.iFrameOffset + 408 * ps.length + 2 ≤ CTC_MIN_FRAME_BUFFER_SIZE →
          ∃ w1, r.state = some w1) := by
  intro ps
  induction ps with
  | nil =>
    intro fuel a off hok hc hf
    obtain ⟨k, rfl⟩ : ∃ k, fuel = k + 1 := ⟨fuel - 1, by simp at hf; omega⟩
    simp only [CmdFramesAt] at hc
    refine ⟨⟨some a, B, true, off⟩, ?_, rfl, rfl, ?_, fun _ _ => ⟨a, rfl⟩⟩
    · simp only [LCS_Write_walk, Nat.zero_add, hc, if_true]
    · intro w1 hw
      cases hw
      exact ⟨rfl, fun _ _ => rfl, le_refl _, hok, rfl⟩
  | cons q ps ih =>
    intro fuel a off hok hc hf
    obtain ⟨k, rfl⟩ : ∃ k, fuel = k + 1 := ⟨fuel - 1, by simp at hf; omega⟩
    simp only [CmdFramesAt] at hc
    obtain ⟨rfl, hlen, ht, hi, hrest⟩ := hc
    have hz : ¬ FETCH_HW B q = 0 := by omega
    have hk : ps.length < k := by simp at hf; omega
    have hwalk : LCS_Write_walk (LCS_Write_frame_IP (lcsEnv opt ext)) 0 (k + 1) (some a) B q
        = LCS_Write_walk (LCS_Write_frame_IP (lcsEnv opt ext)) 0 k
            (lcsHandler opt ext (ipHandler (B (q + 4))) a B q (FETCH_HW B q - q) false) B
            (FETCH_HW B q) := by
      simp only [LCS_Write_walk, Nat.zero_add, if_neg hz]
      rw [frame_IP_cmd opt ext (some a) B q _ ht hi, walk_length B q hlen]
      simp only [if_true, Option.some_bind]
    obtain ⟨g1, g2⟩ := ip_handler_ok opt ext _ (ipHandler_isIpCmdHandler (B (q + 4))) a B q
      (FETCH_HW B q - q) hok (by omega)
    rw [hwalk]
    cases hh : lcsHandler opt ext (ipHandler (B (q + 4))) a B q (FETCH_HW B q - q) false with
    | none =>
      obtain ⟨r, hr, i1, i2, i3⟩ := ip_walk_none opt ext B ps k _ hrest hk
      refine ⟨r, hr, i2, i3, ?_, ?_⟩
      · intro w1 hw
        rw [i1] at hw
        cases hw
      · intro hge hroom
        obtain ⟨a2, ha2⟩ := g2 hge (by simp only [List.length_cons] at hroom; omega)
        rw [hh] at ha2
        cases ha2
    | some a2 =>
      obtain ⟨ok2, m2, lo2, hi2, f2, b2, pre2, ge2⟩ := g1 a2 hh
      obtain ⟨r, hr, i1, i2, i3, i4⟩ := ih k a2 _ ok2 hrest hk
      refine ⟨r, hr, i1, i2, ?_, ?_⟩
      · intro w1 hw
        obtain ⟨j1, j2, j3, j4, j5⟩ := i3 w1 hw
        have hf1 : FETCH_HW w1.dev.bFrameBuffer a.dev.iFrameOffset = a2.dev.iFrameOffset := by
          rw [FETCH_HW_congr a2.dev.bFrameBuffer w1.dev.bFrameBuffer _ (j2 _ (by omega))
            (j2 _ (by omega))]
          exact f2
        refine ⟨?_, ?_, by omega, j4, by rw [j5, m2]⟩
        · simp only [RepliesAt]
          rw [hf1]
          refine ⟨by omega, ?_, ?_, ?_, j1⟩
          · rw [j2 _ (by omega)]
            exact b2 4 (Or.inl rfl)
          · rw [j2 _ (by omega)]
            exact b2 6 (Or.inr (Or.inl rfl))
          · rw [j2 _ (by omega)]
            exact b2 7 (Or.inr (Or.inr rfl))
        · intro i hi
          rw [j2 i (by omega)]
          exact pre2 i hi
      · intro hge hroom
        simp only [List.length_cons] at hroom
        exact i4 (ge2 hge) (by omega)

/-! ### C23: the replies of a batch of commands stand in batch order -/

/-- **C23** (batch order of replies).  For an IP-mode Write whose batch is `n`
command frames (the frames at the offsets `ps`, each of type 0x00, at least 12
bytes long, with initiator other than 0x01, followed by the zero offset) on a
device with an empty ring, an open port, no baffle pending and
`iMaxFrameBufferSize` at most the size of `bFrameBuffer`, run with more fuel
than frames: whenever `LCS_Write` returns, it returns CE|DE with residual 0, and
the ring holds, from byte 0 to `iFrameOffset`, exactly `n` reply frames chained
by their offset fields, the i-th with command code (byte 4) and sequence number
(bytes 6..7) of the i-th command frame; and `LCS_Write` does return when the
ring has room for 408 bytes for each frame below the smallest frame buffer
size. -/
theorem C23_batch_order_of_replies (opt : BuildOptions) (ext : Externals) (a : LCSWorld)
    (B : Mem) (ps : List Nat) (fuel sCount sense0 : Nat) (st : CCWStatus)
    (hmode : a.dev.bMode = LCSDEV_MODE_IP) (hempty : a.dev.iFrameOffset = 0)
    (hok : IPOK a) (hc : CmdFramesAt B 0 ps) (hf : ps.length < fuel) :
    (∀ rd, LCS_Write_dev opt ext fuel a sCount B sense0 st = some rd →
      RepliesAt rd.world.dev.bFrameBuffer B 0 ps rd.world.dev.iFrameOffset ∧
      rd.status = { st with residual := 0, unitStat := CSW_CE ||| CSW_DE } ∧
      rd.sense0 = sense0 ∧ rd.pIOBuf = B) ∧
    (CTC_MIN_FRAME_BUFFER_SIZE ≤ a.dev.iMaxFrameBufferSize →
      408 * ps.length + 2 ≤ CTC_MIN_FRAME_BUFFER_SIZE →
      ∃ rd, LCS_Write_dev opt ext fuel a sCount B sense0 st = some rd) := by
  obtain ⟨r, hr, i1, i2, i3, i4⟩ := ip_walk opt ext B ps fuel a 0 hok hc hf
  have hw : LCS_Write (lcsEnv opt ext) fuel (some a) sCount B sense0 st
      = some (LCS_Write_finish sense0 st r) := by
    unfold LCS_Write
    rw [if_pos (show (lcsEnv opt ext).bMode (some a) = LCSDEV_MODE_IP from hmode), hr]
    rfl
  have hfin : LCS_Write_finish sense0 st r
      = { world := r.state, pIOBuf := B, sense0 := sense0,
          status := { st with residual := 0, unitStat := CSW_CE ||| CSW_DE } } := by
    unfold LCS_Write_finish
    rw [if_pos i2, i1]
  rw [hempty] at i3 i4
  unfold LCS_Write_dev
  rw [hw, hfin]
  constructor
  · intro rd hrd
    cases hs : r.state with
    | none =>
      rw [hs] at hrd
      cases hrd
    | some w1 =>
      rw [hs] at hrd
      cases hrd
      exact ⟨(i3 w1 hs).1, rfl, rfl, rfl⟩
  · intro hge hroom
    obtain ⟨w1, hs⟩ := i4 hge (by omega)
    rw [hs]
    exact ⟨_, rfl⟩

/-- C23 on the example device: the Write of `exThreeCmdBatch` returns with the
replies to Startup, Query IP Assists and the command 0x55 in that order, 60
bytes in all. -/
theorem C23_batch_order_of_replies_witness :
    IPOK exWorld ∧ CmdFramesAt exThreeCmdBatch 0 [0, 24, 44] ∧
    ∃ rd, LCS_Write_dev exOpt exExt 4 exWorld 62 exThreeCmdBatch 0 {} = some rd ∧
      RepliesAt rd.world.dev.bFrameBuffer exThreeCmdBatch 0 [0, 24, 44]
        rd.world.dev.iFrameOffset ∧
      rd.world.dev.iFrameOffset = 60 ∧
      readBytes rd.world.dev.bFrameBuffer 0 8 = [0, 24, 0, 0, 0x07, 0, 0, 1] ∧
      readBytes rd.world.dev.bFrameBuffer 24 8 = [0, 44, 0, 0, 0xB2, 0, 0, 2] ∧
      readBytes rd.world.dev.bFrameBuffer 44 8 = [0, 60, 0, 0, 0x55, 0, 0, 3] :=
  have hok : IPOK exWorld := by
    unfold IPOK
    decide
  have hc : CmdFramesAt exThreeCmdBatch 0 [0, 24, 44] := by
    simp only [CmdFramesAt]
    decide
  have hv : (LCS_Write_dev exOpt exExt 4 exWorld 62 exThreeCmdBatch 0 {}).map
      (fun rd => (rd.world.dev.iFrameOffset, readBytes rd.world.dev.bFrameBuffer 0 8,
        readBytes rd.world.dev.bFrameBuffer 24 8, readBytes rd.world.dev.bFrameBuffer 44 8))
      = some (60, [0, 24, 0, 0, 0x07, 0, 0, 1], [0, 44, 0, 0, 0xB2, 0, 0, 2],
          [0, 60, 0, 0, 0x55, 0, 0, 3]) := by
    decide
  match C23_batch_order_of_replies exOpt exExt exWorld exThreeCmdBatch [0, 24, 44] 4 62 0 {}
      rfl rfl hok hc (by decide) with
  | ⟨h1, h2⟩ =>
    match h2 (by decide) (by decide) with
    | ⟨rd, hrd⟩ =>
      ⟨hok, hc, rd, hrd, (h1 rd hrd).1,
        by rw [hrd] at hv; exact congrArg (fun t => t.1) (Option.some.inj hv),
        by rw [hrd] at hv; exact congrArg (fun t => t.2.1) (Option.some.inj hv),
        by rw [hrd] at hv; exact congrArg (fun t => t.2.2.1) (Option.some.inj hv),
        by rw [hrd] at hv; exact congrArg (fun t => t.2.2.2) (Option.some.inj hv)⟩

/-! ### The ring only grows along an IP walk -/

/-- An IP command handler called on a healthy device, whatever the length of
the command frame: when it returns, the device is healthy, and the ring holds
what it held, and after that the reply. -/
theorem ip_handler_grow (opt : BuildOptions) (ext : Externals) (h : LCSHandler)
    (hh : isIpCmdHandler h) (a a2 : LCSWorld) (buf : Mem) (p n : Nat) (hok : IPOK a)
    (h2 : lcsHandler opt ext h a buf p n false = some a2) :
    IPOK a2 ∧ a2.dev.bMode = a.dev.bMode ∧ a.dev.iFrameOffset ≤ a2.dev.iFrameOffset ∧
    (∀ i, i < a.dev.iFrameOffset → a2.dev.bFrameBuffer i = a.dev.bFrameBuffer i) := by
  obtain ⟨hfd, hnc, hpb, hmax, hoff⟩ := hok
  obtain ⟨p1, p2, p3, p4, p5, p6, p7⟩ := ipPre_fields opt ext h a buf p
  obtain ⟨p7a, -⟩ := p7 hmax
  have l2 : ipLen ext h buf p n ≤ 408 := by
    cases h <;>
      simp only [ipLen, INIT_REPLY_FRAME_len, sizeof_LCSSTRTFRM, sizeof_LCSSTDFRM,
        sizeof_LCSQIPFRM, sizeof_LCSLSTFRM, sizeof_LCSIPMFRM] <;>
      omega
  have hN : ipLen ext h buf p n ≤ PTRDIFF_MAX := by
    simp only [PTRDIFF_MAX]
    omega
  have hs : replyFrameStart (ipPre opt ext h a buf p).dev false = a.dev.iFrameOffset := by
    simp [replyFrameStart, p3]
  rw [lcsHandler_ip opt ext h hh, Option.map_eq_some'] at h2
  obtain ⟨x, hx, rfl⟩ := h2
  obtain ⟨e1, -, e3, -, e5, -, -, -, e9, e10, -, -, -, -, e15, e16, -⟩ :=
    enqueue_reply_effect _ x _ _ false (by rw [p1]; exact hfd) (by rw [p2]; exact hnc)
      (by rw [p3]; exact hoff) p7a hN hx
  rw [hs] at e1
  rw [p3] at e3 e15
  obtain ⟨q1, q2, q3, q4, q5, q6, q7⟩ := ipPost_fields h a x
  have hsz : sizeof_bFrameBuffer < U16_MOD := by decide
  refine ⟨⟨?_, ?_, ?_, ?_, ?_⟩, ?_, ?_, ?_⟩
  · rw [q1, e10, p1]
    exact hfd
  · rw [q2, e10, p2]
    exact hnc
  · rw [q5, e16 rfl, p5]
    exact hpb
  · rw [q7, e5]
    exact p7a
  · rw [q3, e1]
    omega
  · rw [q6, e9, p6]
  · rw [q3, e1]
    omega
  · intro i hi
    rw [q4, e3 i hi, p4]

/-- One frame through the IP frame switch from a healthy device: if no handler
is held up afterwards, the device is healthy, and the ring holds what it held,
and at most a reply after that. -/
theorem frame_IP_grow (opt : BuildOptions) (ext : Externals) (a a2 : LCSWorld) (buf : Mem)
    (p n : Nat) (hok : IPOK a)
    (h : (LCS_Write_frame_IP (lcsEnv opt ext) (some a) buf p n).1 = some a2) :
    IPOK a2 ∧ a2.dev.bMode = a.dev.bMode ∧ a.dev.iFrameOffset ≤ a2.dev.iFrameOffset ∧
    (∀ i, i < a.dev.iFrameOffset → a2.dev.bFrameBuffer i = a.dev.bFrameBuffer i) := by
  unfold LCS_Write_frame_IP at h
  dsimp only at h
  split_ifs at h with h1 h0 hl
  · simp only [LCS_Write_eth, lcsEnv] at h
    split_ifs at h <;>
      (simp only [Option.some.injEq] at h
       subst h
       exact ⟨hok, rfl, le_refl _, fun _ _ => rfl⟩)
  · cases h
    exact ⟨hok, rfl, le_refl _, fun _ _ => rfl⟩
  · exact ip_handler_grow opt ext _ (ipHandler_isIpCmdHandler _) a a2 buf p n hok h
  · cases h
    exact ⟨hok, rfl, le_refl _, fun _ _ => rfl⟩

/-- Once a handler is held up, it is still held up after any frame. -/
theorem frame_IP_none (opt : BuildOptions) (ext : Externals) (buf : Mem) (p n : Nat) :
    (LCS_Write_frame_IP (lcsEnv opt ext) none buf p n).1 = none := by
  unfold LCS_Write_frame_IP
  dsimp only
  split_ifs
  · simp only [LCS_Write_eth, lcsEnv]
    split_ifs <;> rfl
  · rfl
  · rfl
  · rfl

/-- Once a handler is held up, it is still held up at every later loop state. -/
theorem after_none (opt : BuildOptions) (ext : Externals) :
    ∀ (d : Nat) (buf : Mem) (p : Nat) (s2 : Option LCSWorld) (buf2 : Mem) (p2 : Nat),
      LCS_Write_after (LCS_Write_frame_IP (lcsEnv opt ext)) 0 d none buf p = some (s2, buf2, p2) →
      s2 = none := by
  intro d
  induction d with
  | zero =>
    intro buf p s2 buf2 p2 h
    simp only [LCS_Write_after, Option.some.injEq, Prod.mk.injEq] at h
    exact h.1.symm
  | succ d ih =>
    intro buf p s2 buf2 p2 h
    rw [LCS_Write_after] at h
    dsimp only at h
    split_ifs at h with hz hv
    rw [frame_IP_none] at h
    exact ih _ _ _ _ _ h

/-- The loop state after `j + d` frames is the one reached in `d` frames from
the loop state after `j` frames. -/
theorem after_add {S : Type} (body : S → Mem → Nat → Nat → S × Mem × Bool) (start : Nat) :
    ∀ (j d : Nat) (s : S) (buf : Mem) (p : Nat),
      LCS_Write_after body start (j + d) s buf p
        = (LCS_Write_after body start j s buf p).bind
            (fun x => LCS_Write_after body start d x.1 x.2.1 x.2.2) := by
  intro j
  induction j with
  | zero =>
    intro d s buf p
    simp [LCS_Write_after]
  | succ j ih =>
    intro d s buf p
    have e : j + 1 + d = (j + d) + 1 := by omega
    rw [e, LCS_Write_after, LCS_Write_after]
    dsimp only
    split_ifs
    · rfl
    · exact ih d _ _ _
    · rfl

/-- From a healthy device, every loop state of the IP walk in which no handler
is held up has a healthy device whose ring holds what it held at the start,
and at most replies after that. -/
theorem after_grow (opt : BuildOptions) (ext : Externals) :
    ∀ (d : Nat) (a : LCSWorld) (buf : Mem) (p : Nat) (a2 : LCSWorld) (buf2 : Mem) (p2 : Nat),
      IPOK a →
      LCS_Write_after (LCS_Write_frame_IP (lcsEnv opt ext)) 0 d (some a) buf p
        = some (some a2, buf2, p2) →
      IPOK a2 ∧ a2.dev.bMode = a.dev.bMode ∧ a.dev.iFrameOffset ≤ a2.dev.iFrameOffset ∧
      (∀ i, i < a.dev.iFrameOffset → a2.dev.bFrameBuffer i = a.dev.bFrameBuffer i) := by
  intro d
  induction d with
  | zero =>
    intro a buf p a2 buf2 p2 hok h
    simp only [LCS_Write_after, Option.some.injEq, Prod.mk.injEq] at h
    obtain ⟨rfl, -, -⟩ := h
    exact ⟨hok, rfl, le_refl _, fun _ _ => rfl⟩
  | succ d ih =>
    intro a buf p a2 buf2 p2 hok h
    rw [LCS_Write_after] at h
    dsimp only at h
    split_ifs at h with hz hv
    cases hs : (LCS_Write_frame_IP (lcsEnv opt ext) (some a) buf (0 + p)
        ((FETCH_HW buf (0 + p) + U16_MOD - p) % U16_MOD)).1 with
    | none =>
      rw [hs] at h
      have := after_none opt ext d _ _ _ _ _ h
      cases this
    | some a1 =>
      rw [hs] at h
      obtain ⟨g1, g2, g3, g4⟩ := frame_IP_grow opt ext a a1 buf _ _ hok hs
      obtain ⟨i1, i2, i3, i4⟩ := ih a1 _ _ a2 buf2 p2 g1 h
      refine ⟨i1, by rw [i2, g2], by omega, ?_⟩
      intro i hi
      rw [i4 i (by omega)]
      exact g4 i hi

/-! ### C21: a frame of unknown type ends the Write, nothing is rolled back -/

/-- C21 as stated fails, in both halves.

First half.  `exTapFailBatch` has the frames 0 (type 0x01, at byte 0), 1 (type
0x00, Startup, at byte 22) and 2 (type 0x02, at byte 46), with offsets 22, 46
and 50.  On the host whose TAP write fails, `LCS_Write` returns from the
Ethernet case of frame 0 with equipment check and CE|DE|UC: frame 1 is not
processed, the ring is empty and the device not started, the only host call is
the TAP write.  (On the host whose TAP write succeeds the Startup reply is in
the ring and the device is started.)

Second half.  `exShortEthBatch` has a frame of type 0x01 at byte 0 and one of
type 0x00 at byte 8, and the TAP write succeeds (4 bytes written, 4 returned).
The zero source MAC the first frame would have in bytes 10..15 is replaced by
the port MAC plus one, which rewrites bytes 2..7 of the second frame; the walk
then reads the type 0x02 there, and `LCS_Write` returns with equipment check
and CE|DE|UC, not CE|DE. -/
theorem C21_walk_stops_before_unknown_type :
    (exTapFailBatch 2 = LCS_FRMTYP_ENET ∧ exTapFailBatch (22 + 2) = LCS_FRMTYP_CMD ∧
      exTapFailBatch (46 + 2) = 0x02 ∧ FETCH_HW exTapFailBatch 0 = 22 ∧
      FETCH_HW exTapFailBatch 22 = 46 ∧ FETCH_HW exTapFailBatch 46 = 50 ∧
      FETCH_HW exTapFailBatch 50 = 0 ∧
      (LCS_Write_dev exOpt exExtTapFails 4 exWorld 52 exTapFailBatch 0 {}).map
          (fun r => (r.sense0, r.status.unitStat, r.world.dev.iFrameOffset,
            r.world.dev.fDevStarted, r.world.hostCalls))
        = some (SENSE_EC, CSW_CE ||| CSW_DE ||| CSW_UC, 0, false,
            [HostCall.TUNTAP_Write [0xFF, 0xFF, 0xFF, 0xFF, 0xFF, 0xFF, 0x02, 0x00, 0x00, 0x00,
              0x00, 0x01, 0x08, 0x00, 0xDE, 0xAD, 0xBE, 0xEF]]) ∧
      (LCS_Write_dev exOpt exExt 4 exWorld 52 exTapFailBatch 0 {}).map
          (fun r => (r.sense0, r.status.unitStat, r.world.dev.iFrameOffset,
            r.world.dev.fDevStarted, readBytes r.world.dev.bFrameBuffer 0 8))
        = some (SENSE_EC, CSW_CE ||| CSW_DE ||| CSW_UC, 24, true, [0, 24, 0, 0, 7, 0, 0, 1])) ∧
    (exShortEthBatch 2 = LCS_FRMTYP_ENET ∧ exShortEthBatch (8 + 2) = LCS_FRMTYP_CMD ∧
      FETCH_HW exShortEthBatch 0 = 8 ∧ FETCH_HW exShortEthBatch 8 = 20 ∧
      FETCH_HW exShortEthBatch 20 = 0 ∧
      exExt.TUNTAP_Write [] [0xFF, 0xFF, 0xFF, 0xFF] = 4 ∧
      (LCS_Write_dev exOpt exExt 4 exWorldMAC 22 exShortEthBatch 0 {}).map
          (fun r => (r.sense0, r.status.unitStat, r.world.dev.iFrameOffset,
            readBytes r.pIOBuf 8 8, r.world.hostCalls))
        = some (SENSE_EC, CSW_CE ||| CSW_DE ||| CSW_UC, 0,
            [0x00, 0x14, 0x02, 0x00, 0x5E, 0x10, 0x20, 0x31],
            [HostCall.TUNTAP_Write [0xFF, 0xFF, 0xFF, 0xFF]]) ∧
      CSW_CE ||| CSW_DE ||| CSW_UC ≠ CSW_CE ||| CSW_DE) := by
  refine ⟨⟨?_, ?_, ?_, ?_, ?_, ?_, ?_, ?_, ?_⟩, ?_, ?_, ?_, ?_, ?_, ?_, ?_, ?_⟩ <;> decide

/-- **C21** amended (a frame of unknown type ends the Write without rollback).
Let the IP walk of `LCS_Write` have taken `k` frames through the frame switch
with no handler held up, which leaves the state `a2`, the guest buffer `buf2`
and the offset `p2`.  Then:

1. if the frame at `p2` has a non-zero offset field and a type, as the walk
   reads it there, other than 0x00 and 0x01, `LCS_Write` returns (any fuel above
   `k`) with sense byte 0 equipment check and unit status CE|DE|UC, in exactly
   the state `a2`: what the `k` frames did stands, the frame at `p2` and the
   frames behind it are not processed;
2. if the offset field at `p2` is zero, `LCS_Write` returns with CE|DE,
   residual 0 and sense byte 0 untouched, in the state `a2`;
3. each of the `k` frames was reached with a non-zero offset field and was not
   rejected by the frame switch (its type, as read then, was 0x00 or 0x01, and
   for 0x01 the TAP write returned the frame length), the next loop state is the
   result of the frame switch on it, and, from a healthy device, the ring it
   was reached with is still there in `a2`, with at most replies behind. -/
theorem C21_unknown_type_aborts_without_rollback (opt : BuildOptions) (ext : Externals)
    (a a2 : LCSWorld) (B buf2 : Mem) (k p2 sCount sense0 : Nat) (st : CCWStatus)
    (hmode : a.dev.bMode = LCSDEV_MODE_IP)
    (hk : LCS_Write_after (LCS_Write_frame_IP (lcsEnv opt ext)) 0 k (some a) B 0
      = some (some a2, buf2, p2)) :
    (FETCH_HW buf2 p2 ≠ 0 → buf2 (p2 + 2) ≠ LCS_FRMTYP_CMD → buf2 (p2 + 2) ≠ LCS_FRMTYP_ENET →
      ∀ fuel, k < fuel →
        LCS_Write_dev opt ext fuel a sCount B sense0 st
          = some { world := a2, pIOBuf := buf2, sense0 := SENSE_EC,
                   status := { st with unitStat := CSW_CE ||| CSW_DE ||| CSW_UC } }) ∧
    (FETCH_HW buf2 p2 = 0 →
      ∀ fuel, k < fuel →
        LCS_Write_dev opt ext fuel a sCount B sense0 st
          = some { world := a2, pIOBuf := buf2, sense0 := sense0,
                   status := { st with residual := 0, unitStat := CSW_CE ||| CSW_DE } }) ∧
    (∀ j, j < k → ∃ aj bj pj,
      LCS_Write_after (LCS_Write_frame_IP (lcsEnv opt ext)) 0 j (some a) B 0
        = some (some aj, bj, pj) ∧
      FETCH_HW bj pj ≠ 0 ∧
      ¬ frameRejected (lcsEnv opt ext) true (some aj) bj pj
          ((FETCH_HW bj pj + U16_MOD - pj) % U16_MOD) ∧
      LCS_Write_after (LCS_Write_frame_IP (lcsEnv opt ext)) 0 (j + 1) (some a) B 0
        = some ((LCS_Write_frame_IP (lcsEnv opt ext) (some aj) bj pj
                  ((FETCH_HW bj pj + U16_MOD - pj) % U16_MOD)).1,
                (LCS_Write_frame_IP (lcsEnv opt ext) (some aj) bj pj
                  ((FETCH_HW bj pj + U16_MOD - pj) % U16_MOD)).2.1,
                FETCH_HW bj pj) ∧
      (IPOK a → aj.dev.iFrameOffset ≤ a2.dev.iFrameOffset ∧
        ∀ i, i < aj.dev.iFrameOffset → a2.dev.bFrameBuffer i = aj.dev.bFrameBuffer i)) := by
  have hwalk : ∀ fuel, k < fuel →
      LCS_Write (lcsEnv opt ext) fuel (some a) sCount B sense0 st
        = (LCS_Write_walk (LCS_Write_frame_IP (lcsEnv opt ext)) 0 (fuel - k - 1 + 1) (some a2)
            buf2 p2).map (LCS_Write_finish sense0 st) := by
    intro fuel hf
    unfold LCS_Write
    rw [if_pos (show (lcsEnv opt ext).bMode (some a) = LCSDEV_MODE_IP from hmode)]
    have e : fuel = k + (fuel - k - 1 + 1) := by omega
    conv_lhs => rw [e]
    rw [walk_after _ _ k _ _ _ _ _ _ _ hk]
  refine ⟨?_, ?_, ?_⟩
  · intro hz h0 h1 fuel hf
    unfold LCS_Write_dev
    rw [hwalk fuel hf]
    simp only [LCS_Write_walk, Nat.zero_add, if_neg hz, LCS_Write_frame_IP, if_neg h0,
      if_neg h1]
    rfl
  · intro hz fuel hf
    unfold LCS_Write_dev
    rw [hwalk fuel hf]
    simp only [LCS_Write_walk, Nat.zero_add, if_pos hz]
    rfl
  · intro j hj
    obtain ⟨d, rfl⟩ : ∃ d, k = j + (d + 1) := ⟨k - j - 1, by omega⟩
    rw [after_add] at hk
    cases hx : LCS_Write_after (LCS_Write_frame_IP (lcsEnv opt ext)) 0 j (some a) B 0 with
    | none =>
      rw [hx] at hk
      cases hk
    | some x =>
      obtain ⟨sj, bj, pj⟩ := x
      rw [hx, Option.some_bind] at hk
      dsimp only at hk
      have hk2 := hk
      rw [LCS_Write_after] at hk
      dsimp only at hk
      rw [Nat.zero_add] at hk
      split_ifs at hk with hz hv
      cases hs : sj with
      | none =>
        rw [hs] at hk2
        have := after_none opt ext _ _ _ _ _ _ hk2
        cases this
      | some aj =>
        subst hs
        refine ⟨aj, bj, pj, rfl, hz, ?_, ?_, ?_⟩
        · rw [← frame_IP_rejected]
          simp [hv]
        · rw [after_succ _ _ j _ _ _ _ _ _ hx, LCS_Write_after]
          dsimp only
          rw [Nat.zero_add, if_neg hz, if_pos hv]
          rfl
        · intro hok
          obtain ⟨g1, -, -, -⟩ := after_grow opt ext j a B 0 aj bj pj hok hx
          obtain ⟨-, -, g3, g4⟩ := after_grow opt ext (d + 1) aj bj pj a2 buf2 p2 g1 hk2
          exact ⟨g3, g4⟩

/-- C21 amended, on `exTapFailBatch` and the host whose TAP write succeeds: after
two frames the walk stands at byte 46, before the frame of type 0x02; `LCS_Write`
returns with equipment check in the state reached there, with the 24 bytes of
the Startup reply in the ring and the device started. -/
theorem C21_unknown_type_aborts_without_rollback_witness :
    ∃ a2 buf2,
      LCS_Write_after (LCS_Write_frame_IP (lcsEnv exOpt exExt)) 0 2 (some exWorld)
        exTapFailBatch 0 = some (some a2, buf2, 46) ∧
      LCS_Write_dev exOpt exExt 4 exWorld 52 exTapFailBatch 0 {}
        = some { world := a2, pIOBuf := buf2, sense0 := SENSE_EC,
                 status := { unitStat := CSW_CE ||| CSW_DE ||| CSW_UC } } ∧
      a2.dev.iFrameOffset = 24 ∧ a2.dev.fDevStarted = true := by
  have hv : (LCS_Write_after (LCS_Write_frame_IP (lcsEnv exOpt exExt)) 0 2 (some exWorld)
      exTapFailBatch 0).bind (fun x => x.1.map (fun y =>
        (x.2.2, x.2.1 (46 + 2), FETCH_HW x.2.1 46, y.dev.iFrameOffset, y.dev.fDevStarted)))
      = some (46, 2, 50, 24, true) := by
    decide
  cases hx : LCS_Write_after (LCS_Write_frame_IP (lcsEnv exOpt exExt)) 0 2 (some exWorld)
      exTapFailBatch 0 with
  | none =>
    rw [hx] at hv
    cases hv
  | some x =>
    obtain ⟨s2, buf2, p2⟩ := x
    rw [hx, Option.some_bind] at hv
    cases s2 with
    | none => cases hv
    | some a2 =>
      simp only [Option.map_some', Option.some.injEq, Prod.mk.injEq] at hv
      obtain ⟨rfl, h2, h3, h4, h5⟩ := hv
      exact ⟨a2, buf2, rfl,
        (C21_unknown_type_aborts_without_rollback exOpt exExt exWorld a2 exTapFailBatch buf2 2
          46 52 0 {} rfl hx).1 (by rw [h3]; decide) (by rw [h2]; decide) (by rw [h2]; decide)
          4 (by decide),
        h4, h5⟩


/-! ### C35: frames of an EtherType without a branch in the scan -/

/-- For an EtherType the scan has no branch for, the scan leaves its three
device pointers as they are. -/
theorem scan_no_branch (port : LCSPORT) (szBuff : Mem) (t : Nat)
    (h : ∀ dev, LCS_PortThread_match port szBuff t dev = none) :
    ∀ (devices : List LCSDEV) (i : Nat) (s : PortScan),
      LCS_PortThread_scan port szBuff t devices i s = s := by
  intro devices
  induction devices with
  | nil =>
    intro i s
    rfl
  | cons dev rest ih =>
    intro i s
    simp only [LCS_PortThread_scan, h dev]
    split_ifs
    · exact ih _ _
    · exact ih _ _

/-- **C35** (EtherTypes that are neither IPv4, ARP, RARP nor SNA).  For every
inbound frame whose EtherType (bytes 12..13) is at least 0x0600 and is none of
0x0800, 0x0806, 0x8035 and 0x80D5, whatever the port and its list of devices
(primary, secondary, started or not): the scan of `LCS_PortThread` finds no
exact match and records neither a primary nor a secondary device, the selection
that follows yields no device, and the pass calls `LCS_EnqueueEthFrame` for no
device; on an open, started port a frame that was read and passes the multicast
filter is dropped (`continue`). -/
theorem C35_other_ethertypes_dropped (ext : Externals) (port : LCSPORT)
    (devices : List LCSDEV) (iLength : Int) (szBuff : Mem)
    (hge : ETH_TYPE ≤ FETCH_HW szBuff 12)
    (hip : FETCH_HW szBuff 12 ≠ ETH_TYPE_IP) (harp : FETCH_HW szBuff 12 ≠ ETH_TYPE_ARP)
    (hrarp : FETCH_HW szBuff 12 ≠ ETH_TYPE_RARP) (hsna : FETCH_HW szBuff 12 ≠ ETH_TYPE_SNA) :
    LCS_PortThread_scan port szBuff (FETCH_HW szBuff 12) devices 0 {} = {} ∧
    LCS_PortThread_select devices
      (LCS_PortThread_scan port szBuff (FETCH_HW szBuff 12) devices 0 {}) = none ∧
    (∀ i, LCS_PortThread_step ext port devices iLength szBuff ≠ PortStep.enqueue i) ∧
    (0 ≤ port.fd → port.fCloseInProgress = false → port.fPortStarted = true → 0 < iLength →
      LCS_PortThread_step ext port devices iLength szBuff = PortStep.next) := by
  have hm : ∀ dev, LCS_PortThread_match port szBuff (FETCH_HW szBuff 12) dev = none := by
    intro dev
    unfold LCS_PortThread_match
    rw [if_pos hge, if_neg hip, if_neg harp, if_neg hrarp, if_neg hsna]
  have hscan := scan_no_branch port szBuff _ hm devices 0 {}
  have hsel : LCS_PortThread_select devices
      (LCS_PortThread_scan port szBuff (FETCH_HW szBuff 12) devices 0 {}) = none := by
    rw [hscan]
    rfl
  refine ⟨hscan, hsel, ?_, ?_⟩
  · intro i
    unfold LCS_PortThread_step
    dsimp only
    rw [hsel]
    split_ifs <;> simp
  · intro hfd hnc hst hlen
    unfold LCS_PortThread_step
    dsimp only
    rw [hsel]
    have h1 : ¬ ¬ (port.fd < 0 ∨ port.fCloseInProgress = true ∨ port.fPortStarted = true) :=
      fun h => h (Or.inr (Or.inr hst))
    have h2 : ¬ (port.fd < 0 ∨ port.fCloseInProgress = true) := by
      rintro (h | h)
      · omega
      · rw [hnc] at h
        cases h
    have h3 : ¬ iLength = 0 := by omega
    have h4 : ¬ iLength < 0 := by omega
    rw [if_neg h1, if_neg h2, if_neg h3, if_neg h4]
    split_ifs <;> rfl

/-- C35 on the example port with a started primary device: the IPv6 frame
`exIPv6Frame` is dropped. -/
theorem C35_other_ethertypes_dropped_witness :
    FETCH_HW exIPv6Frame 12 = 0x86DD ∧
    LCS_PortThread_step exExt exPortNoMCast [exDevPrimary] 54 exIPv6Frame = PortStep.next :=
  ⟨by decide,
    (C35_other_ethertypes_dropped exExt exPortNoMCast [exDevPrimary] 54 exIPv6Frame
      (by decide) (by decide) (by decide) (by decide) (by decide)).2.2.2
      (by decide) rfl rfl (by decide)⟩

/-! ### C37: room for the terminator -/

/-- **C37** (room for the terminator).  On a device whose `iFrameOffset` is a
`U16`: after every successful `LCS_DoEnqueueEthFrame`, and after every
successful `LCS_DoEnqueueReplyFrame` that reserves no baffle (the size being
the size of a C object), `iFrameOffset + 2 <= iMaxFrameBufferSize`, with
`iMaxFrameBufferSize` unchanged; and for every device with that room, the two
zero bytes `LCS_Read` stores at `iFrameOffset` lie below `iMaxFrameBufferSize`:
from `iMaxFrameBufferSize` on the frame buffer is as it was. -/
theorem C37_room_for_terminator (dev : LCSDEV) (hoff : dev.iFrameOffset < U16_MOD) :
    (∀ bPort pData iSize, (LCS_DoEnqueueEthFrame dev bPort pData iSize).rc = 0 →
      (LCS_DoEnqueueEthFrame dev bPort pData iSize).dev.iFrameOffset + 2
        ≤ (LCS_DoEnqueueEthFrame dev bPort pData iSize).dev.iMaxFrameBufferSize ∧
      (LCS_DoEnqueueEthFrame dev bPort pData iSize).dev.iMaxFrameBufferSize
        = dev.iMaxFrameBufferSize) ∧
    (∀ pReply iSize bBafflePres, iSize ≤ PTRDIFF_MAX →
      ¬ (dev.iFrameOffset = 0 ∧ bBafflePres = true) →
      (LCS_DoEnqueueReplyFrame dev pReply iSize bBafflePres).rc = 0 →
      (LCS_DoEnqueueReplyFrame dev pReply iSize bBafflePres).dev.iFrameOffset + 2
        ≤ (LCS_DoEnqueueReplyFrame dev pReply iSize bBafflePres).dev.iMaxFrameBufferSize ∧
      (LCS_DoEnqueueReplyFrame dev pReply iSize bBafflePres).dev.iMaxFrameBufferSize
        = dev.iMaxFrameBufferSize) ∧
    (dev.iFrameOffset + 2 ≤ dev.iMaxFrameBufferSize →
      ∀ sCount pIOBuf st i, dev.iMaxFrameBufferSize ≤ i →
        (LCS_Read_drain dev sCount pIOBuf st).dev.bFrameBuffer i = dev.bFrameBuffer i) := by
  refine ⟨?_, ?_, ?_⟩
  · intro bPort pData iSize hrc
    unfold LCS_DoEnqueueEthFrame at hrc ⊢
    by_cases h1 : iSize > MAX_LCS_ETH_FRAME_SIZE dev ∨ iSize > 9000
    · rw [if_pos h1] at hrc
      simp at hrc
    · rw [if_neg h1] at hrc ⊢
      by_cases h2 : (dev.iFrameOffset + sizeof_LCSETHFRM + iSize + sizeof_hwOffset) % SIZE_T_MOD
          > dev.iMaxFrameBufferSize
      · rw [if_pos h2] at hrc
        simp at hrc
      · rw [if_neg h2]
        dsimp only
        refine ⟨?_, rfl⟩
        simp only [sizeof_LCSETHFRM, sizeof_hwOffset, SIZE_T_MOD, U16_MOD, not_or, not_lt,
          gt_iff_lt] at *
        omega
  · intro pReply iSize b hsz hnr hrc
    unfold LCS_DoEnqueueReplyFrame at hrc ⊢
    by_cases h2 : (dev.iFrameOffset + iSize + sizeof_hwOffset) % SIZE_T_MOD
        > dev.iMaxFrameBufferSize
    · rw [if_pos h2] at hrc
      simp at hrc
    · rw [if_neg h2, if_neg hnr]
      dsimp only
      refine ⟨?_, rfl⟩
      simp only [sizeof_hwOffset, SIZE_T_MOD, U16_MOD, PTRDIFF_MAX, not_lt, gt_iff_lt] at *
      omega
  · intro hroom sCount pIOBuf st i hi
    unfold LCS_Read_drain
    dsimp only
    split_ifs
    · rw [STORE_HW_other _ _ _ _ (by omega) (by omega),
        STORE_HW_other _ _ _ _ (by omega) (by omega)]
    · rw [STORE_HW_other _ _ _ _ (by omega) (by omega)]

/-- C37 on the example device with a 24-byte reply pending: an Ethernet frame
of 60 bytes is taken and leaves room for the terminator. -/
theorem C37_room_for_terminator_witness :
    (LCS_DoEnqueueEthFrame exDevPending 0 exIPFrame 60).rc = 0 ∧
    (LCS_DoEnqueueEthFrame exDevPending 0 exIPFrame 60).dev.iFrameOffset + 2
      ≤ (LCS_DoEnqueueEthFrame exDevPending 0 exIPFrame 60).dev.iMaxFrameBufferSize :=
  ⟨by decide,
    ((C37_room_for_terminator exDevPending (by decide)).1 0 exIPFrame 60 (by decide)).1⟩

/-! ### C32: basic and extended mode -/

/-- **C32** (basic and extended mode).  For a CCW that is not refused for a
closed device (the device is open, or the code counts as a control code):
Set Basic Mode (0x43) in extended mode (`ctcxmode` not 0) sets `ctcxmode` to 0
and returns CE|DE with residual 0; Set Basic Mode in basic mode returns
CE|DE|UC with sense byte 0 command reject and leaves `ctcxmode` at 0; Set
Extended Mode (0xC3) sets `ctcxmode` to 1 and returns CE|DE with residual 0
whatever the mode.  None of them touches the LCS device or the I/O buffer. -/
theorem C32_basic_extended_mode (opt : BuildOptions) (ext : Externals) (fuel : Nat)
    (wakes : List (LCSDEV → LCSDEV)) (blk : DEVBLK) (w : LCSWorld) (sCount : Nat)
    (pIOBuf : Mem) (st : CCWStatus)
    (h43 : 0 ≤ blk.fd ∨ ext.IS_CCW_SENSE 0x43 = true ∨ ext.IS_CCW_CONTROL 0x43 = true)
    (hC3 : 0 ≤ blk.fd ∨ ext.IS_CCW_SENSE 0xC3 = true ∨ ext.IS_CCW_CONTROL 0xC3 = true) :
    (blk.ctcxmode ≠ 0 →
      LCS_ExecuteCCW opt ext fuel wakes blk w 0x43 sCount pIOBuf st
        = some { blk := { blk with ctcxmode := 0 }, world := w, pIOBuf := pIOBuf,
                 status := { st with residual := 0, unitStat := CSW_CE ||| CSW_DE } }) ∧
    (blk.ctcxmode = 0 →
      LCS_ExecuteCCW opt ext fuel wakes blk w 0x43 sCount pIOBuf st
        = some { blk := { blk with sense := storeByte blk.sense 0 SENSE_CR }, world := w,
                 pIOBuf := pIOBuf,
                 status := { st with unitStat := CSW_CE ||| CSW_DE ||| CSW_UC } }) ∧
    LCS_ExecuteCCW opt ext fuel wakes blk w 0xC3 sCount pIOBuf st
      = some { blk := { blk with ctcxmode := 1 }, world := w, pIOBuf := pIOBuf,
               status := { st with residual := 0, unitStat := CSW_CE ||| CSW_DE } } := by
  have g43 : ¬ (blk.fd < 0 ∧ ext.IS_CCW_SENSE 0x43 = false ∧ ext.IS_CCW_CONTROL 0x43 = false) := by
    rintro ⟨a, b, c⟩
    rcases h43 with h | h | h
    · omega
    · rw [b] at h
      cases h
    · rw [c] at h
      cases h
  have gC3 : ¬ (blk.fd < 0 ∧ ext.IS_CCW_SENSE 0xC3 = false ∧ ext.IS_CCW_CONTROL 0xC3 = false) := by
    rintro ⟨a, b, c⟩
    rcases hC3 with h | h | h
    · omega
    · rw [b] at h
      cases h
    · rw [c] at h
      cases h
  have o43 : ∀ m, LCS_ExecuteCCW_opcode 0x43 m = 0x43 := by
    intro m
    unfold LCS_ExecuteCCW_opcode
    rw [if_neg (by decide), if_neg (by decide), if_neg (by decide), if_neg (by decide),
      if_neg (by decide), if_neg (by decide), if_pos (by decide)]
  have oC3 : ∀ m, LCS_ExecuteCCW_opcode 0xC3 m = 0xC3 := by
    intro m
    unfold LCS_ExecuteCCW_opcode
    rw [if_neg (by decide), if_neg (by decide), if_neg (by decide), if_neg (by decide),
      if_neg (by decide), if_neg (by decide), if_neg (by decide)]
  refine ⟨?_, ?_, ?_⟩
  · intro hx
    unfold LCS_ExecuteCCW
    rw [if_neg g43]
    simp only [o43]
    simp [hx]
  · intro hx
    unfold LCS_ExecuteCCW
    rw [if_neg g43]
    simp only [o43]
    simp [hx]
  · unfold LCS_ExecuteCCW
    rw [if_neg gC3]
    simp only [oC3]
    simp

/-- C32 on the example device blocks: Set Basic Mode in extended mode, Set Basic
Mode in basic mode, Set Extended Mode in basic mode. -/
theorem C32_basic_extended_mode_witness :
    (LCS_ExecuteCCW exOpt exExt 1 [] exBlkExtended exWorld 0x43 0 exS1Batch {}).map
        (fun r => (r.blk.ctcxmode, r.status)) = some (0, { unitStat := CSW_CE ||| CSW_DE }) ∧
    (LCS_ExecuteCCW exOpt exExt 1 [] exBlk exWorld 0x43 0 exS1Batch {}).map
        (fun r => (r.blk.ctcxmode, r.blk.sense 0, r.status))
      = some (0, SENSE_CR, { unitStat := CSW_CE ||| CSW_DE ||| CSW_UC }) ∧
    (LCS_ExecuteCCW exOpt exExt 1 [] exBlk exWorld 0xC3 0 exS1Batch {}).map
        (fun r => (r.blk.ctcxmode, r.status)) = some (1, { unitStat := CSW_CE ||| CSW_DE }) :=
  ⟨by rw [(C32_basic_extended_mode exOpt exExt 1 [] exBlkExtended exWorld 0 exS1Batch {}
        (Or.inl (by decide)) (Or.inl (by decide))).1 (by decide)]; rfl,
   by rw [(C32_basic_extended_mode exOpt exExt 1 [] exBlk exWorld 0 exS1Batch {}
        (Or.inl (by decide)) (Or.inl (by decide))).2.1 rfl]; rfl,
   by rw [(C32_basic_extended_mode exOpt exExt 1 [] exBlk exWorld 0 exS1Batch {}
        (Or.inl (by decide)) (Or.inl (by decide))).2.2]; rfl⟩

/-! ### C36: the frame walk ends -/

/-- One step of the loop state: from the state after `k` frames to the state
after `k + 1` frames. -/
theorem after_step {S : Type} (body : S → Mem → Nat → Nat → S × Mem × Bool) (start : Nat)
    (k : Nat) (s0 : S) (buf0 : Mem) (p0 : Nat) (s : S) (buf : Mem) (p : Nat)
    (h : LCS_Write_after body start k s0 buf0 p0 = some (s, buf, p)) :
    LCS_Write_after body start (k + 1) s0 buf0 p0
      = if FETCH_HW buf (start + p) = 0 then none
        else if (body s buf (start + p)
            ((FETCH_HW buf (start + p) + U16_MOD - p) % U16_MOD)).2.2 = true then
          some ((body s buf (start + p)
              ((FETCH_HW buf (start + p) + U16_MOD - p) % U16_MOD)).1,
            (body s buf (start + p)
              ((FETCH_HW buf (start + p) + U16_MOD - p) % U16_MOD)).2.1,
            FETCH_HW buf (start + p))
        else none := by
  rw [after_succ body start k s0 buf0 p0 s buf p h]
  simp only [LCS_Write_after]

/-- The loop states before a loop state exist. -/
theorem after_prefix {S : Type} (body : S → Mem → Nat → Nat → S × Mem × Bool) (start : Nat)
    (j d : Nat) (s0 : S) (buf0 : Mem) (p0 : Nat) (x : S × Mem × Nat)
    (h : LCS_Write_after body start (j + d) s0 buf0 p0 = some x) :
    ∃ y, LCS_Write_after body start j s0 buf0 p0 = some y := by
  rw [after_add] at h
  cases hy : LCS_Write_after body start j s0 buf0 p0 with
  | none =>
    rw [hy] at h
    cases h
  | some y => exact ⟨y, rfl⟩

/-- While the loop is running the walk has not returned. -/
theorem walk_running {S : Type} (body : S → Mem → Nat → Nat → S × Mem × Bool) (start : Nat)
    (k : Nat) (s0 : S) (buf0 : Mem) (p0 : Nat) (x : S × Mem × Nat)
    (h : LCS_Write_after body start k s0 buf0 p0 = some x) :
    LCS_Write_walk body start k s0 buf0 p0 = none := by
  obtain ⟨s, buf, p⟩ := x
  have := walk_after body start k 0 s0 buf0 p0 s buf p h
  rw [Nat.add_zero] at this
  rw [this]
  rfl

/-- When every frame the walk reaches has an offset field that is zero or
greater than the frame's own start, the loop state after `k` frames stands at
an offset of at least `k`, which is a `U16`. -/
theorem after_offset {S : Type} (body : S → Mem → Nat → Nat → S × Mem × Bool) (start : Nat)
    (s0 : S) (buf0 : Mem)
    (hinc : ∀ k s buf p, LCS_Write_after body start k s0 buf0 0 = some (s, buf, p) →
      FETCH_HW buf (start + p) = 0 ∨ p < FETCH_HW buf (start + p)) :
    ∀ k s buf p, LCS_Write_after body start k s0 buf0 0 = some (s, buf, p) →
      k ≤ p ∧ p < U16_MOD := by
  intro k
  induction k with
  | zero =>
    intro s buf p h
    simp only [LCS_Write_after, Option.some.injEq, Prod.mk.injEq] at h
    obtain ⟨-, -, rfl⟩ := h
    exact ⟨le_refl _, by decide⟩
  | succ k ih =>
    intro s buf p h
    obtain ⟨y, hy⟩ := after_prefix body start k 1 s0 buf0 0 _ h
    obtain ⟨s1, buf1, p1⟩ := y
    obtain ⟨i1, -⟩ := ih s1 buf1 p1 hy
    rw [after_step body start k s0 buf0 0 s1 buf1 p1 hy] at h
    split_ifs at h with hz hv
    simp only [Option.some.injEq, Prod.mk.injEq] at h
    obtain ⟨-, -, rfl⟩ := h
    rcases hinc k s1 buf1 p1 hy with h0 | hlt
    · exact absurd h0 hz
    · exact ⟨by omega, FETCH_HW_lt _ _⟩

/-- The walk returns at the first loop state from which no further frame is
taken: with any fuel above the number of frames taken before. -/
theorem walk_ends {S : Type} (body : S → Mem → Nat → Nat → S × Mem × Bool) (start : Nat)
    (n : Nat) (s0 : S) (buf0 : Mem) (p0 : Nat) (s : S) (buf : Mem) (p : Nat)
    (h : LCS_Write_after body start n s0 buf0 p0 = some (s, buf, p))
    (hn : LCS_Write_after body start (n + 1) s0 buf0 p0 = none) :
    ∃ r, ∀ fuel, n < fuel → LCS_Write_walk body start fuel s0 buf0 p0 = some r := by
  rw [after_step body start n s0 buf0 p0 s buf p h] at hn
  by_cases hz : FETCH_HW buf (start + p) = 0
  · refine ⟨⟨s, buf, true, p⟩, ?_⟩
    intro fuel hf
    obtain ⟨f, rfl⟩ : ∃ f, fuel = n + (f + 1) := ⟨fuel - n - 1, by omega⟩
    rw [walk_after body start n (f + 1) s0 buf0 p0 s buf p h]
    simp only [LCS_Write_walk, if_pos hz]
  · rw [if_neg hz] at hn
    have hv : ¬ (body s buf (start + p)
        ((FETCH_HW buf (start + p) + U16_MOD - p) % U16_MOD)).2.2 = true := by
      intro hv
      rw [if_pos hv] at hn
      cases hn
    refine ⟨⟨(body s buf (start + p)
        ((FETCH_HW buf (start + p) + U16_MOD - p) % U16_MOD)).1,
      (body s buf (start + p)
        ((FETCH_HW buf (start + p) + U16_MOD - p) % U16_MOD)).2.1, false, p⟩, ?_⟩
    intro fuel hf
    obtain ⟨f, rfl⟩ : ∃ f, fuel = n + (f + 1) := ⟨fuel - n - 1, by omega⟩
    rw [walk_after body start n (f + 1) s0 buf0 p0 s buf p h]
    simp only [LCS_Write_walk, if_neg hz, if_neg hv]

/-- A walk whose offsets rise takes at most 65535 frames through the frame
switch before the loop state from which it returns. -/
theorem walk_bound {S : Type} (body : S → Mem → Nat → Nat → S × Mem × Bool) (start : Nat)
    (s0 : S) (buf0 : Mem)
    (hinc : ∀ k s buf p, LCS_Write_after body start k s0 buf0 0 = some (s, buf, p) →
      FETCH_HW buf (start + p) = 0 ∨ p < FETCH_HW buf (start + p)) :
    ∃ n r, n ≤ 65535 ∧
      (∀ fuel, n < fuel → LCS_Write_walk body start fuel s0 buf0 0 = some r) ∧
      (∀ fuel, fuel ≤ n → LCS_Write_walk body start fuel s0 buf0 0 = none) := by
  have hex : ∃ m, LCS_Write_after body start (m + 1) s0 buf0 0 = none := by
    refine ⟨65535, ?_⟩
    cases hx : LCS_Write_after body start (65535 + 1) s0 buf0 0 with
    | none => rfl
    | some x =>
      obtain ⟨s, buf, p⟩ := x
      obtain ⟨i1, i2⟩ := after_offset body start s0 buf0 hinc _ s buf p hx
      simp only [U16_MOD] at i2
      omega
  classical
  let n := Nat.find hex
  have hn : LCS_Write_after body start (n + 1) s0 buf0 0 = none := Nat.find_spec hex
  have hsome : ∀ j, j ≤ n → ∃ y, LCS_Write_after body start j s0 buf0 0 = some y := by
    intro j hj
    rcases Nat.eq_zero_or_pos j with h0 | hpos
    · subst h0
      exact ⟨_, rfl⟩
    · obtain ⟨i, rfl⟩ : ∃ i, j = i + 1 := ⟨j - 1, by omega⟩
      have hmin : ¬ LCS_Write_after body start (i + 1) s0 buf0 0 = none :=
        Nat.find_min hex (show i < n by omega)
      cases hy : LCS_Write_after body start (i + 1) s0 buf0 0 with
      | none => exact absurd hy hmin
      | some y => exact ⟨y, rfl⟩
  obtain ⟨y, hy⟩ := hsome n (le_refl _)
  obtain ⟨s, buf, p⟩ := y
  obtain ⟨i1, i2⟩ := after_offset body start s0 buf0 hinc n s buf p hy
  obtain ⟨r, hr⟩ := walk_ends body start n s0 buf0 0 s buf p hy hn
  refine ⟨n, r, ?_, hr, ?_⟩
  · simp only [U16_MOD] at i2
    omega
  · intro fuel hf
    obtain ⟨z, hz⟩ := hsome fuel hf
    exact walk_running body start fuel s0 buf0 0 z hz

/-- A walk is known to have rising offsets once the loop states up to the one
at which it ends have been checked. -/
theorem rising_of_checks {S : Type} (body : S → Mem → Nat → Nat → S × Mem × Bool)
    (start : Nat) (s0 : S) (buf0 : Mem) (N : Nat)
    (hN : (LCS_Write_after body start N s0 buf0 0).isNone = true)
    (hc : ∀ k, k < N → (LCS_Write_after body start k s0 buf0 0).all
      (fun x => decide (FETCH_HW x.2.1 (start + x.2.2) = 0 ∨
        x.2.2 < FETCH_HW x.2.1 (start + x.2.2))) = true) :
    ∀ k s buf p, LCS_Write_after body start k s0 buf0 0 = some (s, buf, p) →
      FETCH_HW buf (start + p) = 0 ∨ p < FETCH_HW buf (start + p) := by
  intro k s buf p h
  by_cases hk : k < N
  · have := hc k hk
    rw [h] at this
    simpa using this
  · obtain ⟨d, rfl⟩ : ∃ d, k = N + d := ⟨k - N, by omega⟩
    rw [after_add, Option.isNone_iff_eq_none.mp hN] at h
    cases h

/-- **C36** (the frame walk ends).  For every input, in IP and in SNA mode and
whatever the handlers and the host do: if every frame the walk of `LCS_Write`
reaches has an offset field that is zero or greater than the frame's own start
offset, then the `while (1)` loop ends.  There is a number `n` of at most 65535
such that the loop takes `n` frames through the frame switch and then, in its
next iteration, reads a zero offset or gives up on the frame: `LCS_Write`
returns, with the same result, for every fuel above `n` (65536 iterations are
always enough), and has not returned after `n` iterations or fewer. -/
theorem C36_frame_walk_terminates {W : Type} (env : LCSWriteEnv W) (w : W) (sCount : Nat)
    (pIOBuf : Mem) (sense0 : Nat) (st : CCWStatus)
    (hinc : ∀ k s buf p,
      LCS_Write_after (LCS_Write_body env w sCount pIOBuf)
        (LCS_Write_start env w sCount pIOBuf) k w pIOBuf 0 = some (s, buf, p) →
      FETCH_HW buf (LCS_Write_start env w sCount pIOBuf + p) = 0 ∨
        p < FETCH_HW buf (LCS_Write_start env w sCount pIOBuf + p)) :
    ∃ n r, n ≤ 65535 ∧
      (∀ fuel, n < fuel → LCS_Write env fuel w sCount pIOBuf sense0 st = some r) ∧
      (∀ fuel, fuel ≤ n → LCS_Write env fuel w sCount pIOBuf sense0 st = none) ∧
      LCS_Write env 65536 w sCount pIOBuf sense0 st = some r := by
  obtain ⟨n, r, h1, h2, h3⟩ := walk_bound (LCS_Write_body env w sCount pIOBuf)
    (LCS_Write_start env w sCount pIOBuf) w pIOBuf hinc
  refine ⟨n, LCS_Write_finish sense0 st r, h1, ?_, ?_, ?_⟩
  · intro fuel hf
    rw [LCS_Write_eq, h2 fuel hf]
    rfl
  · intro fuel hf
    rw [LCS_Write_eq, h3 fuel hf]
    rfl
  · rw [LCS_Write_eq, h2 65536 (by omega)]
    rfl

/-- C36 on the example device: the 62-byte Write of three command frames has
rising offsets (24, 44, 60, then zero), and the walk returns. -/
theorem C36_frame_walk_terminates_witness :
    ∃ n r, n ≤ 65535 ∧
      (∀ fuel, n < fuel →
        LCS_Write (lcsEnv exOpt exExt) fuel (some exWorld) 62 exThreeCmdBatch 0 {} = some r) ∧
      (∀ fuel, fuel ≤ n →
        LCS_Write (lcsEnv exOpt exExt) fuel (some exWorld) 62 exThreeCmdBatch 0 {} = none) ∧
      LCS_Write (lcsEnv exOpt exExt) 65536 (some exWorld) 62 exThreeCmdBatch 0 {} = some r :=
  C36_frame_walk_terminates (lcsEnv exOpt exExt) (some exWorld) 62 exThreeCmdBatch 0 {}
    (rising_of_checks _ _ _ _ 4 (by decide) (by decide))

/-! ### C31: the MAC address of the LAN Statistics reply -/

/-- After the head of `LCS_LanStats` the six bytes `pIFaceMAC` points to are
the MAC address of the port, and the port is open or closed as before. -/
theorem LCS_LanStats_getMAC_spec (opt : BuildOptions) (ext : Externals) (w : LCSWorld) :
    (∀ i, i < IFHWADDRLEN →
      (LCS_LanStats_getMAC opt ext w).1.port.MAC_Address i
        = (LCS_LanStats_getMAC opt ext w).2.1 i) ∧
    (LCS_LanStats_getMAC opt ext w).1.port.fd = w.port.fd ∧
    (LCS_LanStats_getMAC opt ext w).1.port.fCloseInProgress = w.port.fCloseInProgress ∧
    (LCS_LanStats_getMAC opt ext w).1.dev = w.dev := by
  refine ⟨?_, rfl, rfl, rfl⟩
  intro i hi
  have key : ∀ (src : Mem) (ok : Bool),
      (ok = false → src = w.port.MAC_Address) →
      (if ok = true ∧
          readBytes w.port.MAC_Address 0 IFHWADDRLEN ≠ readBytes src 0 IFHWADDRLEN then
        memcpy w.port.MAC_Address 0 src 0 IFHWADDRLEN
       else w.port.MAC_Address) i = src i := by
    intro src ok hsrc
    split_ifs with hc
    · rw [memcpy_inside _ _ _ _ _ _ (Nat.zero_le _) (by omega)]
      simp
    · by_cases hok : ok = true
      · have he : readBytes w.port.MAC_Address 0 IFHWADDRLEN = readBytes src 0 IFHWADDRLEN := by
          by_contra hne
          exact hc ⟨hok, hne⟩
        have := congrArg (fun l => l.getD i 0) he
        simp only [readBytes, List.getD_eq_getElem?_getD, List.getElem?_map,
          List.getElem?_range hi, Option.map_some', Option.getD_some, Nat.zero_add] at this
        exact this
      · rw [hsrc (by simpa using hok)]
  unfold LCS_LanStats_getMAC
  dsimp only
  apply key
  intro hf
  split_ifs at hf ⊢ <;> rfl

/-- **C31** (the MAC convention of LAN Statistics).  In a build without
`OPTION_TUNTAP_LCS_SAME_ADDR`, for a device with an open port whose ring has
room for 64 more bytes and the terminator, and for every command frame and every
`iCmdLen`: `LCS_LanStats` returns with a reply of 64 bytes appended to the ring
(whose offset field, when no baffle is pending, points 64 bytes on); bytes
22..26 of the reply are bytes 0..4 of the MAC address of the port as the call
leaves it, which is the address `pIFaceMAC` points to; and byte 27 is byte 5 of
that address plus one, modulo 256, so that it differs from byte 5 of the port
address whenever that is a byte. -/
theorem C31_lanstats_mac_convention (opt : BuildOptions) (ext : Externals) (w : LCSWorld)
    (buf : Mem) (pCmdFrame iCmdLen : Nat)
    (hopt : opt.OPTION_TUNTAP_LCS_SAME_ADDR = false)
    (hfd : w.port.fd ≠ -1) (hnc : w.port.fCloseInProgress = false)
    (hmax : w.dev.iMaxFrameBufferSize ≤ sizeof_bFrameBuffer)
    (hroom : w.dev.iFrameOffset + 64 + 2 ≤ w.dev.iMaxFrameBufferSize) :
    ∃ w2, LCS_LanStats opt ext w buf pCmdFrame iCmdLen = some w2 ∧
      w2.dev.iFrameOffset = w.dev.iFrameOffset + 64 ∧
      (w.dev.fPendingBaffle = false →
        FETCH_HW w2.dev.bFrameBuffer w.dev.iFrameOffset = w.dev.iFrameOffset + 64) ∧
      (∀ i, i < 5 →
        w2.dev.bFrameBuffer (w.dev.iFrameOffset + 22 + i) = w2.port.MAC_Address i) ∧
      w2.dev.bFrameBuffer (w.dev.iFrameOffset + 27) = (w2.port.MAC_Address 5 + 1) % 256 ∧
      (w2.port.MAC_Address 5 < 256 →
        w2.dev.bFrameBuffer (w.dev.iFrameOffset + 27) ≠ w2.port.MAC_Address 5) ∧
      (∀ i, i < 6 → w2.port.MAC_Address i = (LCS_LanStats_getMAC opt ext w).2.1 i) ∧
      (∀ i, i < w.dev.iFrameOffset → w2.dev.bFrameBuffer i = w.dev.bFrameBuffer i) := by
  obtain ⟨g1, g2, g3, g4⟩ := LCS_LanStats_getMAC_spec opt ext w
  have hsz : sizeof_bFrameBuffer = 20480 := by decide
  have hoff : w.dev.iFrameOffset < U16_MOD := by
    simp only [U16_MOD]
    omega
  have hL : LCS_LanStats opt ext w buf pCmdFrame iCmdLen
      = LCS_EnqueueReplyFrame (LCS_LanStats_getMAC opt ext w).1
          (LCS_LanStats_frame opt ext w buf pCmdFrame iCmdLen) 64 false := by
    simp only [LCS_LanStats, LCS_LanStats_frame, sizeof_LCSLSTFRM]
  have hne : LCS_EnqueueReplyFrame (LCS_LanStats_getMAC opt ext w).1
      (LCS_LanStats_frame opt ext w buf pCmdFrame iCmdLen) 64 false ≠ none := by
    intro hn
    rw [LCS_EnqueueReplyFrame_eq_none_iff, g4] at hn
    obtain ⟨-, -, hn⟩ := hn
    simp only [sizeof_hwOffset, SIZE_T_MOD] at hn
    rw [Nat.mod_eq_of_lt (by omega)] at hn
    omega
  obtain ⟨w2, hw2⟩ := Option.ne_none_iff_exists'.mp hne
  obtain ⟨e1, e2, e3, -, -, -, -, -, -, e10, -, -, -, -, -, -, e17⟩ :=
    enqueue_reply_effect _ w2 _ 64 false (by rw [g2]; exact hfd) (by rw [g3]; exact hnc)
      (by rw [g4]; exact hoff) (by rw [g4]; exact hmax) (by decide) hw2
  have hs : replyFrameStart (LCS_LanStats_getMAC opt ext w).1.dev false
      = w.dev.iFrameOffset := by
    simp [replyFrameStart, g4]
  rw [hs] at e1 e2
  rw [g4] at e3 e17
  have hF : ∀ i, i < 5 → LCS_LanStats_frame opt ext w buf pCmdFrame iCmdLen (22 + i)
      = (LCS_LanStats_getMAC opt ext w).2.1 i := by
    intro i hi
    unfold LCS_LanStats_frame
    rw [if_neg (by rw [hopt]; decide), storeByte_other _ _ _ _ (by omega),
      memcpy_inside _ _ _ _ _ _ (by omega) (by simp only [IFHWADDRLEN]; omega)]
    have e : 0 + (22 + i - 22) = i := by omega
    rw [e]
  have hF5 : LCS_LanStats_frame opt ext w buf pCmdFrame iCmdLen 27
      = ((LCS_LanStats_getMAC opt ext w).2.1 5 + 1) % 256 := by
    unfold LCS_LanStats_frame
    rw [if_neg (by rw [hopt]; decide), storeByte_same,
      memcpy_inside _ _ _ _ _ _ (by omega) (by simp only [IFHWADDRLEN]; omega)]
  have h27 : w2.dev.bFrameBuffer (w.dev.iFrameOffset + 27) = (w2.port.MAC_Address 5 + 1) % 256 := by
    rw [e2 27 (by omega) (by omega), hF5, e10, g1 5 (by decide)]
  refine ⟨w2, by rw [hL, hw2], e1, ?_, ?_, h27, ?_, ?_, e3⟩
  · intro hpb
    exact e17 rfl hpb
  · intro i hi
    rw [Nat.add_assoc, e2 (22 + i) (by omega) (by omega), hF i hi, e10,
      g1 i (by simp only [IFHWADDRLEN]; omega)]
  · intro hb
    rw [h27]
    omega
  · intro i hi
    rw [e10]
    exact g1 i (by simp only [IFHWADDRLEN]; omega)

/-- C31 on the example device: the LAN Statistics command of `exLanStatBatch`
on an empty ring; the host reports the interface address 02:00:5E:10:20:30. -/
theorem C31_lanstats_mac_convention_witness :
    ∃ w2, LCS_LanStats exOpt exExt exWorld exLanStatBatch 0 20 = some w2 ∧
      w2.dev.iFrameOffset = exWorld.dev.iFrameOffset + 64 ∧
      (exWorld.dev.fPendingBaffle = false →
        FETCH_HW w2.dev.bFrameBuffer exWorld.dev.iFrameOffset
          = exWorld.dev.iFrameOffset + 64) ∧
      (∀ i, i < 5 →
        w2.dev.bFrameBuffer (exWorld.dev.iFrameOffset + 22 + i) = w2.port.MAC_Address i) ∧
      w2.dev.bFrameBuffer (exWorld.dev.iFrameOffset + 27)
        = (w2.port.MAC_Address 5 + 1) % 256 ∧
      (w2.port.MAC_Address 5 < 256 →
        w2.dev.bFrameBuffer (exWorld.dev.iFrameOffset + 27) ≠ w2.port.MAC_Address 5) ∧
      (∀ i, i < 6 → w2.port.MAC_Address i = (LCS_LanStats_getMAC exOpt exExt exWorld).2.1 i) ∧
      (∀ i, i < exWorld.dev.iFrameOffset →
        w2.dev.bFrameBuffer i = exWorld.dev.bFrameBuffer i) :=
  C31_lanstats_mac_convention exOpt exExt exWorld exLanStatBatch 0 20 rfl (by decide) rfl
    (by decide) (by decide)

/-! ### C33: what `LCS_Baffle_SNA` puts into the ring -/

/-- **C33**, the claim as stated fails: the frame of type 0x04 of
`exBaffleFrameBatch` is written to an SNA device
whose ring holds 24 bytes already: `LCS_Write` returns, the frame has gone to
`LCS_Baffle_SNA`, and the 16 bytes it has put at byte 24 of the ring differ from
the 16 bytes of the inbound frame in the offset field: the inbound frame starts
with 00 10, the copy in the ring with 00 28, the end of the frames in the ring. -/
theorem C33_ring_copy_has_own_offset :
    exBaffleFrameBatch 2 = LCS_FRMTYP_SNA ∧ FETCH_HW exBaffleFrameBatch 0 = 16 ∧
    (withCalls (lcsEnv exOpt exExt)).bMode (some exWorldSNAPending, []) = LCSDEV_MODE_SNA ∧
    (LCS_Write (withCalls (lcsEnv exOpt exExt)) 2 (some exWorldSNAPending, []) 18
        exBaffleFrameBatch 0 {}).map (fun r => r.world.2.map (fun c => (c.1, c.2.2)))
      = some [(LCSHandler.LCS_Baffle_SNA, 16)] ∧
    (LCS_Write_dev exOpt exExt 2 exWorldSNAPending 18 exBaffleFrameBatch 0 {}).map
        (fun r => (r.world.dev.iFrameOffset, readBytes r.world.dev.bFrameBuffer 24 16))
      = some (40, [0x00, 0x28, 0x04, 0x00, 0x00, 0x0C, 0x0C, 0x99, 0x00, 0x03, 0xC0, 0x00,
                   0x00, 0x00, 0x00, 0x00]) ∧
    readBytes exBaffleFrameBatch 0 16
      = [0x00, 0x10, 0x04, 0x00, 0x00, 0x0C, 0x0C, 0x99, 0x00, 0x03, 0xC0, 0x00,
         0x00, 0x00, 0x00, 0x00] := by
  refine ⟨?_, ?_, ?_, ?_, ?_, ?_⟩ <;> decide

/-- **C33** (what the baffle pass-through copies).  For a device with an open
port whose ring has room, and a frame of `L ≤ 128` bytes at `pCmdFrame`:
`LCS_Baffle_SNA` returns with `L` bytes appended to the ring, at byte 8 when it
reserves the baffle on an empty ring and at `iFrameOffset` otherwise; bytes 2 to
`L - 1` of them are those of the inbound frame, and the first two bytes are the
offset field of the ring: the end of the frames in the ring, less 8 when a
baffle is pending.  The ring before the new frame is unchanged, but for the
eight zero bytes of a baffle that is reserved. -/
theorem C33_baffle_pass_through (ext : Externals) (w : LCSWorld) (buf : Mem)
    (pCmdFrame L : Nat) (bBafflePres : Bool)
    (hfd : w.port.fd ≠ -1) (hnc : w.port.fCloseInProgress = false)
    (hmax : w.dev.iMaxFrameBufferSize ≤ sizeof_bFrameBuffer) (hL : L ≤ 128)
    (hroom : w.dev.iFrameOffset + L + 2 ≤ w.dev.iMaxFrameBufferSize) :
    ∃ w2, LCS_Baffle_SNA ext w buf pCmdFrame L bBafflePres = some w2 ∧
      w2.dev.iFrameOffset = replyFrameStart w.dev bBafflePres + L ∧
      (∀ i, 2 ≤ i → i < L →
        w2.dev.bFrameBuffer (replyFrameStart w.dev bBafflePres + i) = buf (pCmdFrame + i)) ∧
      FETCH_HW w2.dev.bFrameBuffer (replyFrameStart w.dev bBafflePres)
        = (if w2.dev.fPendingBaffle = true then
            (w2.dev.iFrameOffset + U16_MOD - SIZEOF_BAFFLE) % U16_MOD
           else w2.dev.iFrameOffset) ∧
      (w2.dev.fPendingBaffle = true ↔
        w.dev.fPendingBaffle = true ∨ (w.dev.iFrameOffset = 0 ∧ bBafflePres = true)) ∧
      (∀ i, i < w.dev.iFrameOffset → w2.dev.bFrameBuffer i = w.dev.bFrameBuffer i) := by
  have hsz : sizeof_bFrameBuffer = 20480 := by decide
  have hoff : w.dev.iFrameOffset < U16_MOD := by
    simp only [U16_MOD]
    omega
  have hN : L ≤ PTRDIFF_MAX := by
    simp only [PTRDIFF_MAX]
    omega
  have hroom2 : ¬ w.dev.iFrameOffset + L + 2 > w.dev.iMaxFrameBufferSize := by omega
  have hR : ∀ i, i < L →
      memcpy (memset ext.stack 0 0 128) 0 buf pCmdFrame L i = buf (pCmdFrame + i) := by
    intro i hi
    rw [memcpy_inside _ _ _ _ _ _ (Nat.zero_le _) (by omega)]
    simp
  unfold LCS_Baffle_SNA LCS_EnqueueReplyFrame
  rw [if_pos ⟨hfd, hnc⟩]
  dsimp only
  by_cases hr : w.dev.iFrameOffset = 0 ∧ bBafflePres = true
  · obtain ⟨h0, hb⟩ := hr
    subst hb
    have hs : replyFrameStart w.dev true = 8 := by
      simp [replyFrameStart, h0, SIZEOF_BAFFLE]
    rw [reply_reserve w.dev _ L h0 (by simp only [U16_MOD]; omega) hN hroom2, hs]
    dsimp only
    rw [if_neg (by decide)]
    refine ⟨_, rfl, ?_, ?_, ?_, ?_, ?_⟩
    · rfl
    · intro i h2 hi
      dsimp only
      rw [STORE_HW_other _ _ _ _ (by omega) (by omega),
        memcpy_inside _ _ _ _ _ _ (by omega) (by omega)]
      have e : 0 + (8 + i - 8) = i := by omega
      rw [e]
      exact hR i hi
    · dsimp only
      rw [if_pos rfl, FETCH_HW_STORE_HW _ _ _ (by simp only [U16_MOD]; omega)]
      simp only [U16_MOD, SIZEOF_BAFFLE]
      omega
    · dsimp only
      simp [h0]
    · intro i hi
      omega
  · have hs : replyFrameStart w.dev bBafflePres = w.dev.iFrameOffset := by
      unfold replyFrameStart
      rw [if_neg hr]
    rw [reply_append w.dev _ L bBafflePres hr hoff (by simp only [U16_MOD]; omega) hN hroom2, hs]
    dsimp only
    rw [if_neg (by decide)]
    refine ⟨_, rfl, ?_, ?_, ?_, ?_, ?_⟩
    · rfl
    · intro i h2 hi
      dsimp only
      rw [STORE_HW_other _ _ _ _ (by omega) (by omega),
        memcpy_inside _ _ _ _ _ _ (by omega) (by omega)]
      have e : 0 + (w.dev.iFrameOffset + i - w.dev.iFrameOffset) = i := by omega
      rw [e]
      exact hR i hi
    · dsimp only
      by_cases hp : w.dev.fPendingBaffle = true
      · rw [if_pos hp, if_pos hp, FETCH_HW_STORE_HW _ _ _ (Nat.mod_lt _ (by decide))]
        rfl
      · rw [if_neg hp, if_neg hp, FETCH_HW_STORE_HW _ _ _ (by simp only [U16_MOD]; omega)]
    · dsimp only
      constructor
      · intro hp
        exact Or.inl hp
      · rintro (hp | hp)
        · exact hp
        · exact absurd hp hr
    · intro i hi
      dsimp only
      rw [STORE_HW_other _ _ _ _ (by omega) (by omega), memcpy_outside _ _ _ _ _ _ (Or.inl hi)]

/-- C33 on the example device: the 16-byte frame of `exBaffleFrameBatch`, passed
to `LCS_Baffle_SNA` for a ring that holds 24 bytes. -/
theorem C33_baffle_pass_through_witness :
    ∃ w2, LCS_Baffle_SNA exExt exWorldSNAPending exBaffleFrameBatch 0 16 false = some w2 ∧
      w2.dev.iFrameOffset = replyFrameStart exWorldSNAPending.dev false + 16 ∧
      (∀ i, 2 ≤ i → i < 16 →
        w2.dev.bFrameBuffer (replyFrameStart exWorldSNAPending.dev false + i)
          = exBaffleFrameBatch (0 + i)) ∧
      FETCH_HW w2.dev.bFrameBuffer (replyFrameStart exWorldSNAPending.dev false)
        = (if w2.dev.fPendingBaffle = true then
            (w2.dev.iFrameOffset + U16_MOD - SIZEOF_BAFFLE) % U16_MOD
           else w2.dev.iFrameOffset) ∧
      (w2.dev.fPendingBaffle = true ↔
        exWorldSNAPending.dev.fPendingBaffle = true ∨
          (exWorldSNAPending.dev.iFrameOffset = 0 ∧ false = true)) ∧
      (∀ i, i < exWorldSNAPending.dev.iFrameOffset →
        w2.dev.bFrameBuffer i = exWorldSNAPending.dev.bFrameBuffer i) :=
  C33_baffle_pass_through exExt exWorldSNAPending exBaffleFrameBatch 0 16 false (by decide) rfl
    (by decide) (by decide) (by decide)

/-! ### C34: offset fields behind a pending baffle -/

/-- A successful `LCS_DoEnqueueEthFrame` stores the new `iFrameOffset` itself in
the offset field of the frame, whether a baffle is pending or not. -/
theorem eth_offset_absolute (dev : LCSDEV) (bPort : Nat) (pData : Mem) (iSize : Nat)
    (h6 : 6 ≤ dev.iMaxFrameBufferSize) (hmax : dev.iMaxFrameBufferSize < U16_MOD)
    (hoff : dev.iFrameOffset < U16_MOD)
    (h : (LCS_DoEnqueueEthFrame dev bPort pData iSize).rc = 0) :
    (LCS_DoEnqueueEthFrame dev bPort pData iSize).dev.iFrameOffset
        = dev.iFrameOffset + 4 + iSize ∧
    FETCH_HW (LCS_DoEnqueueEthFrame dev bPort pData iSize).dev.bFrameBuffer dev.iFrameOffset
        = dev.iFrameOffset + 4 + iSize ∧
    (LCS_DoEnqueueEthFrame dev bPort pData iSize).dev.fPendingBaffle = dev.fPendingBaffle := by
  by_cases h1 : iSize > min (dev.iMaxFrameBufferSize - 4 - 2) 9000
  · rw [eth_toolong dev bPort pData iSize h6 hmax h1] at h
    cases h
  · by_cases h2 : dev.iFrameOffset + 4 + iSize + 2 > dev.iMaxFrameBufferSize
    · rw [eth_full dev bPort pData iSize h6 hmax hoff h1 h2] at h
      cases h
    · rw [eth_ok dev bPort pData iSize h6 hmax hoff h1 h2]
      refine ⟨rfl, ?_, rfl⟩
      dsimp only
      rw [FETCH_HW_congr (STORE_HW dev.bFrameBuffer dev.iFrameOffset
        (dev.iFrameOffset + 4 + iSize)) _ dev.iFrameOffset]
      · exact FETCH_HW_STORE_HW _ _ _ (by omega)
      · rw [memcpy_outside _ _ _ _ _ _ (Or.inl (by omega)), storeByte_other _ _ _ _ (by omega),
          storeByte_other _ _ _ _ (by omega)]
      · rw [memcpy_outside _ _ _ _ _ _ (Or.inl (by omega)), storeByte_other _ _ _ _ (by omega),
          storeByte_other _ _ _ _ (by omega)]

/-- C34, evaluated where the code breaks it.  On the empty ring of an SNA device
a 24-byte reply is enqueued with `bBafflePres` set: eight bytes are reserved,
`fPendingBaffle` is set, the reply stands at byte 8 and its offset field is
24 = 32 - 8.  Then `LCS_DoEnqueueEthFrame` adds a 34-byte inbound frame at byte
32: it returns 0, the next frame would start at byte 70, and the offset field of
the frame is 70, not 70 - 8 = 62.  `LCS_Read` then gives the guest 72 bytes: the
baffle (length field 64), the reply, the frame and the zero offset at byte 70.
Followed from byte 8, the offset field of the reply leads to the frame at byte
8 + 24 = 32, and the offset field of the frame leads to byte 8 + 70 = 78, past
the 72 bytes, and not to the zero offset at byte 8 + 62 = 70. -/
theorem C34_eth_frame_offset_ignores_baffle :
    (LCS_DoEnqueueReplyFrame exWorldSNA.dev exReply 24 true).rc = 0 ∧
    exDevBaffled.fPendingBaffle = true ∧ exDevBaffled.iFrameOffset = 32 ∧
    FETCH_HW exDevBaffled.bFrameBuffer 8 = 32 - 8 ∧
    (LCS_DoEnqueueEthFrame exDevBaffled 0 exIPFrame 34).rc = 0 ∧
    exDevBaffledEth.fPendingBaffle = true ∧ exDevBaffledEth.iFrameOffset = 70 ∧
    FETCH_HW exDevBaffledEth.bFrameBuffer 32 = 70 ∧
    FETCH_HW exDevBaffledEth.bFrameBuffer 32 ≠ exDevBaffledEth.iFrameOffset - 8 ∧
    (LCS_Read [] exDevBaffledEth 100 (fun _ => 0) {}).map
        (fun r => (r.copied, FETCH_HW r.pIOBuf 0, FETCH_HW r.pIOBuf 8,
          FETCH_HW r.pIOBuf (8 + 24), FETCH_HW r.pIOBuf (8 + 62)))
      = some (72, 64, 24, 70, 0) ∧
    ¬ (8 + 70 < 72) := by
  refine ⟨?_, ?_, ?_, ?_, ?_, ?_, ?_, ?_, ?_, ?_, ?_⟩ <;> decide

/-! ### C38, C39: what `BuildOAT` accepts -/

/-- C38, evaluated where the code breaks it.  `BuildOAT` accepts the two
statements of `exOATStale` (it returns 0) and creates two devices.  The second
statement, `0E44 SNA 01`, has no IP address, and its device has `pszIPAddress`
= NULL, but its `lIPAddress` is 10.0.0.1, the address of the statement before
it: the local variable `lIPAddr` is set to 0 once, before the loop over the
statements, and is not reset with the other variables at the head of each
statement.  In the scan of `LCS_PortThread` for port 1 the device is then the
exact match of an IPv4 frame for 10.0.0.1, the address of the device on port 0,
and once the devices are started the frame is enqueued to it; with the address
0 the frame would be dropped. -/
theorem C38_stale_ip_address_reaches_next_device :
    (BuildOAT exOATExt (some exOATStale) {}).1 = 0 ∧
    (BuildOAT exOATExt (some exOATStale) {}).2.blk.pDevices.map
        (fun d => (d.dev.sAddr, d.dev.bMode, d.dev.bPort, d.dev.lIPAddress, d.pszIPAddress))
      = [(0x0E40, LCSDEV_MODE_IP, 0, 0x0A000001, some (cstr "10.0.0.1")),
         (0x0E44, LCSDEV_MODE_SNA, 1, 0x0A000001, none)] ∧
    (0x0A000001 : Nat) ≠ 0 ∧
    FETCH_HW exIPFrame 12 = ETH_TYPE_IP ∧ netU32 exIPFrame ofs_lDstIP = 0x0A000001 ∧
    LCS_PortThread_scan exPort1 exIPFrame ETH_TYPE_IP
        ((BuildOAT exOATExt (some exOATStale) {}).2.blk.pDevices.map (fun d => d.dev)) 0 {}
      = { pMatchingLCSDEV := some 1 } ∧
    LCS_PortThread_step exExt exPort1
        ((BuildOAT exOATExt (some exOATStale) {}).2.blk.pDevices.map
          (fun d => { d.dev with fDevStarted := true })) 34 exIPFrame
      = PortStep.enqueue 1 ∧
    LCS_PortThread_step exExt exPort1
        ((BuildOAT exOATExt (some exOATStale) {}).2.blk.pDevices.map
          (fun d => { d.dev with fDevStarted := true
                                 lIPAddress := if d.pszIPAddress.isSome = true
                                   then d.dev.lIPAddress else 0 })) 34 exIPFrame
      = PortStep.next := by
  refine ⟨?_, ?_, ?_, ?_, ?_, ?_, ?_, ?_⟩ <;> decide

/-- C39, evaluated where the code breaks it.  `BuildOAT` accepts the three
statements of `exOATPorts` (it returns 0), although each names a port that is
not one of the four of `pLCSBLK->Port`: the `HWADD` statement has indexed the
array with 7 and written the MAC address and `fLocalMAC` there, the `ROUTE`
statement has indexed it with 5 and added a route there, and the device
created has `bPort` = 9.  No branch compares `sPort` with `LCS_MAX_PORTS`. -/
theorem C39_port_number_not_checked :
    (BuildOAT exOATExt (some exOATPorts) {}).1 = 0 ∧
    (BuildOAT exOATExt (some exOATPorts) {}).2.portIndex = [7, 5] ∧
    ¬ (∀ i ∈ (BuildOAT exOATExt (some exOATPorts) {}).2.portIndex, i < LCS_MAX_PORTS) ∧
    ((BuildOAT exOATExt (some exOATPorts) {}).2.blk.Port 7).fLocalMAC = true ∧
    readBytes ((BuildOAT exOATExt (some exOATPorts) {}).2.blk.Port 7).MAC_Address 0 6
      = [0x02, 0x00, 0x5E, 0x10, 0x20, 0x30] ∧
    ((BuildOAT exOATExt (some exOATPorts) {}).2.blk.Port 5).pRoutes
      = [(cstr "10.1.0.0", cstr "255.255.0.0")] ∧
    (BuildOAT exOATExt (some exOATPorts) {}).2.blk.pDevices.map
        (fun d => (d.dev.sAddr, d.dev.bMode, d.dev.bPort))
      = [(0x0E40, LCSDEV_MODE_IP, 9)] ∧
    ¬ (∀ d ∈ (BuildOAT exOATExt (some exOATPorts) {}).2.blk.pDevices,
        d.dev.bPort < LCS_MAX_PORTS) := by
  refine ⟨?_, ?_, ?_, ?_, ?_, ?_, ?_, ?_⟩ <;> decide


/-! ### C11: the baffle in front of the Read output -/

/-- The frame walk of `LCS_Write` over a channel buffer that holds the 30 bytes
of scenario S4 followed by two zero bytes: it finds the baffle, calls
`LCS_StartLan_SNA` once, for the 22 bytes at index 8 and with `bBafflePres` set,
queues an attention request and ends on the zero offset at bytes 30..31, which
lie behind the 30 bytes of the Write. -/
theorem write_S4 {W : Type} (env : LCSWriteEnv W) (fuel : Nat) (w : W) (buf : Mem)
    (sense0 : Nat) (st : CCWStatus) (hmode : env.bMode w ≠ LCSDEV_MODE_IP) (hfuel : 2 ≤ fuel)
    (hin : ∀ i, i < 30 → buf i = exBaffleBatch i) (h30 : buf 30 = 0) (h31 : buf 31 = 0) :
    LCS_Write env fuel w 30 buf sense0 st
      = some { world :=
                 if env.malloc_LCSATTN
                     (env.handler LCSHandler.LCS_StartLan_SNA w buf 8 22 true) = true
                 then env.addAttn
                     (env.handler LCSHandler.LCS_StartLan_SNA w buf 8 22 true)
                 else env.handler LCSHandler.LCS_StartLan_SNA w buf 8 22 true
               pIOBuf := buf
               sense0 := sense0
               status := { st with residual := 0, unitStat := CSW_CE ||| CSW_DE } } := by
  obtain ⟨k, rfl⟩ : ∃ k, fuel = k + 2 := ⟨fuel - 2, by omega⟩
  have hb : LCS_Write_baffle 30 buf = (true, 8) := by
    refine ((baffle_detection_of_whole_baffle 30 buf (by decide) (by decide)).1).mpr ⟨?_, ?_⟩
    · unfold FETCH_HW
      rw [hin 0 (by decide), hin (0 + 1) (by decide)]
      decide
    · intro i h2 h7
      rw [hin i (by omega)]
      interval_cases i <;> decide
  have f0 : FETCH_HW buf (8 + 0) = 22 := by
    unfold FETCH_HW
    rw [hin (8 + 0) (by decide), hin (8 + 0 + 1) (by decide)]
    decide
  have f1 : FETCH_HW buf (8 + 22) = 0 := by
    unfold FETCH_HW
    rw [h30, h31]
  have f2 : FETCH_HW buf 30 = 0 := f1
  have b2 : buf (8 + 0 + 2) = 0 := by
    rw [hin (8 + 0 + 2) (by decide)]
    decide
  have b4 : buf (8 + 0 + 4) = 0x41 := by
    rw [hin (8 + 0 + 4) (by decide)]
    decide
  unfold LCS_Write
  rw [if_neg hmode]
  dsimp only
  rw [hb]
  dsimp only
  unfold LCS_Write_walk
  dsimp only
  rw [f0]
  unfold LCS_Write_walk
  unfold LCS_Write_frame_SNA
  simp only [b2, b4, f1, LCS_FRMTYP_ENET, LCS_FRMTYP_SNA, LCS_FRMTYP_CMD, snaHandler,
    LCS_CMD_STRTLAN_SNA, U16_MOD]
  by_cases hm : env.malloc_LCSATTN
      (env.handler LCSHandler.LCS_StartLan_SNA w buf 8 22 true) = true
  · simp [hm, LCS_Write_finish, f2]
  · simp [hm, LCS_Write_finish, f2]

/-- `LCS_Write_dev` on a channel buffer that holds the 30 bytes of scenario S4
followed by two zero bytes, for an SNA device on an open port whose ring has
room for the reply: it returns, and the device afterwards is the device after
the reply enqueue with the baffle flag, started. -/
theorem write_dev_S4 (opt : BuildOptions) (ext : Externals) (fuel : Nat) (w : LCSWorld)
    (buf : Mem) (sense0 : Nat) (st : CCWStatus) (hmode : w.dev.bMode = LCSDEV_MODE_SNA)
    (hfd : w.port.fd ≠ -1) (hnc : w.port.fCloseInProgress = false)
    (hroom : (w.dev.iFrameOffset + sizeof_LCSSTRTFRM + sizeof_hwOffset) % SIZE_T_MOD
      ≤ w.dev.iMaxFrameBufferSize) (hfuel : 2 ≤ fuel)
    (hin : ∀ i, i < 30 → buf i = exBaffleBatch i) (h30 : buf 30 = 0) (h31 : buf 31 = 0) :
    ∃ r, LCS_Write_dev opt ext fuel w 30 buf sense0 st = some r ∧
      (LCS_DoEnqueueReplyFrame w.dev (LCS_StartLan_SNA_frame ext w buf 8 22)
        sizeof_LCSSTRTFRM true).rc = 0 ∧
      r.world.dev = { (LCS_DoEnqueueReplyFrame w.dev
                        (LCS_StartLan_SNA_frame ext w buf 8 22)
                        sizeof_LCSSTRTFRM true).dev with fDevStarted := true } := by
  obtain ⟨w1, hw1, hrc, hdev⟩ :=
    StartLan_SNA_ok opt ext w buf 8 22 true hfd hnc hroom
  have hm : (lcsEnv opt ext).bMode (some w) ≠ LCSDEV_MODE_IP := by
    show w.dev.bMode ≠ LCSDEV_MODE_IP
    rw [hmode]
    decide
  have hh : (lcsEnv opt ext).handler LCSHandler.LCS_StartLan_SNA (some w) buf 8 22 true
      = some w1 := hw1
  unfold LCS_Write_dev
  rw [write_S4 (lcsEnv opt ext) fuel (some w) buf sense0 st hm hfuel hin h30 h31, hh]
  by_cases hmal : (lcsEnv opt ext).malloc_LCSATTN (some w1) = true
  · rw [if_pos hmal]
    exact ⟨_, rfl, hrc, hdev⟩
  · rw [if_neg hmal]
    exact ⟨_, rfl, hrc, hdev⟩

/-- **C11**, the claim as stated fails for the input of scenario S4: the channel
buffer `exBaffleBatchBehind` holds exactly the 30 bytes of S4, and behind them a
second Start LAN SNA command frame.  `LCS_Write` with `sCount` = 30 on an SNA
device with an empty ring reads the offset field of the next frame at bytes
30..31, behind the input, finds 0x002C there and processes the second frame
too: it returns CE|DE with two replies behind the reserved baffle
(`iFrameOffset` = 56), and the next `LCS_Read` copies 58 bytes that start 00 32,
not 34 bytes that start 00 1A. -/
theorem C11_bytes_behind_S4_are_read :
    readBytes exBaffleBatchBehind 0 30 = readBytes exBaffleBatch 0 30 ∧
    FETCH_HW exBaffleBatchBehind 30 = 0x002C ∧
    (LCS_Write_dev exOpt exExt 3 exWorldSNA 30 exBaffleBatchBehind 0 {}).map
        (fun r => (r.status.unitStat, r.world.dev.iFrameOffset, r.world.pAttns.length))
      = some (CSW_CE ||| CSW_DE, 56, 2) ∧
    ((LCS_Write_dev exOpt exExt 3 exWorldSNA 30 exBaffleBatchBehind 0 {}).bind
        (fun r => LCS_Read [] r.world.dev 4096 (fun _ => 0) {})).map
        (fun rr => (rr.copied, rr.pIOBuf 0, rr.pIOBuf 1))
      = some (58, 0x00, 0x32) := by
  refine ⟨?_, ?_, ?_, ?_⟩ <;> decide

/-- **C11** (read-side baffle, amended).  A reply is enqueued with the baffle
flag on an empty ring of a device whose `iMaxFrameBufferSize` does not exceed
the size of `bFrameBuffer`, and succeeds; any sequence of further enqueue calls
follows (reply or Ethernet, successful or not; sizes are sizes of C objects).
Then the next `LCS_Read` with `sCount ≥ 8` returns without waiting and its output
begins with the baffle: bytes 0..1 hold, big-endian, `iFrameOffset + 2 - 8`, the
read length less 8, and bytes 2..7 are zero.  And for every channel buffer that
holds the 30 bytes of scenario S4 and two zero bytes behind them (bytes 30..31,
which `LCS_Write` reads as the offset field of the next frame), on an SNA device
with an empty ring on an open port, `LCS_Write` with `sCount` = 30 returns and
the next `LCS_Read` with `sCount ≥ 34` copies 34 bytes that start 00 1A, followed
by six zero bytes. -/
theorem C11_read_side_baffle (dev0 : LCSDEV) (pReply : Mem) (iSize : Nat) (ops : List RingOp)
    (wakes : List (LCSDEV → LCSDEV)) (sCount : Nat) (pIOBuf : Mem) (st : CCWStatus)
    (h0 : dev0.iFrameOffset = 0) (hmax : dev0.iMaxFrameBufferSize ≤ sizeof_bFrameBuffer)
    (hsz : iSize ≤ PTRDIFF_MAX) (hops : ∀ op, op ∈ ops → op.iSize ≤ PTRDIFF_MAX)
    (hrc : (LCS_DoEnqueueReplyFrame dev0 pReply iSize true).rc = 0) (hs : 8 ≤ sCount) :
    (∃ rr,
      LCS_Read wakes (enqueueAll (LCS_DoEnqueueReplyFrame dev0 pReply iSize true).dev ops)
        sCount pIOBuf st = some rr ∧
      rr.copied = min sCount
        ((enqueueAll (LCS_DoEnqueueReplyFrame dev0 pReply iSize true).dev ops).iFrameOffset + 2) ∧
      rr.pIOBuf 0 =
        ((enqueueAll (LCS_DoEnqueueReplyFrame dev0 pReply iSize true).dev ops).iFrameOffset
          + 2 - 8) / 256 ∧
      rr.pIOBuf 1 =
        ((enqueueAll (LCS_DoEnqueueReplyFrame dev0 pReply iSize true).dev ops).iFrameOffset
          + 2 - 8) % 256 ∧
      (∀ i, 2 ≤ i → i < 8 → rr.pIOBuf i = 0)) ∧
    (∀ (opt : BuildOptions) (ext : Externals) (w : LCSWorld) (buf : Mem) (fuel sense0 : Nat)
        (stW : CCWStatus) (sCountR : Nat),
      (∀ i, i < 30 → buf i = exBaffleBatch i) → buf 30 = 0 → buf 31 = 0 →
      w.dev.bMode = LCSDEV_MODE_SNA → w.dev.iFrameOffset = 0 →
      w.port.fd ≠ -1 → w.port.fCloseInProgress = false →
      26 ≤ w.dev.iMaxFrameBufferSize → w.dev.iMaxFrameBufferSize ≤ sizeof_bFrameBuffer →
      2 ≤ fuel → 34 ≤ sCountR →
      ∃ r, LCS_Write_dev opt ext fuel w 30 buf sense0 stW = some r ∧
        ∃ rr, LCS_Read wakes r.world.dev sCountR pIOBuf st = some rr ∧
          rr.copied = 34 ∧ rr.pIOBuf 0 = 0x00 ∧ rr.pIOBuf 1 = 0x1A ∧
          (∀ i, 2 ≤ i → i < 8 → rr.pIOBuf i = 0)) := by
  constructor
  · have hB := enqueueAll_BaffleRing ops _
      (reserve_BaffleRing dev0 pReply iSize h0 hmax hsz hrc).1 hops
    exact read_BaffleRing wakes _ sCount pIOBuf st hB hs
  · intro opt ext w buf fuel sense0 stW sCountR hin h30 h31 hmode hw0 hfd hnc h26 hwmax
      hfuel hsR
    have hroom : (w.dev.iFrameOffset + sizeof_LCSSTRTFRM + sizeof_hwOffset) % SIZE_T_MOD
        ≤ w.dev.iMaxFrameBufferSize := by
      rw [hw0]
      simp only [sizeof_LCSSTRTFRM, sizeof_hwOffset, SIZE_T_MOD]
      omega
    obtain ⟨r, hr, hrcR, hdev⟩ :=
      write_dev_S4 opt ext fuel w buf sense0 stW hmode hfd hnc hroom hfuel hin h30 h31
    have hres := reserve_BaffleRing w.dev _ sizeof_LCSSTRTFRM hw0 hwmax (by decide) hrcR
    have hB : BaffleRing r.world.dev := by
      rw [hdev]
      exact hres.1
    have hoffR : r.world.dev.iFrameOffset = 32 := by
      rw [hdev]
      exact hres.2
    obtain ⟨rr, hrr, hcop, hb0, hb1, hz⟩ :=
      read_BaffleRing wakes r.world.dev sCountR pIOBuf st hB (by omega)
    rw [hoffR] at hcop hb0 hb1
    refine ⟨r, hr, rr, hrr, ?_, hb0, hb1, hz⟩
    rw [hcop]
    exact Nat.min_eq_right (by omega)

/-- C11 for a 24-byte reply enqueued on the empty example device and followed by
one Ethernet frame, and for the input of scenario S4 with two zero bytes behind
it on the example SNA device. -/
theorem C11_read_side_baffle_witness :
    (∃ rr,
      LCS_Read [] (enqueueAll (LCS_DoEnqueueReplyFrame exDev exReply 24 true).dev
        [RingOp.eth 0 (memOfList [1, 2, 3]) 3]) 4096 (fun _ => 0) {} = some rr ∧
      rr.copied = min 4096
        ((enqueueAll (LCS_DoEnqueueReplyFrame exDev exReply 24 true).dev
          [RingOp.eth 0 (memOfList [1, 2, 3]) 3]).iFrameOffset + 2) ∧
      rr.pIOBuf 0 =
        ((enqueueAll (LCS_DoEnqueueReplyFrame exDev exReply 24 true).dev
          [RingOp.eth 0 (memOfList [1, 2, 3]) 3]).iFrameOffset + 2 - 8) / 256 ∧
      rr.pIOBuf 1 =
        ((enqueueAll (LCS_DoEnqueueReplyFrame exDev exReply 24 true).dev
          [RingOp.eth 0 (memOfList [1, 2, 3]) 3]).iFrameOffset + 2 - 8) % 256 ∧
      (∀ i, 2 ≤ i → i < 8 → rr.pIOBuf i = 0)) ∧
    exBaffleBatch 30 = 0 ∧ exBaffleBatch 31 = 0 ∧
    (∃ r, LCS_Write_dev exOpt exExt 2 exWorldSNA 30 exBaffleBatch 0 {} = some r ∧
      ∃ rr, LCS_Read [] r.world.dev 4096 (fun _ => 0) {} = some rr ∧
        rr.copied = 34 ∧ rr.pIOBuf 0 = 0x00 ∧ rr.pIOBuf 1 = 0x1A ∧
        (∀ i, 2 ≤ i → i < 8 → rr.pIOBuf i = 0)) :=
  match C11_read_side_baffle exDev exReply 24 [RingOp.eth 0 (memOfList [1, 2, 3]) 3] [] 4096
      (fun _ => 0) {} (by decide) (by decide) (by decide)
      (by
        intro op hop
        simp only [List.mem_singleton] at hop
        subst hop
        decide)
      (by decide) (by decide) with
  | ⟨h1, h2⟩ =>
    ⟨h1, by decide, by decide,
      h2 exOpt exExt exWorldSNA exBaffleBatch 2 0 {} 4096 (fun _ _ => rfl) (by decide)
        (by decide) (by decide) (by decide) (by decide) (by decide) (by decide) (by decide)
        (by decide) (by decide)⟩

/-! ### C17: the buffer size of the Startup command -/

/-- **C17** (Startup buffer-size clamp).  With `r` the requested size
(big-endian at frame bytes 12..13) and `p` the prior `iMaxFrameBufferSize`:
whenever `LCS_Startup` returns, `iMaxFrameBufferSize` is `r` if
`0x4000 ≤ r ≤ 0x5000` and otherwise `p` (0x5000 when `p = 0`); hence if `p` is 0
or within [16 KiB, 64 KiB] the new value is within [16 KiB, 64 KiB].  The device
holds a `p` of at most the size of `bFrameBuffer` (0x5000): `LCS_Init` sets that
size and `LCS_Startup` is the only function that assigns the field afterwards.
For such a `p` the new value is at most the size of `bFrameBuffer`, and if `p`
is 0 or at least 16 KiB the new value lies between 16 KiB and the size of
`bFrameBuffer`, so the bound on `p` holds again for the next Startup command.
`LCS_Startup` does return when the port is closed or closing, and when the port
is open and the ring has room for the reply. -/
theorem C17_startup_buffer_size (opt : BuildOptions) (ext : Externals) (w : LCSWorld)
    (buf : Mem) (pCmdFrame iCmdLen : Nat) :
    (∀ w1, LCS_Startup opt ext w buf pCmdFrame iCmdLen = some w1 →
      (CTC_MIN_FRAME_BUFFER_SIZE ≤ FETCH_HW buf (pCmdFrame + 12) ∧
        FETCH_HW buf (pCmdFrame + 12) ≤ sizeof_bFrameBuffer →
          w1.dev.iMaxFrameBufferSize = FETCH_HW buf (pCmdFrame + 12)) ∧
      (¬ (CTC_MIN_FRAME_BUFFER_SIZE ≤ FETCH_HW buf (pCmdFrame + 12) ∧
        FETCH_HW buf (pCmdFrame + 12) ≤ sizeof_bFrameBuffer) →
          w1.dev.iMaxFrameBufferSize =
            if w.dev.iMaxFrameBufferSize = 0 then 0x5000 else w.dev.iMaxFrameBufferSize) ∧
      (w.dev.iMaxFrameBufferSize = 0 ∨
        (0x4000 ≤ w.dev.iMaxFrameBufferSize ∧ w.dev.iMaxFrameBufferSize ≤ 0x10000) →
          0x4000 ≤ w1.dev.iMaxFrameBufferSize ∧ w1.dev.iMaxFrameBufferSize ≤ 0x10000) ∧
      (w.dev.iMaxFrameBufferSize ≤ sizeof_bFrameBuffer →
          w1.dev.iMaxFrameBufferSize ≤ sizeof_bFrameBuffer) ∧
      (w.dev.iMaxFrameBufferSize = 0 ∨
        (0x4000 ≤ w.dev.iMaxFrameBufferSize ∧
          w.dev.iMaxFrameBufferSize ≤ sizeof_bFrameBuffer) →
          0x4000 ≤ w1.dev.iMaxFrameBufferSize ∧
            w1.dev.iMaxFrameBufferSize ≤ sizeof_bFrameBuffer)) ∧
    (w.port.fd = -1 ∨ w.port.fCloseInProgress = true ∨
      (w.dev.iFrameOffset + 26 ≤ CTC_MIN_FRAME_BUFFER_SIZE ∧
        (w.dev.iMaxFrameBufferSize = 0 ∨
          CTC_MIN_FRAME_BUFFER_SIZE ≤ w.dev.iMaxFrameBufferSize)) →
      ∃ w1, LCS_Startup opt ext w buf pCmdFrame iCmdLen = some w1) := by
  constructor
  · intro w1 h
    have hm := LCS_Startup_iMax opt ext w w1 buf pCmdFrame iCmdLen h
    simp only [sizeof_bFrameBuffer, CTC_DEF_FRAME_BUFFER_SIZE, CTC_MIN_FRAME_BUFFER_SIZE] at *
    refine ⟨?_, ?_, ?_, ?_, ?_⟩
    · intro hr
      rw [hm, if_pos hr]
    · intro hr
      rw [hm, if_neg hr]
    · intro hp
      rw [hm]
      split_ifs <;> omega
    · intro hp
      rw [hm]
      split_ifs <;> omega
    · intro hp
      rw [hm]
      split_ifs <;> omega
  · intro h
    unfold LCS_Startup
    dsimp only
    refine Option.isSome_iff_exists.mp ?_
    rw [Option.isSome_map', Option.isSome_iff_ne_none, Ne, LCS_EnqueueReplyFrame_eq_none_iff]
    dsimp only
    rw [INIT_REPLY_FRAME_len]
    rintro ⟨hfd, hnc, hfull⟩
    have hroom : w.dev.iFrameOffset + 26 ≤ CTC_MIN_FRAME_BUFFER_SIZE ∧
        (w.dev.iMaxFrameBufferSize = 0 ∨
          CTC_MIN_FRAME_BUFFER_SIZE ≤ w.dev.iMaxFrameBufferSize) := by
      rcases h with h | h | h
      · exact absurd h hfd
      · rw [hnc] at h
        cases h
      · exact h
    have hmin : min iCmdLen sizeof_LCSSTRTFRM ≤ 24 := Nat.min_le_right _ _
    simp only [sizeof_bFrameBuffer, CTC_DEF_FRAME_BUFFER_SIZE, CTC_MIN_FRAME_BUFFER_SIZE,
      U16_MOD, sizeof_hwOffset, SIZE_T_MOD] at *
    split_ifs at hfull <;> omega

/-- C17 on the example device, whose `iMaxFrameBufferSize` is the size of
`bFrameBuffer`: the Startup command of scenario S1 asks for 0x0800, which is out
of range, so `LCS_Startup` returns with the prior value 0x5000; and the Startup
command of `exThreeCmdBatch` asks for 0x5000 and gets it. -/
theorem C17_startup_buffer_size_witness :
    exWorld.dev.iMaxFrameBufferSize = 0x5000 ∧ FETCH_HW exS1Batch (0 + 12) = 0x0800 ∧
    (∃ w1, LCS_Startup exOpt exExt exWorld exS1Batch 0 29 = some w1 ∧
      w1.dev.iMaxFrameBufferSize = 0x5000 ∧
      0x4000 ≤ w1.dev.iMaxFrameBufferSize ∧ w1.dev.iMaxFrameBufferSize ≤ sizeof_bFrameBuffer) ∧
    (LCS_Startup exOpt exExt { exWorld with dev := { exWorld.dev with
        iMaxFrameBufferSize := 0x4000 } } exThreeCmdBatch 0 24).map
      (fun w1 => w1.dev.iMaxFrameBufferSize) = some 0x5000 :=
  match C17_startup_buffer_size exOpt exExt exWorld exS1Batch 0 29 with
  | ⟨h1, h2⟩ =>
    match h2 (Or.inr (Or.inr ⟨by decide, Or.inr (by decide)⟩)) with
    | ⟨w1, hw1⟩ =>
      ⟨by decide, by decide,
        ⟨w1, hw1, ((h1 w1 hw1).2.1 (by decide)).trans (by decide),
          ((h1 w1 hw1).2.2.2.2 (Or.inr ⟨by decide, by decide⟩)).1,
          ((h1 w1 hw1).2.2.2.2 (Or.inr ⟨by decide, by decide⟩)).2⟩,
        by decide⟩

/-! ### C26: replies and attention requests of SNA command frames -/

/-- The length of the reply to an SNA command frame of `n` bytes with the command
code `c`: 24 bytes for Start LAN SNA, 26 bytes for LAN Statistics SNA, and for
Stop LAN SNA and every other code as many bytes as the command frame has, but
at most 20. -/
theorem snaLen_eq (ext : Externals) (c : Nat) (buf : Mem) (p n : Nat) :
    snaLen ext (snaHandler c) buf p n
      = if c = LCS_CMD_STRTLAN_SNA then 24
        else if c = LCS_CMD_LANSTAT_SNA then 26
        else min n 20 := by
  have hl : (INIT_REPLY_FRAME ext.stack sizeof_LCSSTDFRM buf p n).2 = min n 20 :=
    INIT_REPLY_FRAME_len ext.stack buf p n sizeof_LCSSTDFRM
  unfold snaHandler
  by_cases h1 : c = LCS_CMD_STRTLAN_SNA
  · rw [if_pos h1, if_pos h1]
    rfl
  · rw [if_neg h1, if_neg h1]
    by_cases h2 : c = LCS_CMD_STOPLAN_SNA
    · have h3 : ¬ c = LCS_CMD_LANSTAT_SNA := by
        rw [h2]
        decide
      rw [if_pos h2, if_neg h3]
      exact hl
    · rw [if_neg h2]
      by_cases h3 : c = LCS_CMD_LANSTAT_SNA
      · rw [if_pos h3, if_pos h3]
        rfl
      · rw [if_neg h3, if_neg h3]
        exact hl

/-- **C26**, the claim as stated fails: the 5-byte command frame (type 0x00,
command code 0x42) of `exShortSNACmdBatch`, written to the SNA device of port 1
with an empty ring.  `LCS_Write` returns CE|DE, the reply `LCS_StopLan_SNA` has
enqueued is as long as the command frame, 5 bytes (00 05 00 01 42, with the port
in byte 3), so it has no initiator byte: byte 5 of the ring is 0, not 0x80.  The
attention request naming the device has been queued all the same. -/
theorem C26_short_command_reply_has_no_initiator :
    exShortSNACmdBatch 2 = LCS_FRMTYP_CMD ∧ FETCH_HW exShortSNACmdBatch 0 = 5 ∧
    exShortSNACmdBatch 4 = LCS_CMD_STOPLAN_SNA ∧
    (LCS_Write (withCalls (lcsEnv exOpt exExt)) 2 (some exWorldSNA1, []) 7
        exShortSNACmdBatch 0 {}).map (fun r => r.world.2.map (fun c => (c.1, c.2.2)))
      = some [(LCSHandler.LCS_StopLan_SNA, 5)] ∧
    (LCS_Write_dev exOpt exExt 2 exWorldSNA1 7 exShortSNACmdBatch 0 {}).map
        (fun r => (r.status.unitStat, r.world.dev.iFrameOffset,
          readBytes r.world.dev.bFrameBuffer 0 6, r.world.pAttns))
      = some (CSW_CE ||| CSW_DE, 5, [0x00, 0x05, 0x00, 0x01, 0x42, 0x00], [0x0E40]) ∧
    (0x00 : Nat) ≠ LCS_INITIATOR_SNA := by
  refine ⟨?_, ?_, ?_, ?_, ?_, ?_⟩ <;> decide

/-- **C26** (replies and attention requests of SNA command frames, amended).
An SNA device on an open port, `iMaxFrameBufferSize` at most the size of
`bFrameBuffer`, on a host where `malloc( sizeof( LCSATTN ) )` succeeds.  For a
command frame (type 0x00) of any length `n`, whatever its command code and the
baffle flag: when the frame switch of `LCS_Write` returns, exactly one attention
request naming the device has been added at the start of the attention chain,
with one signal of `AttnEvent`, and the reply stands in the ring: 24 bytes for
the code 0x41, 26 bytes for 0x44, and `min n 20` bytes for 0x42 and every other
code.  The reply has the port number of the device in its slot byte (offset 3)
when it has at least 4 bytes, and 0x80 in its initiator byte (offset 5) when it
has at least 6 bytes: always for 0x41 and 0x44, and for the other codes when the
command frame has that many bytes.  The frame switch does return when the ring
has room for a 26-byte reply and the terminator.  For a frame of type 0x04 or
0x01 the attention chain is left as it is. -/
theorem C26_sna_command_replies (opt : BuildOptions) (ext : Externals) (b : Bool)
    (a : LCSWorld) (buf : Mem) (p n : Nat)
    (hfd : a.port.fd ≠ -1) (hnc : a.port.fCloseInProgress = false)
    (hoff : a.dev.iFrameOffset < U16_MOD)
    (hmax : a.dev.iMaxFrameBufferSize ≤ sizeof_bFrameBuffer)
    (hmalloc : ∀ log, ext.malloc_LCSATTN log = true) :
    (buf (p + 2) = LCS_FRMTYP_CMD →
      (∀ a2, (LCS_Write_frame_SNA (lcsEnv opt ext) b (some a) buf p n).1 = some a2 →
        a2.pAttns = a.dev.sAddr :: a.pAttns ∧
        a2.nAttnEventSignals = a.nAttnEventSignals + 1 ∧
        a2.dev.iFrameOffset = replyFrameStart a.dev b +
          (if buf (p + 4) = LCS_CMD_STRTLAN_SNA then 24
           else if buf (p + 4) = LCS_CMD_LANSTAT_SNA then 26
           else min n 20) ∧
        (4 ≤ n ∨ buf (p + 4) = LCS_CMD_STRTLAN_SNA ∨ buf (p + 4) = LCS_CMD_LANSTAT_SNA →
          a2.dev.bFrameBuffer (replyFrameStart a.dev b + 3) = a.dev.bPort) ∧
        (6 ≤ n ∨ buf (p + 4) = LCS_CMD_STRTLAN_SNA ∨ buf (p + 4) = LCS_CMD_LANSTAT_SNA →
          a2.dev.bFrameBuffer (replyFrameStart a.dev b + 5) = LCS_INITIATOR_SNA)) ∧
      (a.dev.iFrameOffset + 26 + 2 ≤ a.dev.iMaxFrameBufferSize →
        ∃ a2, (LCS_Write_frame_SNA (lcsEnv opt ext) b (some a) buf p n).1 = some a2)) ∧
    ((buf (p + 2) = LCS_FRMTYP_SNA ∨ buf (p + 2) = LCS_FRMTYP_ENET) →
      ∀ a2, (LCS_Write_frame_SNA (lcsEnv opt ext) b (some a) buf p n).1 = some a2 →
        a2.pAttns = a.pAttns ∧ a2.nAttnEventSignals = a.nAttnEventSignals) := by
  constructor
  · intro ht
    have hsna := snaHandler_isSnaCmdHandler (buf (p + 4))
    have hp := snaPre_port opt ext (snaHandler (buf (p + 4))) a
    have hd := snaPre_dev opt ext (snaHandler (buf (p + 4))) a
    have hl26 := (snaLen_shift ext (snaHandler (buf (p + 4))) buf (fun x => buf (x - 8)) p n
      (by intro x; simp)).2
    have hlen := snaLen_eq ext (buf (p + 4)) buf p n
    have hN : snaLen ext (snaHandler (buf (p + 4))) buf p n ≤ PTRDIFF_MAX := by
      simp only [PTRDIFF_MAX]
      omega
    rw [frame_SNA_cmd_dev opt ext b (some a) buf p n ht]
    simp only [Option.some_bind]
    rw [lcsHandler_sna opt ext _ hsna]
    constructor
    · intro a2 hrun
      rw [Option.map_map, Option.map_eq_some'] at hrun
      obtain ⟨x, hx, rfl⟩ := hrun
      obtain ⟨e1, e2, -, -, -, -, e7, -, -, -, e11, -, e13, -, -⟩ :=
        enqueue_reply_effect (snaPre opt ext (snaHandler (buf (p + 4))) a) x _ _ b
          (by rw [hp.1]; exact hfd) (by rw [hp.2]; exact hnc) (by rw [hd]; exact hoff)
          (by rw [hd]; exact hmax) hN hx
      rw [hd] at e1 e2 e7
      obtain ⟨f1, -, -, f4, -, -⟩ := snaPost_fields (snaHandler (buf (p + 4))) a x
      obtain ⟨g1, g2, g3, g4, g5⟩ := sna_attns opt ext (snaHandler (buf (p + 4))) a x
      obtain ⟨s3, s5⟩ := snaFrame_slot_initiator opt ext _ hsna a buf p n
      obtain ⟨k1, k2⟩ := snaAttn_fields ext (snaPost (snaHandler (buf (p + 4))) a x)
      have hat : snaAttn ext (snaPost (snaHandler (buf (p + 4))) a x)
          = { snaPost (snaHandler (buf (p + 4))) a x with
                pAttns := (snaPost (snaHandler (buf (p + 4))) a x).dev.sAddr ::
                  (snaPost (snaHandler (buf (p + 4))) a x).pAttns
                nAttnEventSignals :=
                  (snaPost (snaHandler (buf (p + 4))) a x).nAttnEventSignals + 1 } := by
        unfold snaAttn
        rw [if_pos (hmalloc _)]
      refine ⟨?_, ?_, ?_, ?_, ?_⟩
      · dsimp only [Function.comp]
        rw [hat]
        dsimp only
        rw [g5, g3, e7, e11, g1]
      · dsimp only [Function.comp]
        rw [hat]
        dsimp only
        rw [g4, e13, g2]
      · dsimp only [Function.comp]
        rw [k1, f1, e1, hlen]
      · intro h4
        have h4N : 4 ≤ snaLen ext (snaHandler (buf (p + 4))) buf p n := by
          rw [hlen]
          split_ifs <;> omega
        dsimp only [Function.comp]
        rw [k1, f4, e2 3 (by omega) (by omega), s3]
      · intro h6
        have h6N : 6 ≤ snaLen ext (snaHandler (buf (p + 4))) buf p n := by
          rw [hlen]
          split_ifs <;> omega
        dsimp only [Function.comp]
        rw [k1, f4, e2 5 (by omega) (by omega), s5]
    · intro hroom
      have hok := (LCS_EnqueueReplyFrame_ok (snaPre opt ext (snaHandler (buf (p + 4))) a)
        (snaFrame opt ext (snaHandler (buf (p + 4))) a buf p n)
        (snaLen ext (snaHandler (buf (p + 4))) buf p n) b
        (by rw [hp.1]; exact hfd) (by rw [hp.2]; exact hnc)
        (by
          rw [hd, reply_check_nowrap a.dev _ hoff hN]
          omega)).1
      rw [hok]
      exact ⟨_, rfl⟩
  · intro ht a2 hrun
    have e14 : ¬ (LCS_FRMTYP_SNA = LCS_FRMTYP_ENET) := by decide
    rcases ht with ht | ht
    · simp only [LCS_Write_frame_SNA, ht, if_neg e14, if_true, lcsEnv, lcsHandler,
        LCS_Baffle_SNA] at hrun
      exact enqueue_attns a a2 _ _ b hrun
    · simp only [LCS_Write_frame_SNA, ht, if_true, LCS_Write_eth, lcsEnv] at hrun
      split_ifs at hrun <;>
        (simp only [Option.some.injEq] at hrun
         subst hrun
         exact ⟨rfl, rfl⟩)

/-- C26 on the example SNA device of port 1: the 12-byte command 0x99 of
`exSNAOtherBatch` with the baffle flag gets a 12-byte reply with the port in
byte 3 and 0x80 in byte 5, and one attention request. -/
theorem C26_sna_command_replies_witness :
    (∃ a2, (LCS_Write_frame_SNA (lcsEnv exOpt exExt) true (some exWorldSNA1) exSNAOtherBatch
        0 12).1 = some a2 ∧
      a2.dev.iFrameOffset = 8 + 12 ∧
      a2.dev.bFrameBuffer (8 + 3) = 1 ∧ a2.dev.bFrameBuffer (8 + 5) = 0x80 ∧
      a2.pAttns = [0x0E40] ∧ a2.nAttnEventSignals = 1) :=
  match C26_sna_command_replies exOpt exExt true exWorldSNA1 exSNAOtherBatch 0 12 (by decide)
      (by decide) (by decide) (by decide) (fun _ => rfl) with
  | ⟨h1, _⟩ =>
    match h1 (by decide) with
    | ⟨h2, h3⟩ =>
      match h3 (by decide) with
      | ⟨a2, ha2⟩ =>
        ⟨a2, ha2, (h2 a2 ha2).2.2.1, (h2 a2 ha2).2.2.2.1 (Or.inl (by decide)),
          (h2 a2 ha2).2.2.2.2 (Or.inl (by decide)), (h2 a2 ha2).1, (h2 a2 ha2).2.1⟩

end LCS
